import Mathlib

/-!
# ExternalGPS: frame detection layer

A shallow embedding of the frame detectors `looks_like_nmea` (nmea.c),
`looks_like_sirf` (sirf.c), `looks_like_ublox` (ublox.c) and of the frame
multiplexer `find_msg` (usbconverter.c), with theorems about them.

Conventions of the embedding

* A C buffer `const uint8_t *msg` is a `List uint8_t`; the pointer `&msg[k]` is
  the list `msg.drop k`, or a pair of the list and the offset `k`.
* Every array read goes through `rd`, which yields `none` when the index is not
  inside the list.  A detector therefore returns `Option Int`: `none` means that
  the C code would have read a byte which is not there.
* C `int`, `unsigned` and `size_t` values are `Int` or `Nat`; all quantities
  stay far below `2 ^ 31`, the single place where a conversion wraps (the cast
  of the `long` result of `strtol` to `unsigned`) is written `% 2 ^ 32`.
* A `for`/`while` loop is a function recursive on a fuel argument which repeats
  the loop test of the source; the caller supplies enough fuel for every run.
* `assert(max_len > 0)` is the precondition of the detectors; theorems which
  need it carry `1 ≤ max_len`.
-/

namespace ExternalGPS

/-! ## Constants of usbconverter.h -/

/-- A byte of a C buffer, `uint8_t`. -/
abbrev uint8_t := Fin 256

/-- Maximal length of an NMEA sentence, `#define NMEA_MAX 512`. -/
def NMEA_MAX : Nat := 512

/-- Maximal payload length of a SiRF message, `#define SIRF_MAX 1023`. -/
def SIRF_MAX : Nat := 1023

/-- Maximal payload length of a u-blox message, `#define UBLOX_MAX 4096`. -/
def UBLOX_MAX : Nat := 4096

/-- Detector verdict "not this protocol", `#define LOOKS_NOT_LIKE_GPS_MSG 0`. -/
def LOOKS_NOT_LIKE_GPS_MSG : Int := 0

/-- Detector verdict "truncated", `#define LOOKS_LIKE_TRUNCATED_MSG -1`. -/
def LOOKS_LIKE_TRUNCATED_MSG : Int := -1

/-- The array read `msg[i]`, with the byte widened to an integer; `none` when
`i` is outside the buffer. -/
def rd (msg : List uint8_t) (i : Nat) : Option Nat :=
  match msg[i]? with
  | none => none
  | some b => some b.val

/-! ## C library functions used by nmea.c ("C" locale) -/

/-- The ctype.h test `isprint`: the printable ASCII characters, space included. -/
def isprint (c : Nat) : Bool := decide (0x20 ≤ c) && decide (c ≤ 0x7e)

/-- The ctype.h test `isspace`: space, and the controls `\t \n \v \f \r`. -/
def isspace (c : Nat) : Bool := decide (c = 0x20) || (decide (0x09 ≤ c) && decide (c ≤ 0x0d))

/-- Value of a character as a digit in bases up to 36 (`0-9`, `a-z`, `A-Z`);
`none` when the character is not alphanumeric. -/
def digit_value (c : Nat) : Option Nat :=
  if 0x30 ≤ c ∧ c ≤ 0x39 then some (c - 0x30)
  else if 0x41 ≤ c ∧ c ≤ 0x5a then some (c - 0x41 + 10)
  else if 0x61 ≤ c ∧ c ≤ 0x7a then some (c - 0x61 + 10)
  else none

/-- A character is a digit of the given base. -/
def is_digit_of (base c : Nat) : Bool :=
  match digit_value c with
  | none => false
  | some d => decide (d < base)

/-- Digit value with 0 for characters which are not digits. -/
def digit_or_zero (c : Nat) : Nat := (digit_value c).getD 0

/-- The conversion `strtol(nptr, &endptr, base)` of ISO C for `2 ≤ base ≤ 36`.
`nptr` holds the characters of the C string before its terminating NUL.  The
result is the converted value and the offset of `endptr` from `nptr`: leading
white space, an optional sign, for base 16 an optional `0x`/`0X` which is
followed by a hexadecimal digit, then the longest run of digits.  When there is
no digit, no conversion is performed: the value is 0 and `endptr = nptr`.
Clamping to the range of `long` is not modelled; nmea.c passes two characters. -/
def strtol (nptr : List Nat) (base : Nat) : Int × Nat :=
  let ws := (nptr.takeWhile isspace).length
  let s1 := nptr.drop ws
  let neg : Bool := match s1 with
    | c :: _ => decide (c = 0x2d)
    | [] => false
  let sg : Nat := match s1 with
    | c :: _ => if c = 0x2d ∨ c = 0x2b then 1 else 0
    | [] => 0
  let s2 := s1.drop sg
  let px : Nat := match s2 with
    | z :: x :: d :: _ =>
      if base = 16 ∧ z = 0x30 ∧ (x = 0x78 ∨ x = 0x58) ∧ is_digit_of 16 d = true then 2 else 0
    | _ => 0
  let s3 := s2.drop px
  let digits := s3.takeWhile (is_digit_of base)
  let magnitude : Nat := digits.foldl (fun acc c => acc * base + digit_or_zero c) 0
  if digits.length = 0 then (0, 0)
  else ((if neg then - (magnitude : Int) else (magnitude : Int)), ws + sg + px + digits.length)

/-- The characters of the C string stored in a char array: those before the
first NUL. -/
def c_string (a : List Nat) : List Nat := a.takeWhile (fun c => decide (c ≠ 0))

/-! ## sirf.c -/

/-- Embedding of `get2u` applied to `&buf[off]`: the big-endian `uint16_t`
`(buf[0] << 8) | buf[1]`. -/
def get2u (buf : List uint8_t) (off : Nat) : Option Nat :=
  match rd buf off, rd buf (off + 1) with
  | some b0, some b1 => some (((b0 <<< 8) ||| b1) % 65536)
  | _, _ => none

/-- Loop of `sirf_csum` over `payload = &msg[off]`:
`for (i=0; i<payload_length; ++i) csum = 0x7fff & (csum + (payload[i] & 0xff))`. -/
def sirf_csum_loop (msg : List uint8_t) (off payload_length : Nat) :
    Nat → Nat → Nat → Option Nat
  | 0, _, csum => some csum
  | fuel + 1, i, csum =>
    if i < payload_length then
      match rd msg (off + i) with
      | none => none
      | some b => sirf_csum_loop msg off payload_length fuel (i + 1)
          (0x7fff &&& (csum + (b &&& 0xff)))
    else some csum

/-- Embedding of `sirf_csum(&msg[off], payload_length)`. -/
def sirf_csum (msg : List uint8_t) (off payload_length : Nat) : Option Nat :=
  sirf_csum_loop msg off payload_length payload_length 0 0

/-- Embedding of `looks_like_sirf(msg, max_len)`. -/
def looks_like_sirf (msg : List uint8_t) (max_len : Nat) : Option Int :=
  match rd msg 0 with
  | none => none
  | some m0 =>
    if m0 ≠ 0xa0 then some LOOKS_NOT_LIKE_GPS_MSG
    else if max_len < 8 then some LOOKS_LIKE_TRUNCATED_MSG
    else
      match rd msg 1 with
      | none => none
      | some m1 =>
        if m1 ≠ 0xa2 then some LOOKS_NOT_LIKE_GPS_MSG
        else
          match get2u msg 2 with
          | none => none
          | some payload_length =>
            if payload_length > SIRF_MAX then some LOOKS_NOT_LIKE_GPS_MSG
            else if max_len < payload_length + 8 then some LOOKS_LIKE_TRUNCATED_MSG
            else
              match rd msg (4 + payload_length + 2) with
              | none => none
              | some t0 =>
                if t0 ≠ 0xb0 then some LOOKS_NOT_LIKE_GPS_MSG
                else
                  match rd msg (4 + payload_length + 3) with
                  | none => none
                  | some t1 =>
                    if t1 ≠ 0xb3 then some LOOKS_NOT_LIKE_GPS_MSG
                    else
                      match get2u msg (4 + payload_length) with
                      | none => none
                      | some msg_csum =>
                        match sirf_csum msg 4 payload_length with
                        | none => none
                        | some computed_csum =>
                          if msg_csum ≠ computed_csum then some LOOKS_NOT_LIKE_GPS_MSG
                          else some ((payload_length + 8 : Nat) : Int)

/-! ## ublox.c -/

/-- Checksum loop of `looks_like_ublox`:
`for (i=2; i < payload_length + 4 + 2; ++i)` with the `uint8_t` pair
`ck_a = (ck_a + msg[i]) & 0xff; ck_b = (ck_b + ck_a) & 0xff`. -/
def ublox_ck_loop (msg : List uint8_t) (payload_length : Nat) :
    Nat → Nat → Nat → Nat → Option (Nat × Nat)
  | 0, _, ck_a, ck_b => some (ck_a, ck_b)
  | fuel + 1, i, ck_a, ck_b =>
    if i < payload_length + 4 + 2 then
      match rd msg i with
      | none => none
      | some b =>
        let ck_a1 := (ck_a + b) &&& 0xff
        let ck_b1 := (ck_b + ck_a1) &&& 0xff
        ublox_ck_loop msg payload_length fuel (i + 1) ck_a1 ck_b1
    else some (ck_a, ck_b)

/-- Embedding of `looks_like_ublox(msg, max_len)`. -/
def looks_like_ublox (msg : List uint8_t) (max_len : Nat) : Option Int :=
  match rd msg 0 with
  | none => none
  | some m0 =>
    if m0 ≠ 0xb5 then some LOOKS_NOT_LIKE_GPS_MSG
    else if max_len < 8 then some LOOKS_LIKE_TRUNCATED_MSG
    else
      match rd msg 1 with
      | none => none
      | some m1 =>
        if m1 ≠ 0x62 then some LOOKS_NOT_LIKE_GPS_MSG
        else
          match rd msg 4, rd msg 5 with
          | some m4, some m5 =>
            let payload_length := (m4 &&& 0xff) ||| ((m5 <<< 8) &&& 0xff00)
            if payload_length > UBLOX_MAX then some LOOKS_NOT_LIKE_GPS_MSG
            else if max_len < payload_length + 8 then some LOOKS_LIKE_TRUNCATED_MSG
            else
              match ublox_ck_loop msg payload_length (payload_length + 4 + 2) 2 0 0 with
              | none => none
              | some (ck_a, ck_b) =>
                match rd msg (payload_length + 6) with
                | none => none
                | some c0 =>
                  if ck_a ≠ c0 then some LOOKS_NOT_LIKE_GPS_MSG
                  else
                    match rd msg (payload_length + 7) with
                    | none => none
                    | some c1 =>
                      if ck_b ≠ c1 then some LOOKS_NOT_LIKE_GPS_MSG
                      else some ((payload_length + 8 : Nat) : Int)
          | _, _ => none

/-! ## nmea.c -/

/-- How the scanning loop of `looks_like_nmea` ends: with a `return`, or by
leaving the loop (loop test false, or `break`) with the two positions. -/
inductive nmea_scan_t where
  | ret (v : Int)
  | out (crlf_pos csum_pos : Int)
  deriving DecidableEq, Repr

/-- The scanning loop of `looks_like_nmea`, `for (i=1; i < max_len; ++i)`,
entered at index `i` with the current `csum_pos` (`crlf_pos` is still -1). -/
def nmea_scan (msg : List uint8_t) (max_len : Nat) : Nat → Nat → Int → Option nmea_scan_t
  | 0, _, csum_pos => some (.out (-1) csum_pos)
  | fuel + 1, i, csum_pos =>
    if i < max_len then
      if i > NMEA_MAX then some (.ret LOOKS_NOT_LIKE_GPS_MSG)
      else
        match rd msg i with
        | none => none
        | some c =>
          if c = 0x2a then nmea_scan msg max_len fuel (i + 1) (i : Int)
          else if c = 0x0d then
            if i + 1 = max_len then some (.ret LOOKS_LIKE_TRUNCATED_MSG)
            else
              match rd msg (i + 1) with
              | none => none
              | some d =>
                if d ≠ 0x0a then some (.ret LOOKS_NOT_LIKE_GPS_MSG)
                else some (.out (i : Int) csum_pos)
          else if ¬ (isprint c = true) then some (.ret LOOKS_NOT_LIKE_GPS_MSG)
          else nmea_scan msg max_len fuel (i + 1) csum_pos
    else some (.out (-1) csum_pos)

/-- The checksum loop of `looks_like_nmea`:
`for (i=1; i < (unsigned)csum_pos; ++i) our_csum ^= msg[i] & 0x7f`. -/
def nmea_csum_loop (msg : List uint8_t) (csum_pos : Nat) : Nat → Nat → Nat → Option Nat
  | 0, _, our_csum => some our_csum
  | fuel + 1, i, our_csum =>
    if i < csum_pos then
      match rd msg i with
      | none => none
      | some b => nmea_csum_loop msg csum_pos fuel (i + 1) (our_csum ^^^ (b &&& 0x7f))
    else some our_csum

/-- The statements of `looks_like_nmea` after the scanning loop, from
`if (crlf_pos < 0)` to the final `return crlf_pos + 2`. -/
def nmea_after_loop (msg : List uint8_t) (crlf_pos csum_pos : Int) : Option Int :=
  if crlf_pos < 0 then some LOOKS_LIKE_TRUNCATED_MSG
  else if csum_pos > 0 then
    if csum_pos + 3 ≠ crlf_pos then some LOOKS_NOT_LIKE_GPS_MSG
    else
      match rd msg (csum_pos + 1).toNat, rd msg (csum_pos + 2).toNat with
      | some s0, some s1 =>
        let csum_str : List Nat := [s0, s1, 0]
        let conv := strtol (c_string csum_str) 16
        let msg_csum : Nat := (conv.1 % (2 ^ 32 : Int)).toNat
        if csum_str.getD conv.2 0 ≠ 0 then some LOOKS_NOT_LIKE_GPS_MSG
        else
          match nmea_csum_loop msg csum_pos.toNat csum_pos.toNat 1 0 with
          | none => none
          | some our_csum =>
            if our_csum ≠ msg_csum then some LOOKS_NOT_LIKE_GPS_MSG
            else some (crlf_pos + 2)
      | _, _ => none
  else some (crlf_pos + 2)

/-- Embedding of `looks_like_nmea(msg, max_len)`: the test of `msg[0]`, the
scanning loop, then the statements after the loop. -/
def looks_like_nmea (msg : List uint8_t) (max_len : Nat) : Option Int :=
  match rd msg 0 with
  | none => none
  | some m0 =>
    if m0 ≠ 0x24 then some LOOKS_NOT_LIKE_GPS_MSG
    else
      match nmea_scan msg max_len max_len 1 (-1) with
      | none => none
      | some (.ret v) => some v
      | some (.out crlf_pos csum_pos) => nmea_after_loop msg crlf_pos csum_pos

/-! ## usbconverter.c -/

/-- The enumeration of `struct gps_msg_metadata_t`: `MSG_TYPE_NMEA = 0`,
`MSG_TYPE_SIRF = 1`, `MSG_TYPE_UBLOX = 2`. -/
inductive msg_type_t where
  | MSG_TYPE_NMEA
  | MSG_TYPE_SIRF
  | MSG_TYPE_UBLOX
  deriving DecidableEq, Repr

/-- Embedding of `struct gps_msg_metadata_t`. -/
structure gps_msg_metadata_t where
  type : msg_type_t
  size : Nat
  is_truncated : Bool
  deriving DecidableEq, Repr

/-- The `while (msg_pos < buf_size)` loop of `find_msg`.  The result is the
final `msg_pos` and, when the loop was left by `break`, the `msg_type` and
`msg_size` set before it; `none` in that place is `msg_type = -1`. -/
def find_msg_loop (buf : List uint8_t) (buf_size : Nat) :
    Nat → Nat → Option (Nat × Option (msg_type_t × Int))
  | 0, msg_pos => some (msg_pos, none)
  | fuel + 1, msg_pos =>
    if msg_pos < buf_size then
      match looks_like_nmea (buf.drop msg_pos) (buf_size - msg_pos) with
      | none => none
      | some nmea_size =>
        if nmea_size ≠ LOOKS_NOT_LIKE_GPS_MSG then
          some (msg_pos, some (msg_type_t.MSG_TYPE_NMEA, nmea_size))
        else
          match looks_like_sirf (buf.drop msg_pos) (buf_size - msg_pos) with
          | none => none
          | some sirf_size =>
            if sirf_size ≠ LOOKS_NOT_LIKE_GPS_MSG then
              some (msg_pos, some (msg_type_t.MSG_TYPE_SIRF, sirf_size))
            else
              match looks_like_ublox (buf.drop msg_pos) (buf_size - msg_pos) with
              | none => none
              | some ublox_size =>
                if ublox_size ≠ LOOKS_NOT_LIKE_GPS_MSG then
                  some (msg_pos, some (msg_type_t.MSG_TYPE_UBLOX, ublox_size))
                else find_msg_loop buf buf_size fuel (msg_pos + 1)
    else some (msg_pos, none)

/-- Embedding of `find_msg(buf, start_pos, buf_size, res)` for offsets which are
not negative.  The state `*res` is passed in and out: the result is the returned
`int` and the content of `*res` after the call. -/
def find_msg (buf : List uint8_t) (start_pos buf_size : Nat) (res : gps_msg_metadata_t) :
    Option (Int × gps_msg_metadata_t) :=
  match find_msg_loop buf buf_size (buf_size - start_pos) start_pos with
  | none => none
  | some (msg_pos, some (msg_type, msg_size)) =>
    if msg_size = LOOKS_LIKE_TRUNCATED_MSG then
      some ((msg_pos : Int), { type := msg_type, size := buf_size - msg_pos, is_truncated := true })
    else
      some ((msg_pos : Int), { type := msg_type, size := msg_size.toNat, is_truncated := false })
  | some (_, none) => some (-1, res)

/-! ## Auxiliary definitions for the statements -/

/-- The `n` bytes of `msg` from offset `a` on. -/
def seg (msg : List uint8_t) (a n : Nat) : List uint8_t := (msg.drop a).take n

/-- Sum of the bytes of a list. -/
def byte_sum (l : List uint8_t) : Nat := (l.map Fin.val).sum

/-- One step of the SiRF checksum loop, as a function of the byte. -/
def sirf_step (csum : Nat) (b : uint8_t) : Nat := 0x7fff &&& (csum + (b.val &&& 0xff))

/-- The byte with value `n mod 256`. -/
def byte (n : Nat) : uint8_t := ⟨n % 256, Nat.mod_lt _ (by decide)⟩

/-- The 15-bit SiRF checksum as the protocol describes it:
`csum = 0x7FFF & (csum + byte)` over the payload, starting from 0. -/
def sirf_checksum (payload : List uint8_t) : Nat :=
  payload.foldl (fun csum b => 0x7fff &&& (csum + b.val)) 0

/-- A SiRF frame: `A0 A2`, the payload length as 2 bytes big-endian, the
payload, the checksum as 2 bytes big-endian, `B0 B3`. -/
def sirf_frame (payload : List uint8_t) : List uint8_t :=
  [0xa0, 0xa2, byte (payload.length / 256), byte (payload.length % 256)] ++ payload ++
    [byte (sirf_checksum payload / 256), byte (sirf_checksum payload % 256), 0xb0, 0xb3]

/-- One step of the u-blox checksum loop, as a function of the byte. -/
def ublox_step (ck : Nat × Nat) (b : uint8_t) : Nat × Nat :=
  (((ck.1 + b.val) &&& 0xff), ((ck.2 + ((ck.1 + b.val) &&& 0xff)) &&& 0xff))

/-- The Fletcher-8 pair `(ck_a, ck_b)` as the protocol describes it: for every
byte `ck_a = (ck_a + byte) mod 256`, then `ck_b = (ck_b + ck_a) mod 256`. -/
def fletcher8 (l : List uint8_t) : Nat × Nat :=
  l.foldl (fun ck b => ((ck.1 + b.val) % 256, (ck.2 + (ck.1 + b.val) % 256) % 256)) (0, 0)

/-- The bytes of a UBX frame covered by the checksum: class, id, the payload
length as 2 bytes little-endian, the payload. -/
def ublox_body (cls id : uint8_t) (payload : List uint8_t) : List uint8_t :=
  [cls, id, byte (payload.length % 256), byte (payload.length / 256)] ++ payload

/-- A UBX frame: `B5 62`, class, id, length little-endian, payload, then the
Fletcher-8 pair over class, id, length and payload. -/
def ublox_frame (cls id : uint8_t) (payload : List uint8_t) : List uint8_t :=
  [0xb5, 0x62] ++ ublox_body cls id payload ++
    [byte (fletcher8 (ublox_body cls id payload)).1, byte (fletcher8 (ublox_body cls id payload)).2]

/-- The position of the last `*` seen by the scanning loop of `looks_like_nmea`
while it walks over the indices `i .. k-1`, entered with `csum_pos = cp`: either
no `*` is met and the value stays, or it is the last index holding a `*`. -/
def star_pos (msg : List uint8_t) (i k : Nat) (cp cp2 : Int) : Prop :=
  (cp2 = cp ∧ ∀ j, i ≤ j → j < k → rd msg j ≠ some 0x2a) ∨
  (∃ s : Nat, cp2 = (s : Int) ∧ i ≤ s ∧ s < k ∧ rd msg s = some 0x2a ∧
    ∀ j, s < j → j < k → rd msg j ≠ some 0x2a)

/-- One step of the NMEA checksum loop, as a function of the byte. -/
def xor_step (acc : Nat) (b : uint8_t) : Nat := acc ^^^ (b.val &&& 0x7f)

/-- An outcome of the scanning loop of `looks_like_nmea` which leads to a
verdict other than "truncated": a `return` of another value, or the `break` at
a CR LF pair. -/
def scan_final : nmea_scan_t → Prop
  | .ret v => v ≠ LOOKS_LIKE_TRUNCATED_MSG
  | .out crlf_pos _ => 0 ≤ crlf_pos

/-- The NMEA checksum as the protocol describes it: the XOR of the low 7 bits
of the bytes between `$` and `*`. -/
def nmea_checksum (body : List uint8_t) : Nat :=
  body.foldl (fun acc b => acc ^^^ (b.val % 128)) 0

/-- The upper-case hexadecimal digit of a value below 16. -/
def hex_upper (d : Nat) : uint8_t :=
  if d < 10 then byte (0x30 + d) else byte (0x41 + (d - 10))

/-- A body of an NMEA sentence: printable ASCII bytes, none of them `*` or CR. -/
def nmea_body_ok (body : List uint8_t) : Prop :=
  ∀ b ∈ body, isprint b.val = true ∧ b.val ≠ 0x2a ∧ b.val ≠ 0x0d

/-- An NMEA sentence with checksum: `$`, the body, `*`, the two upper-case
hexadecimal digits of the checksum, CR LF. -/
def nmea_sentence (body : List uint8_t) : List uint8_t :=
  [0x24] ++ body ++
    [0x2a, hex_upper (nmea_checksum body / 16), hex_upper (nmea_checksum body % 16), 0x0d, 0x0a]

/-- An NMEA sentence without checksum: `$`, the body, CR LF. -/
def nmea_sentence_plain (body : List uint8_t) : List uint8_t :=
  [0x24] ++ body ++ [0x0d, 0x0a]

/-- The characters `a` and `b` are hexadecimal digits of the same value (the
same digit, in either letter case). -/
def same_hex_digit (a b : Nat) : Prop :=
  is_digit_of 16 a = true ∧ is_digit_of 16 b = true ∧ digit_or_zero a = digit_or_zero b

/-- The sentence of length `L` at the start of `msg` has a checksum section:
`*` and two hexadecimal digits in front of the closing CR LF. -/
def nmea_checksummed (msg : List uint8_t) (L : Nat) : Prop :=
  rd msg (L - 5) = some 0x2a ∧
  ∃ c0 c1, rd msg (L - 4) = some c0 ∧ rd msg (L - 3) = some c1 ∧
    is_digit_of 16 c0 = true ∧ is_digit_of 16 c1 = true

/-- The detector which `find_msg` runs for a message type. -/
def detector : msg_type_t → List uint8_t → Nat → Option Int
  | .MSG_TYPE_NMEA => looks_like_nmea
  | .MSG_TYPE_SIRF => looks_like_sirf
  | .MSG_TYPE_UBLOX => looks_like_ublox

/-- All three detectors answer "not this protocol" on the window
`buf[p .. buf_size)`. -/
def rejected_at (buf : List uint8_t) (buf_size p : Nat) : Prop :=
  ∀ t : msg_type_t, detector t (buf.drop p) (buf_size - p) = some LOOKS_NOT_LIKE_GPS_MSG

/-! ## nmea.c: fix times and the time field -/

/-- Embedding of `struct nmea_fix_time_t`; both members are `unsigned`. -/
structure nmea_fix_time_t where
  hhmmss : Nat
  mss : Nat
  deriving DecidableEq, Repr

/-- Conversion of an `unsigned` value to `int` (32 bits, two's complement). -/
def to_int (u : Nat) : Int :=
  if u % 2 ^ 32 < 2 ^ 31 then ((u % 2 ^ 32 : Nat) : Int) else ((u % 2 ^ 32 : Nat) : Int) - 2 ^ 32

/-- The result of an `int` operation, wrapped to 32 bits. -/
def wrap_int (x : Int) : Int := (x + 2 ^ 31) % 2 ^ 32 - 2 ^ 31

/-- Conversion of an integer value to `unsigned` (32 bits). -/
def wrap_uint (x : Int) : Nat := (x % 2 ^ 32).toNat

/-- The stdlib.h function `abs` on `int`. -/
def c_abs (x : Int) : Int := wrap_int (if x < 0 then -x else x)

/-- Embedding of `is_same_fix_time(t1, t2)`:
`abs((int)t2.mss - (int)t1.mss) < 50` when the `hhmmss` are equal. -/
def is_same_fix_time (t1 t2 : nmea_fix_time_t) : Bool :=
  if t1.hhmmss ≠ t2.hhmmss then false
  else decide (c_abs (wrap_int (to_int t2.mss - to_int t1.mss)) < 50)

/-- The conversion `strtoul(nptr, &endptr, base)` of ISO C for `2 ≤ base ≤ 36`,
with `ULONG_MAX` of the platform as a parameter.  `nptr` holds the characters
of the C string before its terminating NUL; the result is the converted value
and the offset of `endptr` from `nptr`.  Leading white space, an optional
sign, for base 16 an optional `0x`, then the longest run of digits; without a
digit the value is 0 and `endptr = nptr`; a value above `ULONG_MAX` gives
`ULONG_MAX`; after a minus sign the value is negated in `unsigned long`. -/
def strtoul (ulong_max : Nat) (nptr : List Nat) (base : Nat) : Nat × Nat :=
  let ws := (nptr.takeWhile isspace).length
  let s1 := nptr.drop ws
  let neg : Bool := match s1 with
    | c :: _ => decide (c = 0x2d)
    | [] => false
  let sg : Nat := match s1 with
    | c :: _ => if c = 0x2d ∨ c = 0x2b then 1 else 0
    | [] => 0
  let s2 := s1.drop sg
  let px : Nat := match s2 with
    | z :: x :: d :: _ =>
      if base = 16 ∧ z = 0x30 ∧ (x = 0x78 ∨ x = 0x58) ∧ is_digit_of 16 d = true then 2 else 0
    | _ => 0
  let s3 := s2.drop px
  let digits := s3.takeWhile (is_digit_of base)
  let magnitude : Nat := digits.foldl (fun acc c => acc * base + digit_or_zero c) 0
  if digits.length = 0 then (0, 0)
  else if magnitude > ulong_max then (ulong_max, ws + sg + px + digits.length)
  else ((if neg then (ulong_max + 1 - magnitude) % (ulong_max + 1) else magnitude),
    ws + sg + px + digits.length)

/-- Embedding of the enumeration `parse_error_t`. -/
inductive parse_error_t where
  | FIELD_INVALID
  | FIELD_UNDEFINED
  | FIELD_VALID
  deriving DecidableEq, Repr

/-- The character `s[i]` of a C string given by its characters before the
terminating NUL, which is the character at index `s.length`. -/
def c_char_at (s : List Nat) (i : Nat) : Nat := s.getD i 0

/-- The copy loop of `parse_nmea_fix_time`, with `endptr = s + e`:
`for (i=0; i<3; ++i) { if (endptr[i+1] == 0) break; else mss_s[i] = endptr[i+1]; }`. -/
def mss_copy_loop (s : List Nat) (e : Nat) : Nat → Nat → List Nat → List Nat
  | 0, _, mss_s => mss_s
  | fuel + 1, i, mss_s =>
    if i < 3 then
      if c_char_at s (e + (i + 1)) = 0 then mss_s
      else mss_copy_loop s e fuel (i + 1) (mss_s.set i (c_char_at s (e + (i + 1))))
    else mss_s

/-- Embedding of `parse_nmea_fix_time(hhmmss_mss, dst)`.  The field is given by
its characters before the NUL, `*dst` is passed in and out.  The result is
`none` when `assert(mss < 1000)` fails, else the returned code and `*dst`. -/
def parse_nmea_fix_time (ulong_max : Nat) (hhmmss_mss : List Nat) (dst : nmea_fix_time_t) :
    Option (parse_error_t × nmea_fix_time_t) :=
  if c_char_at hhmmss_mss 0 = 0 then
    some (.FIELD_UNDEFINED, { hhmmss := 0, mss := 0 })
  else
    let conv := strtoul ulong_max hhmmss_mss 10
    let hhmmss := conv.1
    let endptr := conv.2
    if c_char_at hhmmss_mss endptr ≠ 0x2e ∧ c_char_at hhmmss_mss endptr ≠ 0 then
      some (.FIELD_INVALID, dst)
    else if hhmmss > 240000 then some (.FIELD_INVALID, dst)
    else if hhmmss % 10000 > 6000 then some (.FIELD_INVALID, dst)
    else if hhmmss % 100 > 60 then some (.FIELD_INVALID, dst)
    else if c_char_at hhmmss_mss endptr = 0x2e ∧ c_char_at hhmmss_mss (endptr + 1) ≠ 0 then
      let mss_s := mss_copy_loop hhmmss_mss endptr 3 0 [0x30, 0x30, 0x30, 0]
      let conv2 := strtoul ulong_max (c_string mss_s) 10
      let mss : Nat := conv2.1 % 2 ^ 32
      if mss_s.getD conv2.2 0 ≠ 0 then some (.FIELD_INVALID, dst)
      else if ¬ (mss < 1000) then none
      else some (.FIELD_VALID, { hhmmss := hhmmss % 2 ^ 32, mss := mss })
    else some (.FIELD_VALID, { hhmmss := hhmmss % 2 ^ 32, mss := 0 })

/-- The value of a string of decimal digits. -/
def dec_value (s : List Nat) : Nat := s.foldl (fun acc c => acc * 10 + (c - 0x30)) 0

/-- Every character of the string is a decimal digit `0` to `9`. -/
def all_dec_digits (s : List Nat) : Prop := ∀ c ∈ s, 0x30 ≤ c ∧ c ≤ 0x39

/-- The characters of an ASCII string. -/
def chars (s : String) : List Nat := s.toList.map Char.toNat

/-! ## nmea.c: the parser state and the fix window

Floating-point values are carried, never computed with: the types `double`
and `float`, their zero, and the few floating-point and library operations the
code applies are the members of `c_lib`; every statement below holds for all
of them. -/

/-- What the embedding takes from the platform: the floating-point types with
the operations that nmea.c applies to them, and `timegm64` of time64.h. -/
structure c_lib where
  double : Type
  float : Type
  double_zero : double
  float_zero : float
  /-- the `float` result of `x * KMPH_TO_MPS` -/
  kmph_to_mps : float → float
  /-- the math.h function `hypotf` -/
  hypotf : float → float → float
  /-- `timegm64`, as a function of the nine members of `struct tm` listed in `tm` -/
  timegm64 : Int → Int → Int → Int → Int → Int → Int → Int → Int → Int

/-- Embedding of `struct tm` of time.h: the nine `int` members of ISO C. -/
structure tm where
  tm_sec : Int
  tm_min : Int
  tm_hour : Int
  tm_mday : Int
  tm_mon : Int
  tm_year : Int
  tm_wday : Int
  tm_yday : Int
  tm_isdst : Int
  deriving DecidableEq, Repr

/-- Embedding of `struct location_t`. -/
structure location_t (M : c_lib) where
  time : Int
  latitude : M.double
  longitude : M.double
  altitude : M.double
  accuracy : M.float
  bearing : M.float
  speed : M.float
  satellites : Int
  is_valid : Bool
  has_accuracy : Bool
  has_altitude : Bool
  has_bearing : Bool
  has_speed : Bool

/-- Embedding of `struct nmea_gpgga_t`. -/
structure nmea_gpgga_t (M : c_lib) where
  fix_time : nmea_fix_time_t
  fix_quality : Nat
  latitude : M.double
  longitude : M.double
  altitude : M.double
  sattelites_nb : Int
  hdop : M.float
  geoid_height : M.double
  has_latitude : Bool
  has_longitude : Bool
  has_altitude : Bool
  has_sattelites_nb : Bool
  has_hdop : Bool
  has_geoid_height : Bool

/-- Embedding of `struct nmea_gprmc_t`. -/
structure nmea_gprmc_t (M : c_lib) where
  fix_time : nmea_fix_time_t
  latitude : M.double
  longitude : M.double
  ddmmyy : Nat
  status_active : Bool
  speed : M.float
  course : M.float
  has_latitude : Bool
  has_longitude : Bool
  has_ddmmyy : Bool
  has_status_active : Bool
  has_speed : Bool
  has_course : Bool

/-- Embedding of `struct nmea_gpvtg_t`. -/
structure nmea_gpvtg_t (M : c_lib) where
  course_true : M.float
  course_magn : M.float
  speed_knots : M.float
  speed_kmph : M.float
  fix_mode : Int
  has_course_true : Bool
  has_course_magn : Bool
  has_speed_knots : Bool
  has_speed_kmph : Bool
  is_valid : Bool

/-- Embedding of `struct nmea_gpgll_t`. -/
structure nmea_gpgll_t (M : c_lib) where
  fix_time : nmea_fix_time_t
  latitude : M.double
  longitude : M.double
  status : Bool
  has_latitude : Bool
  has_longitude : Bool

/-- Embedding of `struct nmea_gpgsa_t`; `prn` is the array of 12 `unsigned`. -/
structure nmea_gpgsa_t (M : c_lib) where
  fix_mode : Int
  fix_type : Int
  prn : List Nat
  pdop : M.float
  hdop : M.float
  vdop : M.float
  has_pdop : Bool
  has_hdop : Bool
  has_vdop : Bool
  is_valid : Bool

/-- Embedding of `struct nmea_gpgst_t`. -/
structure nmea_gpgst_t (M : c_lib) where
  fix_time : nmea_fix_time_t
  range_rms : M.float
  std_major : M.float
  std_minor : M.float
  orient : M.float
  std_lat : M.float
  std_lon : M.float
  std_alt : M.float
  has_range_rms : Bool
  has_std_major : Bool
  has_std_minor : Bool
  has_orient : Bool
  has_std_lat : Bool
  has_std_lon : Bool
  has_std_alt : Bool

/-- Embedding of `struct nmea_gpzda_t`. -/
structure nmea_gpzda_t where
  fix_time : nmea_fix_time_t
  day : Nat
  month : Nat
  year : Nat
  zone_hours : Int
  zone_minutes : Nat
  deriving DecidableEq, Repr

/-- Embedding of `struct nmea_fix_t`, the fix window. -/
structure nmea_fix_t (M : c_lib) where
  fix_time : nmea_fix_time_t
  is_closed : Bool
  gpgga_active : Bool
  gprmc_active : Bool
  gpgll_active : Bool
  gpgst_active : Bool
  gpzda_active : Bool
  gpgga : nmea_gpgga_t M
  gprmc : nmea_gprmc_t M
  gpgll : nmea_gpgll_t M
  gpgst : nmea_gpgst_t M
  gpzda : nmea_gpzda_t

/-- Embedding of `struct nmea_parser_t`.  The pointer `stats` to the counters of
`struct stats_t` is not part of the embedding, nor are the counters. -/
structure nmea_parser_t (M : c_lib) where
  time_full : tm
  fix : nmea_fix_t M
  gpgsa : nmea_gpgsa_t M
  gpvtg : nmea_gpvtg_t M

/-- Embedding of `struct gps_msg_status_t`; `err` is the C string in `char err[200]`. -/
structure gps_msg_status_t (M : c_lib) where
  is_valid : Bool
  location_changed : Bool
  location : location_t M
  err : String

/-- What `snprintf(dst, size, ...)` leaves in `dst`: the formatted text cut to
`size - 1` characters. -/
def c_snprintf (size : Nat) (text : String) : String := String.mk (text.toList.take (size - 1))

/-- The text of an `unsigned` under the conversion `%0<width>u`. -/
def fmt_u0 (width n : Nat) : String :=
  String.mk (List.replicate (width - (Nat.repr n).length) (Char.ofNat 0x30)) ++ Nat.repr n

/-- Embedding of `reset_nmea_parser(ctx)`, named with `_ctx` added; `now` is the
broken-down UTC time which `time` and `gmtime_r` deliver at the call. -/
def reset_nmea_parser_ctx {M : c_lib} (now : tm) (ctx : nmea_parser_t M) : nmea_parser_t M :=
  { ctx with
    fix := { ctx.fix with
      fix_time := { hhmmss := 0, mss := 0 }
      is_closed := true
      gpgga_active := false
      gpgll_active := false
      gprmc_active := false
      gpgst_active := false
      gpzda_active := false }
    time_full := now
    gpgsa := { ctx.gpgsa with is_valid := false }
    gpvtg := { ctx.gpvtg with is_valid := false } }

/-- Embedding of `open_nmea_fix(fix, time)`. -/
def open_nmea_fix {M : c_lib} (fix : nmea_fix_t M) (time : nmea_fix_time_t) : nmea_fix_t M :=
  { fix with
    fix_time := time
    is_closed := false
    gpgga_active := false
    gpgll_active := false
    gprmc_active := false
    gpgst_active := false
    gpzda_active := false }

/-- Embedding of `merge_full_time(ctx)`.  The members of `struct tm` are `int`,
the date members of the sentences `unsigned`; mixed expressions are computed in
`unsigned` and converted back, `%` on `int` truncates towards zero. -/
def merge_full_time {M : c_lib} (ctx : nmea_parser_t M) : nmea_parser_t M :=
  let zda : Bool := ctx.fix.gpzda_active && decide (ctx.fix.gpzda.zone_hours = 0)
    && decide (ctx.fix.gpzda.zone_minutes = 0)
  let gpzda_year : Nat := if zda then ctx.fix.gpzda.year else 0
  let year1 : Int :=
    if zda then to_int (wrap_uint ((gpzda_year : Int) - 1900)) else ctx.time_full.tm_year
  let rmc : Bool := ctx.fix.gprmc_active && decide (ctx.fix.gprmc.ddmmyy ≠ 0)
  let gprmc_year0 : Int := wrap_int (year1 + 1900)
  let gprmc_year : Int :=
    to_int (wrap_uint (wrap_int (gprmc_year0 - Int.tmod gprmc_year0 100)
      + ((ctx.fix.gprmc.ddmmyy % 100 : Nat) : Int)))
  let year2 : Int :=
    if rmc ∧ gpzda_year = 0 then wrap_int (gprmc_year - 1900) else year1
  let mon : Int :=
    if rmc then to_int (wrap_uint ((((ctx.fix.gprmc.ddmmyy / 100) % 100 : Nat) : Int) - 1))
    else ctx.time_full.tm_mon
  let mday : Int :=
    if rmc then to_int ((ctx.fix.gprmc.ddmmyy / 10000) % 100) else ctx.time_full.tm_mday
  { ctx with
    time_full := { ctx.time_full with
      tm_year := year2
      tm_mon := mon
      tm_mday := mday
      tm_hour := to_int ((ctx.fix.fix_time.hhmmss / 10000) % 100)
      tm_min := to_int ((ctx.fix.fix_time.hhmmss / 100) % 100)
      tm_sec := to_int (ctx.fix.fix_time.hhmmss % 100) } }

/-- The loop of `compose_location` over the 12 entries of `gpgsa.prn`:
`if (prn[i] > 0) satellites += 1`, from `satellites = 0`. -/
def count_prn (prn : List Nat) : Int :=
  (List.range 12).foldl (fun n i => if prn.getD i 0 > 0 then n + 1 else n) 0

/-- Embedding of `compose_location(ctx, dst)`; `*dst` is passed in and out, the
returned `bool` is `dst->is_valid`.  The sum for `time` is taken in `long long`
without wrapping. -/
def compose_location {M : c_lib} (ctx : nmea_parser_t M) (dst : location_t M) : location_t M :=
  let fix := ctx.fix
  let min_gga : Bool := fix.gpgga_active && fix.gpgga.has_latitude && fix.gpgga.has_longitude
  let min_rmc : Bool := fix.gprmc_active && fix.gprmc.has_latitude && fix.gprmc.has_longitude
  let min_gll : Bool := fix.gpgll_active && fix.gpgll.has_latitude && fix.gpgll.has_longitude
  let is_valid0 : Bool := min_gga || min_rmc || min_gll
  let is_valid1 : Bool :=
    if fix.gpgga_active then is_valid0 && decide (fix.gpgga.fix_quality ≠ 0) else is_valid0
  let is_valid : Bool :=
    if fix.gprmc_active then is_valid1 && fix.gprmc.status_active else is_valid1
  if ¬ (is_valid = true) then { dst with is_valid := false }
  else
    let t := ctx.time_full
    let bearing_rmc : Bool := fix.gprmc_active && fix.gprmc.has_course
    let bearing_vtg : Bool := ctx.gpvtg.is_valid && decide (ctx.gpvtg.fix_mode ≠ 0x4e)
      && ctx.gpvtg.has_course_true
    let speed_rmc : Bool := fix.gprmc_active && fix.gprmc.has_speed
    let speed_vtg : Bool := ctx.gpvtg.is_valid && decide (ctx.gpvtg.fix_mode ≠ 0x4e)
      && ctx.gpvtg.has_speed_kmph
    let acc_std : Bool := fix.gpgst_active && fix.gpgst.has_std_lat && fix.gpgst.has_std_lon
    let acc_rms : Bool := fix.gpgst_active && fix.gpgst.has_range_rms
    { is_valid := true
      time := 1000 * M.timegm64 t.tm_sec t.tm_min t.tm_hour t.tm_mday t.tm_mon t.tm_year
          t.tm_wday t.tm_yday t.tm_isdst + (ctx.fix.fix_time.mss : Int)
      latitude :=
        if min_gga then fix.gpgga.latitude
        else if min_rmc then fix.gprmc.latitude else fix.gpgll.latitude
      longitude :=
        if min_gga then fix.gpgga.longitude
        else if min_rmc then fix.gprmc.longitude else fix.gpgll.longitude
      has_altitude := min_gga && fix.gpgga.has_altitude
      altitude := if min_gga && fix.gpgga.has_altitude then fix.gpgga.altitude else M.double_zero
      satellites :=
        if min_gga && fix.gpgga.has_sattelites_nb then fix.gpgga.sattelites_nb
        else if ctx.gpgsa.is_valid then count_prn ctx.gpgsa.prn
        else -1
      has_bearing := bearing_rmc || bearing_vtg
      bearing :=
        if bearing_rmc then fix.gprmc.course
        else if bearing_vtg then ctx.gpvtg.course_true else M.float_zero
      has_speed := speed_rmc || speed_vtg
      speed :=
        if speed_rmc then fix.gprmc.speed
        else if speed_vtg then M.kmph_to_mps ctx.gpvtg.speed_kmph else M.float_zero
      has_accuracy := acc_std || acc_rms
      accuracy :=
        if acc_std then M.hypotf fix.gpgst.std_lat fix.gpgst.std_lon
        else if acc_rms then fix.gpgst.range_rms else M.float_zero }

/-- Embedding of `close_nmea_fix(ctx, status)`: the returned `bool`, `*ctx` and
`*status` after the call. -/
def close_nmea_fix {M : c_lib} (ctx : nmea_parser_t M) (status : gps_msg_status_t M) :
    Bool × nmea_parser_t M × gps_msg_status_t M :=
  let status1 := { status with location_changed := false }
  if ctx.fix.is_closed then (false, ctx, status1)
  else
    let status2 := { status1 with location_changed := true }
    if ¬ ctx.fix.gpgga_active ∧ ¬ ctx.fix.gprmc_active ∧ ¬ ctx.fix.gpgll_active then
      let status3 := { status2 with
        err := c_snprintf 200
          ("No GPGGA/GPGLL/GPRMC sentences received on NMEA fix time "
            ++ fmt_u0 6 ctx.fix.fix_time.hhmmss ++ "." ++ fmt_u0 3 ctx.fix.fix_time.mss)
        location := { status2.location with is_valid := false } }
      (true, { ctx with fix := { ctx.fix with is_closed := true } }, status3)
    else
      let ctx1 := merge_full_time ctx
      (true, ctx1, { status2 with location := compose_location ctx1 status2.location })

/-- Embedding of `put_nmea_timedout(ctx, status)`. -/
def put_nmea_timedout {M : c_lib} (ctx : nmea_parser_t M) (status : gps_msg_status_t M) :
    nmea_parser_t M × gps_msg_status_t M :=
  let r := close_nmea_fix ctx { status with is_valid := false, err := "" }
  (r.2.1, r.2.2)

/-! ## nmea.c: `put_nmea_msg` -/

/-- The seven sentence parsers of nmea.c, `parse_gga` to `parse_gst`, as
functions of `(msg, msg_size, *status)`: `none` when the parser does not
return (a failed assertion, a read behind the buffer), else the record stored
in `*dst` when the parser returns `true` (`none` when it returns `false`), and
`*status` after the call.  They convert fields with `strtod` and `strtof`;
`put_nmea_msg` is embedded for every such family of functions, and `c_parsers`
is the family of nmea.c. -/
structure nmea_parsers (M : c_lib) where
  parse_gga : List uint8_t → Nat → gps_msg_status_t M →
    Option (Option (nmea_gpgga_t M) × gps_msg_status_t M)
  parse_rmc : List uint8_t → Nat → gps_msg_status_t M →
    Option (Option (nmea_gprmc_t M) × gps_msg_status_t M)
  parse_gll : List uint8_t → Nat → gps_msg_status_t M →
    Option (Option (nmea_gpgll_t M) × gps_msg_status_t M)
  parse_gst : List uint8_t → Nat → gps_msg_status_t M →
    Option (Option (nmea_gpgst_t M) × gps_msg_status_t M)
  parse_gsa : List uint8_t → Nat → gps_msg_status_t M →
    Option (Option (nmea_gpgsa_t M) × gps_msg_status_t M)
  parse_vtg : List uint8_t → Nat → gps_msg_status_t M →
    Option (Option (nmea_gpvtg_t M) × gps_msg_status_t M)
  parse_zda : List uint8_t → Nat → gps_msg_status_t M →
    Option (Option nmea_gpzda_t × gps_msg_status_t M)

/-- The loop of `put_nmea_msg` which fills `char msg_id[9]`:
`for (i=0; i < sizeof(msg_id); ++i)`, left at the end of the message or at the
first comma.  A byte is stored with its value 0..255. -/
def msg_id_loop (msg : List uint8_t) (msg_size : Nat) : Nat → Nat → List Nat → Option (List Nat)
  | 0, _, msg_id => some msg_id
  | fuel + 1, i, msg_id =>
    if i < 9 then
      if i ≥ msg_size then some (msg_id.set i 0)
      else
        match rd msg i with
        | none => none
        | some c =>
          if c = 0x2c then some (msg_id.set i 0)
          else msg_id_loop msg msg_size fuel (i + 1) (msg_id.set i c)
    else some msg_id

/-- The test `strcmp(a, b) == 0` on two character arrays. -/
def strcmp_eq (a b : List Nat) : Bool := decide (c_string a = c_string b)

/-- Embedding of `set_nmea_error(status, nmea_msg, nmea_msg_size, fmt, ...)`;
`err_str` is the text which `vsnprintf` makes of `fmt` and its arguments.
`none` when `memcpy` would read behind the message. -/
def set_nmea_error {M : c_lib} (status : gps_msg_status_t M) (nmea_msg : List uint8_t)
    (nmea_msg_size : Nat) (err_str : String) : Option (gps_msg_status_t M) :=
  if nmea_msg.length < nmea_msg_size then none
  else
    let nmea_str : List Nat :=
      c_string ((nmea_msg.take (nmea_msg_size - 2)).map (fun b => b.val))
    some { status with
      is_valid := false
      location_changed := false
      err := c_snprintf 200
        (c_snprintf 200 err_str ++ " NMEA: " ++ String.mk (nmea_str.map Char.ofNat)) }

/-- The statements of `put_nmea_msg` which follow a successful parse of a
sentence with a fix time (GGA, RMC, GLL, GST):
`if (!is_same_fix_time(ctx->fix.fix_time, t)) { close_nmea_fix(ctx, status);
open_nmea_fix(&ctx->fix, t); }`. -/
def roll_nmea_fix {M : c_lib} (ctx : nmea_parser_t M) (status : gps_msg_status_t M)
    (t : nmea_fix_time_t) : nmea_parser_t M × gps_msg_status_t M :=
  if ¬ (is_same_fix_time ctx.fix.fix_time t = true) then
    let r := close_nmea_fix ctx status
    ({ r.2.1 with fix := open_nmea_fix r.2.1.fix t }, r.2.2)
  else (ctx, status)

/-- Embedding of `put_nmea_msg(ctx, msg, msg_size, status)`: the returned
`bool`, `*ctx` and `*status` after the call; `none` when a byte behind the
buffer is read or the parser does not return.  The two assertions at the entry, `1 < msg_size ≤ NMEA_MAX` and
`looks_like_nmea(msg, msg_size) == msg_size`, are preconditions. -/
def put_nmea_msg {M : c_lib} (P : nmea_parsers M) (ctx : nmea_parser_t M) (msg : List uint8_t)
    (msg_size : Nat) (status : gps_msg_status_t M) :
    Option (Bool × nmea_parser_t M × gps_msg_status_t M) :=
  let status0 := { status with is_valid := false, location_changed := false, err := "" }
  match msg_id_loop msg msg_size 9 0 (List.replicate 9 0) with
  | none => none
  | some filled =>
    let msg_id := filled.set 8 0
    if strcmp_eq (chars "$GPGGA") msg_id ∨ strcmp_eq (chars "$GNGGA") msg_id
        ∨ strcmp_eq (chars "$GLGGA") msg_id ∨ strcmp_eq (chars "$GAGGA") msg_id then
      match P.parse_gga msg msg_size status0 with
      | none => none
      | some (some gxgga, status1) =>
        let r := roll_nmea_fix ctx status1 gxgga.fix_time
        some (r.2.is_valid,
          { r.1 with fix := { r.1.fix with gpgga_active := true, gpgga := gxgga } }, r.2)
      | some (none, status1) => some (status1.is_valid, ctx, status1)
    else if strcmp_eq (chars "$GPRMC") msg_id ∨ strcmp_eq (chars "$GNRMC") msg_id
        ∨ strcmp_eq (chars "$GLRMC") msg_id ∨ strcmp_eq (chars "$GARMC") msg_id then
      match P.parse_rmc msg msg_size status0 with
      | none => none
      | some (some gxrmc, status1) =>
        let r := roll_nmea_fix ctx status1 gxrmc.fix_time
        some (r.2.is_valid,
          { r.1 with fix := { r.1.fix with gprmc_active := true, gprmc := gxrmc } }, r.2)
      | some (none, status1) => some (status1.is_valid, ctx, status1)
    else if strcmp_eq (chars "$GPGLL") msg_id then
      match P.parse_gll msg msg_size status0 with
      | none => none
      | some (some gxgll, status1) =>
        let r := roll_nmea_fix ctx status1 gxgll.fix_time
        some (r.2.is_valid,
          { r.1 with fix := { r.1.fix with gpgll_active := true, gpgll := gxgll } }, r.2)
      | some (none, status1) => some (status1.is_valid, ctx, status1)
    else if strcmp_eq (chars "$GPGST") msg_id then
      match P.parse_gst msg msg_size status0 with
      | none => none
      | some (some gpgst, status1) =>
        let r := roll_nmea_fix ctx status1 gpgst.fix_time
        some (r.2.is_valid,
          { r.1 with fix := { r.1.fix with gpgst_active := true, gpgst := gpgst } }, r.2)
      | some (none, status1) => some (status1.is_valid, ctx, status1)
    else if strcmp_eq (chars "$GPGSA") msg_id then
      match P.parse_gsa msg msg_size status0 with
      | none => none
      | some (some gpgsa, status1) =>
        some (status1.is_valid, { ctx with gpgsa := { gpgsa with is_valid := true } }, status1)
      | some (none, status1) => some (status1.is_valid, ctx, status1)
    else if strcmp_eq (chars "$GPVTG") msg_id then
      match P.parse_vtg msg msg_size status0 with
      | none => none
      | some (some gpvtg, status1) =>
        some (status1.is_valid, { ctx with gpvtg := { gpvtg with is_valid := true } }, status1)
      | some (none, status1) => some (status1.is_valid, ctx, status1)
    else if strcmp_eq (chars "$GPZDA") msg_id then
      match P.parse_zda msg msg_size status0 with
      | none => none
      | some (some gpzda, status1) =>
        some (status1.is_valid,
          { ctx with fix := { ctx.fix with gpzda_active := true, gpzda := gpzda } }, status1)
      | some (none, status1) => some (status1.is_valid, ctx, status1)
    else if strcmp_eq (chars "$GPGSV") msg_id then
      some (true, ctx, { status0 with is_valid := true })
    else if strcmp_eq (chars "$PUBX") msg_id then
      some (true, ctx, { status0 with is_valid := true })
    else
      match set_nmea_error status0 msg msg_size "unk msg" with
      | none => none
      | some status1 => some (true, ctx, { status1 with is_valid := true })

/-- The message id of a GGA sentence: `$GPGGA`, `$GNGGA`, `$GLGGA` or `$GAGGA`
in front of the first comma. -/
def is_gga_id (msg : List uint8_t) (msg_size : Nat) : Prop :=
  ∃ filled, msg_id_loop msg msg_size 9 0 (List.replicate 9 0) = some filled ∧
    (strcmp_eq (chars "$GPGGA") (filled.set 8 0) = true
      ∨ strcmp_eq (chars "$GNGGA") (filled.set 8 0) = true
      ∨ strcmp_eq (chars "$GLGGA") (filled.set 8 0) = true
      ∨ strcmp_eq (chars "$GAGGA") (filled.set 8 0) = true)

/-- The message id of an RMC sentence: `$GPRMC`, `$GNRMC`, `$GLRMC` or `$GARMC`
in front of the first comma. -/
def is_rmc_id (msg : List uint8_t) (msg_size : Nat) : Prop :=
  ∃ filled, msg_id_loop msg msg_size 9 0 (List.replicate 9 0) = some filled ∧
    (strcmp_eq (chars "$GPRMC") (filled.set 8 0) = true
      ∨ strcmp_eq (chars "$GNRMC") (filled.set 8 0) = true
      ∨ strcmp_eq (chars "$GLRMC") (filled.set 8 0) = true
      ∨ strcmp_eq (chars "$GARMC") (filled.set 8 0) = true)

/-- The message id of a GSA sentence: `$GPGSA` in front of the first comma. -/
def is_gsa_id (msg : List uint8_t) (msg_size : Nat) : Prop :=
  ∃ filled, msg_id_loop msg msg_size 9 0 (List.replicate 9 0) = some filled ∧
    strcmp_eq (chars "$GPGSA") (filled.set 8 0) = true

/-- The message id of a GLL sentence: `$GPGLL` in front of the first comma. -/
def is_gll_id (msg : List uint8_t) (msg_size : Nat) : Prop :=
  ∃ filled, msg_id_loop msg msg_size 9 0 (List.replicate 9 0) = some filled ∧
    strcmp_eq (chars "$GPGLL") (filled.set 8 0) = true

/-- The message id of a VTG sentence: `$GPVTG` in front of the first comma. -/
def is_vtg_id (msg : List uint8_t) (msg_size : Nat) : Prop :=
  ∃ filled, msg_id_loop msg msg_size 9 0 (List.replicate 9 0) = some filled ∧
    strcmp_eq (chars "$GPVTG") (filled.set 8 0) = true

/-- The message id of a ZDA sentence: `$GPZDA` in front of the first comma. -/
def is_zda_id (msg : List uint8_t) (msg_size : Nat) : Prop :=
  ∃ filled, msg_id_loop msg msg_size 9 0 (List.replicate 9 0) = some filled ∧
    strcmp_eq (chars "$GPZDA") (filled.set 8 0) = true

/-! ## Concrete interpretations for instances of the statements -/

/-- An interpretation of the floating-point types and operations by integers. -/
def c_lib_int : c_lib where
  double := Int
  float := Int
  double_zero := 0
  float_zero := 0
  kmph_to_mps := fun x => x
  hypotf := fun a b => a + b
  timegm64 := fun _ _ _ _ _ _ _ _ _ => 0

/-- The parser state with every member zero (all flags `false`), as `calloc`
leaves it. -/
def zero_parser_ctx (M : c_lib) : nmea_parser_t M where
  time_full := ⟨0, 0, 0, 0, 0, 0, 0, 0, 0⟩
  fix := {
    fix_time := ⟨0, 0⟩
    is_closed := false
    gpgga_active := false
    gprmc_active := false
    gpgll_active := false
    gpgst_active := false
    gpzda_active := false
    gpgga := {
      fix_time := ⟨0, 0⟩
      fix_quality := 0
      latitude := M.double_zero
      longitude := M.double_zero
      altitude := M.double_zero
      sattelites_nb := 0
      hdop := M.float_zero
      geoid_height := M.double_zero
      has_latitude := false
      has_longitude := false
      has_altitude := false
      has_sattelites_nb := false
      has_hdop := false
      has_geoid_height := false }
    gprmc := {
      fix_time := ⟨0, 0⟩
      latitude := M.double_zero
      longitude := M.double_zero
      ddmmyy := 0
      status_active := false
      speed := M.float_zero
      course := M.float_zero
      has_latitude := false
      has_longitude := false
      has_ddmmyy := false
      has_status_active := false
      has_speed := false
      has_course := false }
    gpgll := {
      fix_time := ⟨0, 0⟩
      latitude := M.double_zero
      longitude := M.double_zero
      status := false
      has_latitude := false
      has_longitude := false }
    gpgst := {
      fix_time := ⟨0, 0⟩
      range_rms := M.float_zero
      std_major := M.float_zero
      std_minor := M.float_zero
      orient := M.float_zero
      std_lat := M.float_zero
      std_lon := M.float_zero
      std_alt := M.float_zero
      has_range_rms := false
      has_std_major := false
      has_std_minor := false
      has_orient := false
      has_std_lat := false
      has_std_lon := false
      has_std_alt := false }
    gpzda := ⟨⟨0, 0⟩, 0, 0, 0, 0, 0⟩ }
  gpgsa := {
    fix_mode := 0
    fix_type := 0
    prn := List.replicate 12 0
    pdop := M.float_zero
    hdop := M.float_zero
    vdop := M.float_zero
    has_pdop := false
    has_hdop := false
    has_vdop := false
    is_valid := false }
  gpvtg := {
    course_true := M.float_zero
    course_magn := M.float_zero
    speed_knots := M.float_zero
    speed_kmph := M.float_zero
    fix_mode := 0
    has_course_true := false
    has_course_magn := false
    has_speed_knots := false
    has_speed_kmph := false
    is_valid := false }

/-- The status record with every member zero. -/
def zero_status (M : c_lib) : gps_msg_status_t M where
  is_valid := false
  location_changed := false
  location := {
    time := 0
    latitude := M.double_zero
    longitude := M.double_zero
    altitude := M.double_zero
    accuracy := M.float_zero
    bearing := M.float_zero
    speed := M.float_zero
    satellites := 0
    is_valid := false
    has_accuracy := false
    has_altitude := false
    has_bearing := false
    has_speed := false }
  err := ""

/-- A window with an active GGA record of the given quality and position. -/
def with_gga {M : c_lib} (ctx : nmea_parser_t M) (fix_quality : Nat) (lat lon : M.double) :
    nmea_parser_t M :=
  { ctx with fix := { ctx.fix with
      gpgga_active := true
      gpgga := { ctx.fix.gpgga with
        fix_quality := fix_quality
        latitude := lat
        longitude := lon
        has_latitude := true
        has_longitude := true } } }

/-- A window with an active GLL record of the given position. -/
def with_gll {M : c_lib} (ctx : nmea_parser_t M) (lat lon : M.double) : nmea_parser_t M :=
  { ctx with fix := { ctx.fix with
      gpgll_active := true
      gpgll := { ctx.fix.gpgll with
        latitude := lat
        longitude := lon
        has_latitude := true
        has_longitude := true } } }

/-- The bytes of a text. -/
def text_bytes (s : String) : List uint8_t := s.toList.map (fun c => byte c.toNat)

/-- A family of parsers which knows one sentence: `parse_gga` stores the record
`gga` for the message `sentence` and leaves `*status` as it is; every other call
returns `false`. -/
def one_gga_parsers (M : c_lib) (sentence : List uint8_t) (gga : nmea_gpgga_t M) :
    nmea_parsers M where
  parse_gga := fun msg _ status => some (if msg = sentence then some gga else none, status)
  parse_rmc := fun _ _ status => some (none, status)
  parse_gll := fun _ _ status => some (none, status)
  parse_gst := fun _ _ status => some (none, status)
  parse_gsa := fun _ _ status => some (none, status)
  parse_vtg := fun _ _ status => some (none, status)
  parse_zda := fun _ _ status => some (none, status)

/-- The GGA sentence `$GPGGA,000000.00,4807.038,N,01131.000,E,1,08,0.9,545.4,M,46.9,M,,`
with CR LF. -/
def gga_midnight : List uint8_t :=
  text_bytes "$GPGGA,000000.00,4807.038,N,01131.000,E,1,08,0.9,545.4,M,46.9,M,,\r\n"

/-- The GGA record of `gga_midnight`, with positions and numbers read as
integers: fix time 000000.000, quality 1, 8 satellites. -/
def gga_midnight_record : nmea_gpgga_t c_lib_int where
  fix_time := ⟨0, 0⟩
  fix_quality := 1
  latitude := (48 : Int)
  longitude := (11 : Int)
  altitude := (545 : Int)
  sattelites_nb := 8
  hdop := (1 : Int)
  geoid_height := (47 : Int)
  has_latitude := true
  has_longitude := true
  has_altitude := true
  has_sattelites_nb := true
  has_hdop := true
  has_geoid_height := true

/-! ## nmea.c: the sentence parsers

The parsers convert fields with `strtod` and `strtof` and compute with
`double` values.  The conversions and operations they apply are the members of
`c_num`; the parsers are embedded for every such family.  A local variable
which the source reads before it is written has the content given in
`nmea_locals`, which is arbitrary. -/

/-- What the parsers take from the C library and from floating-point
arithmetic, beyond `c_lib`. -/
structure c_num (M : c_lib) where
  /-- the limits.h constant `ULONG_MAX` -/
  ulong_max : Nat
  /-- the limits.h constant `LONG_MAX` -/
  long_max : Nat
  /-- `res = strtod(s, &endptr)` on the characters of `s` before its NUL: the
  value, the offset of `endptr`, and whether
  `(errno == ERANGE && (res == HUGE_VAL || res == -HUGE_VAL)) || (errno != 0 && res == 0)`
  holds after the call -/
  strtod : List Nat → M.double × Nat × Bool
  /-- `strtof`, in the same way, with `HUGE_VALF` -/
  strtof : List Nat → M.float × Nat × Bool
  /-- the `double` constant written with the decimal digits `m` and the
  exponent `e`: `d_const 100 0` is `100.0`, `d_const 1 (-7)` is `1.0e-7` -/
  d_const : Int → Int → M.double
  /-- conversion of an integer value to `double` -/
  d_of_int : Int → M.double
  /-- `x + y` on `double` -/
  d_add : M.double → M.double → M.double
  /-- `x * y` on `double` -/
  d_mul : M.double → M.double → M.double
  /-- `x / y` on `double` -/
  d_div : M.double → M.double → M.double
  /-- `modf(x, &iptr)`: the returned fractional part and the integral part
  stored in `iptr` -/
  d_modf : M.double → M.double × M.double
  /-- the comparison `x <= y` on `double` -/
  d_le : M.double → M.double → Bool
  /-- conversion of a `double` to `float` -/
  f_of_d : M.double → M.float
  /-- conversion of a `float` to `double` -/
  d_of_f : M.float → M.double

/-- Content of the local variables of the parsers before they are written:
the arrays `buf` and `fields` (entry by index; a pointer into `buf` is its
offset), the address of `buf` as an integer, and the local sentence records. -/
structure nmea_locals (M : c_lib) where
  buf : Nat → Nat
  fields : Nat → Nat
  buf_addr : Nat
  gpgga : nmea_gpgga_t M
  gprmc : nmea_gprmc_t M
  gpgll : nmea_gpgll_t M
  gpvtg : nmea_gpvtg_t M
  gpgsa : nmea_gpgsa_t M
  gpzda : nmea_gpzda_t
  gpgst : nmea_gpgst_t M

/-- Whether `strtoul(nptr, &endptr, base)` sets `errno` to `ERANGE`: the digits
give a value above `ULONG_MAX`.  The scan is that of `strtoul`.  An
implementation which sets `EINVAL` when no conversion is performed gives the
same results in nmea.c, where `*endptr` is tested as well. -/
def strtoul_erange (ulong_max : Nat) (nptr : List Nat) (base : Nat) : Bool :=
  let ws := (nptr.takeWhile isspace).length
  let s1 := nptr.drop ws
  let sg : Nat := match s1 with
    | c :: _ => if c = 0x2d ∨ c = 0x2b then 1 else 0
    | [] => 0
  let s2 := s1.drop sg
  let px : Nat := match s2 with
    | z :: x :: d :: _ =>
      if base = 16 ∧ z = 0x30 ∧ (x = 0x78 ∨ x = 0x58) ∧ is_digit_of 16 d = true then 2 else 0
    | _ => 0
  let s3 := s2.drop px
  let digits := s3.takeWhile (is_digit_of base)
  let magnitude : Nat := digits.foldl (fun acc c => acc * base + digit_or_zero c) 0
  decide (digits.length ≠ 0) && decide (magnitude > ulong_max)

/-- The text of a C string, for the `%s` conversion. -/
def str_of (s : List Nat) : String := String.mk (s.map Char.ofNat)

/-- The loop of `split_nmea_str`, `for (i=1; i < msg_size; ++i)`, on the state
`(buf, fields, fields_nb)`; a pointer `&buf[i]` is stored as the offset `i`. -/
def split_loop (msg : List uint8_t) (msg_size fields_size : Nat) :
    Nat → Nat → List Nat → List Nat → Nat → Option (List Nat × List Nat × Nat)
  | 0, _, buf, fields, fields_nb => some (buf, fields, fields_nb)
  | fuel + 1, i, buf, fields, fields_nb =>
    if i < msg_size then
      match rd msg i, rd msg (i - 1) with
      | some c, some p =>
        let buf1 := buf.set i (if c = 0x2c then 0 else c)
        if p = 0x2c ∧ fields_nb ≥ fields_size then some (buf1, fields, fields_nb)
        else
          let fields1 := if p = 0x2c then fields.set fields_nb i else fields
          let fields_nb1 := if p = 0x2c then fields_nb + 1 else fields_nb
          if c = 0x2a ∨ c = 0x0d ∨ c = 0x0a then some (buf1.set i 0, fields1, fields_nb1)
          else split_loop msg msg_size fields_size fuel (i + 1) buf1 fields1 fields_nb1
      | _, _ => none
    else some (buf, fields, fields_nb)

/-- Embedding of `split_nmea_str(msg, msg_size, fields, fields_size, buf)` with
`buf` of `NMEA_MAX` characters: the arrays `buf` and `fields` after the call
and the returned number of fields; `none` when a byte behind `msg` is read.
`fields0` and `buf0` are the arrays before the call. -/
def split_nmea_str (msg : List uint8_t) (msg_size : Nat) (fields0 : Nat → Nat)
    (fields_size : Nat) (buf0 : Nat → Nat) : Option (List Nat × List Nat × Nat) :=
  match rd msg 0 with
  | none => none
  | some c0 =>
    match split_loop msg msg_size fields_size msg_size 1
        (((List.range NMEA_MAX).map buf0).set 0 c0)
        (((List.range fields_size).map fields0).set 0 0) 1 with
    | none => none
    | some (buf, fields, fields_nb) => some (buf.set (msg_size - 1) 0, fields, fields_nb)

/-- The C string `fields[k]`: the characters of `buf` from the offset stored in
`fields[k]` up to the first NUL. -/
def nmea_field (buf fields : List Nat) (k : Nat) : List Nat :=
  c_string (buf.drop (fields.getD k 0))

/-- Embedding of `parse_float(str, dst, dst_is_defined)`: the returned `bool`,
`*dst` and `*dst_is_defined` after the call; `*dst_is_defined` is written on
every path. -/
def parse_float {M : c_lib} (K : c_num M) (str : List Nat) (dst : M.float) :
    Bool × M.float × Bool :=
  if c_char_at str 0 = 0 then (true, dst, false)
  else
    let conv := K.strtof str
    if conv.2.2 = true ∨ c_char_at str conv.2.1 ≠ 0 then (false, conv.1, true)
    else (true, conv.1, true)

/-- Embedding of `parse_nmea_degrees(deg_str, reverse_direction, dst,
dst_is_defined)`: the returned `bool`, `*dst` and `*dst_is_defined`. -/
def parse_nmea_degrees {M : c_lib} (K : c_num M) (deg_str : List Nat)
    (reverse_direction : Bool) (dst : M.double) : Bool × M.double × Bool :=
  if c_char_at deg_str 0 = 0 then (true, dst, false)
  else
    let conv := K.strtod deg_str
    let res := conv.1
    if conv.2.2 = true ∨ c_char_at deg_str conv.2.1 ≠ 0 then (false, dst, true)
    else
      let parts := K.d_modf (K.d_div res (K.d_const 100 0))
      let degrees := parts.2
      let minutes := K.d_mul (K.d_const 100 0) parts.1
      (true,
        K.d_mul (if reverse_direction then K.d_const (-1) 0 else K.d_const 1 0)
          (K.d_add degrees (K.d_div minutes (K.d_const 60 0))),
        true)

/-- Embedding of `parse_nmea_latitude(deg_str, ns, dst, dst_is_defined)`. -/
def parse_nmea_latitude {M : c_lib} (K : c_num M) (deg_str ns : List Nat)
    (dst : M.double) : Bool × M.double × Bool :=
  let r := parse_nmea_degrees K deg_str (decide (c_char_at ns 0 = 0x53)) dst
  if ¬ (r.1 = true) then (false, r.2.1, r.2.2)
  else if ¬ (r.2.2 = true) then (true, r.2.1, r.2.2)
  else (K.d_le (K.d_const (-90) 0) r.2.1 && K.d_le r.2.1 (K.d_const 90 0), r.2.1, r.2.2)

/-- Embedding of `parse_nmea_longitude(deg_str, ew, dst, dst_is_defined)`. -/
def parse_nmea_longitude {M : c_lib} (K : c_num M) (deg_str ew : List Nat)
    (dst : M.double) : Bool × M.double × Bool :=
  let r := parse_nmea_degrees K deg_str (decide (c_char_at ew 0 = 0x57)) dst
  if ¬ (r.1 = true) then (false, r.2.1, r.2.2)
  else if ¬ (r.2.2 = true) then (true, r.2.1, r.2.2)
  else (K.d_le (K.d_const (-180) 0) r.2.1 && K.d_le r.2.1 (K.d_const 180 0), r.2.1, r.2.2)

/-- How the body of a sentence parser ends: it does not return (a failed
assertion), it returns through `return set_nmea_error(status, msg, msg_size,
...)` with the text made of the format and its arguments, or it reaches the
statements `status->is_valid = true; status->err[0] = 0; *dst = rec`. -/
inductive parse_t (α : Type) where
  | abort : parse_t α
  | invalid (err_str : String) : parse_t α
  | valid (rec : α) : parse_t α

/-- The effect of the three ways out of a parser on `*status`, and the record
stored in `*dst` with the returned `true` (`none` for the returned `false`). -/
def parse_finish {M : c_lib} {α : Type} (status : gps_msg_status_t M) (msg : List uint8_t)
    (msg_size : Nat) : parse_t α → Option (Option α × gps_msg_status_t M)
  | .abort => none
  | .invalid err_str =>
    match set_nmea_error status msg msg_size err_str with
    | none => none
    | some status1 => some (none, status1)
  | .valid rec => some (some rec, { status with is_valid := true, err := "" })

/-- The test of nmea.c after `v = strtoul(s, &endptr, 10)`:
`(errno == ERANGE && v == top) || (errno != 0 && v == 0) || *endptr != 0`. -/
def strtoul_rejects (ulong_max top : Nat) (s : List Nat) : Bool :=
  (strtoul_erange ulong_max s 10 && decide ((strtoul ulong_max s 10).1 = top))
    || (strtoul_erange ulong_max s 10 && decide ((strtoul ulong_max s 10).1 = 0))
    || decide (c_char_at s (strtoul ulong_max s 10).2 ≠ 0)

/-- The body of `parse_gga` after `split_nmea_str`. -/
def parse_gga_fields {M : c_lib} (K : c_num M) (U : nmea_locals M)
    (buf fields : List Nat) (fields_nb : Nat) : parse_t (nmea_gpgga_t M) :=
  let f := nmea_field buf fields
  if fields_nb < 15 then .invalid ("Invalid field count " ++ Nat.repr fields_nb)
  else
    match parse_nmea_fix_time K.ulong_max (f 1) U.gpgga.fix_time with
    | none => .abort
    | some (code, fix_time) =>
      if code ≠ .FIELD_VALID then .invalid "Invalid NMEA fix time"
      else
        let lat := parse_nmea_latitude K (f 2) (f 3) U.gpgga.latitude
        if ¬ (lat.1 = true) then
          .invalid ("Invalid latitude '" ++ str_of (f 2) ++ ":" ++ str_of (f 3) ++ "'")
        else
          let lon := parse_nmea_longitude K (f 4) (f 5) U.gpgga.longitude
          if ¬ (lon.1 = true) then
            .invalid ("Invalid longitude '" ++ str_of (f 4) ++ ":" ++ str_of (f 5) ++ "'")
          else if c_char_at (f 6) 0 = 0 then .invalid "Undefined fix quality"
          else if strtoul_rejects K.ulong_max K.ulong_max (f 6) = true then
            .invalid "Invalid fix quality"
          else
            let has_sattelites_nb : Bool := decide (c_char_at (f 7) 0 ≠ 0)
            if has_sattelites_nb = true
                ∧ strtoul_rejects K.ulong_max K.long_max (f 7) = true then
              .invalid "Invalid number of satellites"
            else
              let hdop := parse_float K (f 8) U.gpgga.hdop
              if ¬ (hdop.1 = true) then .invalid "Invalid HDOP"
              else
                let has_altitude : Bool := decide (c_char_at (f 9) 0 ≠ 0)
                let alt := K.strtod (f 9)
                if has_altitude = true ∧ (alt.2.2 = true ∨ c_char_at (f 9) alt.2.1 ≠ 0) then
                  .invalid "Invalid altitude"
                else
                  let has_geoid_height : Bool := decide (c_char_at (f 11) 0 ≠ 0)
                  let geoid := K.strtod (f 11)
                  if has_geoid_height = true
                      ∧ (geoid.2.2 = true ∨ c_char_at (f 11) geoid.2.1 ≠ 0) then
                    .invalid "Invalid geoid height"
                  else
                    .valid {
                      fix_time := fix_time
                      fix_quality := (strtoul K.ulong_max (f 6) 10).1 % 2 ^ 32
                      latitude := lat.2.1
                      longitude := lon.2.1
                      altitude := if has_altitude then alt.1 else U.gpgga.altitude
                      sattelites_nb :=
                        if has_sattelites_nb then to_int (strtoul K.ulong_max (f 7) 10).1
                        else U.gpgga.sattelites_nb
                      hdop := hdop.2.1
                      geoid_height := if has_geoid_height then geoid.1 else U.gpgga.geoid_height
                      has_latitude := lat.2.2
                      has_longitude := lon.2.2
                      has_altitude := has_altitude
                      has_sattelites_nb := has_sattelites_nb
                      has_hdop := hdop.2.2
                      has_geoid_height := has_geoid_height }

/-- Embedding of `parse_gga(msg, msg_size, dst, status)`: `none` when the
function does not return (`assert(msg_size <= sizeof(buf))` or the assertion
of `parse_nmea_fix_time` fails, or a byte behind `msg` is read), else the
record stored in `*dst` with the returned `true` and `*status` after the call. -/
def parse_gga {M : c_lib} (K : c_num M) (U : nmea_locals M) (msg : List uint8_t)
    (msg_size : Nat) (status : gps_msg_status_t M) :
    Option (Option (nmea_gpgga_t M) × gps_msg_status_t M) :=
  if ¬ (msg_size ≤ NMEA_MAX) then none
  else
    match split_nmea_str msg msg_size U.fields 15 U.buf with
    | none => none
    | some (buf, fields, fields_nb) =>
      parse_finish status msg msg_size (parse_gga_fields K U buf fields fields_nb)

/-- The body of `parse_rmc` after `split_nmea_str`.  The member
`has_status_active` is never written. -/
def parse_rmc_fields {M : c_lib} (K : c_num M) (U : nmea_locals M)
    (buf fields : List Nat) (fields_nb : Nat) : parse_t (nmea_gprmc_t M) :=
  let f := nmea_field buf fields
  if fields_nb < 12 then .invalid ("Invalid field count " ++ Nat.repr fields_nb)
  else
    match parse_nmea_fix_time K.ulong_max (f 1) U.gprmc.fix_time with
    | none => .abort
    | some (code, fix_time) =>
      if code ≠ .FIELD_VALID then .invalid "Invalid NMEA fix time"
      else
        let lat := parse_nmea_latitude K (f 3) (f 4) U.gprmc.latitude
        if ¬ (lat.1 = true) then .invalid "Invalid latitude"
        else
          let lon := parse_nmea_longitude K (f 5) (f 6) U.gprmc.longitude
          if ¬ (lon.1 = true) then .invalid "Invalid longitude"
          else
            let speed := parse_float K (f 7) U.gprmc.speed
            if ¬ (speed.1 = true) then .invalid "Invalid speed"
            else
              let course := parse_float K (f 8) U.gprmc.course
              if ¬ (course.1 = true) then .invalid "Invalid course"
              else
                let has_ddmmyy : Bool := decide (c_char_at (f 9) 0 ≠ 0)
                let ddmmyy := strtoul K.ulong_max (f 9) 10
                if has_ddmmyy = true ∧ (ddmmyy.1 > 311299
                    ∨ (strtoul_erange K.ulong_max (f 9) 10 = true ∧ ddmmyy.1 = 0)
                    ∨ c_char_at (f 9) ddmmyy.2 ≠ 0) then
                  .invalid "Invalid date"
                else
                  .valid {
                    fix_time := fix_time
                    latitude := lat.2.1
                    longitude := lon.2.1
                    ddmmyy := if has_ddmmyy then ddmmyy.1 % 2 ^ 32 else U.gprmc.ddmmyy
                    status_active := decide (c_char_at (f 2) 0 = 0x41)
                    speed := K.f_of_d (K.d_mul (K.d_of_f speed.2.1) (K.d_const 514444 (-6)))
                    course := course.2.1
                    has_latitude := lat.2.2
                    has_longitude := lon.2.2
                    has_ddmmyy := has_ddmmyy
                    has_status_active := U.gprmc.has_status_active
                    has_speed := speed.2.2
                    has_course := course.2.2 }

/-- Embedding of `parse_rmc(msg, msg_size, dst, status)`. -/
def parse_rmc {M : c_lib} (K : c_num M) (U : nmea_locals M) (msg : List uint8_t)
    (msg_size : Nat) (status : gps_msg_status_t M) :
    Option (Option (nmea_gprmc_t M) × gps_msg_status_t M) :=
  if ¬ (msg_size ≤ NMEA_MAX) then none
  else
    match split_nmea_str msg msg_size U.fields 12 U.buf with
    | none => none
    | some (buf, fields, fields_nb) =>
      parse_finish status msg msg_size (parse_rmc_fields K U buf fields fields_nb)

/-- The body of `parse_gll` after `split_nmea_str`.  The member `fix_time` is
never written. -/
def parse_gll_fields {M : c_lib} (K : c_num M) (U : nmea_locals M)
    (buf fields : List Nat) (fields_nb : Nat) : parse_t (nmea_gpgll_t M) :=
  let f := nmea_field buf fields
  if fields_nb < 5 then .invalid ("Invalid field count " ++ Nat.repr fields_nb)
  else
    let lat := parse_nmea_latitude K (f 1) (f 2) U.gpgll.latitude
    if ¬ (lat.1 = true) then .invalid "Invalid latitude"
    else
      let lon := parse_nmea_longitude K (f 3) (f 4) U.gpgll.longitude
      if ¬ (lon.1 = true) then .invalid "Invalid longitude"
      else
        .valid {
          fix_time := U.gpgll.fix_time
          latitude := lat.2.1
          longitude := lon.2.1
          status := if fields_nb < 6 then true else decide (c_char_at (f 5) 0 ≠ 0x4e)
          has_latitude := lat.2.2
          has_longitude := lon.2.2 }

/-- Embedding of `parse_gll(msg, msg_size, dst, status)`. -/
def parse_gll {M : c_lib} (K : c_num M) (U : nmea_locals M) (msg : List uint8_t)
    (msg_size : Nat) (status : gps_msg_status_t M) :
    Option (Option (nmea_gpgll_t M) × gps_msg_status_t M) :=
  if ¬ (msg_size ≤ NMEA_MAX) then none
  else
    match split_nmea_str msg msg_size U.fields 6 U.buf with
    | none => none
    | some (buf, fields, fields_nb) =>
      parse_finish status msg msg_size (parse_gll_fields K U buf fields fields_nb)

/-- The body of `parse_vtg` after `split_nmea_str`. -/
def parse_vtg_fields {M : c_lib} (K : c_num M) (U : nmea_locals M)
    (buf fields : List Nat) (fields_nb : Nat) : parse_t (nmea_gpvtg_t M) :=
  let f := nmea_field buf fields
  if fields_nb < 9 then .invalid ("Invalid field count " ++ Nat.repr fields_nb)
  else
    let course_true := parse_float K (f 1) U.gpvtg.course_true
    if ¬ (course_true.1 = true) then .invalid "Invalid true course"
    else
      let course_magn := parse_float K (f 3) U.gpvtg.course_magn
      if ¬ (course_magn.1 = true) then .invalid "Invalid magnetic course"
      else
        let speed_knots := parse_float K (f 5) U.gpvtg.speed_knots
        if ¬ (speed_knots.1 = true) then .invalid "Invalid ground speed (knots)"
        else
          let speed_kmph := parse_float K (f 7) U.gpvtg.speed_kmph
          if ¬ (speed_kmph.1 = true) then .invalid "Invalid ground speed (kmph)"
          else
            .valid {
              course_true := course_true.2.1
              course_magn := course_magn.2.1
              speed_knots := speed_knots.2.1
              speed_kmph := speed_kmph.2.1
              fix_mode := if fields_nb < 10 then 0 else (c_char_at (f 9) 0 : Int)
              has_course_true := course_true.2.2
              has_course_magn := course_magn.2.2
              has_speed_knots := speed_knots.2.2
              has_speed_kmph := speed_kmph.2.2
              is_valid := true }

/-- Embedding of `parse_vtg(msg, msg_size, dst, status)`. -/
def parse_vtg {M : c_lib} (K : c_num M) (U : nmea_locals M) (msg : List uint8_t)
    (msg_size : Nat) (status : gps_msg_status_t M) :
    Option (Option (nmea_gpvtg_t M) × gps_msg_status_t M) :=
  if ¬ (msg_size ≤ NMEA_MAX) then none
  else
    match split_nmea_str msg msg_size U.fields 10 U.buf with
    | none => none
    | some (buf, fields, fields_nb) =>
      parse_finish status msg msg_size (parse_vtg_fields K U buf fields fields_nb)

/-- The loop of `parse_gsa` over the fields 3 to 14,
`for (i=0; i<12; ++i)`, on the array `gpgsa.prn`: `none` when it is left by
`return set_nmea_error(...)`.  An empty field writes `prn[0]`. -/
def gsa_prn_loop (ulong_max : Nat) (buf fields : List Nat) :
    Nat → Nat → List Nat → Option (List Nat)
  | 0, _, prn => some prn
  | fuel + 1, i, prn =>
    if i < 12 then
      if c_char_at (nmea_field buf fields (3 + i)) 0 = 0 then
        gsa_prn_loop ulong_max buf fields fuel (i + 1) (prn.set 0 0)
      else if strtoul_rejects ulong_max ulong_max (nmea_field buf fields (3 + i)) = true then
        none
      else
        gsa_prn_loop ulong_max buf fields fuel (i + 1)
          (prn.set i ((strtoul ulong_max (nmea_field buf fields (3 + i)) 10).1 % 2 ^ 32))
    else some prn

/-- The body of `parse_gsa` after `split_nmea_str`.  `gpgsa.fix_mode` is
`(int)fields[1]`, the pointer converted to `int`; the member `is_valid` is not
written. -/
def parse_gsa_fields {M : c_lib} (K : c_num M) (U : nmea_locals M)
    (buf fields : List Nat) (fields_nb : Nat) : parse_t (nmea_gpgsa_t M) :=
  let f := nmea_field buf fields
  if fields_nb < 18 then .invalid ("Invalid field count " ++ Nat.repr fields_nb)
  else if c_char_at (f 2) 0 ≠ 0 ∧ strtoul_rejects K.ulong_max K.ulong_max (f 2) = true then
    .invalid "Invalid fix type"
  else
    match gsa_prn_loop K.ulong_max buf fields 12 0
        ((List.range 12).map (fun i => U.gpgsa.prn.getD i 0)) with
    | none => .invalid "Invalid PRN"
    | some prn =>
      let pdop := parse_float K (f 15) U.gpgsa.pdop
      if ¬ (pdop.1 = true) then .invalid "Invalid PDOP"
      else
        let hdop := parse_float K (f 16) U.gpgsa.hdop
        if ¬ (hdop.1 = true) then .invalid "Invalid HDOP"
        else
          let vdop := parse_float K (f 17) U.gpgsa.vdop
          if ¬ (vdop.1 = true) then .invalid "Invalid VDOP"
          else
            .valid {
              fix_mode := to_int (U.buf_addr + fields.getD 1 0)
              fix_type :=
                if c_char_at (f 2) 0 = 0 then -1 else to_int (strtoul K.ulong_max (f 2) 10).1
              prn := prn
              pdop := pdop.2.1
              hdop := hdop.2.1
              vdop := vdop.2.1
              has_pdop := pdop.2.2
              has_hdop := hdop.2.2
              has_vdop := vdop.2.2
              is_valid := U.gpgsa.is_valid }

/-- Embedding of `parse_gsa(msg, msg_size, dst, status)`. -/
def parse_gsa {M : c_lib} (K : c_num M) (U : nmea_locals M) (msg : List uint8_t)
    (msg_size : Nat) (status : gps_msg_status_t M) :
    Option (Option (nmea_gpgsa_t M) × gps_msg_status_t M) :=
  if ¬ (msg_size ≤ NMEA_MAX) then none
  else
    match split_nmea_str msg msg_size U.fields 18 U.buf with
    | none => none
    | some (buf, fields, fields_nb) =>
      parse_finish status msg msg_size (parse_gsa_fields K U buf fields fields_nb)

/-- The body of `parse_zda` after `split_nmea_str`.  `strtol` sets `errno` only
together with `LONG_MIN` or `LONG_MAX`, so `errno != 0 && zone_hours == 0` does
not hold. -/
def parse_zda_fields {M : c_lib} (K : c_num M) (U : nmea_locals M)
    (buf fields : List Nat) (fields_nb : Nat) : parse_t nmea_gpzda_t :=
  let f := nmea_field buf fields
  if fields_nb < 5 then .invalid ("Invalid field count " ++ Nat.repr fields_nb)
  else
    match parse_nmea_fix_time K.ulong_max (f 1) U.gpzda.fix_time with
    | none => .abort
    | some (code, fix_time) =>
      if code ≠ .FIELD_VALID then .invalid "Invalid NMEA fix time"
      else
        let day := strtoul K.ulong_max (f 2) 10
        if c_char_at (f 2) 0 ≠ 0 ∧ (c_char_at (f 2) day.2 ≠ 0 ∨ day.1 < 1 ∨ day.1 > 31) then
          .invalid "Invalid day"
        else
          let month := strtoul K.ulong_max (f 3) 10
          if c_char_at (f 3) 0 ≠ 0
              ∧ (c_char_at (f 3) month.2 ≠ 0 ∨ month.1 < 1 ∨ month.1 > 12) then
            .invalid "Invalid month"
          else
            let year := strtoul K.ulong_max (f 4) 10
            if c_char_at (f 4) 0 ≠ 0
                ∧ (c_char_at (f 4) year.2 ≠ 0 ∨ year.1 < 1990 ∨ year.1 > 2089) then
              .invalid "Invalid year"
            else
              let has_hours : Bool :=
                decide (¬ fields_nb ≤ 5) && decide (c_char_at (f 5) 0 ≠ 0)
              let zone_hours := strtol (f 5) 10
              if has_hours = true ∧ (c_char_at (f 5) zone_hours.2 ≠ 0
                  ∨ zone_hours.1 < -13 ∨ zone_hours.1 > 13) then
                .invalid "Invalid local zone hours"
              else
                let has_min : Bool :=
                  decide (¬ fields_nb ≤ 6) && decide (c_char_at (f 6) 0 ≠ 0)
                let min := strtoul K.ulong_max (f 6) 10
                if has_min = true
                    ∧ ((strtoul_erange K.ulong_max (f 6) 10 = true ∧ min.1 = 0)
                      ∨ c_char_at (f 6) min.2 ≠ 0 ∨ min.1 > 59) then
                  .invalid "Invalid local zone minutes"
                else
                  .valid {
                    fix_time := fix_time
                    day := if c_char_at (f 2) 0 = 0 then 0 else day.1 % 2 ^ 32
                    month := if c_char_at (f 3) 0 = 0 then 0 else month.1 % 2 ^ 32
                    year := if c_char_at (f 4) 0 = 0 then 0 else year.1 % 2 ^ 32
                    zone_hours := if has_hours then zone_hours.1 else 0
                    zone_minutes := if has_min then min.1 % 2 ^ 32 else 0 }

/-- Embedding of `parse_zda(msg, msg_size, dst, status)`. -/
def parse_zda {M : c_lib} (K : c_num M) (U : nmea_locals M) (msg : List uint8_t)
    (msg_size : Nat) (status : gps_msg_status_t M) :
    Option (Option nmea_gpzda_t × gps_msg_status_t M) :=
  if ¬ (msg_size ≤ NMEA_MAX) then none
  else
    match split_nmea_str msg msg_size U.fields 8 U.buf with
    | none => none
    | some (buf, fields, fields_nb) =>
      parse_finish status msg msg_size (parse_zda_fields K U buf fields fields_nb)

/-- The body of `parse_gst` after `split_nmea_str`. -/
def parse_gst_fields {M : c_lib} (K : c_num M) (U : nmea_locals M)
    (buf fields : List Nat) (fields_nb : Nat) : parse_t (nmea_gpgst_t M) :=
  let f := nmea_field buf fields
  if fields_nb < 9 then .invalid ("Invalid field count " ++ Nat.repr fields_nb)
  else
    match parse_nmea_fix_time K.ulong_max (f 1) U.gpgst.fix_time with
    | none => .abort
    | some (code, fix_time) =>
      if code ≠ .FIELD_VALID then .invalid "Invalid NMEA fix time"
      else
        let range_rms := parse_float K (f 2) U.gpgst.range_rms
        if ¬ (range_rms.1 = true) then .invalid "Invalid RMS deviation"
        else
          let std_major := parse_float K (f 3) U.gpgst.std_major
          if ¬ (std_major.1 = true) then .invalid "Invalid Semi-major deviation"
          else
            let std_minor := parse_float K (f 4) U.gpgst.std_minor
            if ¬ (std_minor.1 = true) then .invalid "Invalid Semi-minor deviation"
            else
              let orient := parse_float K (f 5) U.gpgst.orient
              if ¬ (orient.1 = true) then .invalid "Invalid Semi-major orientation"
              else
                let std_lat := parse_float K (f 6) U.gpgst.std_lat
                if ¬ (std_lat.1 = true) then .invalid "Invalid Latitude error"
                else
                  let std_lon := parse_float K (f 7) U.gpgst.std_lon
                  if ¬ (std_lon.1 = true) then .invalid "Invalid Longitude error"
                  else
                    let std_alt := parse_float K (f 8) U.gpgst.std_alt
                    if ¬ (std_alt.1 = true) then .invalid "Invalid altitude error"
                    else
                      .valid {
                        fix_time := fix_time
                        range_rms := range_rms.2.1
                        std_major := std_major.2.1
                        std_minor := std_minor.2.1
                        orient := orient.2.1
                        std_lat := std_lat.2.1
                        std_lon := std_lon.2.1
                        std_alt := std_alt.2.1
                        has_range_rms := range_rms.2.2
                        has_std_major := std_major.2.2
                        has_std_minor := std_minor.2.2
                        has_orient := orient.2.2
                        has_std_lat := std_lat.2.2
                        has_std_lon := std_lon.2.2
                        has_std_alt := std_alt.2.2 }

/-- Embedding of `parse_gst(msg, msg_size, dst, status)`. -/
def parse_gst {M : c_lib} (K : c_num M) (U : nmea_locals M) (msg : List uint8_t)
    (msg_size : Nat) (status : gps_msg_status_t M) :
    Option (Option (nmea_gpgst_t M) × gps_msg_status_t M) :=
  if ¬ (msg_size ≤ NMEA_MAX) then none
  else
    match split_nmea_str msg msg_size U.fields 9 U.buf with
    | none => none
    | some (buf, fields, fields_nb) =>
      parse_finish status msg msg_size (parse_gst_fields K U buf fields fields_nb)

/-- The seven parsers of nmea.c as a family for `put_nmea_msg`. -/
def c_parsers {M : c_lib} (K : c_num M) (U : nmea_locals M) : nmea_parsers M where
  parse_gga := parse_gga K U
  parse_rmc := parse_rmc K U
  parse_gll := parse_gll K U
  parse_gst := parse_gst K U
  parse_gsa := parse_gsa K U
  parse_vtg := parse_vtg K U
  parse_zda := parse_zda K U

/-! ## sirf.c: `put_sirf_msg` -/

/-- Embedding of `get4u` applied to `&buf[off]`: the big-endian `uint32_t`
`(buf[0] << 24) | (buf[1] << 16) | (buf[2] << 8) | buf[3]`. -/
def get4u (buf : List uint8_t) (off : Nat) : Option Nat :=
  match rd buf off, rd buf (off + 1), rd buf (off + 2), rd buf (off + 3) with
  | some b0, some b1, some b2, some b3 =>
    some (((b0 <<< 24) ||| (b1 <<< 16) ||| (b2 <<< 8) ||| b3) % 2 ^ 32)
  | _, _, _, _ => none

/-- Embedding of `get4s` applied to `&buf[off]`: `(int32_t)get4u(buf)`. -/
def get4s (buf : List uint8_t) (off : Nat) : Option Int :=
  match get4u buf off with
  | some u => some (to_int u)
  | none => none

/-- The bytes and fields which `parse_tracker_data` reads behind the test of
the payload size, in the order of the source; `none` when one of them is
behind the buffer. -/
structure tracker_fields where
  nav_type : Nat
  year : Nat
  month : Nat
  day : Nat
  hour : Nat
  minute : Nat
  mss : Nat
  latitude : Int
  longitude : Int
  altitude : Int
  speed : Nat
  bearing : Nat
  accuracy : Nat
  satellites : Nat
  deriving DecidableEq, Repr

/-- The reads of `parse_tracker_data`: `get2u(&msg[7])`, `get2u(&msg[15])`,
`msg[17]` to `msg[20]`, `get2u(&msg[21])`, `get4s(&msg[27])`,
`get4s(&msg[31])`, `get4s(&msg[39])`, `get2u(&msg[44])`, `get2u(&msg[46])`,
`get4u(&msg[54])`, `msg[92]`. -/
def read_tracker_fields (msg : List uint8_t) : Option tracker_fields :=
  match get2u msg 7, get2u msg 15, rd msg 17, rd msg 18, rd msg 19, rd msg 20, get2u msg 21,
      get4s msg 27, get4s msg 31, get4s msg 39, get2u msg 44, get2u msg 46, get4u msg 54,
      rd msg 92 with
  | some nav, some year, some month, some day, some hour, some minute, some mss,
      some lat, some lon, some alt, some speed, some bearing, some acc, some sat =>
    some { nav_type := nav, year := year, month := month, day := day, hour := hour,
           minute := minute, mss := mss, latitude := lat, longitude := lon, altitude := alt,
           speed := speed, bearing := bearing, accuracy := acc, satellites := sat }
  | _, _, _, _, _, _, _, _, _, _, _, _, _, _ => none

/-- Embedding of `parse_tracker_data(msg, msg_size, status)`: `*status` after
the call, `none` when a byte behind the buffer is read.  `now` is the
broken-down UTC time which `time` and `gmtime_r` deliver.  On a wrong payload
size only `err` and `is_valid` are written. -/
def parse_tracker_data {M : c_lib} (K : c_num M) (now : tm) (msg : List uint8_t)
    (status : gps_msg_status_t M) : Option (gps_msg_status_t M) :=
  match get2u msg 2 with
  | none => none
  | some payload_size =>
    if payload_size ≠ 91 then
      some { status with
        err := c_snprintf 200 ("Wrong SiRF MID41 payload size " ++ Nat.repr payload_size)
        is_valid := false }
    else
      match read_tracker_fields msg with
      | none => none
      | some r =>
        let nav_type : Nat := r.nav_type &&& 0x07
        let mss : Nat := r.mss
        some { status with
          location := {
            is_valid := decide (nav_type ≠ 0)
            time := 1000 * M.timegm64 ((mss / 1000 : Nat) : Int) (r.minute : Int)
                (r.hour : Int) (r.day : Int) ((r.month : Int) - 1) ((r.year : Int) - 1900)
                now.tm_wday now.tm_yday now.tm_isdst + ((mss % 1000 : Nat) : Int)
            latitude := K.d_mul (K.d_const 1 (-7)) (K.d_of_int r.latitude)
            longitude := K.d_mul (K.d_const 1 (-7)) (K.d_of_int r.longitude)
            has_altitude := true
            altitude := K.d_mul (K.d_const 1 (-2)) (K.d_of_int r.altitude)
            has_speed := true
            speed := K.f_of_d (K.d_mul (K.d_const 1 (-2)) (K.d_of_int (r.speed : Int)))
            has_bearing := true
            bearing := K.f_of_d (K.d_mul (K.d_const 1 (-2)) (K.d_of_int (r.bearing : Int)))
            has_accuracy := true
            accuracy := K.f_of_d (K.d_mul (K.d_const 1 (-2)) (K.d_of_int (r.accuracy : Int)))
            satellites := (r.satellites : Int) }
          is_valid := true
          location_changed := true
          err := "" }

/-- Embedding of `put_sirf_msg(ctx, msg, msg_size, status)`: the returned
`bool` and `*status` after the call.  `*ctx` holds the pointer to the counters
only and is not part of the embedding; the two assertions at the entry,
`1 < msg_size ≤ SIRF_MAX` and `looks_like_sirf(msg, msg_size) == msg_size`, are
preconditions. -/
def put_sirf_msg {M : c_lib} (K : c_num M) (now : tm) (msg : List uint8_t)
    (status : gps_msg_status_t M) : Option (Bool × gps_msg_status_t M) :=
  match rd msg 4 with
  | none => none
  | some mid =>
    if mid = 41 then
      match parse_tracker_data K now msg status with
      | none => none
      | some status1 => some (status1.is_valid, status1)
    else
      some (true, { status with is_valid := true, location_changed := false, err := "" })

/-! ## usbconverter.c: `handle_msg` -/

/-- Embedding of `handle_msg(env, this, reader, msg, metadata)` on the parser
state `reader->nmea`: the state after the call and the local variable `result`
at the end, whose member `is_valid` is returned and whose `location` is
reported when `location_changed` is set; `none` when the function does not
return (a failed assertion, a read behind the buffer).  `result` is the content
of the local variable before it is written.  The logger, the callback and the
counters are not part of the embedding; `metadata->type` takes the three values
of the enumeration. -/
def handle_msg {M : c_lib} (P : nmea_parsers M) (K : c_num M) (now : tm)
    (nmea : nmea_parser_t M) (msg : List uint8_t) (metadata : gps_msg_metadata_t)
    (result : gps_msg_status_t M) : Option (nmea_parser_t M × gps_msg_status_t M) :=
  match metadata.type with
  | .MSG_TYPE_NMEA =>
    match put_nmea_msg P nmea msg metadata.size result with
    | none => none
    | some r => some (r.2.1, r.2.2)
  | .MSG_TYPE_SIRF =>
    match put_sirf_msg K now msg result with
    | none => none
    | some r => some (nmea, r.2)
  | .MSG_TYPE_UBLOX =>
    if ¬ (metadata.size > 8) then none
    else
      match rd msg 0 with
      | none => none
      | some b0 =>
        if ¬ (b0 = 0xb5) then none
        else some (nmea, { result with is_valid := true, location_changed := false, err := "" })

/-! ## usbreader.c: the shared buffer -/

/-- The constant `#define USB_READER_BUF_SIZE 8192`. -/
def USB_READER_BUF_SIZE : Nat := 8192

/-- The constant `#define USB_IOCTL_WATERMARK 64`. -/
def USB_IOCTL_WATERMARK : Nat := 64

/-- The errno.h constant `ETIMEDOUT` (110 on Linux). -/
def ETIMEDOUT : Int := 110

/-- Embedding of `struct usb_reader_thread_ctx_t`: the members which `share`,
`usb_read` and the loop of `usb_reader_thread` read or write under the mutex. -/
structure usb_reader_thread_ctx_t where
  max_pkt_size : Int
  fast_cycle : Bool
  is_running : Bool
  last_event_errno : Int
  shared_rxbuf_pos : Nat
  shared_rxbuf : List uint8_t
  deriving DecidableEq, Repr

/-- The effect of `memcpy(&dst[off], src, n)` and of `memmove` on the array
`dst`; `none` when the copy leaves one of the arrays. -/
def c_memcpy (dst : List uint8_t) (off : Nat) (src : List uint8_t) (n : Nat) :
    Option (List uint8_t) :=
  if off + n ≤ dst.length ∧ n ≤ src.length then
    some (dst.take off ++ src.take n ++ dst.drop (off + n))
  else none

/-- Embedding of `share(ctx, buf, rxbuf_pos)`: the returned `unsigned`, `*ctx`
and the array `buf` after the call; `none` when a copy leaves an array.  The
types `unsigned` and `size_t` have 32 bits. -/
def share (ctx : usb_reader_thread_ctx_t) (buf : List uint8_t) (rxbuf_pos : Nat) :
    Option (Nat × usb_reader_thread_ctx_t × List uint8_t) :=
  if rxbuf_pos = 0 then some (0, ctx, buf)
  else
    let room : Nat := wrap_uint ((USB_READER_BUF_SIZE : Int) - (ctx.shared_rxbuf_pos : Int))
    let moved_bytes : Nat := if rxbuf_pos < room then rxbuf_pos else room
    match (if moved_bytes > 0 then
        (c_memcpy ctx.shared_rxbuf ctx.shared_rxbuf_pos buf moved_bytes).map
          (fun shared => { ctx with
            shared_rxbuf := shared
            shared_rxbuf_pos := (ctx.shared_rxbuf_pos + moved_bytes) % 2 ^ 32 })
      else some ctx) with
    | none => none
    | some ctx1 =>
      match (if rxbuf_pos ≠ moved_bytes ∧ moved_bytes > 0 then
          c_memcpy buf 0 (buf.drop moved_bytes) (rxbuf_pos - moved_bytes)
        else some buf) with
      | none => none
      | some buf1 => some (rxbuf_pos - moved_bytes, ctx1, buf1)

/-- Embedding of `usb_read(ctx, dst, dst_size, timeout)`: the returned
`ssize_t`, the value stored in `errno` if one is stored, `*ctx` and the array
`dst` after the call; `none` when a copy leaves an array.  `wait` is the
outcome of `pthread_cond_timedwait_relative_np`, which releases the mutex:
`none` for a return value other than 0, else `*ctx` as the other threads have
left it when the wait returns 0. -/
def usb_read (ctx : usb_reader_thread_ctx_t) (dst : List uint8_t) (dst_size : Nat)
    (wait : Option usb_reader_thread_ctx_t) :
    Option (Int × Option Int × usb_reader_thread_ctx_t × List uint8_t) :=
  if ctx.shared_rxbuf_pos = 0 ∧ ¬ (ctx.is_running = true) then
    some (-1, some ctx.last_event_errno, ctx, dst)
  else
    match (if ctx.shared_rxbuf_pos = 0 then wait else some ctx) with
    | none =>
      some (-1, some (if ¬ (ctx.is_running = true) then ctx.last_event_errno else ETIMEDOUT),
        ctx, dst)
    | some ctx1 =>
      if dst_size = 0 then some (0, none, ctx1, dst)
      else
        let bytes_read : Nat :=
          if dst_size < ctx1.shared_rxbuf_pos then dst_size else ctx1.shared_rxbuf_pos
        match c_memcpy dst 0 ctx1.shared_rxbuf bytes_read with
        | none => none
        | some dst1 =>
          match (if bytes_read ≠ ctx1.shared_rxbuf_pos then
              c_memcpy ctx1.shared_rxbuf 0 (ctx1.shared_rxbuf.drop bytes_read)
                (ctx1.shared_rxbuf_pos - bytes_read)
            else some ctx1.shared_rxbuf) with
          | none => none
          | some shared =>
            some ((bytes_read : Int), none,
              { ctx1 with
                shared_rxbuf := shared
                shared_rxbuf_pos := ctx1.shared_rxbuf_pos - bytes_read },
              dst1)

/-- The branch `rcvd > 0` of the loop of `usb_reader_thread`, after the
transport has stored `rcvd` bytes at `rx_buf[rxbuf_pos]`: `*ctx`, `rx_buf` and
`rxbuf_pos` at the end of the iteration; `none` when a copy leaves an array.
`req_len` is the length which was requested. -/
def reader_rcvd_step (ctx : usb_reader_thread_ctx_t) (rx_buf : List uint8_t)
    (rxbuf_pos rcvd req_len : Nat) : Option (usb_reader_thread_ctx_t × List uint8_t × Nat) :=
  let ctx1 := if rcvd ≥ req_len then { ctx with fast_cycle := true } else ctx
  match share ctx1 rx_buf ((rxbuf_pos + rcvd) % 2 ^ 32) with
  | none => none
  | some (left, ctx2, rx_buf1) =>
    if left ≥ USB_READER_BUF_SIZE - USB_IOCTL_WATERMARK then some (ctx2, rx_buf1, 0)
    else some (ctx2, rx_buf1, left)

/-- The bytes held in the shared buffer: the first `shared_rxbuf_pos` entries
of `shared_rxbuf`. -/
def shared_bytes (ctx : usb_reader_thread_ctx_t) : List uint8_t :=
  ctx.shared_rxbuf.take ctx.shared_rxbuf_pos

/-- A step of the producer or of the consumer on the shared buffer: `share` of
the first `n` bytes of a local buffer, or `usb_read` into a destination of
`dst_size` bytes. -/
inductive fifo_op where
  | share (buf : List uint8_t) (n : Nat)
  | usb_read (dst : List uint8_t) (dst_size : Nat)

/-- The state of a run: the shared context, the bytes accepted by `share` so
far (for each call the first `n - r` bytes of its buffer, `r` the returned
value) and the bytes delivered by `usb_read` so far (for each call with a
positive result `k` the first `k` bytes of the destination). -/
structure fifo_run where
  ctx : usb_reader_thread_ctx_t
  accepted : List uint8_t
  delivered : List uint8_t

/-- One step of a run.  A `usb_read` on an empty buffer times out. -/
def fifo_step (s : fifo_run) : fifo_op → Option fifo_run
  | .share buf n =>
    match share s.ctx buf n with
    | none => none
    | some (left, ctx1, _) =>
      some { ctx := ctx1, accepted := s.accepted ++ buf.take (n - left), delivered := s.delivered }
  | .usb_read dst dst_size =>
    match usb_read s.ctx dst dst_size none with
    | none => none
    | some (ret, _, ctx1, dst1) =>
      some { ctx := ctx1, accepted := s.accepted,
             delivered := s.delivered ++ dst1.take ret.toNat }

/-- A run of steps from a state; `none` when a step leaves an array. -/
def fifo_steps : List fifo_op → fifo_run → Option fifo_run
  | [], s => some s
  | op :: ops, s =>
    match fifo_step s op with
    | none => none
    | some s1 => fifo_steps ops s1

/-- What a step requires of its arguments: `share` gets at most as many bytes
as its buffer holds, `usb_read` a destination of at least `dst_size` bytes. -/
def fifo_op_ok : fifo_op → Prop
  | .share buf n => n ≤ buf.length ∧ n < 2 ^ 32
  | .usb_read dst dst_size => dst_size ≤ dst.length

/-! ## An exact interpretation of the numeric operations

In this interpretation `double` and `float` are the rational numbers and the
arithmetic is exact; a decimal text is read to the number it denotes. -/

/-- The number of days from 1970-01-01 to the day `y`-`m`-`d` of the
proleptic Gregorian calendar, `1 ≤ m ≤ 12`. -/
def days_from_civil (y m d : Int) : Int :=
  let y1 := if m ≤ 2 then y - 1 else y
  let era := y1 / 400
  let yoe := y1 - era * 400
  let doy := (153 * ((m + 9) % 12) + 2) / 5 + d - 1
  let doe := yoe * 365 + yoe / 4 - yoe / 100 + doy
  era * 146097 + doe - 719468

/-- The seconds from the epoch to a broken-down UTC time, members out of
their range included. -/
def timegm_exact (tm_sec tm_min tm_hour tm_mday tm_mon tm_year : Int) : Int :=
  (((days_from_civil (tm_year + 1900 + tm_mon / 12) (tm_mon % 12 + 1) 1 + (tm_mday - 1)) * 24
    + tm_hour) * 60 + tm_min) * 60 + tm_sec

/-- The platform with `double` and `float` read as rational numbers.  The
square root in `hypotf` is rounded down to six decimal places. -/
def c_lib_rat : c_lib where
  double := ℚ
  float := ℚ
  double_zero := 0
  float_zero := 0
  kmph_to_mps := fun x => x * (1000 / 3600)
  hypotf := fun a b => ((Nat.sqrt (a * a * 10 ^ 12 + b * b * 10 ^ 12).floor.toNat : Nat) : ℚ) / 10 ^ 6
  timegm64 := fun tm_sec tm_min tm_hour tm_mday tm_mon tm_year _ _ _ =>
    timegm_exact tm_sec tm_min tm_hour tm_mday tm_mon tm_year

/-- The number denoted by a decimal text: an optional sign, digits, and
optionally a point with further digits; with it the number of characters read
(0 when there is no digit). -/
def read_decimal (s : List Nat) : ℚ × Nat :=
  let sg : Nat := match s with
    | c :: _ => if c = 0x2d ∨ c = 0x2b then 1 else 0
    | [] => 0
  let neg : Bool := match s with
    | c :: _ => decide (c = 0x2d)
    | [] => false
  let ip := (s.drop sg).takeWhile (is_digit_of 10)
  let fp : List Nat := match (s.drop sg).drop ip.length with
    | c :: t => if c = 0x2e then t.takeWhile (is_digit_of 10) else []
    | [] => []
  let has_point : Nat := match (s.drop sg).drop ip.length with
    | c :: _ => if c = 0x2e then 1 else 0
    | [] => 0
  let magnitude : ℚ := (dec_value (ip ++ fp) : ℚ) / ((10 ^ fp.length : Nat) : ℚ)
  if ip.length + fp.length = 0 then (0, 0)
  else (if neg then - magnitude else magnitude, sg + ip.length + has_point + fp.length)

/-- The numeric operations with exact rational arithmetic, for a 32-bit
`long`; `strtod` and `strtof` read decimal texts without an exponent and
report no error. -/
def c_num_rat : c_num c_lib_rat where
  ulong_max := 4294967295
  long_max := 2147483647
  strtod := fun s => ((read_decimal s).1, (read_decimal s).2, false)
  strtof := fun s => ((read_decimal s).1, (read_decimal s).2, false)
  d_const := fun m e => (m : ℚ) * (10 : ℚ) ^ e
  d_of_int := fun v => (v : ℚ)
  d_add := fun (x y : ℚ) => x + y
  d_mul := fun (x y : ℚ) => x * y
  d_div := fun (x y : ℚ) => x / y
  d_modf := fun (x : ℚ) => (x - ((x.num.tdiv x.den : Int) : ℚ), ((x.num.tdiv x.den : Int) : ℚ))
  d_le := fun (x y : ℚ) => decide (x ≤ y)
  f_of_d := fun (x : ℚ) => x
  d_of_f := fun (x : ℚ) => x

/-- Local variables with every member zero. -/
def zero_locals (M : c_lib) : nmea_locals M where
  buf := fun _ => 0
  fields := fun _ => 0
  buf_addr := 0
  gpgga := (zero_parser_ctx M).fix.gpgga
  gprmc := (zero_parser_ctx M).fix.gprmc
  gpgll := (zero_parser_ctx M).fix.gpgll
  gpvtg := (zero_parser_ctx M).gpvtg
  gpgsa := (zero_parser_ctx M).gpgsa
  gpzda := (zero_parser_ctx M).fix.gpzda
  gpgst := (zero_parser_ctx M).fix.gpgst

/-- The GGA sentence of the fix assembly example. -/
def example_gga : List uint8_t :=
  text_bytes "$GPGGA,123519,4807.038,N,01131.000,E,1,08,0.9,545.4,M,46.9,M,,*47\r\n"

/-- The RMC sentence of the fix assembly example. -/
def example_rmc : List uint8_t :=
  text_bytes "$GPRMC,123519,A,4807.038,N,01131.000,E,022.4,084.4,230394,003.1,W*6A\r\n"

/-- A GGA sentence of the next second, which closes the window of the fix
assembly example. -/
def example_gga_next : List uint8_t :=
  text_bytes "$GPGGA,123520,4807.038,N,01131.000,E,1,08,0.9,545.4,M,46.9,M,,*4D\r\n"

/-- A GSA sentence: fix type 3, five satellites. -/
def example_gsa : List uint8_t :=
  text_bytes "$GPGSA,A,3,04,05,,09,12,,,24,,,,,2.5,1.3,2.1*39\r\n"

/-- A ZDA sentence: time 123520.00, 23 March 1994, zone 00:00. -/
def example_zda : List uint8_t :=
  text_bytes "$GPZDA,123520.00,23,03,1994,00,00*66\r\n"

/-- A GLL sentence with a position, the time 123519 and the status `A`. -/
def example_gll : List uint8_t :=
  text_bytes "$GPGLL,4807.038,N,01131.000,E,123519,A*25\r\n"

/-- A VTG sentence: course and speed over ground. -/
def example_vtg : List uint8_t :=
  text_bytes "$GPVTG,054.7,T,034.4,M,005.5,N,010.2,K*48\r\n"

/-- Local variables which are zero but for the member `fix_time` of the local
GLL record, which holds `t`. -/
def locals_gll_time (M : c_lib) (t : nmea_fix_time_t) : nmea_locals M :=
  { zero_locals M with gpgll := { (zero_locals M).gpgll with fix_time := t } }

/-- Local variables which are zero but for the array `prn` of the local GSA
record, whose 12 entries hold `p`. -/
def locals_gsa_prn (M : c_lib) (p : Nat) : nmea_locals M :=
  { zero_locals M with gpgsa := { (zero_locals M).gpgsa with prn := List.replicate 12 p } }

/-- A parser state with an open window at the fix time `t` which holds an
active GGA record of quality 1 with a position. -/
def open_window_gga (t : nmea_fix_time_t) : nmea_parser_t c_lib_rat :=
  { with_gga (zero_parser_ctx c_lib_rat) 1 (48 : ℚ) (11 : ℚ) with
    fix := { (with_gga (zero_parser_ctx c_lib_rat) 1 (48 : ℚ) (11 : ℚ)).fix with
      fix_time := t
      is_closed := false } }

/-! ## Further states and notions for the statements -/

/-- The number of non-zero entries among the 12 PRN slots. -/
def nonzero_prn (prn : List Nat) : Nat :=
  ((List.range 12).filter (fun i => decide (prn.getD i 0 ≠ 0))).length

/-- A window with an active RMC record, status active, of the given position. -/
def with_rmc {M : c_lib} (ctx : nmea_parser_t M) (lat lon : M.double) : nmea_parser_t M :=
  { ctx with fix := { ctx.fix with
      gprmc_active := true
      gprmc := { ctx.fix.gprmc with
        status_active := true
        latitude := lat
        longitude := lon
        has_latitude := true
        has_longitude := true } } }

/-- A window with an active GGA record of the given quality which has an
altitude and a satellite count and neither latitude nor longitude. -/
def with_gga_no_position {M : c_lib} (ctx : nmea_parser_t M) (fix_quality : Nat)
    (altitude : M.double) (sattelites_nb : Int) : nmea_parser_t M :=
  { ctx with fix := { ctx.fix with
      gpgga_active := true
      gpgga := { ctx.fix.gpgga with
        fix_quality := fix_quality
        altitude := altitude
        sattelites_nb := sattelites_nb
        has_latitude := false
        has_longitude := false
        has_altitude := true
        has_sattelites_nb := true } } }

/-- A SiRF frame with message id 41 and a payload of 91 bytes: the 16-bit
fields of the payload bytes 1-2 and 3-4 are given, the other bytes are zero. -/
def tracker_frame (bytes_1_2 bytes_3_4 : Nat) : List uint8_t :=
  sirf_frame ([41, byte (bytes_1_2 / 256), byte (bytes_1_2 % 256),
    byte (bytes_3_4 / 256), byte (bytes_3_4 % 256)] ++ List.replicate 86 0)

/-- The broken-down time 1970-01-01 00:00:00, a Thursday. -/
def epoch_tm : tm := ⟨0, 0, 0, 1, 0, 70, 4, 0, 0⟩

/-- The representation invariant of the shared buffer, with the conservation
law of a run: the array has its 8192 entries, the fill level is within it, and
the bytes delivered followed by the bytes held are the bytes accepted. -/
def fifo_inv (s : fifo_run) : Prop :=
  s.ctx.shared_rxbuf.length = USB_READER_BUF_SIZE ∧
  s.ctx.shared_rxbuf_pos ≤ USB_READER_BUF_SIZE ∧
  s.delivered ++ shared_bytes s.ctx = s.accepted

/-- A reader context whose shared buffer holds `pos` bytes, all of value `b`,
with the thread running. -/
def filled_ctx (pos : Nat) (b : uint8_t) : usb_reader_thread_ctx_t where
  max_pkt_size := 64
  fast_cycle := false
  is_running := true
  last_event_errno := 0
  shared_rxbuf_pos := pos
  shared_rxbuf := List.replicate USB_READER_BUF_SIZE b


/-- A parser state whose wall-clock time is that of `epoch_tm`, with nothing
active in the window. -/
def epoch_ctx (M : c_lib) : nmea_parser_t M :=
  { zero_parser_ctx M with time_full := epoch_tm }

/-- A window with an active ZDA record of the given date and a time zone of
zero hours and zero minutes. -/
def with_zda_date {M : c_lib} (ctx : nmea_parser_t M) (day month year : Nat) :
    nmea_parser_t M :=
  { ctx with fix := { ctx.fix with
      gpzda_active := true
      gpzda := { ctx.fix.gpzda with
        day := day
        month := month
        year := year
        zone_hours := 0
        zone_minutes := 0 } } }

/-- A window with an active RMC record whose date field is `ddmmyy`. -/
def with_rmc_date {M : c_lib} (ctx : nmea_parser_t M) (ddmmyy : Nat) : nmea_parser_t M :=
  { ctx with fix := { ctx.fix with
      gprmc_active := true
      gprmc := { ctx.fix.gprmc with
        ddmmyy := ddmmyy
        has_ddmmyy := true } } }

/-! ## The binary floating-point interpretation of the numeric operations

In this interpretation a `double` is a number of the IEEE 754 format binary64
and a `float` one of binary32, each carried as the rational number it is;
every operation yields the exact result rounded to the nearest number of the
format, ties to even.  There are no infinities and no NaN: an operation whose
rounded result lies beyond the largest finite number of the format is outside
this interpretation, as is a text which `strtod` reads as an infinity, as a NaN
or in hexadecimal. -/

/-- The power `2 ^ k` for an integer `k`. -/
def two_pow (k : Int) : ℚ :=
  if 0 ≤ k then ((2 ^ k.toNat : Nat) : ℚ) else 1 / ((2 ^ (-k).toNat : Nat) : ℚ)

/-- The halving loop of `floor_log2`. -/
def floor_log2_loop : Nat → Nat → Nat
  | 0, _ => 0
  | fuel + 1, n => if n < 2 then 0 else floor_log2_loop fuel (n / 2) + 1

/-- The number `k` with `2 ^ k ≤ n < 2 ^ (k + 1)`, for `n > 0`. -/
def floor_log2 (n : Nat) : Nat := floor_log2_loop n n

/-- The integer `e` with `2 ^ e ≤ x < 2 ^ (e + 1)`, for `x > 0`. -/
def binary_exponent (x : ℚ) : Int :=
  let e0 : Int := (floor_log2 x.num.toNat : Int) - (floor_log2 x.den : Int)
  if two_pow e0 ≤ x then e0 else e0 - 1

/-- The integer nearest to `t ≥ 0`, the even one of two which are equally near. -/
def round_half_even (t : ℚ) : Int :=
  let f : Int := t.num / t.den
  let r : ℚ := t - (f : ℚ)
  if r < 1 / 2 then f
  else if 1 / 2 < r then f + 1
  else if f % 2 = 0 then f else f + 1

/-- The number nearest to `x`, ties to even, among the binary floating-point
numbers with `p` significant bits and least normal exponent `emin`, the
subnormal numbers included; the exponent is not bounded above. -/
def round_to_format (p : Nat) (emin : Int) (x : ℚ) : ℚ :=
  if x = 0 then 0
  else
    let a : ℚ := if x < 0 then - x else x
    let e : Int := if binary_exponent a < emin then emin else binary_exponent a
    let ulp : ℚ := two_pow (e - ((p : Int) - 1))
    let m : Int := round_half_even (a / ulp)
    if x < 0 then - ((m : ℚ) * ulp) else (m : ℚ) * ulp

/-- Rounding to binary64. -/
def round_double (x : ℚ) : ℚ := round_to_format 53 (-1022) x

/-- Rounding to binary32. -/
def round_float (x : ℚ) : ℚ := round_to_format 24 (-126) x

/-- The text of a decimal floating-point number as `strtod` and `strtof` read
it: white space, an optional sign, digits with an optional point, and an
optional exponent (`e` or `E`, an optional sign, digits).  The result is the
number denoted and the number of characters read, 0 when there is no digit in
the mantissa. -/
def read_decimal_text (s : List Nat) : ℚ × Nat :=
  let ws := (s.takeWhile isspace).length
  let s1 := s.drop ws
  let m := read_decimal s1
  let s2 := s1.drop m.2
  let has_e : Bool := match s2 with
    | c :: _ => decide (c = 0x65 ∨ c = 0x45)
    | [] => false
  let s3 := s2.drop 1
  let esg : Nat := match s3 with
    | c :: _ => if c = 0x2d ∨ c = 0x2b then 1 else 0
    | [] => 0
  let eneg : Bool := match s3 with
    | c :: _ => decide (c = 0x2d)
    | [] => false
  let ed := (s3.drop esg).takeWhile (is_digit_of 10)
  if m.2 = 0 then (0, 0)
  else if has_e = true ∧ ed.length ≠ 0 then
    (if eneg then m.1 / ((10 ^ dec_value ed : Nat) : ℚ)
      else m.1 * ((10 ^ dec_value ed : Nat) : ℚ),
     ws + m.2 + 1 + esg + ed.length)
  else (m.1, ws + m.2)

/-- The triple which `c_num` asks of `strtod` and `strtof`, for the format
with `p` significant bits and the exponents `emin` to `emax`: the rounded
value, the number of characters read and the error condition of nmea.c, which
holds when the value overflows (`ERANGE` with `HUGE_VAL`) or when a number
other than zero is rounded to zero (`ERANGE` with 0). -/
def strto_format (p : Nat) (emin emax : Int) (s : List Nat) : ℚ × Nat × Bool :=
  let t := read_decimal_text s
  let v := round_to_format p emin t.1
  (v, t.2, decide (two_pow (emax + 1) ≤ v ∨ v ≤ - two_pow (emax + 1))
    || (decide (t.1 ≠ 0) && decide (v = 0)))

/-- The square root of `x ≥ 0` rounded to binary32. -/
def sqrt_float (x : ℚ) : ℚ :=
  let k : Nat := 64 + floor_log2 x.den
  let scaled : ℚ := x * ((4 ^ k : Nat) : ℚ)
  let n : Nat := (scaled.num / scaled.den).toNat
  let root : Nat := Nat.sqrt n
  let inexact : Nat := if ((root * root : Nat) : ℚ) = scaled then 0 else 1
  round_float (((2 * root + inexact : Nat) : ℚ) / ((2 ^ (k + 1) : Nat) : ℚ))

/-- The platform with binary64 for `double` and binary32 for `float`. -/
def c_lib_ieee : c_lib where
  double := ℚ
  float := ℚ
  double_zero := 0
  float_zero := 0
  kmph_to_mps := fun x => round_float (round_double (x * round_double (1000 / 3600)))
  hypotf := fun a b => sqrt_float (a * a + b * b)
  timegm64 := fun tm_sec tm_min tm_hour tm_mday tm_mon tm_year _ _ _ =>
    timegm_exact tm_sec tm_min tm_hour tm_mday tm_mon tm_year

/-- The numeric operations in binary floating-point arithmetic, for a 32-bit
`long`. -/
def c_num_ieee : c_num c_lib_ieee where
  ulong_max := 4294967295
  long_max := 2147483647
  strtod := fun s => strto_format 53 (-1022) 1023 s
  strtof := fun s => strto_format 24 (-126) 127 s
  d_const := fun m e => round_double ((m : ℚ) * (10 : ℚ) ^ e)
  d_of_int := fun v => round_double (v : ℚ)
  d_add := fun (x y : ℚ) => round_double (x + y)
  d_mul := fun (x y : ℚ) => round_double (x * y)
  d_div := fun (x y : ℚ) => round_double (x / y)
  d_modf := fun (x : ℚ) => (x - ((x.num.tdiv x.den : Int) : ℚ), ((x.num.tdiv x.den : Int) : ℚ))
  d_le := fun (x y : ℚ) => decide (x ≤ y)
  f_of_d := fun (x : ℚ) => round_float x
  d_of_f := fun (x : ℚ) => x

/-- The value which `parse_nmea_degrees` stores for a field read as the number
`res`, without reversal of the direction: `1.0 * (degrees + minutes / 60.0)`
with `minutes = 100.0 * modf(res / 100.0, &degrees)`, in the arithmetic of the
platform. -/
def degrees_minutes {M : c_lib} (K : c_num M) (res : M.double) : M.double :=
  let parts := K.d_modf (K.d_div res (K.d_const 100 0))
  let degrees := parts.2
  let minutes := K.d_mul (K.d_const 100 0) parts.1
  K.d_mul (K.d_const 1 0) (K.d_add degrees (K.d_div minutes (K.d_const 60 0)))

/-- A text which `conv`, the `strtod` or the `strtof` of the platform, reads to
its end without the error condition of nmea.c. -/
def reads_to_end {α : Type} (conv : List Nat → α × Nat × Bool) (s : List Nat) : Prop :=
  (conv s).2 = (s.length, false)

instance {α : Type} (conv : List Nat → α × Nat × Bool) (s : List Nat) :
    Decidable (reads_to_end conv s) := by
  unfold reads_to_end
  exact inferInstance

/-! ## usbconverter.c: `handle_rcvd` -/

/-- The part of `struct native_ctx_t` which `handle_rcvd` works on: the
assembly buffer `stream.rx_buf` of `USB_READER_BUF_SIZE` bytes, `stream.rxbuf_pos`,
the counter `stats.rcvd.junk` (an `unsigned long long`), and `reader`, the state
which `handle_msg` works on.  The other counters, the time stamps and the lock
are not part of the embedding. -/
structure rcvd_state (σ : Type) where
  rx_buf : List uint8_t
  rxbuf_pos : Nat
  junk : Nat
  reader : σ

/-- The local variables of `handle_rcvd` at the head of its loop. -/
structure rcvd_vars where
  pred_msg_pos : Int
  pred_msg_len : Int
  msg_pos : Int
  msg : gps_msg_metadata_t
  deriving DecidableEq, Repr

/-- How an iteration of the loop of `handle_rcvd` ends: the loop is left (a
`break`), or the next iteration is entered with new values of the local
variables. -/
inductive rcvd_step_t (σ : Type) where
  | done (s : rcvd_state σ)
  | next (v : rcvd_vars) (s : rcvd_state σ)

/-- The statement `stats.rcvd.junk += d` for an `int` or `unsigned` value `d`:
the sum in `unsigned long long`. -/
def add_junk (junk : Nat) (d : Int) : Nat := (((junk : Int) + d) % 2 ^ 64).toNat

/-- One iteration of the loop `for (;;)` of `handle_rcvd`, entered with the
local variables `v`; `handle` stands for `handle_msg`, applied to `reader`, the
pointer `&stream->rx_buf[msg_pos]` and `msg`, with `none` when it does not
return.  `none` when the iteration does not end: `handle_msg` does not return,
the assertion fails, `memmove` or `find_msg` leaves the buffer. -/
def handle_rcvd_iter {σ : Type}
    (handle : σ → List uint8_t → gps_msg_metadata_t → Option σ)
    (v : rcvd_vars) (s : rcvd_state σ) : Option (rcvd_step_t σ) :=
  if v.msg_pos < 0 then
    some (.done { s with junk := add_junk s.junk s.rxbuf_pos, rxbuf_pos := 0 })
  else
    let junk1 : Nat :=
      if v.pred_msg_pos + v.pred_msg_len ≠ v.msg_pos then
        add_junk s.junk (v.msg_pos - v.pred_msg_pos - v.pred_msg_len)
      else s.junk
    let s1 := { s with junk := junk1 }
    let after : Option (rcvd_state σ ⊕ (Int × Int × rcvd_state σ)) :=
      if ¬ (v.msg.is_truncated = true) then
        match handle s1.reader (s1.rx_buf.drop v.msg_pos.toNat) v.msg with
        | none => none
        | some reader1 => some (.inr (v.msg_pos, (v.msg.size : Int), { s1 with reader := reader1 }))
      else if v.msg_pos = 0 then
        if s1.rxbuf_pos = USB_READER_BUF_SIZE then
          some (.inr (v.msg_pos + 1, 0, { s1 with junk := add_junk s1.junk 1 }))
        else some (.inl s1)
      else
        match c_memcpy s1.rx_buf 0 (s1.rx_buf.drop v.msg_pos.toNat) v.msg.size with
        | none => none
        | some rx_buf1 => some (.inl { s1 with rx_buf := rx_buf1, rxbuf_pos := v.msg.size })
    match after with
    | none => none
    | some (.inl s2) => some (.done s2)
    | some (.inr (pred_msg_pos, pred_msg_len, s2)) =>
      if pred_msg_pos + pred_msg_len = (s2.rxbuf_pos : Int) then
        some (.done { s2 with rxbuf_pos := 0 })
      else if ¬ (pred_msg_pos + pred_msg_len < (s2.rxbuf_pos : Int)) then none
      else
        match find_msg s2.rx_buf (pred_msg_pos + pred_msg_len).toNat s2.rxbuf_pos v.msg with
        | none => none
        | some (msg_pos, msg) => some (.next ⟨pred_msg_pos, pred_msg_len, msg_pos, msg⟩ s2)

/-- The loop `for (;;)` of `handle_rcvd`; `none` also when the fuel runs out. -/
def handle_rcvd_loop {σ : Type}
    (handle : σ → List uint8_t → gps_msg_metadata_t → Option σ) :
    Nat → rcvd_vars → rcvd_state σ → Option (rcvd_state σ)
  | 0, _, _ => none
  | fuel + 1, v, s =>
    match handle_rcvd_iter handle v s with
    | none => none
    | some (.done s1) => some s1
    | some (.next v1 s1) => handle_rcvd_loop handle fuel v1 s1

/-- Embedding of `handle_rcvd(env, this, reader, rcvd_last)`: the state after
the call; `msg0` is the content of the local variable `msg` before
`find_msg` writes it.  The loop gets `rxbuf_pos + 1` iterations. -/
def handle_rcvd {σ : Type}
    (handle : σ → List uint8_t → gps_msg_metadata_t → Option σ)
    (msg0 : gps_msg_metadata_t) (s : rcvd_state σ) : Option (rcvd_state σ) :=
  if s.rxbuf_pos = 0 then some s
  else
    match find_msg s.rx_buf 0 s.rxbuf_pos msg0 with
    | none => none
    | some (msg_pos, msg) =>
      handle_rcvd_loop handle (s.rxbuf_pos + 1) ⟨0, 0, msg_pos, msg⟩ s

/-- A `handle_msg` which records the messages it is given, in order. -/
def record_msg (seen : List gps_msg_metadata_t) (_msg : List uint8_t)
    (metadata : gps_msg_metadata_t) : Option (List gps_msg_metadata_t) :=
  some (seen ++ [metadata])

/-- The local variables at the head of the loop are as `find_msg` has left
them: the scan offset `pred_msg_pos + pred_msg_len` is inside the filled part
of the buffer, and `msg_pos` and `msg` are the result of `find_msg` from that
offset. -/
def rcvd_vars_ok {σ : Type} (v : rcvd_vars) (s : rcvd_state σ) : Prop :=
  s.rxbuf_pos ≤ s.rx_buf.length ∧
  0 ≤ v.pred_msg_pos ∧ 0 ≤ v.pred_msg_len ∧
  v.pred_msg_pos + v.pred_msg_len < (s.rxbuf_pos : Int) ∧
  ∃ res, find_msg s.rx_buf (v.pred_msg_pos + v.pred_msg_len).toNat s.rxbuf_pos res
    = some (v.msg_pos, v.msg)

/-- The assembly buffer with the bytes `head` at its start, filled up with
zero bytes to `USB_READER_BUF_SIZE`. -/
def rx_buf_of (head : List uint8_t) : List uint8_t :=
  head ++ List.replicate (USB_READER_BUF_SIZE - head.length) 0

/-- The call `handle_msg(env, this, reader, &stream->rx_buf[msg_pos], &msg)` in
the loop of `handle_rcvd`, as a step on the parser state `reader->nmea`: `now`
is the reading of the clock in the SiRF decoder and `result` the content of the
local variable `result` of `handle_msg` before it is written; `none` when
`handle_msg` does not return. -/
def handle_msg_call {M : c_lib} (P : nmea_parsers M) (K : c_num M) (now : tm)
    (result : gps_msg_status_t M) (nmea : nmea_parser_t M) (msg : List uint8_t)
    (metadata : gps_msg_metadata_t) : Option (nmea_parser_t M) :=
  (handle_msg P K now nmea msg metadata result).map (fun r => r.1)
/-! # Lemmas and theorems -/

/-! ## Reading from buffers -/

theorem rd_lt {msg : List uint8_t} {i b : Nat} (h : rd msg i = some b) : b < 256 := by
  unfold rd at h
  split at h
  · simp at h
  · next x _ => simp at h; have := x.isLt; omega

theorem rd_of_lt {msg : List uint8_t} {i : Nat} (h : i < msg.length) :
    rd msg i = some (msg.get ⟨i, h⟩).val := by
  unfold rd
  rw [List.getElem?_eq_getElem h]
  rfl

theorem rd_eq_none {msg : List uint8_t} {i : Nat} (h : msg.length ≤ i) : rd msg i = none := by
  unfold rd
  rw [List.getElem?_eq_none h]

theorem lt_of_rd {msg : List uint8_t} {i b : Nat} (h : rd msg i = some b) : i < msg.length := by
  by_contra hc
  rw [rd_eq_none (by omega)] at h
  simp at h

theorem rd_take {msg : List uint8_t} {i n : Nat} (h : i < n) : rd (msg.take n) i = rd msg i := by
  unfold rd
  rw [List.getElem?_take, if_pos h]

theorem rd_drop (msg : List uint8_t) (k i : Nat) : rd (msg.drop k) i = rd msg (k + i) := by
  unfold rd
  rw [List.getElem?_drop]

theorem rd_append_left {a : List uint8_t} (b : List uint8_t) {i : Nat} (h : i < a.length) :
    rd (a ++ b) i = rd a i := by
  unfold rd
  rw [List.getElem?_append_left h]

theorem rd_append_right (a b : List uint8_t) (i : Nat) :
    rd (a ++ b) (a.length + i) = rd b i := by
  unfold rd
  rw [List.getElem?_append_right (by omega)]
  simp

theorem rd_cons_zero (x : uint8_t) (l : List uint8_t) : rd (x :: l) 0 = some x.val := by
  simp [rd]

theorem rd_cons_succ (x : uint8_t) (l : List uint8_t) (i : Nat) : rd (x :: l) (i + 1) = rd l i := by
  unfold rd
  simp

theorem rd_set_eq {msg : List uint8_t} {k : Nat} (v : uint8_t) (h : k < msg.length) :
    rd (msg.set k v) k = some v.val := by
  unfold rd
  simp [List.getElem?_set, h]

theorem rd_set_ne {msg : List uint8_t} {k i : Nat} (v : uint8_t) (h : i ≠ k) :
    rd (msg.set k v) i = rd msg i := by
  unfold rd
  rw [List.getElem?_set_ne (Ne.symm h)]

theorem rd_congr_take {msg msg2 : List uint8_t} {n i : Nat} (h : msg2.take n = msg.take n)
    (hi : i < n) : rd msg2 i = rd msg i := by
  rw [← rd_take hi, h, rd_take hi]

/-! ## Bit operations on bytes -/

theorem and_ff {b : Nat} (h : b < 256) : b &&& 0xff = b := by
  have := Nat.and_pow_two_sub_one_eq_mod b 8
  simp at this
  rw [this]; omega

theorem and_7fff (x : Nat) : 0x7fff &&& x = x % 32768 := by
  rw [Nat.and_comm]
  have := Nat.and_pow_two_sub_one_eq_mod x 15
  simpa using this

theorem shl8_or {b0 b1 : Nat} (h1 : b1 < 256) : (b0 <<< 8) ||| b1 = b0 * 256 + b1 := by
  have := Nat.mul_add_lt_is_or (show b1 < 2 ^ 8 by simpa using h1) b0
  rw [Nat.shiftLeft_eq, Nat.mul_comm b0 (2 ^ 8), ← this]

theorem ublox_len_eq {m4 m5 : Nat} (h4 : m4 < 256) (h5 : m5 < 256) :
    (m4 &&& 0xff) ||| ((m5 <<< 8) &&& 0xff00) = m5 * 256 + m4 := by
  rw [and_ff h4]
  have h : (m5 <<< 8) &&& 0xff00 = m5 <<< 8 := by
    apply Nat.eq_of_testBit_eq
    intro i
    simp only [Nat.testBit_and, Nat.testBit_shiftLeft]
    by_cases hi : 8 ≤ i
    · by_cases h16 : i < 16
      · have : Nat.testBit 0xff00 i = true := by
          interval_cases i <;> decide
        simp [this]
      · have : Nat.testBit m5 (i - 8) = false := by
          apply Nat.testBit_lt_two_pow
          calc m5 < 256 := h5
            _ = 2 ^ 8 := by norm_num
            _ ≤ 2 ^ (i - 8) := Nat.pow_le_pow_right (by norm_num) (by omega)
        simp [this]
    · simp [hi]
  rw [h, Nat.or_comm, shl8_or h4]

theorem get2u_eq {buf : List uint8_t} {off b0 b1 : Nat} (h0 : rd buf off = some b0)
    (h1 : rd buf (off + 1) = some b1) : get2u buf off = some (b0 * 256 + b1) := by
  unfold get2u
  rw [h0, h1]
  simp only [shl8_or (rd_lt h1)]
  have := rd_lt h0
  have := rd_lt h1
  congr 1
  omega

theorem get2u_some {buf : List uint8_t} {off v : Nat} (h : get2u buf off = some v) :
    ∃ b0 b1, rd buf off = some b0 ∧ rd buf (off + 1) = some b1 ∧ v = b0 * 256 + b1 := by
  cases h0 : rd buf off with
  | none => simp [get2u, h0] at h
  | some b0 =>
    cases h1 : rd buf (off + 1) with
    | none => simp [get2u, h0, h1] at h
    | some b1 =>
      rw [get2u_eq h0 h1] at h
      exact ⟨b0, b1, rfl, rfl, by simpa using h.symm⟩
/-! ## Segments of a buffer -/

theorem seg_zero (msg : List uint8_t) (a : Nat) : seg msg a 0 = [] := by
  simp [seg]

theorem seg_succ {msg : List uint8_t} {a : Nat} (n : Nat) (h : a < msg.length) :
    seg msg a (n + 1) = msg.get ⟨a, h⟩ :: seg msg (a + 1) n := by
  unfold seg
  rw [List.drop_eq_getElem_cons h, List.take_succ_cons]
  rfl

theorem seg_length {msg : List uint8_t} {a n : Nat} (h : a + n ≤ msg.length) :
    (seg msg a n).length = n := by
  simp [seg]; omega

theorem seg_append_mid (pre mid suf : List uint8_t) :
    seg (pre ++ mid ++ suf) pre.length mid.length = mid := by
  simp [seg]

/-! ## SiRF: the checksum loop -/

theorem sirf_csum_loop_eq (msg : List uint8_t) (off n : Nat) (hlen : off + n ≤ msg.length) :
    ∀ (fuel i csum : Nat), n - i ≤ fuel →
      sirf_csum_loop msg off n fuel i csum
        = some ((seg msg (off + i) (n - i)).foldl sirf_step csum) := by
  intro fuel
  induction fuel with
  | zero =>
    intro i csum h
    have : n - i = 0 := by omega
    simp [sirf_csum_loop, this, seg_zero]
  | succ f ih =>
    intro i csum h
    unfold sirf_csum_loop
    by_cases hi : i < n
    · have hlt : off + i < msg.length := by omega
      rw [if_pos hi, rd_of_lt hlt]
      simp only
      rw [ih (i + 1) _ (by omega)]
      have : n - i = (n - (i + 1)) + 1 := by omega
      rw [this, seg_succ _ hlt]
      simp [sirf_step, Nat.add_assoc]
    · have : n - i = 0 := by omega
      simp [hi, this, seg_zero]

theorem sirf_fold_eq (l : List uint8_t) : ∀ (csum : Nat), csum < 32768 →
    l.foldl sirf_step csum = (csum + byte_sum l) % 32768 := by
  induction l with
  | nil => intro csum h; simp [byte_sum]; omega
  | cons b t ih =>
    intro csum h
    simp only [List.foldl_cons]
    have hb := b.isLt
    have hs : sirf_step csum b = (csum + b.val) % 32768 := by
      simp only [sirf_step, and_7fff, and_ff hb]
    rw [hs, ih _ (Nat.mod_lt _ (by norm_num))]
    simp only [byte_sum, List.map_cons, List.sum_cons]
    omega

theorem sirf_csum_eq {msg : List uint8_t} {off n : Nat} (hlen : off + n ≤ msg.length) :
    sirf_csum msg off n = some (byte_sum (seg msg off n) % 32768) := by
  unfold sirf_csum
  rw [sirf_csum_loop_eq msg off n hlen n 0 0 (by omega), sirf_fold_eq _ 0 (by norm_num)]
  simp

/-! ## C1: SiRF round trip -/

theorem sirf_checksum_eq (payload : List uint8_t) :
    sirf_checksum payload = byte_sum payload % 32768 := by
  have h : sirf_checksum payload = payload.foldl sirf_step 0 := by
    unfold sirf_checksum
    congr 1
    funext csum b
    simp [sirf_step, and_ff b.isLt]
  rw [h, sirf_fold_eq _ 0 (by norm_num)]
  simp


theorem rd_layout_head (hd p tl rest : List uint8_t) {i : Nat} (h : i < hd.length) :
    rd (hd ++ p ++ tl ++ rest) i = rd hd i := by
  rw [List.append_assoc, List.append_assoc, rd_append_left _ h]

theorem rd_layout_tail (hd p tl rest : List uint8_t) {j : Nat} (h : j < tl.length) :
    rd (hd ++ p ++ tl ++ rest) (hd.length + p.length + j) = rd tl j := by
  rw [List.append_assoc, ← List.length_append, rd_append_right, rd_append_left _ h]

theorem seg_layout (hd p tl rest : List uint8_t) :
    seg (hd ++ p ++ tl ++ rest) hd.length p.length = p := by
  rw [List.append_assoc]
  exact seg_append_mid hd p (tl ++ rest)

theorem byte_val (n : Nat) : (byte n).val = n % 256 := rfl

/-- C1. SiRF round trip: for every payload of length n ≤ 1023, the frame
`A0 A2`, n big-endian, payload, 15-bit checksum big-endian, `B0 B3`, followed by
arbitrary bytes, makes `looks_like_sirf` return n + 8 whenever
`max_len ≥ n + 8`. -/
theorem sirf_round_trip (payload rest : List uint8_t) (max_len : Nat)
    (hn : payload.length ≤ 1023) (hm : payload.length + 8 ≤ max_len) :
    looks_like_sirf (sirf_frame payload ++ rest) max_len
      = some ((payload.length : Int) + 8) := by
  have hF : sirf_frame payload ++ rest
      = [0xa0, 0xa2, byte (payload.length / 256), byte (payload.length % 256)] ++ payload ++
        [byte (sirf_checksum payload / 256), byte (sirf_checksum payload % 256), 0xb0, 0xb3]
        ++ rest := rfl
  have hck : sirf_checksum payload < 32768 := by
    rw [sirf_checksum_eq]; exact Nat.mod_lt _ (by norm_num)
  have h0 : rd (sirf_frame payload ++ rest) 0 = some 0xa0 := by
    rw [hF, rd_layout_head _ _ _ _ (by simp)]; rfl
  have h1 : rd (sirf_frame payload ++ rest) 1 = some 0xa2 := by
    rw [hF, rd_layout_head _ _ _ _ (by simp)]; rfl
  have h2 : rd (sirf_frame payload ++ rest) 2 = some (payload.length / 256 % 256) := by
    rw [hF, rd_layout_head _ _ _ _ (by simp)]; rfl
  have h3 : rd (sirf_frame payload ++ rest) (2 + 1) = some (payload.length % 256 % 256) := by
    rw [hF, rd_layout_head _ _ _ _ (by simp)]; rfl
  have t0 : rd (sirf_frame payload ++ rest) (4 + payload.length)
      = some (sirf_checksum payload / 256 % 256) := by
    have := rd_layout_tail [0xa0, 0xa2, byte (payload.length / 256), byte (payload.length % 256)]
      payload [byte (sirf_checksum payload / 256), byte (sirf_checksum payload % 256), 0xb0, 0xb3]
      rest (j := 0) (by simp)
    rw [hF]; simpa using this
  have t1 : rd (sirf_frame payload ++ rest) (4 + payload.length + 1)
      = some (sirf_checksum payload % 256 % 256) := by
    have := rd_layout_tail [0xa0, 0xa2, byte (payload.length / 256), byte (payload.length % 256)]
      payload [byte (sirf_checksum payload / 256), byte (sirf_checksum payload % 256), 0xb0, 0xb3]
      rest (j := 1) (by simp)
    rw [hF]; exact this
  have t2 : rd (sirf_frame payload ++ rest) (4 + payload.length + 2) = some 0xb0 := by
    have := rd_layout_tail [0xa0, 0xa2, byte (payload.length / 256), byte (payload.length % 256)]
      payload [byte (sirf_checksum payload / 256), byte (sirf_checksum payload % 256), 0xb0, 0xb3]
      rest (j := 2) (by simp)
    rw [hF]; exact this
  have t3 : rd (sirf_frame payload ++ rest) (4 + payload.length + 3) = some 0xb3 := by
    have := rd_layout_tail [0xa0, 0xa2, byte (payload.length / 256), byte (payload.length % 256)]
      payload [byte (sirf_checksum payload / 256), byte (sirf_checksum payload % 256), 0xb0, 0xb3]
      rest (j := 3) (by simp)
    rw [hF]; exact this
  have hlen : get2u (sirf_frame payload ++ rest) 2 = some payload.length := by
    rw [get2u_eq h2 h3]; congr 1; omega
  have hcs : get2u (sirf_frame payload ++ rest) (4 + payload.length)
      = some (sirf_checksum payload) := by
    rw [get2u_eq t0 t1]; congr 1; omega
  have hsum : sirf_csum (sirf_frame payload ++ rest) 4 payload.length
      = some (sirf_checksum payload) := by
    rw [sirf_csum_eq (by rw [hF]; simp; omega), sirf_checksum_eq]
    have := seg_layout [0xa0, 0xa2, byte (payload.length / 256), byte (payload.length % 256)]
      payload [byte (sirf_checksum payload / 256), byte (sirf_checksum payload % 256), 0xb0, 0xb3]
      rest
    rw [hF]
    simp only [List.length_cons, List.length_nil] at this
    rw [this]
  unfold looks_like_sirf
  rw [h0]
  simp only [ne_eq, not_true_eq_false, if_false]
  rw [if_neg (by omega), h1]
  simp only [ne_eq, not_true_eq_false, if_false, hlen]
  rw [if_neg (by simp [SIRF_MAX]; omega), if_neg (by omega), t2]
  simp only [ne_eq, not_true_eq_false, if_false, t3, hcs, hsum]
  simp
theorem sirf_csum_loop_congr {msg msg2 : List uint8_t} {off n : Nat}
    (h : ∀ j, j < n → rd msg2 (off + j) = rd msg (off + j)) :
    ∀ (fuel i csum : Nat),
      sirf_csum_loop msg2 off n fuel i csum = sirf_csum_loop msg off n fuel i csum := by
  intro fuel
  induction fuel with
  | zero => intro i csum; rfl
  | succ f ih =>
    intro i csum
    unfold sirf_csum_loop
    by_cases hi : i < n
    · rw [if_pos hi, if_pos hi, h i hi]
      cases rd msg (off + i) with
      | none => rfl
      | some b => exact ih _ _
    · rw [if_neg hi, if_neg hi]

theorem get2u_congr {msg msg2 : List uint8_t} {off : Nat}
    (h0 : rd msg2 off = rd msg off) (h1 : rd msg2 (off + 1) = rd msg (off + 1)) :
    get2u msg2 off = get2u msg off := by
  unfold get2u
  rw [h0, h1]

/-- Agreement of two buffers below `n` makes `looks_like_sirf` agree at window `n`. -/
theorem sirf_congr {msg msg2 : List uint8_t} {n : Nat} (hn : 1 ≤ n)
    (h : ∀ i, i < n → rd msg2 i = rd msg i) :
    looks_like_sirf msg2 n = looks_like_sirf msg n := by
  unfold looks_like_sirf
  rw [h 0 (by omega)]
  cases rd msg 0 with
  | none => rfl
  | some m0 =>
    simp only
    by_cases c0 : m0 ≠ 0xa0
    · rw [if_pos c0, if_pos c0]
    · rw [if_neg c0, if_neg c0]
      by_cases c1 : n < 8
      · rw [if_pos c1, if_pos c1]
      · rw [if_neg c1, if_neg c1, h 1 (by omega)]
        cases rd msg 1 with
        | none => rfl
        | some m1 =>
          simp only
          by_cases c2 : m1 ≠ 0xa2
          · rw [if_pos c2, if_pos c2]
          · rw [if_neg c2, if_neg c2, get2u_congr (h 2 (by omega)) (h 3 (by omega))]
            cases get2u msg 2 with
            | none => rfl
            | some pl =>
              simp only
              by_cases c3 : pl > SIRF_MAX
              · rw [if_pos c3, if_pos c3]
              · rw [if_neg c3, if_neg c3]
                by_cases c4 : n < pl + 8
                · rw [if_pos c4, if_pos c4]
                · rw [if_neg c4, if_neg c4, h (4 + pl + 2) (by omega), h (4 + pl + 3) (by omega),
                    get2u_congr (h (4 + pl) (by omega)) (h (4 + pl + 1) (by omega)),
                    show sirf_csum msg2 4 pl = sirf_csum msg 4 pl from
                      sirf_csum_loop_congr (fun j hj => h (4 + j) (by omega)) _ _ _]
/-- The verdicts of `looks_like_sirf`: 0, -1, or the length of a frame in the buffer. -/
theorem sirf_inv {msg : List uint8_t} {max_len : Nat} {L : Int}
    (h : looks_like_sirf msg max_len = some L) :
    L = 0 ∨ L = -1 ∨ ∃ n : Nat, L = (n : Int) + 8 ∧ n ≤ 1023 ∧ n + 8 ≤ max_len ∧
      rd msg 0 = some 0xa0 ∧ rd msg 1 = some 0xa2 ∧ get2u msg 2 = some n ∧
      rd msg (4 + n + 2) = some 0xb0 ∧ rd msg (4 + n + 3) = some 0xb3 ∧
      ∃ c, get2u msg (4 + n) = some c ∧ sirf_csum msg 4 n = some c := by
  unfold looks_like_sirf at h
  cases h0 : rd msg 0 with
  | none => simp [h0] at h
  | some m0 =>
    simp only [h0] at h
    by_cases c0 : m0 ≠ 0xa0
    · rw [if_pos c0] at h
      exact Or.inl (by simpa [LOOKS_NOT_LIKE_GPS_MSG] using h.symm)
    · rw [if_neg c0] at h
      by_cases c1 : max_len < 8
      · rw [if_pos c1] at h
        exact Or.inr (Or.inl (by simpa [LOOKS_LIKE_TRUNCATED_MSG] using h.symm))
      · rw [if_neg c1] at h
        cases h1 : rd msg 1 with
        | none => simp [h1] at h
        | some m1 =>
          simp only [h1] at h
          by_cases c2 : m1 ≠ 0xa2
          · rw [if_pos c2] at h
            exact Or.inl (by simpa [LOOKS_NOT_LIKE_GPS_MSG] using h.symm)
          · rw [if_neg c2] at h
            cases h2 : get2u msg 2 with
            | none => simp [h2] at h
            | some pl =>
              simp only [h2] at h
              by_cases c3 : pl > SIRF_MAX
              · rw [if_pos c3] at h
                exact Or.inl (by simpa [LOOKS_NOT_LIKE_GPS_MSG] using h.symm)
              · rw [if_neg c3] at h
                by_cases c4 : max_len < pl + 8
                · rw [if_pos c4] at h
                  exact Or.inr (Or.inl (by simpa [LOOKS_LIKE_TRUNCATED_MSG] using h.symm))
                · rw [if_neg c4] at h
                  cases h5 : rd msg (4 + pl + 2) with
                  | none => simp [h5] at h
                  | some t0 =>
                    simp only [h5] at h
                    by_cases c5 : t0 ≠ 0xb0
                    · rw [if_pos c5] at h
                      exact Or.inl (by simpa [LOOKS_NOT_LIKE_GPS_MSG] using h.symm)
                    · rw [if_neg c5] at h
                      cases h6 : rd msg (4 + pl + 3) with
                      | none => simp [h6] at h
                      | some t1 =>
                        simp only [h6] at h
                        by_cases c6 : t1 ≠ 0xb3
                        · rw [if_pos c6] at h
                          exact Or.inl (by simpa [LOOKS_NOT_LIKE_GPS_MSG] using h.symm)
                        · rw [if_neg c6] at h
                          cases h7 : get2u msg (4 + pl) with
                          | none => simp [h7] at h
                          | some mc =>
                            simp only [h7] at h
                            cases h8 : sirf_csum msg 4 pl with
                            | none => simp [h8] at h
                            | some cc =>
                              simp only [h8] at h
                              by_cases c7 : mc ≠ cc
                              · rw [if_pos c7] at h
                                exact Or.inl (by simpa [LOOKS_NOT_LIKE_GPS_MSG] using h.symm)
                              · rw [if_neg c7] at h
                                simp only [ne_eq, not_not] at c0 c2 c5 c6 c7
                                simp only [SIRF_MAX] at c3
                                subst c0 c2 c5 c6 c7
                                refine Or.inr (Or.inr ⟨pl, ?_, by omega, by omega, ?_, ?_, ?_, h5, h6,
                                  mc, h7, h8⟩) <;> first | rfl | skip
                                simp at h
                                omega

/-- What a valid verdict of `looks_like_sirf` says about the buffer. -/
theorem sirf_valid_inv {msg : List uint8_t} {max_len : Nat} {L : Int}
    (h : looks_like_sirf msg max_len = some L) (hL : 0 < L) :
    ∃ n : Nat, L = (n : Int) + 8 ∧ n ≤ 1023 ∧ n + 8 ≤ max_len ∧
      rd msg 0 = some 0xa0 ∧ rd msg 1 = some 0xa2 ∧ get2u msg 2 = some n ∧
      rd msg (4 + n + 2) = some 0xb0 ∧ rd msg (4 + n + 3) = some 0xb3 ∧
      ∃ c, get2u msg (4 + n) = some c ∧ sirf_csum msg 4 n = some c := by
  rcases sirf_inv h with e | e | e
  · omega
  · omega
  · exact e

/-- The verdicts of `looks_like_sirf`: -1, 0 or a positive length. -/
theorem sirf_range {msg : List uint8_t} {n : Nat} {r : Int}
    (h : looks_like_sirf msg n = some r) : -1 ≤ r := by
  rcases sirf_inv h with e | e | ⟨k, e, _⟩ <;> omega

/-- What `looks_like_sirf` returns once the buffer is known to hold a frame. -/
theorem sirf_eval {msg : List uint8_t} {n : Nat} (max_len : Nat)
    (h0 : rd msg 0 = some 0xa0) (h1 : rd msg 1 = some 0xa2) (h2 : get2u msg 2 = some n)
    (hn : n ≤ 1023) :
    looks_like_sirf msg max_len =
      if max_len < n + 8 then some LOOKS_LIKE_TRUNCATED_MSG
      else
        match rd msg (4 + n + 2), rd msg (4 + n + 3), get2u msg (4 + n), sirf_csum msg 4 n with
        | some t0, some t1, some mc, some cc =>
          if t0 = 0xb0 ∧ t1 = 0xb3 ∧ mc = cc then some ((n : Int) + 8)
          else some LOOKS_NOT_LIKE_GPS_MSG
        | some t0, some t1, some _, none => if t0 = 0xb0 ∧ t1 = 0xb3 then none
            else some LOOKS_NOT_LIKE_GPS_MSG
        | some t0, some t1, none, _ => if t0 = 0xb0 ∧ t1 = 0xb3 then none
            else some LOOKS_NOT_LIKE_GPS_MSG
        | some t0, none, _, _ => if t0 = 0xb0 then none else some LOOKS_NOT_LIKE_GPS_MSG
        | none, _, _, _ => none := by
  unfold looks_like_sirf
  rw [h0]
  simp only [ne_eq, not_true_eq_false, if_false, h1, h2]
  by_cases c1 : max_len < 8
  · rw [if_pos c1, if_pos (by omega)]
  · rw [if_neg c1, if_neg (by simp [SIRF_MAX]; omega)]
    by_cases c4 : max_len < n + 8
    · rw [if_pos c4, if_pos c4]
    · rw [if_neg c4, if_neg c4]
      cases rd msg (4 + n + 2) with
      | none => rfl
      | some t0 =>
        cases rd msg (4 + n + 3) with
        | none => by_cases c5 : t0 = 0xb0 <;> simp [c5]
        | some t1 =>
          cases get2u msg (4 + n) with
          | none => by_cases c5 : t0 = 0xb0 <;> by_cases c6 : t1 = 0xb3 <;> simp [c5, c6]
          | some mc =>
            cases sirf_csum msg 4 n with
            | none => by_cases c5 : t0 = 0xb0 <;> by_cases c6 : t1 = 0xb3 <;> simp [c5, c6]
            | some cc =>
              by_cases c5 : t0 = 0xb0 <;> by_cases c6 : t1 = 0xb3 <;> by_cases c7 : mc = cc <;>
                simp [c5, c6, c7]
/-- Truncation of a valid SiRF frame. -/
theorem sirf_truncated {msg : List uint8_t} {max_len m : Nat} {L : Int}
    (h : looks_like_sirf msg max_len = some L) (hL : 0 < L) (hm : (m : Int) < L) :
    looks_like_sirf msg m = some LOOKS_LIKE_TRUNCATED_MSG := by
  obtain ⟨n, hLn, hn, _, h0, h1, h2, _⟩ := sirf_valid_inv h hL
  rw [sirf_eval m h0 h1 h2 hn, if_pos (by omega)]

/-- A definitive verdict of `looks_like_sirf` does not change when the window grows. -/
theorem sirf_extend {msg : List uint8_t} {n m : Nat} {r : Int}
    (h : looks_like_sirf msg n = some r) (hr : r ≠ LOOKS_LIKE_TRUNCATED_MSG) (hnm : n ≤ m) :
    looks_like_sirf msg m = some r := by
  unfold looks_like_sirf at h
  cases h0 : rd msg 0 with
  | none => simp [h0] at h
  | some m0 =>
    simp only [h0] at h
    by_cases c0 : m0 ≠ 0xa0
    · rw [if_pos c0] at h
      unfold looks_like_sirf
      rw [h0]; simp only; rw [if_pos c0]; exact h
    · rw [if_neg c0] at h
      by_cases c1 : n < 8
      · rw [if_pos c1] at h
        simp only [Option.some.injEq] at h
        exact absurd h.symm hr
      · rw [if_neg c1] at h
        cases h1 : rd msg 1 with
        | none => simp [h1] at h
        | some m1 =>
          simp only [h1] at h
          by_cases c2 : m1 ≠ 0xa2
          · rw [if_pos c2] at h
            unfold looks_like_sirf
            rw [h0]; simp only; rw [if_neg c0, if_neg (by omega), h1]; simp only
            rw [if_pos c2]; exact h
          · rw [if_neg c2] at h
            cases h2 : get2u msg 2 with
            | none => simp [h2] at h
            | some pl =>
              simp only [h2] at h
              by_cases c3 : pl > SIRF_MAX
              · rw [if_pos c3] at h
                unfold looks_like_sirf
                rw [h0]; simp only; rw [if_neg c0, if_neg (by omega), h1]; simp only
                rw [if_neg c2, h2]; simp only; rw [if_pos c3]; exact h
              · rw [if_neg c3] at h
                by_cases c4 : n < pl + 8
                · rw [if_pos c4] at h
                  simp only [Option.some.injEq] at h
                  exact absurd h.symm hr
                · rw [if_neg c4] at h
                  unfold looks_like_sirf
                  rw [h0]; simp only; rw [if_neg c0, if_neg (by omega), h1]; simp only
                  rw [if_neg c2, h2]; simp only; rw [if_neg c3, if_neg (by omega)]
                  exact h

theorem rd_some_of_lt {msg : List uint8_t} {i : Nat} (h : i < msg.length) :
    ∃ b, rd msg i = some b := ⟨_, rd_of_lt h⟩

theorem get2u_some_of_lt {msg : List uint8_t} {off : Nat} (h : off + 1 < msg.length) :
    ∃ v, get2u msg off = some v :=
  ⟨_, get2u_eq (rd_of_lt (show off < msg.length by omega)) (rd_of_lt h)⟩

/-- With a window inside the buffer no read of `looks_like_sirf` fails. -/
theorem sirf_total {msg : List uint8_t} {n : Nat} (hn : 1 ≤ n) (hlen : n ≤ msg.length) :
    ∃ r, looks_like_sirf msg n = some r := by
  unfold looks_like_sirf
  obtain ⟨m0, h0⟩ := rd_some_of_lt (show 0 < msg.length by omega)
  rw [h0]
  simp only
  by_cases c0 : m0 ≠ 0xa0
  · rw [if_pos c0]; exact ⟨_, rfl⟩
  · rw [if_neg c0]
    by_cases c1 : n < 8
    · rw [if_pos c1]; exact ⟨_, rfl⟩
    · obtain ⟨m1, h1⟩ := rd_some_of_lt (show 1 < msg.length by omega)
      obtain ⟨pl, h2⟩ := get2u_some_of_lt (show 2 + 1 < msg.length by omega)
      rw [if_neg c1, h1]
      simp only
      by_cases c2 : m1 ≠ 0xa2
      · rw [if_pos c2]; exact ⟨_, rfl⟩
      · rw [if_neg c2, h2]
        simp only
        by_cases c3 : pl > SIRF_MAX
        · rw [if_pos c3]; exact ⟨_, rfl⟩
        · rw [if_neg c3]
          by_cases c4 : n < pl + 8
          · rw [if_pos c4]; exact ⟨_, rfl⟩
          · obtain ⟨t0, h5⟩ := rd_some_of_lt (show 4 + pl + 2 < msg.length by omega)
            obtain ⟨t1, h6⟩ := rd_some_of_lt (show 4 + pl + 3 < msg.length by omega)
            obtain ⟨mc, h7⟩ := get2u_some_of_lt (show 4 + pl + 1 < msg.length by omega)
            have h8 := @sirf_csum_eq msg 4 pl (by omega)
            rw [if_neg c4, h5, h6, h7, h8]
            simp only
            split
            · exact ⟨_, rfl⟩
            · split
              · exact ⟨_, rfl⟩
              · split
                · exact ⟨_, rfl⟩
                · exact ⟨_, rfl⟩

/-- The verdict of `looks_like_sirf` is that on the first `n` bytes alone. -/
theorem sirf_window (msg : List uint8_t) {n : Nat} (hn : 1 ≤ n) :
    looks_like_sirf msg n = looks_like_sirf (msg.take n) n :=
  (sirf_congr hn (fun _ hi => rd_take hi)).symm
theorem get_eq_of_rd_eq {msg msg2 : List uint8_t} {i : Nat} (h1 : i < msg.length)
    (h2 : i < msg2.length) (h : rd msg2 i = rd msg i) : msg2.get ⟨i, h2⟩ = msg.get ⟨i, h1⟩ := by
  rw [rd_of_lt h1, rd_of_lt h2] at h
  exact Fin.ext (by simpa using h)

theorem seg_congr {msg msg2 : List uint8_t} : ∀ (n a : Nat),
    (∀ i, a ≤ i → i < a + n → rd msg2 i = rd msg i) →
    a + n ≤ msg.length → a + n ≤ msg2.length → seg msg2 a n = seg msg a n := by
  intro n
  induction n with
  | zero => intro a _ _ _; simp [seg_zero]
  | succ n ih =>
    intro a h h1 h2
    rw [seg_succ n (show a < msg.length by omega), seg_succ n (show a < msg2.length by omega),
      get_eq_of_rd_eq (show a < msg.length by omega) (show a < msg2.length by omega)
        (h a (by omega) (by omega)),
      ih (a + 1) (fun i hi1 hi2 => h i (by omega) (by omega)) (by omega) (by omega)]

theorem byte_sum_cons (b : uint8_t) (l : List uint8_t) :
    byte_sum (b :: l) = b.val + byte_sum l := by
  simp [byte_sum]

theorem byte_sum_seg_set {msg : List uint8_t} {k old : Nat} (v : uint8_t)
    (hold : rd msg k = some old) : ∀ (n a : Nat), a ≤ k → k < a + n → a + n ≤ msg.length →
    byte_sum (seg (msg.set k v) a n) + old = byte_sum (seg msg a n) + v.val := by
  intro n
  induction n with
  | zero => intro a h1 h2 _; omega
  | succ n ih =>
    intro a h1 h2 h3
    have hl : (msg.set k v).length = msg.length := List.length_set _ _ _
    have ha : a < msg.length := by omega
    have ha2 : a < (msg.set k v).length := by omega
    rw [seg_succ n ha, seg_succ n ha2, byte_sum_cons, byte_sum_cons]
    by_cases hk : a = k
    · subst hk
      have e1 : ((msg.set a v).get ⟨a, ha2⟩).val = v.val := by simp
      have e2 : (msg.get ⟨a, ha⟩).val = old := by
        rw [rd_of_lt ha] at hold
        simpa using hold
      rw [e1, e2, seg_congr n (a + 1) (fun i hi _ => rd_set_ne v (by omega)) (by omega)
        (by omega)]
      omega
    · have e1 : (msg.set k v).get ⟨a, ha2⟩ = msg.get ⟨a, ha⟩ :=
        get_eq_of_rd_eq ha ha2 (rd_set_ne v hk)
      have := ih (a + 1) (by omega) (by omega) (by omega)
      rw [e1]
      omega

/-- Replacing one payload or checksum byte of a valid SiRF frame by another
value makes `looks_like_sirf` answer "not this protocol". -/
theorem sirf_mutation {msg : List uint8_t} {max_len m k old : Nat} {L : Int} (v : uint8_t)
    (h : looks_like_sirf msg max_len = some L) (hL : 0 < L)
    (hk1 : 4 ≤ k) (hk2 : (k : Int) + 2 < L) (hold : rd msg k = some old) (hv : v.val ≠ old)
    (hm : L ≤ (m : Int)) :
    looks_like_sirf (msg.set k v) m = some LOOKS_NOT_LIKE_GPS_MSG := by
  obtain ⟨n, hLn, hn, _, h0, h1, h2, h5, h6, c, h7, h8⟩ := sirf_valid_inv h hL
  have hlen : 4 + n + 3 < msg.length := lt_of_rd h6
  have hold256 := rd_lt hold
  have hv256 := v.isLt
  have g0 : rd (msg.set k v) 0 = some 0xa0 := by rw [rd_set_ne v (by omega), h0]
  have g1 : rd (msg.set k v) 1 = some 0xa2 := by rw [rd_set_ne v (by omega), h1]
  have g2 : get2u (msg.set k v) 2 = some n := by
    rw [get2u_congr (rd_set_ne v (by omega)) (rd_set_ne v (by omega)), h2]
  have g5 : rd (msg.set k v) (4 + n + 2) = some 0xb0 := by rw [rd_set_ne v (by omega), h5]
  have g6 : rd (msg.set k v) (4 + n + 3) = some 0xb3 := by rw [rd_set_ne v (by omega), h6]
  have hl : (msg.set k v).length = msg.length := List.length_set _ _ _
  have g8 := @sirf_csum_eq (msg.set k v) 4 n (by omega)
  rw [@sirf_csum_eq msg 4 n (by omega)] at h8
  obtain ⟨c0, c1, hc0, hc1, hc⟩ := get2u_some h7
  have hc0lt := rd_lt hc0
  have hc1lt := rd_lt hc1
  rw [sirf_eval m g0 g1 g2 hn, if_neg (by omega), g5, g6, g8]
  by_cases hp : k < 4 + n
  · -- a payload byte: the stored checksum stays, the computed one moves
    have g7 : get2u (msg.set k v) (4 + n) = some c := by
      rw [get2u_congr (rd_set_ne v (by omega)) (rd_set_ne v (by omega)), h7]
    have hs := byte_sum_seg_set v hold n 4 hk1 (by omega) (by omega)
    rw [g7]
    simp only
    rw [if_neg]
    intro hcon
    have e1 : c = byte_sum (seg (msg.set k v) 4 n) % 32768 := hcon.2.2
    have e2 : byte_sum (seg msg 4 n) % 32768 = c := by simpa using h8
    omega
  · -- a checksum byte: the computed checksum stays, the stored one moves
    have hseg : seg (msg.set k v) 4 n = seg msg 4 n :=
      seg_congr n 4 (fun i _ hi => rd_set_ne v (by omega)) (by omega) (by omega)
    have e2 : byte_sum (seg msg 4 n) % 32768 = c := by simpa using h8
    rw [hseg, e2]
    by_cases hk : k = 4 + n
    · have g7 : get2u (msg.set k v) (4 + n) = some (v.val * 256 + c1) := by
        apply get2u_eq
        · rw [hk]; exact rd_set_eq v (by omega)
        · rw [rd_set_ne v (by omega), hc1]
      have : c0 = old := by rw [hk, hc0] at hold; simpa using hold
      rw [g7]
      simp only
      rw [if_neg]
      intro hcon
      have := hcon.2.2
      omega
    · have hk' : k = 4 + n + 1 := by omega
      have g7 : get2u (msg.set k v) (4 + n) = some (c0 * 256 + v.val) := by
        apply get2u_eq
        · rw [rd_set_ne v (by omega), hc0]
        · rw [hk']; exact rd_set_eq v (by omega)
      have : c1 = old := by rw [hk', hc1] at hold; simpa using hold
      rw [g7]
      simp only
      rw [if_neg]
      intro hcon
      have := hcon.2.2
      omega
/-! ## u-blox: the checksum loop -/

theorem ublox_ck_loop_eq (msg : List uint8_t) (n : Nat) (hlen : n + 4 + 2 ≤ msg.length) :
    ∀ (fuel i ck_a ck_b : Nat), n + 4 + 2 - i ≤ fuel →
      ublox_ck_loop msg n fuel i ck_a ck_b
        = some ((seg msg i (n + 4 + 2 - i)).foldl ublox_step (ck_a, ck_b)) := by
  intro fuel
  induction fuel with
  | zero =>
    intro i ck_a ck_b h
    have : n + 4 + 2 - i = 0 := by omega
    simp [ublox_ck_loop, this, seg_zero]
  | succ f ih =>
    intro i ck_a ck_b h
    unfold ublox_ck_loop
    by_cases hi : i < n + 4 + 2
    · have hlt : i < msg.length := by omega
      rw [if_pos hi, rd_of_lt hlt]
      simp only
      rw [ih (i + 1) _ _ (by omega)]
      have : n + 4 + 2 - i = (n + 4 + 2 - (i + 1)) + 1 := by omega
      rw [this, seg_succ _ hlt]
      simp [ublox_step]
    · have : n + 4 + 2 - i = 0 := by omega
      simp [hi, this, seg_zero]

theorem ublox_step_eq (ck : Nat × Nat) (b : uint8_t) :
    ublox_step ck b = ((ck.1 + b.val) % 256, (ck.2 + (ck.1 + b.val) % 256) % 256) := by
  have h : ∀ x : Nat, x &&& 0xff = x % 256 := by
    intro x
    have := Nat.and_pow_two_sub_one_eq_mod x 8
    simpa using this
  simp [ublox_step, h]

theorem ublox_fold_fletcher (l : List uint8_t) : l.foldl ublox_step (0, 0) = fletcher8 l := by
  unfold fletcher8
  congr 1
  funext ck b
  exact ublox_step_eq ck b

theorem ublox_fold_fst (l : List uint8_t) : ∀ (ck : Nat × Nat),
    (l.foldl ublox_step ck).1 = (ck.1 + byte_sum l) % 256 ∨ l = [] := by
  induction l with
  | nil => intro ck; right; rfl
  | cons b t ih =>
    intro ck
    left
    simp only [List.foldl_cons]
    rcases ih (ublox_step ck b) with h | h
    · rw [h, ublox_step_eq]
      simp only [byte_sum, List.map_cons, List.sum_cons]
      omega
    · subst h
      simp [ublox_step_eq, byte_sum]

theorem fletcher8_lt (l : List uint8_t) : (fletcher8 l).1 < 256 ∧ (fletcher8 l).2 < 256 := by
  rw [← ublox_fold_fletcher]
  have : ∀ (t : List uint8_t) (ck : Nat × Nat), ck.1 < 256 ∧ ck.2 < 256 →
      (t.foldl ublox_step ck).1 < 256 ∧ (t.foldl ublox_step ck).2 < 256 := by
    intro t
    induction t with
    | nil => intro ck h; exact h
    | cons b t ih =>
      intro ck _
      simp only [List.foldl_cons]
      apply ih
      rw [ublox_step_eq]
      constructor <;> exact Nat.mod_lt _ (by norm_num)
  exact this l (0, 0) (by norm_num)

/-! ## C2: UBX round trip -/

/-- C2. UBX round trip: for every class, id and payload of length n ≤ 4096, the
frame `B5 62`, class, id, n little-endian, payload, Fletcher-8 pair, followed by
arbitrary bytes, makes `looks_like_ublox` return n + 8 whenever
`max_len ≥ n + 8`. -/
theorem ublox_round_trip (cls id : uint8_t) (payload rest : List uint8_t) (max_len : Nat)
    (hn : payload.length ≤ 4096) (hm : payload.length + 8 ≤ max_len) :
    looks_like_ublox (ublox_frame cls id payload ++ rest) max_len
      = some ((payload.length : Int) + 8) := by
  obtain ⟨hfa, hfb⟩ := fletcher8_lt (ublox_body cls id payload)
  have hF : ublox_frame cls id payload ++ rest
      = [0xb5, 0x62, cls, id, byte (payload.length % 256), byte (payload.length / 256)]
        ++ payload ++
        [byte (fletcher8 (ublox_body cls id payload)).1,
         byte (fletcher8 (ublox_body cls id payload)).2] ++ rest := by
    simp [ublox_frame, ublox_body]
  have hG : ublox_frame cls id payload ++ rest
      = [0xb5, 0x62] ++ ublox_body cls id payload ++
        [byte (fletcher8 (ublox_body cls id payload)).1,
         byte (fletcher8 (ublox_body cls id payload)).2] ++ rest := rfl
  have hbl : (ublox_body cls id payload).length = payload.length + 4 := by
    simp [ublox_body]
  have h0 : rd (ublox_frame cls id payload ++ rest) 0 = some 0xb5 := by
    rw [hF, rd_layout_head _ _ _ _ (by simp)]; rfl
  have h1 : rd (ublox_frame cls id payload ++ rest) 1 = some 0x62 := by
    rw [hF, rd_layout_head _ _ _ _ (by simp)]; rfl
  have h4 : rd (ublox_frame cls id payload ++ rest) 4 = some (payload.length % 256 % 256) := by
    rw [hF, rd_layout_head _ _ _ _ (by simp)]; rfl
  have h5 : rd (ublox_frame cls id payload ++ rest) 5 = some (payload.length / 256 % 256) := by
    rw [hF, rd_layout_head _ _ _ _ (by simp)]; rfl
  have hpl : (payload.length % 256 % 256 &&& 0xff)
      ||| ((payload.length / 256 % 256) <<< 8 &&& 0xff00) = payload.length := by
    rw [ublox_len_eq (by omega) (by omega)]; omega
  have t0 : rd (ublox_frame cls id payload ++ rest) (payload.length + 6)
      = some (fletcher8 (ublox_body cls id payload)).1 := by
    have := rd_layout_tail
      [0xb5, 0x62, cls, id, byte (payload.length % 256), byte (payload.length / 256)] payload
      [byte (fletcher8 (ublox_body cls id payload)).1,
       byte (fletcher8 (ublox_body cls id payload)).2] rest (j := 0) (by simp)
    have e : payload.length + 6 = 6 + payload.length + 0 := by omega
    rw [hF, e]
    simp only [List.length_cons, List.length_nil] at this
    rw [this, rd_cons_zero, byte_val, Nat.mod_eq_of_lt hfa]
  have t1 : rd (ublox_frame cls id payload ++ rest) (payload.length + 7)
      = some (fletcher8 (ublox_body cls id payload)).2 := by
    have := rd_layout_tail
      [0xb5, 0x62, cls, id, byte (payload.length % 256), byte (payload.length / 256)] payload
      [byte (fletcher8 (ublox_body cls id payload)).1,
       byte (fletcher8 (ublox_body cls id payload)).2] rest (j := 1) (by simp)
    have e : payload.length + 7 = 6 + payload.length + 1 := by omega
    rw [hF, e]
    simp only [List.length_cons, List.length_nil] at this
    rw [this, rd_cons_succ, rd_cons_zero, byte_val, Nat.mod_eq_of_lt hfb]
  have hck : ublox_ck_loop (ublox_frame cls id payload ++ rest) payload.length
      (payload.length + 4 + 2) 2 0 0 = some (fletcher8 (ublox_body cls id payload)) := by
    rw [ublox_ck_loop_eq _ _ (by rw [hF]; simp) _ _ _ _ (by omega)]
    have := seg_layout [0xb5, 0x62] (ublox_body cls id payload)
      [byte (fletcher8 (ublox_body cls id payload)).1,
       byte (fletcher8 (ublox_body cls id payload)).2] rest
    simp only [List.length_cons, List.length_nil, hbl] at this
    have e : payload.length + 4 + 2 - 2 = payload.length + 4 := by omega
    rw [e, hG]
    simp only [Nat.zero_add, Nat.reduceAdd] at this ⊢
    rw [this, ublox_fold_fletcher]
  unfold looks_like_ublox
  rw [h0]
  simp only [ne_eq, not_true_eq_false, if_false]
  rw [if_neg (by omega), h1]
  simp only [ne_eq, not_true_eq_false, if_false, h4, h5, hpl]
  rw [if_neg (by simp [UBLOX_MAX]; omega), if_neg (by omega), hck]
  simp only [t0, t1, ne_eq, not_true_eq_false, if_false]
  simp
/-! ## u-blox: properties of the detector -/

theorem ublox_ck_loop_congr {msg msg2 : List uint8_t} {n : Nat}
    (h : ∀ j, j < n + 4 + 2 → rd msg2 j = rd msg j) :
    ∀ (fuel i ck_a ck_b : Nat),
      ublox_ck_loop msg2 n fuel i ck_a ck_b = ublox_ck_loop msg n fuel i ck_a ck_b := by
  intro fuel
  induction fuel with
  | zero => intro i ck_a ck_b; rfl
  | succ f ih =>
    intro i ck_a ck_b
    unfold ublox_ck_loop
    by_cases hi : i < n + 4 + 2
    · rw [if_pos hi, if_pos hi, h i hi]
      cases rd msg i with
      | none => rfl
      | some b => exact ih _ _ _
    · rw [if_neg hi, if_neg hi]

/-- The head of `looks_like_ublox`, up to the length field. -/
theorem ublox_head (msg : List uint8_t) (max_len : Nat) :
    looks_like_ublox msg max_len =
      match rd msg 0 with
      | none => none
      | some m0 =>
        if m0 ≠ 0xb5 then some LOOKS_NOT_LIKE_GPS_MSG
        else if max_len < 8 then some LOOKS_LIKE_TRUNCATED_MSG
        else
          match rd msg 1 with
          | none => none
          | some m1 =>
            if m1 ≠ 0x62 then some LOOKS_NOT_LIKE_GPS_MSG
            else
              match rd msg 4, rd msg 5 with
              | some m4, some m5 =>
                if m5 * 256 + m4 > UBLOX_MAX then some LOOKS_NOT_LIKE_GPS_MSG
                else if max_len < m5 * 256 + m4 + 8 then some LOOKS_LIKE_TRUNCATED_MSG
                else
                  match ublox_ck_loop msg (m5 * 256 + m4) (m5 * 256 + m4 + 4 + 2) 2 0 0 with
                  | none => none
                  | some (ck_a, ck_b) =>
                    match rd msg (m5 * 256 + m4 + 6) with
                    | none => none
                    | some c0 =>
                      if ck_a ≠ c0 then some LOOKS_NOT_LIKE_GPS_MSG
                      else
                        match rd msg (m5 * 256 + m4 + 7) with
                        | none => none
                        | some c1 =>
                          if ck_b ≠ c1 then some LOOKS_NOT_LIKE_GPS_MSG
                          else some ((m5 * 256 + m4 + 8 : Nat) : Int)
              | _, _ => none := by
  unfold looks_like_ublox
  cases h4 : rd msg 4 with
  | none => rfl
  | some m4 =>
    cases h5 : rd msg 5 with
    | none => rfl
    | some m5 =>
      simp only [ublox_len_eq (rd_lt h4) (rd_lt h5)]

/-- Agreement of two buffers below `n` makes `looks_like_ublox` agree at window `n`. -/
theorem ublox_congr {msg msg2 : List uint8_t} {n : Nat} (hn : 1 ≤ n)
    (h : ∀ i, i < n → rd msg2 i = rd msg i) :
    looks_like_ublox msg2 n = looks_like_ublox msg n := by
  rw [ublox_head, ublox_head, h 0 (by omega)]
  cases rd msg 0 with
  | none => rfl
  | some m0 =>
    simp only
    by_cases c0 : m0 ≠ 0xb5
    · rw [if_pos c0, if_pos c0]
    · rw [if_neg c0, if_neg c0]
      by_cases c1 : n < 8
      · rw [if_pos c1, if_pos c1]
      · rw [if_neg c1, if_neg c1, h 1 (by omega)]
        cases rd msg 1 with
        | none => rfl
        | some m1 =>
          simp only
          by_cases c2 : m1 ≠ 0x62
          · rw [if_pos c2, if_pos c2]
          · rw [if_neg c2, if_neg c2, h 4 (by omega), h 5 (by omega)]
            cases rd msg 4 with
            | none => rfl
            | some m4 =>
              cases rd msg 5 with
              | none => rfl
              | some m5 =>
                simp only
                by_cases c3 : m5 * 256 + m4 > UBLOX_MAX
                · rw [if_pos c3, if_pos c3]
                · rw [if_neg c3, if_neg c3]
                  by_cases c4 : n < m5 * 256 + m4 + 8
                  · rw [if_pos c4, if_pos c4]
                  · rw [if_neg c4, if_neg c4, h (m5 * 256 + m4 + 6) (by omega),
                      h (m5 * 256 + m4 + 7) (by omega),
                      ublox_ck_loop_congr (fun j hj => h j (by omega)) _ _ _ _]

/-- The verdicts of `looks_like_ublox`: 0, -1, or the length of a frame in the buffer. -/
theorem ublox_inv {msg : List uint8_t} {max_len : Nat} {L : Int}
    (h : looks_like_ublox msg max_len = some L) :
    L = 0 ∨ L = -1 ∨ ∃ n m4 m5 : Nat, L = (n : Int) + 8 ∧ n ≤ 4096 ∧ n + 8 ≤ max_len ∧
      rd msg 0 = some 0xb5 ∧ rd msg 1 = some 0x62 ∧ rd msg 4 = some m4 ∧ rd msg 5 = some m5 ∧
      n = m5 * 256 + m4 ∧
      ∃ ck_a ck_b, ublox_ck_loop msg n (n + 4 + 2) 2 0 0 = some (ck_a, ck_b) ∧
        rd msg (n + 6) = some ck_a ∧ rd msg (n + 7) = some ck_b := by
  rw [ublox_head] at h
  cases h0 : rd msg 0 with
  | none => simp [h0] at h
  | some m0 =>
    simp only [h0] at h
    by_cases c0 : m0 ≠ 0xb5
    · rw [if_pos c0] at h
      exact Or.inl (by simpa [LOOKS_NOT_LIKE_GPS_MSG] using h.symm)
    · rw [if_neg c0] at h
      by_cases c1 : max_len < 8
      · rw [if_pos c1] at h
        exact Or.inr (Or.inl (by simpa [LOOKS_LIKE_TRUNCATED_MSG] using h.symm))
      · rw [if_neg c1] at h
        cases h1 : rd msg 1 with
        | none => simp [h1] at h
        | some m1 =>
          simp only [h1] at h
          by_cases c2 : m1 ≠ 0x62
          · rw [if_pos c2] at h
            exact Or.inl (by simpa [LOOKS_NOT_LIKE_GPS_MSG] using h.symm)
          · rw [if_neg c2] at h
            cases h4 : rd msg 4 with
            | none => simp [h4] at h
            | some m4 =>
              cases h5 : rd msg 5 with
              | none => simp [h4, h5] at h
              | some m5 =>
                simp only [h4, h5] at h
                by_cases c3 : m5 * 256 + m4 > UBLOX_MAX
                · rw [if_pos c3] at h
                  exact Or.inl (by simpa [LOOKS_NOT_LIKE_GPS_MSG] using h.symm)
                · rw [if_neg c3] at h
                  by_cases c4 : max_len < m5 * 256 + m4 + 8
                  · rw [if_pos c4] at h
                    exact Or.inr (Or.inl (by simpa [LOOKS_LIKE_TRUNCATED_MSG] using h.symm))
                  · rw [if_neg c4] at h
                    cases h6 : ublox_ck_loop msg (m5 * 256 + m4) (m5 * 256 + m4 + 4 + 2) 2 0 0 with
                    | none => simp [h6] at h
                    | some ck =>
                      obtain ⟨ck_a, ck_b⟩ := ck
                      simp only [h6] at h
                      cases h7 : rd msg (m5 * 256 + m4 + 6) with
                      | none => simp [h7] at h
                      | some c0v =>
                        simp only [h7] at h
                        by_cases c5 : ck_a ≠ c0v
                        · rw [if_pos c5] at h
                          exact Or.inl (by simpa [LOOKS_NOT_LIKE_GPS_MSG] using h.symm)
                        · rw [if_neg c5] at h
                          cases h8 : rd msg (m5 * 256 + m4 + 7) with
                          | none => simp [h8] at h
                          | some c1v =>
                            simp only [h8] at h
                            by_cases c6 : ck_b ≠ c1v
                            · rw [if_pos c6] at h
                              exact Or.inl (by simpa [LOOKS_NOT_LIKE_GPS_MSG] using h.symm)
                            · rw [if_neg c6] at h
                              simp only [ne_eq, not_not] at c0 c2 c5 c6
                              simp only [UBLOX_MAX] at c3
                              subst c0 c2 c5 c6
                              refine Or.inr (Or.inr ⟨m5 * 256 + m4, m4, m5, ?_, by omega, by omega, rfl, rfl,
                                rfl, rfl, rfl, ck_a, ck_b, h6, h7, h8⟩)
                              simp at h
                              omega
/-- What a valid verdict of `looks_like_ublox` says about the buffer. -/
theorem ublox_valid_inv {msg : List uint8_t} {max_len : Nat} {L : Int}
    (h : looks_like_ublox msg max_len = some L) (hL : 0 < L) :
    ∃ n m4 m5 : Nat, L = (n : Int) + 8 ∧ n ≤ 4096 ∧ n + 8 ≤ max_len ∧
      rd msg 0 = some 0xb5 ∧ rd msg 1 = some 0x62 ∧ rd msg 4 = some m4 ∧ rd msg 5 = some m5 ∧
      n = m5 * 256 + m4 ∧
      ∃ ck_a ck_b, ublox_ck_loop msg n (n + 4 + 2) 2 0 0 = some (ck_a, ck_b) ∧
        rd msg (n + 6) = some ck_a ∧ rd msg (n + 7) = some ck_b := by
  rcases ublox_inv h with e | e | e
  · omega
  · omega
  · exact e

/-- The verdicts of `looks_like_ublox`: -1, 0 or a positive length. -/
theorem ublox_range {msg : List uint8_t} {n : Nat} {r : Int}
    (h : looks_like_ublox msg n = some r) : -1 ≤ r := by
  rcases ublox_inv h with e | e | ⟨k, _, _, e, _⟩ <;> omega

/-- What `looks_like_ublox` returns once the buffer is known to hold a header. -/
theorem ublox_eval {msg : List uint8_t} {m4 m5 : Nat} (max_len : Nat)
    (h0 : rd msg 0 = some 0xb5) (h1 : rd msg 1 = some 0x62)
    (h4 : rd msg 4 = some m4) (h5 : rd msg 5 = some m5) (hn : m5 * 256 + m4 ≤ 4096) :
    looks_like_ublox msg max_len =
      if max_len < m5 * 256 + m4 + 8 then some LOOKS_LIKE_TRUNCATED_MSG
      else
        match ublox_ck_loop msg (m5 * 256 + m4) (m5 * 256 + m4 + 4 + 2) 2 0 0,
          rd msg (m5 * 256 + m4 + 6), rd msg (m5 * 256 + m4 + 7) with
        | some ck, some c0, some c1 =>
          if ck.1 = c0 ∧ ck.2 = c1 then some ((m5 * 256 + m4 : Nat) + 8 : Int)
          else some LOOKS_NOT_LIKE_GPS_MSG
        | some ck, some c0, none => if ck.1 = c0 then none else some LOOKS_NOT_LIKE_GPS_MSG
        | some _, none, _ => none
        | none, _, _ => none := by
  rw [ublox_head, h0]
  simp only [ne_eq, not_true_eq_false, if_false, h1, h4, h5]
  by_cases c1 : max_len < 8
  · rw [if_pos c1, if_pos (by omega)]
  · rw [if_neg c1, if_neg (by simp [UBLOX_MAX]; omega)]
    by_cases c4 : max_len < m5 * 256 + m4 + 8
    · rw [if_pos c4, if_pos c4]
    · rw [if_neg c4, if_neg c4]
      cases ublox_ck_loop msg (m5 * 256 + m4) (m5 * 256 + m4 + 4 + 2) 2 0 0 with
      | none => rfl
      | some ck =>
        obtain ⟨ck_a, ck_b⟩ := ck
        cases rd msg (m5 * 256 + m4 + 6) with
        | none => rfl
        | some c0 =>
          cases rd msg (m5 * 256 + m4 + 7) with
          | none => by_cases c5 : ck_a = c0 <;> simp [c5]
          | some c1 =>
            by_cases c5 : ck_a = c0 <;> by_cases c6 : ck_b = c1 <;> simp [c5, c6]

/-- Truncation of a valid UBX frame. -/
theorem ublox_truncated {msg : List uint8_t} {max_len m : Nat} {L : Int}
    (h : looks_like_ublox msg max_len = some L) (hL : 0 < L) (hm : (m : Int) < L) :
    looks_like_ublox msg m = some LOOKS_LIKE_TRUNCATED_MSG := by
  obtain ⟨n, m4, m5, hLn, hn, _, h0, h1, h4, h5, hn45, _⟩ := ublox_valid_inv h hL
  rw [ublox_eval m h0 h1 h4 h5 (by omega), if_pos (by omega)]

/-- A definitive verdict of `looks_like_ublox` does not change when the window grows. -/
theorem ublox_extend {msg : List uint8_t} {n m : Nat} {r : Int}
    (h : looks_like_ublox msg n = some r) (hr : r ≠ LOOKS_LIKE_TRUNCATED_MSG) (hnm : n ≤ m) :
    looks_like_ublox msg m = some r := by
  rw [ublox_head] at h
  cases h0 : rd msg 0 with
  | none => simp [h0] at h
  | some m0 =>
    simp only [h0] at h
    by_cases c0 : m0 ≠ 0xb5
    · rw [if_pos c0] at h
      rw [ublox_head, h0]; simp only; rw [if_pos c0]; exact h
    · rw [if_neg c0] at h
      by_cases c1 : n < 8
      · rw [if_pos c1] at h
        simp only [Option.some.injEq] at h
        exact absurd h.symm hr
      · rw [if_neg c1] at h
        cases h1 : rd msg 1 with
        | none => simp [h1] at h
        | some m1 =>
          simp only [h1] at h
          by_cases c2 : m1 ≠ 0x62
          · rw [if_pos c2] at h
            rw [ublox_head, h0]; simp only; rw [if_neg c0, if_neg (by omega), h1]; simp only
            rw [if_pos c2]; exact h
          · rw [if_neg c2] at h
            cases h4 : rd msg 4 with
            | none => simp [h4] at h
            | some m4 =>
              cases h5 : rd msg 5 with
              | none => simp [h4, h5] at h
              | some m5 =>
                simp only [h4, h5] at h
                by_cases c3 : m5 * 256 + m4 > UBLOX_MAX
                · rw [if_pos c3] at h
                  rw [ublox_head, h0]; simp only
                  rw [if_neg c0, if_neg (by omega), h1]; simp only
                  rw [if_neg c2, h4, h5]; simp only; rw [if_pos c3]; exact h
                · rw [if_neg c3] at h
                  by_cases c4 : n < m5 * 256 + m4 + 8
                  · rw [if_pos c4] at h
                    simp only [Option.some.injEq] at h
                    exact absurd h.symm hr
                  · rw [if_neg c4] at h
                    rw [ublox_head, h0]; simp only
                    rw [if_neg c0, if_neg (by omega), h1]; simp only
                    rw [if_neg c2, h4, h5]; simp only
                    rw [if_neg c3, if_neg (by omega)]
                    exact h

/-- With a window inside the buffer no read of `looks_like_ublox` fails. -/
theorem ublox_total {msg : List uint8_t} {n : Nat} (hn : 1 ≤ n) (hlen : n ≤ msg.length) :
    ∃ r, looks_like_ublox msg n = some r := by
  rw [ublox_head]
  obtain ⟨m0, h0⟩ := rd_some_of_lt (show 0 < msg.length by omega)
  rw [h0]
  simp only
  by_cases c0 : m0 ≠ 0xb5
  · rw [if_pos c0]; exact ⟨_, rfl⟩
  · rw [if_neg c0]
    by_cases c1 : n < 8
    · rw [if_pos c1]; exact ⟨_, rfl⟩
    · obtain ⟨m1, h1⟩ := rd_some_of_lt (show 1 < msg.length by omega)
      obtain ⟨m4, h4⟩ := rd_some_of_lt (show 4 < msg.length by omega)
      obtain ⟨m5, h5⟩ := rd_some_of_lt (show 5 < msg.length by omega)
      rw [if_neg c1, h1]
      simp only
      by_cases c2 : m1 ≠ 0x62
      · rw [if_pos c2]; exact ⟨_, rfl⟩
      · rw [if_neg c2, h4, h5]
        simp only
        by_cases c3 : m5 * 256 + m4 > UBLOX_MAX
        · rw [if_pos c3]; exact ⟨_, rfl⟩
        · rw [if_neg c3]
          by_cases c4 : n < m5 * 256 + m4 + 8
          · rw [if_pos c4]; exact ⟨_, rfl⟩
          · obtain ⟨t0, h6⟩ := rd_some_of_lt (show m5 * 256 + m4 + 6 < msg.length by omega)
            obtain ⟨t1, h7⟩ := rd_some_of_lt (show m5 * 256 + m4 + 7 < msg.length by omega)
            have h8 := ublox_ck_loop_eq msg (m5 * 256 + m4) (by omega)
              (m5 * 256 + m4 + 4 + 2) 2 0 0 (by omega)
            rw [if_neg c4, h8, h6, h7]
            simp only
            split
            · exact ⟨_, rfl⟩
            · split
              · exact ⟨_, rfl⟩
              · exact ⟨_, rfl⟩

/-- The verdict of `looks_like_ublox` is that on the first `n` bytes alone. -/
theorem ublox_window (msg : List uint8_t) {n : Nat} (hn : 1 ≤ n) :
    looks_like_ublox msg n = looks_like_ublox (msg.take n) n :=
  (ublox_congr hn (fun _ hi => rd_take hi)).symm

/-- Replacing one payload or checksum byte of a valid UBX frame by another
value makes `looks_like_ublox` answer "not this protocol". -/
theorem ublox_mutation {msg : List uint8_t} {max_len m k old : Nat} {L : Int} (v : uint8_t)
    (h : looks_like_ublox msg max_len = some L) (hL : 0 < L)
    (hk1 : 6 ≤ k) (hk2 : (k : Int) < L) (hold : rd msg k = some old) (hv : v.val ≠ old)
    (hm : L ≤ (m : Int)) :
    looks_like_ublox (msg.set k v) m = some LOOKS_NOT_LIKE_GPS_MSG := by
  obtain ⟨n, m4, m5, hLn, hn, _, h0, h1, h4, h5, hn45, ck_a, ck_b, h6, h7, h8⟩ :=
    ublox_valid_inv h hL
  subst hn45
  have hlen : m5 * 256 + m4 + 7 < msg.length := lt_of_rd h8
  have hold256 := rd_lt hold
  have hv256 := v.isLt
  have g0 : rd (msg.set k v) 0 = some 0xb5 := by rw [rd_set_ne v (by omega), h0]
  have g1 : rd (msg.set k v) 1 = some 0x62 := by rw [rd_set_ne v (by omega), h1]
  have g4 : rd (msg.set k v) 4 = some m4 := by rw [rd_set_ne v (by omega), h4]
  have g5 : rd (msg.set k v) 5 = some m5 := by rw [rd_set_ne v (by omega), h5]
  have hl : (msg.set k v).length = msg.length := List.length_set _ _ _
  have g6 := ublox_ck_loop_eq (msg.set k v) (m5 * 256 + m4) (by omega)
    (m5 * 256 + m4 + 4 + 2) 2 0 0 (by omega)
  rw [ublox_ck_loop_eq msg (m5 * 256 + m4) (by omega) (m5 * 256 + m4 + 4 + 2) 2 0 0
    (by omega)] at h6
  have e6 : m5 * 256 + m4 + 4 + 2 - 2 = m5 * 256 + m4 + 4 := by omega
  rw [e6] at h6 g6
  rw [ublox_eval m g0 g1 g4 g5 hn, if_neg (by omega), g6]
  by_cases hp : k < m5 * 256 + m4 + 6
  · -- a payload byte: the stored pair stays, the computed `ck_a` moves
    have g7 : rd (msg.set k v) (m5 * 256 + m4 + 6) = some ck_a := by
      rw [rd_set_ne v (by omega), h7]
    have g8 : rd (msg.set k v) (m5 * 256 + m4 + 7) = some ck_b := by
      rw [rd_set_ne v (by omega), h8]
    have hs := byte_sum_seg_set v hold (m5 * 256 + m4 + 4) 2 (by omega) (by omega) (by omega)
    have ha : ck_a = byte_sum (seg msg 2 (m5 * 256 + m4 + 4)) % 256 := by
      have h6' := congrArg Prod.fst (Option.some.inj h6)
      rcases ublox_fold_fst (seg msg 2 (m5 * 256 + m4 + 4)) (0, 0) with e | e
      · rw [e] at h6'; simpa using h6'.symm
      · have := congrArg List.length e
        rw [seg_length (by omega)] at this
        simp at this
    rw [g7, g8]
    simp only
    rw [if_neg]
    intro hcon
    have hc := hcon.1
    rcases ublox_fold_fst (seg (msg.set k v) 2 (m5 * 256 + m4 + 4)) (0, 0) with e | e
    · rw [e] at hc
      simp only [Nat.zero_add] at hc
      omega
    · have := congrArg List.length e
      rw [seg_length (by omega)] at this
      simp at this
  · -- a checksum byte: the computed pair stays, a stored byte moves
    have hseg : seg (msg.set k v) 2 (m5 * 256 + m4 + 4) = seg msg 2 (m5 * 256 + m4 + 4) :=
      seg_congr _ 2 (fun i _ hi => rd_set_ne v (by omega)) (by omega) (by omega)
    rw [hseg, h6]
    by_cases hk : k = m5 * 256 + m4 + 6
    · have g7 : rd (msg.set k v) (m5 * 256 + m4 + 6) = some v.val := by
        rw [hk]; exact rd_set_eq v (by omega)
      have g8 : rd (msg.set k v) (m5 * 256 + m4 + 7) = some ck_b := by
        rw [rd_set_ne v (by omega), h8]
      have : ck_a = old := by rw [hk, h7] at hold; simpa using hold
      rw [g7, g8]
      simp only
      rw [if_neg]
      intro hcon
      have := hcon.1
      omega
    · have hk' : k = m5 * 256 + m4 + 7 := by omega
      have g7 : rd (msg.set k v) (m5 * 256 + m4 + 6) = some ck_a := by
        rw [rd_set_ne v (by omega), h7]
      have g8 : rd (msg.set k v) (m5 * 256 + m4 + 7) = some v.val := by
        rw [hk']; exact rd_set_eq v (by omega)
      have : ck_b = old := by rw [hk', h8] at hold; simpa using hold
      rw [g7, g8]
      simp only
      rw [if_neg]
      intro hcon
      have := hcon.2
      omega
/-! ## NMEA: the scanning loop -/

theorem nmea_scan_congr {msg msg2 : List uint8_t} {max_len : Nat}
    (h : ∀ j, j < max_len → rd msg2 j = rd msg j) :
    ∀ (fuel i : Nat) (cp : Int),
      nmea_scan msg2 max_len fuel i cp = nmea_scan msg max_len fuel i cp := by
  intro fuel
  induction fuel with
  | zero => intro i cp; rfl
  | succ f ih =>
    intro i cp
    unfold nmea_scan
    by_cases hi : i < max_len
    · rw [if_pos hi, if_pos hi, h i hi]
      by_cases hmax : i > NMEA_MAX
      · rw [if_pos hmax, if_pos hmax]
      · rw [if_neg hmax, if_neg hmax]
        cases rd msg i with
        | none => rfl
        | some c =>
          simp only
          by_cases c1 : c = 0x2a
          · rw [if_pos c1, if_pos c1]; exact ih _ _
          · rw [if_neg c1, if_neg c1]
            by_cases c2 : c = 0x0d
            · rw [if_pos c2, if_pos c2]
              by_cases c3 : i + 1 = max_len
              · rw [if_pos c3, if_pos c3]
              · rw [if_neg c3, if_neg c3, h (i + 1) (by omega)]
            · rw [if_neg c2, if_neg c2]
              by_cases c4 : ¬ (isprint c = true)
              · rw [if_pos c4, if_pos c4]
              · rw [if_neg c4, if_neg c4]; exact ih _ _
    · rw [if_neg hi, if_neg hi]

theorem isprint_star : isprint 0x2a = true := by decide

theorem star_pos_nil (msg : List uint8_t) (i : Nat) (cp : Int) : star_pos msg i i cp cp :=
  Or.inl ⟨rfl, fun j h1 h2 => by omega⟩

/-- One step of the scan at a `*` in front of a stretch. -/
theorem star_pos_cons_star {msg : List uint8_t} {i k : Nat} {cp cp2 : Int} (hik : i < k)
    (hs : rd msg i = some 0x2a) (h : star_pos msg (i + 1) k (i : Int) cp2) :
    star_pos msg i k cp cp2 := by
  rcases h with ⟨e, hno⟩ | ⟨s, e, h1, h2, h3, h4⟩
  · exact Or.inr ⟨i, e, le_refl _, hik, hs, fun j hj1 hj2 => hno j (by omega) hj2⟩
  · exact Or.inr ⟨s, e, by omega, h2, h3, h4⟩

/-- One step of the scan at a character other than `*` in front of a stretch. -/
theorem star_pos_cons_other {msg : List uint8_t} {i k : Nat} {cp cp2 : Int}
    (hs : rd msg i ≠ some 0x2a) (h : star_pos msg (i + 1) k cp cp2) :
    star_pos msg i k cp cp2 := by
  rcases h with ⟨e, hno⟩ | ⟨s, e, h1, h2, h3, h4⟩
  · refine Or.inl ⟨e, fun j hj1 hj2 => ?_⟩
    by_cases hj : j = i
    · rw [hj]; exact hs
    · exact hno j (by omega) hj2
  · exact Or.inr ⟨s, e, by omega, h2, h3, h4⟩

/-- The shape of a buffer on which the scanning loop, entered at index `i`, reaches
the break at a CR LF pair at index `k`. -/
theorem nmea_scan_out_inv {msg : List uint8_t} {max_len : Nat} :
    ∀ (fuel i : Nat) (cp crlf cp2 : Int),
      nmea_scan msg max_len fuel i cp = some (.out crlf cp2) → 0 ≤ crlf →
      ∃ k : Nat, crlf = (k : Int) ∧ i ≤ k ∧ k + 1 < max_len ∧ k ≤ NMEA_MAX ∧
        rd msg k = some 0x0d ∧ rd msg (k + 1) = some 0x0a ∧
        (∀ j, i ≤ j → j < k → ∃ c, rd msg j = some c ∧ isprint c = true) ∧
        star_pos msg i k cp cp2 := by
  intro fuel
  induction fuel with
  | zero =>
    intro i cp crlf cp2 h hc
    simp only [nmea_scan, Option.some.injEq, nmea_scan_t.out.injEq] at h
    omega
  | succ f ih =>
    intro i cp crlf cp2 h hc
    unfold nmea_scan at h
    by_cases hi : i < max_len
    · rw [if_pos hi] at h
      by_cases hmax : i > NMEA_MAX
      · rw [if_pos hmax] at h; simp at h
      · rw [if_neg hmax] at h
        cases hr : rd msg i with
        | none => simp [hr] at h
        | some c =>
          simp only [hr] at h
          by_cases c1 : c = 0x2a
          · rw [if_pos c1] at h
            obtain ⟨k, e, h1, h2, h3, h4, h5, h6, h7⟩ := ih _ _ _ _ h hc
            subst c1
            refine ⟨k, e, by omega, h2, h3, h4, h5, ?_, star_pos_cons_star (by omega) hr h7⟩
            intro j hj1 hj2
            by_cases hj : j = i
            · rw [hj]; exact ⟨_, hr, isprint_star⟩
            · exact h6 j (by omega) hj2
          · rw [if_neg c1] at h
            by_cases c2 : c = 0x0d
            · rw [if_pos c2] at h
              by_cases c3 : i + 1 = max_len
              · rw [if_pos c3] at h; simp at h
              · rw [if_neg c3] at h
                cases hr1 : rd msg (i + 1) with
                | none => simp [hr1] at h
                | some d =>
                  simp only [hr1] at h
                  by_cases c5 : d ≠ 0x0a
                  · rw [if_pos c5] at h; simp at h
                  · rw [if_neg c5] at h
                    simp only [Option.some.injEq, nmea_scan_t.out.injEq] at h
                    simp only [ne_eq, not_not] at c5
                    subst c2 c5
                    refine ⟨i, h.1.symm, le_refl _, by omega, by omega, hr, hr1,
                      fun j h1 h2 => by omega, ?_⟩
                    rw [← h.2]
                    exact star_pos_nil msg i cp
            · rw [if_neg c2] at h
              by_cases c4 : ¬ (isprint c = true)
              · rw [if_pos c4] at h; simp at h
              · rw [if_neg c4] at h
                obtain ⟨k, e, h1, h2, h3, h4, h5, h6, h7⟩ := ih _ _ _ _ h hc
                have hne : rd msg i ≠ some 0x2a := by
                  rw [hr]; intro hcon; exact c1 (Option.some.inj hcon)
                refine ⟨k, e, by omega, h2, h3, h4, h5, ?_, star_pos_cons_other hne h7⟩
                intro j hj1 hj2
                by_cases hj : j = i
                · rw [hj]; exact ⟨_, hr, not_not.mp c4⟩
                · exact h6 j (by omega) hj2
    · rw [if_neg hi] at h
      simp only [Option.some.injEq, nmea_scan_t.out.injEq] at h
      omega
theorem isprint_cr : isprint 0x0d = false := by decide

/-- One iteration of the scanning loop. -/
theorem nmea_scan_succ (msg : List uint8_t) (max_len fuel i : Nat) (cp : Int) :
    nmea_scan msg max_len (fuel + 1) i cp =
      if i < max_len then
        if i > NMEA_MAX then some (.ret LOOKS_NOT_LIKE_GPS_MSG)
        else
          match rd msg i with
          | none => none
          | some c =>
            if c = 0x2a then nmea_scan msg max_len fuel (i + 1) (i : Int)
            else if c = 0x0d then
              if i + 1 = max_len then some (.ret LOOKS_LIKE_TRUNCATED_MSG)
              else
                match rd msg (i + 1) with
                | none => none
                | some d =>
                  if d ≠ 0x0a then some (.ret LOOKS_NOT_LIKE_GPS_MSG)
                  else some (.out (i : Int) cp)
            else if ¬ (isprint c = true) then some (.ret LOOKS_NOT_LIKE_GPS_MSG)
            else nmea_scan msg max_len fuel (i + 1) cp
      else some (.out (-1) cp) := by
  rw [nmea_scan]

/-- The scanning loop walks over a stretch of `n` printable characters. -/
theorem nmea_scan_run {msg : List uint8_t} {max_len : Nat} :
    ∀ (n f i : Nat) (cp : Int),
      (∀ j, i ≤ j → j < i + n → ∃ c, rd msg j = some c ∧ isprint c = true) →
      i + n ≤ max_len → i + n ≤ NMEA_MAX + 1 →
      ∃ cp2, star_pos msg i (i + n) cp cp2 ∧
        nmea_scan msg max_len (f + n) i cp = nmea_scan msg max_len f (i + n) cp2 := by
  intro n
  induction n with
  | zero => intro f i cp _ _ _; exact ⟨cp, star_pos_nil msg i cp, rfl⟩
  | succ n ih =>
    intro f i cp hp h1 h2
    obtain ⟨c, hr, hc⟩ := hp i (le_refl _) (by omega)
    have e : f + (n + 1) = (f + n) + 1 := by omega
    have e2 : i + (n + 1) = (i + 1) + n := by omega
    rw [e, e2, nmea_scan_succ,
      if_pos (show i < max_len by omega), if_neg (show ¬ i > NMEA_MAX by omega), hr]
    simp only
    by_cases c1 : c = 0x2a
    · rw [if_pos c1]
      obtain ⟨cp2, hs, he⟩ := ih f (i + 1) (i : Int)
        (fun j hj1 hj2 => hp j (by omega) (by omega)) (by omega) (by omega)
      subst c1
      exact ⟨cp2, star_pos_cons_star (by omega) hr hs, he⟩
    · have c2 : c ≠ 0x0d := by
        intro hcon; rw [hcon, isprint_cr] at hc; exact Bool.noConfusion hc
      rw [if_neg c1, if_neg c2, if_neg (not_not.mpr hc)]
      obtain ⟨cp2, hs, he⟩ := ih f (i + 1) cp
        (fun j hj1 hj2 => hp j (by omega) (by omega)) (by omega) (by omega)
      have hne : rd msg i ≠ some 0x2a := by
        rw [hr]; intro hcon; exact c1 (Option.some.inj hcon)
      exact ⟨cp2, star_pos_cons_other hne hs, he⟩

/-- The scanning loop at a CR LF pair inside the window. -/
theorem nmea_scan_at_crlf {msg : List uint8_t} {max_len k : Nat} (f : Nat) (cp : Int)
    (h1 : k + 1 < max_len) (h2 : k ≤ NMEA_MAX) (hcr : rd msg k = some 0x0d)
    (hlf : rd msg (k + 1) = some 0x0a) :
    nmea_scan msg max_len (f + 1) k cp = some (.out (k : Int) cp) := by
  rw [nmea_scan_succ, if_pos (show k < max_len by omega),
    if_neg (show ¬ k > NMEA_MAX by omega), hcr]
  simp [hlf, show ¬ k + 1 = max_len by omega]

/-- The scanning loop at a CR which is the last byte of the window. -/
theorem nmea_scan_at_cr_end {msg : List uint8_t} {max_len k : Nat} (f : Nat) (cp : Int)
    (h1 : k + 1 = max_len) (h2 : k ≤ NMEA_MAX) (hcr : rd msg k = some 0x0d) :
    nmea_scan msg max_len (f + 1) k cp = some (.ret LOOKS_LIKE_TRUNCATED_MSG) := by
  rw [nmea_scan_succ, if_pos (show k < max_len by omega),
    if_neg (show ¬ k > NMEA_MAX by omega), hcr]
  simp [h1]

/-- The scanning loop at the end of the window. -/
theorem nmea_scan_at_end (msg : List uint8_t) {max_len k : Nat} (f : Nat) (cp : Int)
    (h1 : max_len ≤ k) :
    nmea_scan msg max_len f k cp = some (.out (-1) cp) := by
  cases f with
  | zero => rfl
  | succ f =>
    unfold nmea_scan
    rw [if_neg (show ¬ k < max_len by omega)]

/-- The scanning loop returns 0 or -1 when it returns. -/
theorem nmea_scan_ret {msg : List uint8_t} {max_len : Nat} :
    ∀ (fuel i : Nat) (cp v : Int),
      nmea_scan msg max_len fuel i cp = some (.ret v) →
      v = LOOKS_NOT_LIKE_GPS_MSG ∨ v = LOOKS_LIKE_TRUNCATED_MSG := by
  intro fuel
  induction fuel with
  | zero => intro i cp v h; simp [nmea_scan] at h
  | succ f ih =>
    intro i cp v h
    unfold nmea_scan at h
    by_cases hi : i < max_len
    · rw [if_pos hi] at h
      by_cases hmax : i > NMEA_MAX
      · rw [if_pos hmax] at h
        simp only [Option.some.injEq, nmea_scan_t.ret.injEq] at h
        exact Or.inl h.symm
      · rw [if_neg hmax] at h
        cases hr : rd msg i with
        | none => simp [hr] at h
        | some c =>
          simp only [hr] at h
          by_cases c1 : c = 0x2a
          · rw [if_pos c1] at h; exact ih _ _ _ h
          · rw [if_neg c1] at h
            by_cases c2 : c = 0x0d
            · rw [if_pos c2] at h
              by_cases c3 : i + 1 = max_len
              · rw [if_pos c3] at h
                simp only [Option.some.injEq, nmea_scan_t.ret.injEq] at h
                exact Or.inr h.symm
              · rw [if_neg c3] at h
                cases hr1 : rd msg (i + 1) with
                | none => simp [hr1] at h
                | some d =>
                  simp only [hr1] at h
                  by_cases c5 : d ≠ 0x0a
                  · rw [if_pos c5] at h
                    simp only [Option.some.injEq, nmea_scan_t.ret.injEq] at h
                    exact Or.inl h.symm
                  · rw [if_neg c5] at h; simp at h
            · rw [if_neg c2] at h
              by_cases c4 : ¬ (isprint c = true)
              · rw [if_pos c4] at h
                simp only [Option.some.injEq, nmea_scan_t.ret.injEq] at h
                exact Or.inl h.symm
              · rw [if_neg c4] at h; exact ih _ _ _ h
    · rw [if_neg hi] at h; simp at h

/-- The statements after the loop return -1, 0 or `crlf_pos + 2`. -/
theorem nmea_after_loop_valid {msg : List uint8_t} {crlf cp L : Int}
    (h : nmea_after_loop msg crlf cp = some L) (hL : 0 < L) : 0 ≤ crlf ∧ L = crlf + 2 := by
  unfold nmea_after_loop at h
  by_cases c0 : crlf < 0
  · rw [if_pos c0] at h
    simp [LOOKS_LIKE_TRUNCATED_MSG] at h; omega
  · rw [if_neg c0] at h
    refine ⟨by omega, ?_⟩
    by_cases c1 : cp > 0
    · rw [if_pos c1] at h
      by_cases c2 : cp + 3 ≠ crlf
      · rw [if_pos c2] at h
        simp [LOOKS_NOT_LIKE_GPS_MSG] at h; omega
      · rw [if_neg c2] at h
        cases h1 : rd msg (cp + 1).toNat with
        | none => simp [h1] at h
        | some s0 =>
          cases h2 : rd msg (cp + 2).toNat with
          | none => simp [h1, h2] at h
          | some s1 =>
            simp only [h1, h2] at h
            split at h
            · simp [LOOKS_NOT_LIKE_GPS_MSG] at h; omega
            · split at h
              · simp at h
              · split at h
                · simp [LOOKS_NOT_LIKE_GPS_MSG] at h; omega
                · simp at h; omega
    · rw [if_neg c1] at h
      simp at h; omega

/-- What `looks_like_nmea` computes on a buffer that holds `$`, printable
characters up to index `k`, and CR LF at `k` inside the window. -/
theorem nmea_eval {msg : List uint8_t} {max_len k : Nat}
    (h0 : rd msg 0 = some 0x24) (hk1 : 1 ≤ k) (hk2 : k ≤ NMEA_MAX) (hk3 : k + 1 < max_len)
    (hp : ∀ j, 1 ≤ j → j < k → ∃ c, rd msg j = some c ∧ isprint c = true)
    (hcr : rd msg k = some 0x0d) (hlf : rd msg (k + 1) = some 0x0a) :
    ∃ cp2, star_pos msg 1 k (-1) cp2 ∧
      looks_like_nmea msg max_len = nmea_after_loop msg (k : Int) cp2 := by
  have e1 : 1 + (k - 1) = k := by omega
  obtain ⟨cp2, hs, he⟩ := @nmea_scan_run msg max_len (k - 1)
    (max_len - k + 1) 1 (-1) (fun j hj1 hj2 => hp j hj1 (by omega)) (by omega) (by omega)
  rw [e1] at hs he
  have e2 : max_len - k + 1 + (k - 1) = max_len := by omega
  rw [e2, nmea_scan_at_crlf _ _ hk3 hk2 hcr hlf] at he
  refine ⟨cp2, hs, ?_⟩
  unfold looks_like_nmea
  rw [h0]
  simp only [ne_eq, not_true_eq_false, if_false, he]

/-- What a valid verdict of `looks_like_nmea` says about the buffer. -/
theorem nmea_valid_inv {msg : List uint8_t} {max_len : Nat} {L : Int}
    (h : looks_like_nmea msg max_len = some L) (hL : 0 < L) :
    ∃ (k : Nat) (cp2 : Int), L = (k : Int) + 2 ∧ 1 ≤ k ∧ k ≤ NMEA_MAX ∧ k + 1 < max_len ∧
      rd msg 0 = some 0x24 ∧
      (∀ j, 1 ≤ j → j < k → ∃ c, rd msg j = some c ∧ isprint c = true) ∧
      rd msg k = some 0x0d ∧ rd msg (k + 1) = some 0x0a ∧
      star_pos msg 1 k (-1) cp2 ∧ nmea_after_loop msg (k : Int) cp2 = some L := by
  unfold looks_like_nmea at h
  cases h0 : rd msg 0 with
  | none => simp [h0] at h
  | some m0 =>
    simp only [h0] at h
    by_cases c0 : m0 ≠ 0x24
    · rw [if_pos c0] at h
      simp [LOOKS_NOT_LIKE_GPS_MSG] at h; omega
    · rw [if_neg c0] at h
      cases hs : nmea_scan msg max_len max_len 1 (-1) with
      | none => simp [hs] at h
      | some res =>
        cases res with
        | ret v =>
          simp only [hs, Option.some.injEq] at h
          rcases nmea_scan_ret _ _ _ _ hs with e | e <;>
            simp only [LOOKS_NOT_LIKE_GPS_MSG, LOOKS_LIKE_TRUNCATED_MSG] at e <;> omega
        | out crlf cp2 =>
          simp only [hs] at h
          obtain ⟨hc, hL2⟩ := nmea_after_loop_valid h hL
          obtain ⟨k, e, h1, h2, h3, h4, h5, h6, h7⟩ := nmea_scan_out_inv _ _ _ _ _ hs hc
          subst e
          simp only [ne_eq, not_not] at c0
          subst c0
          exact ⟨k, cp2, hL2, h1, h3, h2, rfl, h6, h4, h5, h7, h⟩
/-! ## NMEA: the checksum loop and the statements after the scan -/

theorem nmea_csum_loop_eq (msg : List uint8_t) (s : Nat) (hlen : s ≤ msg.length) :
    ∀ (fuel i acc : Nat), s - i ≤ fuel →
      nmea_csum_loop msg s fuel i acc = some ((seg msg i (s - i)).foldl xor_step acc) := by
  intro fuel
  induction fuel with
  | zero =>
    intro i acc h
    have : s - i = 0 := by omega
    simp [nmea_csum_loop, this, seg_zero]
  | succ f ih =>
    intro i acc h
    unfold nmea_csum_loop
    by_cases hi : i < s
    · have hlt : i < msg.length := by omega
      rw [if_pos hi, rd_of_lt hlt]
      simp only
      rw [ih (i + 1) _ (by omega)]
      have : s - i = (s - (i + 1)) + 1 := by omega
      rw [this, seg_succ _ hlt]
      simp [xor_step]
    · have : s - i = 0 := by omega
      simp [hi, this, seg_zero]

theorem nmea_csum_loop_congr {msg msg2 : List uint8_t} {s : Nat}
    (h : ∀ j, j < s → rd msg2 j = rd msg j) :
    ∀ (fuel i acc : Nat),
      nmea_csum_loop msg2 s fuel i acc = nmea_csum_loop msg s fuel i acc := by
  intro fuel
  induction fuel with
  | zero => intro i acc; rfl
  | succ f ih =>
    intro i acc
    unfold nmea_csum_loop
    by_cases hi : i < s
    · rw [if_pos hi, if_pos hi, h i hi]
      cases rd msg i with
      | none => rfl
      | some b => exact ih _ _
    · rw [if_neg hi, if_neg hi]

theorem nmea_after_loop_congr {msg msg2 : List uint8_t} {crlf : Int} (cp : Int)
    (h : ∀ j : Nat, (j : Int) < crlf → rd msg2 j = rd msg j) :
    nmea_after_loop msg2 crlf cp = nmea_after_loop msg crlf cp := by
  unfold nmea_after_loop
  by_cases c0 : crlf < 0
  · rw [if_pos c0, if_pos c0]
  · rw [if_neg c0, if_neg c0]
    by_cases c1 : cp > 0
    · rw [if_pos c1, if_pos c1]
      by_cases c2 : cp + 3 ≠ crlf
      · rw [if_pos c2, if_pos c2]
      · rw [if_neg c2, if_neg c2, h (cp + 1).toNat (by omega), h (cp + 2).toNat (by omega),
          nmea_csum_loop_congr (fun j hj => h j (by omega)) _ _ _]
    · rw [if_neg c1, if_neg c1]

theorem nmea_after_loop_total {msg : List uint8_t} {k : Nat} (cp : Int)
    (h : k ≤ msg.length) : ∃ r, nmea_after_loop msg (k : Int) cp = some r := by
  unfold nmea_after_loop
  rw [if_neg (show ¬ (k : Int) < 0 by omega)]
  by_cases c1 : cp > 0
  · rw [if_pos c1]
    by_cases c2 : cp + 3 ≠ (k : Int)
    · rw [if_pos c2]; exact ⟨_, rfl⟩
    · obtain ⟨s0, h1⟩ := rd_some_of_lt (show (cp + 1).toNat < msg.length by omega)
      obtain ⟨s1, h2⟩ := rd_some_of_lt (show (cp + 2).toNat < msg.length by omega)
      rw [if_neg c2, h1, h2, nmea_csum_loop_eq msg cp.toNat (by omega) _ _ _ (by omega)]
      simp only
      split
      · exact ⟨_, rfl⟩
      · split
        · exact ⟨_, rfl⟩
        · exact ⟨_, rfl⟩
  · rw [if_neg c1]; exact ⟨_, rfl⟩

/-! ## NMEA: properties of the detector -/

theorem nmea_scan_total {msg : List uint8_t} {max_len : Nat} (hlen : max_len ≤ msg.length) :
    ∀ (fuel i : Nat) (cp : Int), ∃ res, nmea_scan msg max_len fuel i cp = some res := by
  intro fuel
  induction fuel with
  | zero => intro i cp; exact ⟨_, rfl⟩
  | succ f ih =>
    intro i cp
    rw [nmea_scan_succ]
    by_cases hi : i < max_len
    · rw [if_pos hi]
      by_cases hmax : i > NMEA_MAX
      · rw [if_pos hmax]; exact ⟨_, rfl⟩
      · obtain ⟨c, hr⟩ := rd_some_of_lt (show i < msg.length by omega)
        rw [if_neg hmax, hr]
        simp only
        by_cases c1 : c = 0x2a
        · rw [if_pos c1]; exact ih _ _
        · rw [if_neg c1]
          by_cases c2 : c = 0x0d
          · rw [if_pos c2]
            by_cases c3 : i + 1 = max_len
            · rw [if_pos c3]; exact ⟨_, rfl⟩
            · obtain ⟨d, hr1⟩ := rd_some_of_lt (show i + 1 < msg.length by omega)
              rw [if_neg c3, hr1]
              simp only
              split
              · exact ⟨_, rfl⟩
              · exact ⟨_, rfl⟩
          · rw [if_neg c2]
            by_cases c4 : ¬ (isprint c = true)
            · rw [if_pos c4]; exact ⟨_, rfl⟩
            · rw [if_neg c4]; exact ih _ _
    · rw [if_neg hi]; exact ⟨_, rfl⟩

/-- With a window inside the buffer no read of `looks_like_nmea` fails. -/
theorem nmea_total {msg : List uint8_t} {n : Nat} (hn : 1 ≤ n) (hlen : n ≤ msg.length) :
    ∃ r, looks_like_nmea msg n = some r := by
  unfold looks_like_nmea
  obtain ⟨m0, h0⟩ := rd_some_of_lt (show 0 < msg.length by omega)
  rw [h0]
  simp only
  by_cases c0 : m0 ≠ 0x24
  · rw [if_pos c0]; exact ⟨_, rfl⟩
  · rw [if_neg c0]
    obtain ⟨res, hs⟩ := nmea_scan_total hlen n 1 (-1)
    rw [hs]
    cases res with
    | ret v => exact ⟨_, rfl⟩
    | out crlf cp =>
      simp only
      by_cases hc : 0 ≤ crlf
      · obtain ⟨k, e, _, h2, _⟩ := nmea_scan_out_inv _ _ _ _ _ hs hc
        subst e
        exact nmea_after_loop_total cp (by omega)
      · unfold nmea_after_loop
        rw [if_pos (by omega)]
        exact ⟨_, rfl⟩

/-- Agreement of two buffers below `n` makes `looks_like_nmea` agree at window `n`. -/
theorem nmea_congr {msg msg2 : List uint8_t} {n : Nat} (hn : 1 ≤ n)
    (h : ∀ i, i < n → rd msg2 i = rd msg i) :
    looks_like_nmea msg2 n = looks_like_nmea msg n := by
  unfold looks_like_nmea
  rw [h 0 (by omega), nmea_scan_congr h]
  cases rd msg 0 with
  | none => rfl
  | some m0 =>
    simp only
    by_cases c0 : m0 ≠ 0x24
    · rw [if_pos c0, if_pos c0]
    · rw [if_neg c0, if_neg c0]
      cases hs : nmea_scan msg n n 1 (-1) with
      | none => rfl
      | some res =>
        cases res with
        | ret v => rfl
        | out crlf cp =>
          simp only
          by_cases hc : 0 ≤ crlf
          · obtain ⟨k, e, _, h2, _⟩ := nmea_scan_out_inv _ _ _ _ _ hs hc
            subst e
            exact nmea_after_loop_congr cp (fun j hj => h j (by omega))
          · unfold nmea_after_loop
            rw [if_pos (by omega), if_pos (by omega)]

/-- The verdict of `looks_like_nmea` is that on the first `n` bytes alone. -/
theorem nmea_window (msg : List uint8_t) {n : Nat} (hn : 1 ≤ n) :
    looks_like_nmea msg n = looks_like_nmea (msg.take n) n :=
  (nmea_congr hn (fun _ hi => rd_take hi)).symm

/-- An outcome of the scan which is final stays when the window grows. -/
theorem nmea_scan_extend {msg : List uint8_t} {n m : Nat} (hnm : n ≤ m) :
    ∀ (f f2 i : Nat) (cp : Int) (res : nmea_scan_t),
      nmea_scan msg n f i cp = some res → scan_final res → f ≤ f2 →
      nmea_scan msg m f2 i cp = some res := by
  intro f
  induction f with
  | zero =>
    intro f2 i cp res h hf _
    simp only [nmea_scan, Option.some.injEq] at h
    subst h
    simp only [scan_final] at hf
    omega
  | succ f ih =>
    intro f2 i cp res h hf hle
    obtain ⟨g, rfl⟩ : ∃ g, f2 = g + 1 := ⟨f2 - 1, by omega⟩
    rw [nmea_scan_succ] at h ⊢
    by_cases hi : i < n
    · rw [if_pos hi] at h
      rw [if_pos (show i < m by omega)]
      by_cases hmax : i > NMEA_MAX
      · rw [if_pos hmax] at h ⊢; exact h
      · rw [if_neg hmax] at h ⊢
        cases hr : rd msg i with
        | none => simp [hr] at h
        | some c =>
          simp only [hr] at h ⊢
          by_cases c1 : c = 0x2a
          · rw [if_pos c1] at h ⊢; exact ih _ _ _ _ h hf (by omega)
          · rw [if_neg c1] at h ⊢
            by_cases c2 : c = 0x0d
            · rw [if_pos c2] at h ⊢
              by_cases c3 : i + 1 = n
              · rw [if_pos c3] at h
                simp only [Option.some.injEq] at h
                subst h
                simp [scan_final] at hf
              · rw [if_neg c3] at h
                rw [if_neg (show ¬ i + 1 = m by omega)]
                exact h
            · rw [if_neg c2] at h ⊢
              by_cases c4 : ¬ (isprint c = true)
              · rw [if_pos c4] at h ⊢; exact h
              · rw [if_neg c4] at h ⊢; exact ih _ _ _ _ h hf (by omega)
    · rw [if_neg hi] at h
      simp only [Option.some.injEq] at h
      subst h
      simp only [scan_final] at hf
      omega

/-- A definitive verdict of `looks_like_nmea` does not change when the window grows. -/
theorem nmea_extend {msg : List uint8_t} {n m : Nat} {r : Int}
    (h : looks_like_nmea msg n = some r) (hr : r ≠ LOOKS_LIKE_TRUNCATED_MSG) (hnm : n ≤ m) :
    looks_like_nmea msg m = some r := by
  unfold looks_like_nmea at h ⊢
  cases h0 : rd msg 0 with
  | none => simp [h0] at h
  | some m0 =>
    simp only [h0] at h ⊢
    by_cases c0 : m0 ≠ 0x24
    · rw [if_pos c0] at h ⊢; exact h
    · rw [if_neg c0] at h ⊢
      cases hs : nmea_scan msg n n 1 (-1) with
      | none => simp [hs] at h
      | some res =>
        have hfin : scan_final res := by
          cases res with
          | ret v =>
            simp only [hs, Option.some.injEq] at h
            simp only [scan_final]; rw [h]; exact hr
          | out crlf cp =>
            simp only [hs] at h
            simp only [scan_final]
            by_contra hc
            unfold nmea_after_loop at h
            rw [if_pos (by omega)] at h
            simp only [Option.some.injEq] at h
            exact hr h.symm
        rw [nmea_scan_extend hnm _ _ _ _ _ hs hfin hnm]
        rw [hs] at h
        exact h

/-- Truncation of a valid NMEA sentence. -/
theorem nmea_truncated {msg : List uint8_t} {max_len m : Nat} {L : Int}
    (h : looks_like_nmea msg max_len = some L) (hL : 0 < L) (hm1 : 1 ≤ m)
    (hm : (m : Int) < L) :
    looks_like_nmea msg m = some LOOKS_LIKE_TRUNCATED_MSG := by
  obtain ⟨k, cp2, hLk, hk1, hk2, hk3, h0, hp, hcr, hlf, _, _⟩ := nmea_valid_inv h hL
  unfold looks_like_nmea
  rw [h0]
  simp only [ne_eq, not_true_eq_false, if_false]
  by_cases hmk : m ≤ k
  · obtain ⟨cp3, _, he⟩ := @nmea_scan_run msg m (m - 1) 1 1 (-1)
      (fun j hj1 hj2 => hp j hj1 (by omega)) (by omega) (by omega)
    have e1 : 1 + (m - 1) = m := by omega
    rw [e1, nmea_scan_at_end msg 1 cp3 (le_refl m)] at he
    rw [he]
    simp only
    unfold nmea_after_loop
    rw [if_pos (by omega)]
  · have hmk1 : m = k + 1 := by omega
    obtain ⟨cp3, _, he⟩ := @nmea_scan_run msg m (k - 1) 2 1 (-1)
      (fun j hj1 hj2 => hp j hj1 (by omega)) (by omega) (by omega)
    have e1 : 1 + (k - 1) = k := by omega
    have e2 : 2 + (k - 1) = m := by omega
    rw [e1, e2, nmea_scan_at_cr_end 1 cp3 hmk1.symm hk2 hcr] at he
    rw [he]
/-! ## The conversion of the two checksum characters -/

theorem is_hex_iff (c : Nat) : is_digit_of 16 c = true ↔
    ((0x30 ≤ c ∧ c ≤ 0x39) ∨ (0x41 ≤ c ∧ c ≤ 0x46) ∨ (0x61 ≤ c ∧ c ≤ 0x66)) := by
  unfold is_digit_of digit_value
  split_ifs <;> simp <;> omega

theorem digit_or_zero_lt {c : Nat} (h : is_digit_of 16 c = true) : digit_or_zero c < 16 := by
  have := (is_hex_iff c).mp h
  unfold digit_or_zero digit_value
  split_ifs <;> simp <;> omega

theorem c_string_two {s0 s1 : Nat} (h0 : s0 ≠ 0) (h1 : s1 ≠ 0) :
    c_string [s0, s1, 0] = [s0, s1] := by
  simp [c_string, List.takeWhile, h0, h1]

/-- Two hexadecimal digits convert to their value; `endptr` is at the NUL. -/
theorem strtol_hex_hex {s0 s1 : Nat} (h0 : is_digit_of 16 s0 = true)
    (h1 : is_digit_of 16 s1 = true) :
    strtol [s0, s1] 16 = (((16 * digit_or_zero s0 + digit_or_zero s1 : Nat) : Int), 2) := by
  have a0 := (is_hex_iff s0).mp h0
  have hsp : isspace s0 = false := by
    simp only [isspace, Bool.or_eq_false_iff, Bool.and_eq_false_iff, decide_eq_false_iff_not]
    omega
  have hm : ¬ (s0 = 0x2d) := by omega
  have hp : ¬ (s0 = 0x2b) := by omega
  simp [strtol, List.takeWhile, hsp, hm, hp, h0, h1]
  omega

/-- A hexadecimal digit followed by another character: the conversion stops
at the second character. -/
theorem strtol_hex_other {s0 s1 : Nat} (h0 : is_digit_of 16 s0 = true)
    (h1 : is_digit_of 16 s1 = false) :
    (strtol [s0, s1] 16).2 = 1 := by
  have a0 := (is_hex_iff s0).mp h0
  have hsp : isspace s0 = false := by
    simp only [isspace, Bool.or_eq_false_iff, Bool.and_eq_false_iff, decide_eq_false_iff_not]
    omega
  have hm : ¬ (s0 = 0x2d) := by omega
  have hp : ¬ (s0 = 0x2b) := by omega
  simp [strtol, List.takeWhile, hsp, hm, hp, h0, h1]

/-- A first character which is no white space, sign or hexadecimal digit: no
conversion is performed and `endptr` is `nptr`. -/
theorem strtol_other {s0 s1 : Nat} (h0 : is_digit_of 16 s0 = false) (hsp : isspace s0 = false)
    (hm : s0 ≠ 0x2d) (hp : s0 ≠ 0x2b) :
    (strtol [s0, s1] 16).2 = 0 := by
  simp [strtol, List.takeWhile, hsp, hm, hp, h0]
/-! ## NMEA: sentences built from a body -/

theorem rd_layout_mid (hd p tl rest : List uint8_t) {j : Nat} (h : j < p.length) :
    rd (hd ++ p ++ tl ++ rest) (hd.length + j) = rd p j := by
  rw [List.append_assoc, List.append_assoc, rd_append_right, rd_append_left _ h]

theorem and_7f (b : Nat) : b &&& 0x7f = b % 128 := by
  have := Nat.and_pow_two_sub_one_eq_mod b 7
  simpa using this

theorem xor_fold_checksum (body : List uint8_t) :
    body.foldl xor_step 0 = nmea_checksum body := by
  unfold nmea_checksum
  congr 1
  funext acc b
  simp [xor_step, and_7f]

theorem xor_fold_lt (l : List uint8_t) : ∀ acc, acc < 128 → l.foldl xor_step acc < 128 := by
  induction l with
  | nil => intro acc h; exact h
  | cons b t ih =>
    intro acc h
    simp only [List.foldl_cons]
    apply ih
    unfold xor_step
    rw [and_7f]
    exact Nat.xor_lt_two_pow (n := 7) h (Nat.mod_lt _ (by norm_num))

theorem nmea_checksum_lt (body : List uint8_t) : nmea_checksum body < 128 := by
  rw [← xor_fold_checksum]
  exact xor_fold_lt body 0 (by norm_num)

theorem hex_upper_val {d : Nat} (h : d < 16) :
    (hex_upper d).val = if d < 10 then 0x30 + d else 0x41 + (d - 10) := by
  unfold hex_upper
  split
  · rw [byte_val]; omega
  · rw [byte_val]; omega

theorem hex_upper_is_hex {d : Nat} (h : d < 16) : is_digit_of 16 (hex_upper d).val = true := by
  rw [is_hex_iff, hex_upper_val h]
  split <;> omega

theorem hex_upper_digit {d : Nat} (h : d < 16) : digit_or_zero (hex_upper d).val = d := by
  rw [hex_upper_val h]
  unfold digit_or_zero digit_value
  split_ifs <;> simp <;> omega

theorem hex_is_print {c : Nat} (h : is_digit_of 16 c = true) :
    isprint c = true ∧ c ≠ 0x2a ∧ c ≠ 0x0d ∧ c ≠ 0 := by
  have := (is_hex_iff c).mp h
  refine ⟨?_, by omega, by omega, by omega⟩
  simp only [isprint, Bool.and_eq_true, decide_eq_true_eq]
  omega

/-- The statements after the loop for a sentence with a checksum section. -/
theorem nmea_after_loop_csum {msg : List uint8_t} {k s s0 s1 : Nat} (hs : 1 ≤ s)
    (hk : k = s + 3) (h1 : rd msg (s + 1) = some s0) (h2 : rd msg (s + 2) = some s1) :
    nmea_after_loop msg (k : Int) (s : Int) =
      if [s0, s1, 0].getD (strtol (c_string [s0, s1, 0]) 16).2 0 ≠ 0 then
        some LOOKS_NOT_LIKE_GPS_MSG
      else if (seg msg 1 (s - 1)).foldl xor_step 0
          ≠ ((strtol (c_string [s0, s1, 0]) 16).1 % (2 ^ 32 : Int)).toNat then
        some LOOKS_NOT_LIKE_GPS_MSG
      else some ((k : Int) + 2) := by
  have hlen : s + 2 < msg.length := lt_of_rd h2
  unfold nmea_after_loop
  have e1 : ((s : Int) + 1).toNat = s + 1 := by omega
  have e2 : ((s : Int) + 2).toNat = s + 2 := by omega
  have e3 : (s : Int).toNat = s := by omega
  rw [if_neg (by omega), if_pos (by omega), if_neg (by omega), e1, e2, e3, h1, h2,
    nmea_csum_loop_eq msg s (by omega) s 1 0 (by omega)]

/-- The statements after the loop for a sentence without `*`. -/
theorem nmea_after_loop_plain (msg : List uint8_t) (k : Nat) :
    nmea_after_loop msg (k : Int) (-1) = some ((k : Int) + 2) := by
  unfold nmea_after_loop
  rw [if_neg (by omega), if_neg (by omega)]

theorem rd_mem {l : List uint8_t} {j : Nat} (h : j < l.length) :
    ∃ b ∈ l, rd l j = some b.val :=
  ⟨l.get ⟨j, h⟩, List.get_mem _ _ _, rd_of_lt h⟩
/-! ## C3, C4: NMEA round trip -/

/-- C3. NMEA round trip: for every body of printable ASCII bytes with neither
`*` nor CR, the sentence `$` body `*` XX CR LF (XX the upper-case hexadecimal
XOR of the low 7 bits of the body), of total length L ≤ 512 and followed by
arbitrary bytes, makes `looks_like_nmea` return L for every `max_len ≥ L`. -/
theorem nmea_round_trip (body rest : List uint8_t) (max_len : Nat)
    (hbody : nmea_body_ok body) (hL : (nmea_sentence body).length ≤ 512)
    (hm : (nmea_sentence body).length ≤ max_len) :
    looks_like_nmea (nmea_sentence body ++ rest) max_len
      = some ((nmea_sentence body).length : Int) := by
  have hlen : (nmea_sentence body).length = body.length + 6 := by
    simp [nmea_sentence]
  rw [hlen] at hL hm ⊢
  have hc := nmea_checksum_lt body
  have hF : nmea_sentence body ++ rest = [0x24] ++ body ++
      [0x2a, hex_upper (nmea_checksum body / 16), hex_upper (nmea_checksum body % 16),
        0x0d, 0x0a] ++ rest := rfl
  have hx0 := hex_upper_is_hex (show nmea_checksum body / 16 < 16 by omega)
  have hx1 := hex_upper_is_hex (show nmea_checksum body % 16 < 16 by omega)
  obtain ⟨hp0, hs0, hr0, hz0⟩ := hex_is_print hx0
  obtain ⟨hp1, hs1, hr1, hz1⟩ := hex_is_print hx1
  have f0 : rd (nmea_sentence body ++ rest) 0 = some 0x24 := by
    rw [hF, rd_layout_head _ _ _ _ (by simp)]; rfl
  have fb : ∀ j, j < body.length →
      ∃ b ∈ body, rd (nmea_sentence body ++ rest) (1 + j) = some b.val := by
    intro j hj
    obtain ⟨b, hb, hr⟩ := rd_mem hj
    refine ⟨b, hb, ?_⟩
    rw [hF, ← hr]
    exact rd_layout_mid [0x24] body _ rest hj
  have ft : ∀ j, j < 5 → rd (nmea_sentence body ++ rest) (1 + body.length + j)
      = rd [0x2a, hex_upper (nmea_checksum body / 16), hex_upper (nmea_checksum body % 16),
        0x0d, 0x0a] j := by
    intro j hj
    rw [hF]
    exact rd_layout_tail [0x24] body _ rest (by simpa using hj)
  have ft0 : rd (nmea_sentence body ++ rest) (body.length + 1) = some 0x2a := by
    have := ft 0 (by omega)
    rw [show 1 + body.length + 0 = body.length + 1 by omega] at this
    rw [this]; rfl
  have ft1 : rd (nmea_sentence body ++ rest) (body.length + 1 + 1)
      = some (hex_upper (nmea_checksum body / 16)).val := by
    have := ft 1 (by omega)
    rw [show 1 + body.length + 1 = body.length + 1 + 1 by omega] at this
    rw [this]; rfl
  have ft2 : rd (nmea_sentence body ++ rest) (body.length + 1 + 2)
      = some (hex_upper (nmea_checksum body % 16)).val := by
    have := ft 2 (by omega)
    rw [show 1 + body.length + 2 = body.length + 1 + 2 by omega] at this
    rw [this]; rfl
  have ft3 : rd (nmea_sentence body ++ rest) (body.length + 4) = some 0x0d := by
    have := ft 3 (by omega)
    rw [show 1 + body.length + 3 = body.length + 4 by omega] at this
    rw [this]; rfl
  have ft4 : rd (nmea_sentence body ++ rest) (body.length + 4 + 1) = some 0x0a := by
    have := ft 4 (by omega)
    rw [show 1 + body.length + 4 = body.length + 4 + 1 by omega] at this
    rw [this]; rfl
  have hp : ∀ j, 1 ≤ j → j < body.length + 4 →
      ∃ c, rd (nmea_sentence body ++ rest) j = some c ∧ isprint c = true := by
    intro j hj1 hj2
    by_cases hjb : j ≤ body.length
    · obtain ⟨b, hb, hr⟩ := fb (j - 1) (by omega)
      rw [show 1 + (j - 1) = j by omega] at hr
      exact ⟨_, hr, (hbody b hb).1⟩
    · by_cases e1 : j = body.length + 1
      · rw [e1]; exact ⟨_, ft0, isprint_star⟩
      · by_cases e2 : j = body.length + 1 + 1
        · rw [e2]; exact ⟨_, ft1, hp0⟩
        · have e3 : j = body.length + 1 + 2 := by omega
          rw [e3]; exact ⟨_, ft2, hp1⟩
  obtain ⟨cp2, hstar, he⟩ := @nmea_eval _ max_len _ f0 (by omega)
    (show body.length + 4 ≤ NMEA_MAX by simp only [NMEA_MAX]; omega) (by omega) hp ft3 ft4
  have hcp : cp2 = ((body.length + 1 : Nat) : Int) := by
    rcases hstar with ⟨_, hno⟩ | ⟨s, e, hs1', hs2, hs3, hs4⟩
    · exact absurd ft0 (hno (body.length + 1) (by omega) (by omega))
    · have : s = body.length + 1 := by
        by_contra hne
        by_cases hsb : s ≤ body.length
        · obtain ⟨b, hb, hr⟩ := fb (s - 1) (by omega)
          rw [show 1 + (s - 1) = s by omega, hs3] at hr
          exact (hbody b hb).2.1 (Option.some.inj hr).symm
        · by_cases e2 : s = body.length + 1 + 1
          · rw [e2, ft1] at hs3
            exact hs0 (Option.some.inj hs3)
          · have e3 : s = body.length + 1 + 2 := by omega
            rw [e3, ft2] at hs3
            exact hs1 (Option.some.inj hs3)
      rw [e, this]
  have hseg : seg (nmea_sentence body ++ rest) 1 body.length = body := by
    rw [hF]
    exact seg_layout [0x24] body _ rest
  rw [he, hcp, nmea_after_loop_csum (by omega) (by omega) ft1 ft2, c_string_two hz0 hz1,
    strtol_hex_hex hx0 hx1, hex_upper_digit (show nmea_checksum body / 16 < 16 by omega),
    hex_upper_digit (show nmea_checksum body % 16 < 16 by omega)]
  simp only [List.getD_cons_succ, List.getD_cons_zero, ne_eq, not_true_eq_false, if_false,
    Nat.add_sub_cancel, hseg, xor_fold_checksum]
  rw [if_neg]
  · congr 1
  · omega

/-- C4. The NMEA checksum is optional: for every body of printable ASCII bytes
with neither `*` nor CR, `$` body CR LF of total length L ≤ 512, followed by
arbitrary bytes, makes `looks_like_nmea` return L for every `max_len ≥ L`. -/
theorem nmea_round_trip_plain (body rest : List uint8_t) (max_len : Nat)
    (hbody : nmea_body_ok body) (hL : (nmea_sentence_plain body).length ≤ 512)
    (hm : (nmea_sentence_plain body).length ≤ max_len) :
    looks_like_nmea (nmea_sentence_plain body ++ rest) max_len
      = some ((nmea_sentence_plain body).length : Int) := by
  have hlen : (nmea_sentence_plain body).length = body.length + 3 := by
    simp [nmea_sentence_plain]
  rw [hlen] at hL hm ⊢
  have hF : nmea_sentence_plain body ++ rest = [0x24] ++ body ++ [0x0d, 0x0a] ++ rest := rfl
  have f0 : rd (nmea_sentence_plain body ++ rest) 0 = some 0x24 := by
    rw [hF, rd_layout_head _ _ _ _ (by simp)]; rfl
  have fb : ∀ j, j < body.length →
      ∃ b ∈ body, rd (nmea_sentence_plain body ++ rest) (1 + j) = some b.val := by
    intro j hj
    obtain ⟨b, hb, hr⟩ := rd_mem hj
    refine ⟨b, hb, ?_⟩
    rw [hF, ← hr]
    exact rd_layout_mid [0x24] body _ rest hj
  have ft3 : rd (nmea_sentence_plain body ++ rest) (body.length + 1) = some 0x0d := by
    have := rd_layout_tail [0x24] body [0x0d, 0x0a] rest (j := 0) (by simp)
    rw [hF, show body.length + 1 = [(0x24 : uint8_t)].length + body.length + 0 by simp; omega,
      this]
    rfl
  have ft4 : rd (nmea_sentence_plain body ++ rest) (body.length + 1 + 1) = some 0x0a := by
    have := rd_layout_tail [0x24] body [0x0d, 0x0a] rest (j := 1) (by simp)
    rw [hF, show body.length + 1 + 1 = [(0x24 : uint8_t)].length + body.length + 1 by
      simp; omega, this]
    rfl
  have hp : ∀ j, 1 ≤ j → j < body.length + 1 →
      ∃ c, rd (nmea_sentence_plain body ++ rest) j = some c ∧ isprint c = true := by
    intro j hj1 hj2
    obtain ⟨b, hb, hr⟩ := fb (j - 1) (by omega)
    rw [show 1 + (j - 1) = j by omega] at hr
    exact ⟨_, hr, (hbody b hb).1⟩
  obtain ⟨cp2, hstar, he⟩ := @nmea_eval _ max_len _ f0 (by omega)
    (show body.length + 1 ≤ NMEA_MAX by simp only [NMEA_MAX]; omega) (by omega) hp ft3 ft4
  have hcp : cp2 = -1 := by
    rcases hstar with ⟨e, _⟩ | ⟨s, _, hs1, hs2, hs3, _⟩
    · exact e
    · obtain ⟨b, hb, hr⟩ := fb (s - 1) (by omega)
      rw [show 1 + (s - 1) = s by omega, hs3] at hr
      exact absurd (Option.some.inj hr).symm (hbody b hb).2.1
  rw [he, hcp, nmea_after_loop_plain]
  congr 1
/-! ## NMEA: replacing one byte of a valid sentence -/

/-- The scanning loop at a byte which is neither printable nor CR. -/
theorem nmea_scan_at_bad {msg : List uint8_t} {max_len k c : Nat} (f : Nat) (cp : Int)
    (h1 : k < max_len) (h2 : k ≤ NMEA_MAX) (hr : rd msg k = some c)
    (hc : isprint c = false) (hcr : c ≠ 0x0d) :
    nmea_scan msg max_len (f + 1) k cp = some (.ret LOOKS_NOT_LIKE_GPS_MSG) := by
  have hs : c ≠ 0x2a := by
    intro hcon; rw [hcon, isprint_star] at hc; exact Bool.noConfusion hc
  rw [nmea_scan_succ, if_pos h1, if_neg (show ¬ k > NMEA_MAX by omega), hr]
  simp [hs, hcr, hc]

/-- The scanning loop at a CR which is not followed by LF. -/
theorem nmea_scan_at_cr_bad {msg : List uint8_t} {max_len k d : Nat} (f : Nat) (cp : Int)
    (h1 : k + 1 < max_len) (h2 : k ≤ NMEA_MAX) (hr : rd msg k = some 0x0d)
    (hr1 : rd msg (k + 1) = some d) (hd : d ≠ 0x0a) :
    nmea_scan msg max_len (f + 1) k cp = some (.ret LOOKS_NOT_LIKE_GPS_MSG) := by
  rw [nmea_scan_succ, if_pos (show k < max_len by omega),
    if_neg (show ¬ k > NMEA_MAX by omega), hr]
  simp [hr1, hd, show ¬ k + 1 = max_len by omega]

theorem isprint_lf : isprint 0x0a = false := by decide

/-- The position of the last `*` is determined by the buffer. -/
theorem star_pos_eq {msg : List uint8_t} {i k s : Nat} {cp cp2 : Int}
    (h : star_pos msg i k cp cp2) (h1 : i ≤ s) (h2 : s < k) (hs : rd msg s = some 0x2a)
    (hno : ∀ j, s < j → j < k → rd msg j ≠ some 0x2a) : cp2 = (s : Int) := by
  rcases h with ⟨_, hn⟩ | ⟨t, e, ht1, ht2, ht3, ht4⟩
  · exact absurd hs (hn s h1 h2)
  · have : t = s := by
      by_contra hne
      by_cases hlt : t < s
      · exact ht4 s hlt h2 hs
      · exact hno t (by omega) ht2 ht3
    rw [e, this]

/-- A valid sentence with one byte before the CR replaced: either the scan
rejects it, or the new byte is printable and the scan reaches the CR LF pair
as before. -/
theorem nmea_set_eval {msg : List uint8_t} {m k p : Nat} (v : uint8_t)
    (h0 : rd msg 0 = some 0x24) (hk2 : k ≤ NMEA_MAX) (hk3 : k + 1 < m)
    (hp : ∀ j, 1 ≤ j → j < k → ∃ c, rd msg j = some c ∧ isprint c = true)
    (hcr : rd msg k = some 0x0d) (hlf : rd msg (k + 1) = some 0x0a)
    (hp1 : 1 ≤ p) (hp2 : p < k) :
    (isprint v.val = false ∧
      looks_like_nmea (msg.set p v) m = some LOOKS_NOT_LIKE_GPS_MSG) ∨
    (isprint v.val = true ∧ ∃ cp2, star_pos (msg.set p v) 1 k (-1) cp2 ∧
      looks_like_nmea (msg.set p v) m = nmea_after_loop (msg.set p v) (k : Int) cp2) := by
  have hlen : k + 1 < msg.length := lt_of_rd hlf
  have g0 : rd (msg.set p v) 0 = some 0x24 := by rw [rd_set_ne v (by omega), h0]
  have gcr : rd (msg.set p v) k = some 0x0d := by rw [rd_set_ne v (by omega), hcr]
  have glf : rd (msg.set p v) (k + 1) = some 0x0a := by rw [rd_set_ne v (by omega), hlf]
  have gp : rd (msg.set p v) p = some v.val := rd_set_eq v (by omega)
  by_cases hv : isprint v.val = true
  · right
    refine ⟨hv, ?_⟩
    apply nmea_eval g0 (by omega) hk2 hk3 _ gcr glf
    intro j hj1 hj2
    by_cases hj : j = p
    · rw [hj]; exact ⟨_, gp, hv⟩
    · rw [rd_set_ne v hj]; exact hp j hj1 hj2
  · left
    have hv' : isprint v.val = false := by simpa using hv
    refine ⟨hv', ?_⟩
    obtain ⟨cp3, _, he⟩ := @nmea_scan_run (msg.set p v) m (p - 1) (m - p + 1) 1 (-1)
      (fun j hj1 hj2 => by rw [rd_set_ne v (by omega)]; exact hp j hj1 (by omega))
      (by omega) (by omega)
    have e1 : 1 + (p - 1) = p := by omega
    have e2 : m - p + 1 + (p - 1) = m := by omega
    rw [e1, e2] at he
    unfold looks_like_nmea
    rw [g0]
    simp only [ne_eq, not_true_eq_false, if_false]
    rw [he]
    by_cases hvc : v.val = 0x0d
    · rw [hvc] at gp
      obtain ⟨d, hd1, hd2⟩ : ∃ d, rd (msg.set p v) (p + 1) = some d ∧ d ≠ 0x0a := by
        rw [rd_set_ne v (by omega)]
        by_cases hpk : p + 1 = k
        · rw [hpk]; exact ⟨_, hcr, by decide⟩
        · obtain ⟨c, hc1, hc2⟩ := hp (p + 1) (by omega) (by omega)
          refine ⟨c, hc1, ?_⟩
          intro hcon; rw [hcon, isprint_lf] at hc2; exact Bool.noConfusion hc2
      rw [nmea_scan_at_cr_bad _ _ (by omega) (by omega) gp hd1 hd2]
    · rw [nmea_scan_at_bad _ _ (by omega) (by omega) gp hv' hvc]
theorem xor_fold_acc (l : List uint8_t) : ∀ acc : Nat,
    l.foldl xor_step acc = acc ^^^ l.foldl xor_step 0 := by
  induction l with
  | nil => intro acc; simp
  | cons b t ih =>
    intro acc
    simp only [List.foldl_cons]
    rw [ih (xor_step acc b), ih (xor_step 0 b)]
    simp only [xor_step, Nat.zero_xor, Nat.xor_assoc]

theorem xor_fold_cons (b : uint8_t) (t : List uint8_t) :
    (b :: t).foldl xor_step 0 = (b.val % 128) ^^^ t.foldl xor_step 0 := by
  simp only [List.foldl_cons]
  rw [xor_fold_acc]
  simp [xor_step, and_7f]

theorem xor_fold_seg_set {msg : List uint8_t} {p old : Nat} (v : uint8_t)
    (hold : rd msg p = some old) : ∀ (n a : Nat), a ≤ p → p < a + n → a + n ≤ msg.length →
    (seg (msg.set p v) a n).foldl xor_step 0 ^^^ (old % 128)
      = (seg msg a n).foldl xor_step 0 ^^^ (v.val % 128) := by
  intro n
  induction n with
  | zero => intro a h1 h2 _; omega
  | succ n ih =>
    intro a h1 h2 h3
    have hl : (msg.set p v).length = msg.length := List.length_set _ _ _
    have ha : a < msg.length := by omega
    have ha2 : a < (msg.set p v).length := by omega
    rw [seg_succ n ha, seg_succ n ha2, xor_fold_cons, xor_fold_cons]
    by_cases hk : a = p
    · subst hk
      have e1 : ((msg.set a v).get ⟨a, ha2⟩).val = v.val := by simp
      have e2 : (msg.get ⟨a, ha⟩).val = old := by
        rw [rd_of_lt ha] at hold
        simpa using hold
      rw [e1, e2, seg_congr n (a + 1) (fun i hi _ => rd_set_ne v (by omega)) (by omega)
        (by omega)]
      ac_rfl
    · have e1 : (msg.set p v).get ⟨a, ha2⟩ = msg.get ⟨a, ha⟩ :=
        get_eq_of_rd_eq ha ha2 (rd_set_ne v hk)
      have := ih (a + 1) (by omega) (by omega) (by omega)
      rw [e1, Nat.xor_assoc, this, Nat.xor_assoc]

theorem xor_left_cancel {a x y : Nat} (h : a ^^^ x = a ^^^ y) : x = y := by
  have := congrArg (fun t => a ^^^ t) h
  simpa [← Nat.xor_assoc] using this

theorem isprint_lt {c : Nat} (h : isprint c = true) : 0x20 ≤ c ∧ c < 128 := by
  simp only [isprint, Bool.and_eq_true, decide_eq_true_eq] at h
  omega

/-- What a valid verdict on a sentence with a checksum section says. -/
theorem nmea_checksummed_inv {msg : List uint8_t} {max_len L : Nat}
    (h : looks_like_nmea msg max_len = some (L : Int)) (hL : 0 < L)
    (hcs : nmea_checksummed msg L) :
    ∃ (s c0 c1 : Nat), L = s + 5 ∧ 1 ≤ s ∧ s + 3 ≤ NMEA_MAX ∧ s + 4 < max_len ∧
      rd msg 0 = some 0x24 ∧
      (∀ j, 1 ≤ j → j < s + 3 → ∃ c, rd msg j = some c ∧ isprint c = true) ∧
      rd msg (s + 3) = some 0x0d ∧ rd msg (s + 3 + 1) = some 0x0a ∧
      rd msg s = some 0x2a ∧ (∀ j, s < j → j < s + 3 → rd msg j ≠ some 0x2a) ∧
      rd msg (s + 1) = some c0 ∧ rd msg (s + 2) = some c1 ∧
      is_digit_of 16 c0 = true ∧ is_digit_of 16 c1 = true ∧
      (seg msg 1 (s - 1)).foldl xor_step 0 = 16 * digit_or_zero c0 + digit_or_zero c1 := by
  obtain ⟨k, cp2, hLk, hk1, hk2, hk3, h0, hp, hcr, hlf, hstar, hafter⟩ :=
    nmea_valid_inv h (by omega)
  obtain ⟨hst, c0, c1, hc0, hc1, hx0, hx1⟩ := hcs
  have hLk' : L = k + 2 := by omega
  subst hLk'
  have e5 : k + 2 - 5 = k - 3 := by omega
  have e4 : k + 2 - 4 = k - 2 := by omega
  have e3 : k + 2 - 3 = k - 1 := by omega
  rw [e5] at hst
  rw [e4] at hc0
  rw [e3] at hc1
  -- the `*` is not at index 0, so the sentence has at least four bytes before CR
  have hk4 : 4 ≤ k := by
    by_contra hcon
    have : k - 3 = 0 := by omega
    rw [this, h0] at hst
    exact absurd (Option.some.inj hst) (by decide)
  -- the scan has recorded a `*`, and the statements after the loop accept it
  rcases hstar with ⟨_, hno⟩ | ⟨t, e, ht1, ht2, ht3, ht4⟩
  · exact absurd hst (hno (k - 3) (by omega) (by omega))
  · subst e
    have htk : t + 3 = k := by
      by_contra hne
      unfold nmea_after_loop at hafter
      rw [if_neg (by omega), if_pos (by omega), if_pos (by omega)] at hafter
      simp only [LOOKS_NOT_LIKE_GPS_MSG, Option.some.injEq] at hafter
      omega
    subst htk
    have e1 : t + 3 - 2 = t + 1 := by omega
    have e2 : t + 3 - 1 = t + 2 := by omega
    rw [e1] at hc0
    rw [e2] at hc1
    obtain ⟨_, _, _, hz0⟩ := hex_is_print hx0
    obtain ⟨_, _, _, hz1⟩ := hex_is_print hx1
    rw [nmea_after_loop_csum ht1 rfl hc0 hc1, c_string_two hz0 hz1,
      strtol_hex_hex hx0 hx1] at hafter
    simp only [List.getD_cons_succ, List.getD_cons_zero, ne_eq, not_true_eq_false,
      if_false] at hafter
    have hd0 := digit_or_zero_lt hx0
    have hd1 := digit_or_zero_lt hx1
    refine ⟨t, c0, c1, by omega, ht1, hk2, by omega, h0, hp, hcr, hlf, ht3, ht4, hc0, hc1,
      hx0, hx1, ?_⟩
    by_contra hne
    rw [if_pos] at hafter
    · simp only [LOOKS_NOT_LIKE_GPS_MSG, Option.some.injEq] at hafter
      omega
    · intro hcon
      apply hne
      rw [hcon]
      omega
/-- Replacing one body byte of a valid sentence with a checksum section by
another value makes `looks_like_nmea` answer "not this protocol". -/
theorem nmea_mutation_body {msg : List uint8_t} {max_len m L p old : Nat} (v : uint8_t)
    (h : looks_like_nmea msg max_len = some (L : Int)) (hL : 0 < L)
    (hcs : nmea_checksummed msg L) (hp1 : 1 ≤ p) (hp2 : p + 5 < L)
    (hold : rd msg p = some old) (hv : v.val ≠ old) (hm : L ≤ m) :
    looks_like_nmea (msg.set p v) m = some LOOKS_NOT_LIKE_GPS_MSG := by
  obtain ⟨s, c0, c1, hLs, hs1, hs2, hs3, h0, hp, hcr, hlf, hst, hno, hc0, hc1, hx0, hx1, hX⟩ :=
    nmea_checksummed_inv h hL hcs
  subst hLs
  have hlen : s + 3 + 1 < msg.length := lt_of_rd hlf
  rcases nmea_set_eval (m := m) v h0 hs2 (by omega) hp hcr hlf hp1 (show p < s + 3 by omega)
    with ⟨_, hres⟩ | ⟨hpr, cp2, hstar, hres⟩
  · exact hres
  · have gst : rd (msg.set p v) s = some 0x2a := by rw [rd_set_ne v (by omega), hst]
    have gno : ∀ j, s < j → j < s + 3 → rd (msg.set p v) j ≠ some 0x2a := by
      intro j hj1 hj2
      rw [rd_set_ne v (by omega)]
      exact hno j hj1 hj2
    have hcp := star_pos_eq hstar hs1 (by omega) gst gno
    have g0 : rd (msg.set p v) (s + 1) = some c0 := by rw [rd_set_ne v (by omega), hc0]
    have g1 : rd (msg.set p v) (s + 2) = some c1 := by rw [rd_set_ne v (by omega), hc1]
    obtain ⟨_, _, _, hz0⟩ := hex_is_print hx0
    obtain ⟨_, _, _, hz1⟩ := hex_is_print hx1
    have hd0 := digit_or_zero_lt hx0
    have hd1 := digit_or_zero_lt hx1
    rw [hres, hcp, nmea_after_loop_csum hs1 rfl g0 g1, c_string_two hz0 hz1,
      strtol_hex_hex hx0 hx1]
    simp only [List.getD_cons_succ, List.getD_cons_zero, ne_eq, not_true_eq_false, if_false]
    rw [if_pos]
    intro hcon
    have hx := xor_fold_seg_set v hold (s - 1) 1 hp1 (by omega) (by omega)
    obtain ⟨c, hc, hcp'⟩ := hp p hp1 (by omega)
    rw [hold] at hc
    have holdc : old = c := Option.some.inj hc
    have hb1 := isprint_lt hcp'
    have hb2 := isprint_lt hpr
    have e : (seg (msg.set p v) 1 (s - 1)).foldl xor_step 0
        = (seg msg 1 (s - 1)).foldl xor_step 0 := by
      rw [hcon, hX]; omega
    rw [e] at hx
    have := xor_left_cancel hx
    omega

/-- Replacing one of the two checksum digits of a valid sentence by a byte
which is not the same hexadecimal digit, and in the first place not a space or
a sign, makes `looks_like_nmea` answer "not this protocol". -/
theorem nmea_mutation_csum {msg : List uint8_t} {max_len m L p old : Nat} (v : uint8_t)
    (h : looks_like_nmea msg max_len = some (L : Int)) (hL : 0 < L)
    (hcs : nmea_checksummed msg L) (hp : p + 4 = L ∨ p + 3 = L)
    (hold : rd msg p = some old) (hnot : ¬ same_hex_digit v.val old)
    (hsign : p + 4 = L → v.val ≠ 0x20 ∧ v.val ≠ 0x2b ∧ v.val ≠ 0x2d) (hm : L ≤ m) :
    looks_like_nmea (msg.set p v) m = some LOOKS_NOT_LIKE_GPS_MSG := by
  obtain ⟨s, c0, c1, hLs, hs1, hs2, hs3, h0, hpr, hcr, hlf, hst, hno, hc0, hc1, hx0, hx1, hX⟩ :=
    nmea_checksummed_inv h hL hcs
  subst hLs
  have hlen : s + 3 + 1 < msg.length := lt_of_rd hlf
  obtain ⟨_, hs0', _, hz0⟩ := hex_is_print hx0
  obtain ⟨_, hs1', _, hz1⟩ := hex_is_print hx1
  have hd0 := digit_or_zero_lt hx0
  have hd1 := digit_or_zero_lt hx1
  rcases nmea_set_eval (m := m) v h0 hs2 (by omega) hpr hcr hlf (show 1 ≤ p by omega)
    (show p < s + 3 by omega) with ⟨_, hres⟩ | ⟨hvpr, cp2, hstar, hres⟩
  · exact hres
  · have hvb := isprint_lt hvpr
    have gp : rd (msg.set p v) p = some v.val := rd_set_eq v (by omega)
    have hseg : seg (msg.set p v) 1 (s - 1) = seg msg 1 (s - 1) :=
      seg_congr _ 1 (fun i _ hi => rd_set_ne v (by omega)) (by omega)
        (by rw [List.length_set]; omega)
    rw [hres]
    by_cases hvs : v.val = 0x2a
    · -- the new byte is a second `*`: the checksum section has the wrong length
      have gno : ∀ j, p < j → j < s + 3 → rd (msg.set p v) j ≠ some 0x2a := by
        intro j hj1 hj2
        rw [rd_set_ne v (by omega)]
        exact hno j (by omega) hj2
      rw [hvs] at gp
      have hcp := star_pos_eq hstar (show 1 ≤ p by omega) (by omega) gp gno
      rw [hcp]
      unfold nmea_after_loop
      rw [if_neg (by omega), if_pos (by omega), if_pos (by omega)]
    · have gst : rd (msg.set p v) s = some 0x2a := by rw [rd_set_ne v (by omega), hst]
      have gno : ∀ j, s < j → j < s + 3 → rd (msg.set p v) j ≠ some 0x2a := by
        intro j hj1 hj2
        by_cases hj : j = p
        · rw [hj, gp]; intro hcon; exact hvs (Option.some.inj hcon)
        · rw [rd_set_ne v hj]; exact hno j hj1 hj2
      have hcp := star_pos_eq hstar hs1 (by omega) gst gno
      rw [hcp]
      rcases hp with hp4 | hp3
      · -- the first checksum character
        have hps : p = s + 1 := by omega
        have hoc : old = c0 := by rw [hps, hc0] at hold; exact (Option.some.inj hold).symm
        have g0 : rd (msg.set p v) (s + 1) = some v.val := by rw [← hps]; exact gp
        have g1 : rd (msg.set p v) (s + 2) = some c1 := by rw [rd_set_ne v (by omega), hc1]
        rw [nmea_after_loop_csum hs1 rfl g0 g1, c_string_two (by omega) hz1, hseg, hX]
        by_cases hvx : is_digit_of 16 v.val = true
        · have hdv := digit_or_zero_lt hvx
          have hne : digit_or_zero v.val ≠ digit_or_zero c0 := by
            intro hcon
            exact hnot ⟨hvx, by rw [hoc]; exact hx0, by rw [hoc]; exact hcon⟩
          rw [strtol_hex_hex hvx hx1]
          simp only [List.getD_cons_succ, List.getD_cons_zero, ne_eq, not_true_eq_false,
            if_false]
          rw [if_pos]
          omega
        · have hvx' : is_digit_of 16 v.val = false := by simpa using hvx
          obtain ⟨hsp, hpl, hmi⟩ := hsign hp4
          have hws : isspace v.val = false := by
            simp only [isspace, Bool.or_eq_false_iff, Bool.and_eq_false_iff,
              decide_eq_false_iff_not]
            omega
          rw [if_pos]
          rw [strtol_other hvx' hws hmi hpl]
          simp only [List.getD_cons_zero, ne_eq]
          omega
      · -- the second checksum character
        have hps : p = s + 2 := by omega
        have hoc : old = c1 := by rw [hps, hc1] at hold; exact (Option.some.inj hold).symm
        have g0 : rd (msg.set p v) (s + 1) = some c0 := by rw [rd_set_ne v (by omega), hc0]
        have g1 : rd (msg.set p v) (s + 2) = some v.val := by rw [← hps]; exact gp
        rw [nmea_after_loop_csum hs1 rfl g0 g1, c_string_two hz0 (by omega), hseg, hX]
        by_cases hvx : is_digit_of 16 v.val = true
        · have hdv := digit_or_zero_lt hvx
          have hne : digit_or_zero v.val ≠ digit_or_zero c1 := by
            intro hcon
            exact hnot ⟨hvx, by rw [hoc]; exact hx1, by rw [hoc]; exact hcon⟩
          rw [strtol_hex_hex hx0 hvx]
          simp only [List.getD_cons_succ, List.getD_cons_zero, ne_eq, not_true_eq_false,
            if_false]
          rw [if_pos]
          omega
        · have hvx' : is_digit_of 16 v.val = false := by simpa using hvx
          rw [if_pos]
          rw [strtol_hex_other hx0 hvx']
          simp only [List.getD_cons_succ, List.getD_cons_zero, ne_eq]
          omega
/-! ## The frame multiplexer -/

theorem nmea_lead {msg : List uint8_t} {n : Nat} {r : Int}
    (h : looks_like_nmea msg n = some r) (hr : r ≠ LOOKS_NOT_LIKE_GPS_MSG) :
    rd msg 0 = some 0x24 := by
  unfold looks_like_nmea at h
  cases h0 : rd msg 0 with
  | none => simp [h0] at h
  | some m0 =>
    simp only [h0] at h
    by_cases c0 : m0 ≠ 0x24
    · rw [if_pos c0] at h
      exact absurd (Option.some.inj h).symm hr
    · simp only [ne_eq, not_not] at c0
      rw [c0]

theorem sirf_lead {msg : List uint8_t} {n : Nat} {r : Int}
    (h : looks_like_sirf msg n = some r) (hr : r ≠ LOOKS_NOT_LIKE_GPS_MSG) :
    rd msg 0 = some 0xa0 := by
  unfold looks_like_sirf at h
  cases h0 : rd msg 0 with
  | none => simp [h0] at h
  | some m0 =>
    simp only [h0] at h
    by_cases c0 : m0 ≠ 0xa0
    · rw [if_pos c0] at h
      exact absurd (Option.some.inj h).symm hr
    · simp only [ne_eq, not_not] at c0
      rw [c0]

theorem sirf_of_lead {msg : List uint8_t} {c : Nat} (n : Nat) (h0 : rd msg 0 = some c)
    (hc : c ≠ 0xa0) : looks_like_sirf msg n = some LOOKS_NOT_LIKE_GPS_MSG := by
  unfold looks_like_sirf
  rw [h0]
  simp only
  rw [if_pos hc]

theorem ublox_of_lead {msg : List uint8_t} {c : Nat} (n : Nat) (h0 : rd msg 0 = some c)
    (hc : c ≠ 0xb5) : looks_like_ublox msg n = some LOOKS_NOT_LIKE_GPS_MSG := by
  unfold looks_like_ublox
  rw [h0]
  simp only
  rw [if_pos hc]

/-- The verdicts of `looks_like_nmea`: -1, 0 or a positive length. -/
theorem nmea_range {msg : List uint8_t} {n : Nat} {r : Int}
    (h : looks_like_nmea msg n = some r) : -1 ≤ r := by
  by_cases hr : 0 < r
  · omega
  · by_cases hr0 : r = LOOKS_NOT_LIKE_GPS_MSG
    · rw [hr0]; decide
    · by_cases hr1 : r = LOOKS_LIKE_TRUNCATED_MSG
      · rw [hr1]; decide
      · exfalso
        have h0 := nmea_lead h hr0
        unfold looks_like_nmea at h
        rw [h0] at h
        simp only [ne_eq, not_true_eq_false, if_false] at h
        cases hs : nmea_scan msg n n 1 (-1) with
        | none => simp [hs] at h
        | some res =>
          cases res with
          | ret v =>
            simp only [hs, Option.some.injEq] at h
            rcases nmea_scan_ret _ _ _ _ hs with e | e
            · exact hr0 (by rw [← h, e])
            · exact hr1 (by rw [← h, e])
          | out crlf cp =>
            simp only [hs] at h
            by_cases hc : crlf < 0
            · unfold nmea_after_loop at h
              rw [if_pos hc] at h
              exact hr1 (Option.some.inj h).symm
            · by_cases hpos : r = crlf + 2
              · omega
              · unfold nmea_after_loop at h
                rw [if_neg hc] at h
                split at h
                · split at h
                  · exact hr0 (Option.some.inj h).symm
                  · split at h
                    · simp only [] at h
                      split at h
                      · exact hr0 (Option.some.inj h).symm
                      · split at h
                        · simp at h
                        · split at h
                          · exact hr0 (Option.some.inj h).symm
                          · exact hpos (Option.some.inj h).symm
                    · simp at h
                · exact hpos (Option.some.inj h).symm
/-- At most one detector answers something else than "not this protocol", and
then `find_msg` stops at it: what one pass of the loop body of `find_msg` does
at an offset inside the buffer. -/
theorem find_msg_step {buf : List uint8_t} {buf_size msg_pos : Nat}
    (hlen : buf_size ≤ buf.length) (hpos : msg_pos < buf_size) :
    (rejected_at buf buf_size msg_pos ∧
      ∀ fuel, find_msg_loop buf buf_size (fuel + 1) msg_pos
        = find_msg_loop buf buf_size fuel (msg_pos + 1)) ∨
    (∃ (t : msg_type_t) (r : Int),
      detector t (buf.drop msg_pos) (buf_size - msg_pos) = some r ∧
      r ≠ LOOKS_NOT_LIKE_GPS_MSG ∧
      (∀ t2, t2 ≠ t →
        detector t2 (buf.drop msg_pos) (buf_size - msg_pos) = some LOOKS_NOT_LIKE_GPS_MSG) ∧
      ∀ fuel, find_msg_loop buf buf_size (fuel + 1) msg_pos = some (msg_pos, some (t, r))) := by
  have hw1 : 1 ≤ buf_size - msg_pos := by omega
  have hw2 : buf_size - msg_pos ≤ (buf.drop msg_pos).length := by
    rw [List.length_drop]; omega
  obtain ⟨rn, hn⟩ := nmea_total hw1 hw2
  obtain ⟨rs, hs⟩ := sirf_total hw1 hw2
  obtain ⟨ru, hu⟩ := ublox_total hw1 hw2
  by_cases cn : rn ≠ LOOKS_NOT_LIKE_GPS_MSG
  · right
    have h0 := nmea_lead hn cn
    refine ⟨.MSG_TYPE_NMEA, rn, hn, cn, ?_, ?_⟩
    · intro t2 ht2
      cases t2 with
      | MSG_TYPE_NMEA => exact absurd rfl ht2
      | MSG_TYPE_SIRF => exact sirf_of_lead _ h0 (by decide)
      | MSG_TYPE_UBLOX => exact ublox_of_lead _ h0 (by decide)
    · intro fuel
      rw [find_msg_loop, if_pos hpos, hn]
      simp only
      rw [if_pos cn]
  · simp only [ne_eq, not_not] at cn
    subst cn
    by_cases cs : rs ≠ LOOKS_NOT_LIKE_GPS_MSG
    · right
      have h0 := sirf_lead hs cs
      refine ⟨.MSG_TYPE_SIRF, rs, hs, cs, ?_, ?_⟩
      · intro t2 ht2
        cases t2 with
        | MSG_TYPE_NMEA => exact hn
        | MSG_TYPE_SIRF => exact absurd rfl ht2
        | MSG_TYPE_UBLOX => exact ublox_of_lead _ h0 (by decide)
      · intro fuel
        rw [find_msg_loop, if_pos hpos, hn]
        simp only [ne_eq, not_true_eq_false, if_false, hs]
        rw [if_pos cs]
    · simp only [ne_eq, not_not] at cs
      subst cs
      by_cases cu : ru ≠ LOOKS_NOT_LIKE_GPS_MSG
      · right
        refine ⟨.MSG_TYPE_UBLOX, ru, hu, cu, ?_, ?_⟩
        · intro t2 ht2
          cases t2 with
          | MSG_TYPE_NMEA => exact hn
          | MSG_TYPE_SIRF => exact hs
          | MSG_TYPE_UBLOX => exact absurd rfl ht2
        · intro fuel
          rw [find_msg_loop, if_pos hpos, hn]
          simp only [ne_eq, not_true_eq_false, if_false, hs, hu]
          rw [if_pos cu]
      · simp only [ne_eq, not_not] at cu
        subst cu
        left
        refine ⟨?_, ?_⟩
        · intro t
          cases t with
          | MSG_TYPE_NMEA => exact hn
          | MSG_TYPE_SIRF => exact hs
          | MSG_TYPE_UBLOX => exact hu
        · intro fuel
          rw [find_msg_loop, if_pos hpos, hn]
          simp only [ne_eq, not_true_eq_false, if_false, hs, hu]

/-- The loop of `find_msg` stops at the first offset which is not rejected. -/
theorem find_msg_loop_spec {buf : List uint8_t} {buf_size : Nat}
    (hlen : buf_size ≤ buf.length) :
    ∀ (fuel msg_pos : Nat), buf_size - msg_pos ≤ fuel →
      (∃ q, find_msg_loop buf buf_size fuel msg_pos = some (q, none) ∧
        ∀ p, msg_pos ≤ p → p < buf_size → rejected_at buf buf_size p) ∨
      (∃ (p : Nat) (t : msg_type_t) (r : Int),
        find_msg_loop buf buf_size fuel msg_pos = some (p, some (t, r)) ∧
        msg_pos ≤ p ∧ p < buf_size ∧
        (∀ q, msg_pos ≤ q → q < p → rejected_at buf buf_size q) ∧
        detector t (buf.drop p) (buf_size - p) = some r ∧ r ≠ LOOKS_NOT_LIKE_GPS_MSG ∧
        ∀ t2, t2 ≠ t →
          detector t2 (buf.drop p) (buf_size - p) = some LOOKS_NOT_LIKE_GPS_MSG) := by
  intro fuel
  induction fuel with
  | zero =>
    intro msg_pos hf
    left
    exact ⟨msg_pos, rfl, fun p h1 h2 => by omega⟩
  | succ f ih =>
    intro msg_pos hf
    by_cases hpos : msg_pos < buf_size
    · rcases find_msg_step hlen hpos with ⟨hrej, hstep⟩ | ⟨t, r, hd, hr, hoth, hstep⟩
      · rw [hstep f]
        rcases ih (msg_pos + 1) (by omega) with ⟨q, hq, hall⟩ | ⟨p, t, r, hq, h1, h2, h3, h4⟩
        · left
          refine ⟨q, hq, fun p hp1 hp2 => ?_⟩
          by_cases e : p = msg_pos
          · rw [e]; exact hrej
          · exact hall p (by omega) hp2
        · right
          refine ⟨p, t, r, hq, by omega, h2, fun q hq1 hq2 => ?_, h4⟩
          by_cases e : q = msg_pos
          · rw [e]; exact hrej
          · exact h3 q (by omega) hq2
      · right
        exact ⟨msg_pos, t, r, hstep f, le_refl _, hpos, fun q h1 h2 => by omega, hd, hr, hoth⟩
    · left
      refine ⟨msg_pos, ?_, fun p h1 h2 => by omega⟩
      rw [find_msg_loop, if_neg hpos]

/-! ## C10: what `find_msg` returns -/

/-- C10. With `buf_size` bytes in the buffer, `find_msg(buf, start, buf_size)`
returns a result; it returns -1, leaving `*res` as it was, exactly when every
offset in `[start, buf_size)` is rejected by all three detectors; otherwise it
returns the smallest offset `p` in `[start, buf_size)` at which a detector, run
on the window `buf[p .. buf_size)`, answers something else than "not this
protocol" (the other two detectors reject that offset), `type` is that
detector, `is_truncated` is set exactly when its answer is "truncated", and
`size` is `buf_size - p` then and the valid length otherwise. -/
theorem find_msg_spec (buf : List uint8_t) (start_pos buf_size : Nat) (res : gps_msg_metadata_t)
    (hlen : buf_size ≤ buf.length) :
    ∃ (ret : Int) (res2 : gps_msg_metadata_t),
      find_msg buf start_pos buf_size res = some (ret, res2) ∧
      (ret = -1 ↔ ∀ p, start_pos ≤ p → p < buf_size → rejected_at buf buf_size p) ∧
      (ret = -1 → res2 = res) ∧
      (ret ≠ -1 → ∃ (p : Nat) (r : Int), ret = (p : Int) ∧ start_pos ≤ p ∧ p < buf_size ∧
        (∀ q, start_pos ≤ q → q < p → rejected_at buf buf_size q) ∧
        detector res2.type (buf.drop p) (buf_size - p) = some r ∧
        r ≠ LOOKS_NOT_LIKE_GPS_MSG ∧
        (∀ t2, t2 ≠ res2.type →
          detector t2 (buf.drop p) (buf_size - p) = some LOOKS_NOT_LIKE_GPS_MSG) ∧
        (res2.is_truncated = true ↔ r = LOOKS_LIKE_TRUNCATED_MSG) ∧
        (r = LOOKS_LIKE_TRUNCATED_MSG → res2.size = buf_size - p) ∧
        (r ≠ LOOKS_LIKE_TRUNCATED_MSG → 0 < r ∧ (res2.size : Int) = r)) := by
  rcases find_msg_loop_spec hlen (buf_size - start_pos) start_pos (le_refl _) with
    ⟨q, hq, hall⟩ | ⟨p, t, r, hq, h1, h2, h3, h4, h5, h6⟩
  · refine ⟨-1, res, ?_, ?_, fun _ => rfl, fun hne => absurd rfl hne⟩
    · unfold find_msg
      rw [hq]
    · exact ⟨fun _ => hall, fun _ => rfl⟩
  · have hrange : -1 ≤ r := by
      cases t with
      | MSG_TYPE_NMEA => exact nmea_range h4
      | MSG_TYPE_SIRF => exact sirf_range h4
      | MSG_TYPE_UBLOX => exact ublox_range h4
    have hnot : ¬ ∀ p, start_pos ≤ p → p < buf_size → rejected_at buf buf_size p := by
      intro hcon
      have := hcon p h1 h2 t
      rw [h4] at this
      exact h5 (Option.some.inj this)
    by_cases htr : r = LOOKS_LIKE_TRUNCATED_MSG
    · refine ⟨(p : Int), { type := t, size := buf_size - p, is_truncated := true }, ?_, ?_, ?_,
        ?_⟩
      · unfold find_msg
        rw [hq]
        simp only
        rw [if_pos htr]
      · exact ⟨fun hc => by omega, fun hc => absurd hc hnot⟩
      · intro hc; omega
      · intro _
        exact ⟨p, r, rfl, h1, h2, h3, h4, h5, h6, ⟨fun _ => htr, fun _ => rfl⟩,
          fun _ => rfl, fun hc => absurd htr hc⟩
    · refine ⟨(p : Int), { type := t, size := r.toNat, is_truncated := false }, ?_, ?_, ?_, ?_⟩
      · unfold find_msg
        rw [hq]
        simp only
        rw [if_neg htr]
      · exact ⟨fun hc => by omega, fun hc => absurd hc hnot⟩
      · intro hc; omega
      · intro _
        simp only [LOOKS_NOT_LIKE_GPS_MSG, LOOKS_LIKE_TRUNCATED_MSG] at h5 htr
        refine ⟨p, r, rfl, h1, h2, h3, h4, h5, h6, ⟨fun hc => by simp at hc, fun hc => ?_⟩,
          fun hc => ?_, fun _ => ⟨by omega, ?_⟩⟩
        · simp only [LOOKS_LIKE_TRUNCATED_MSG] at hc; omega
        · simp only [LOOKS_LIKE_TRUNCATED_MSG] at hc; omega
        · simp only
          omega
/-! ## The fuel of the loops is enough

Each loop function is called with at least as much fuel as the loop has
iterations left; more fuel does not change the result, so no result below
comes from an exhausted fuel. -/

theorem sirf_csum_loop_fuel (msg : List uint8_t) (off n : Nat) :
    ∀ (f i csum : Nat), n - i ≤ f →
      sirf_csum_loop msg off n (f + 1) i csum = sirf_csum_loop msg off n f i csum := by
  intro f
  induction f with
  | zero =>
    intro i csum h
    simp [sirf_csum_loop, show ¬ i < n by omega]
  | succ f ih =>
    intro i csum h
    rw [sirf_csum_loop]
    conv => rhs; rw [sirf_csum_loop]
    by_cases hi : i < n
    · rw [if_pos hi, if_pos hi]
      cases rd msg (off + i) with
      | none => rfl
      | some b => exact ih _ _ (by omega)
    · rw [if_neg hi, if_neg hi]

theorem ublox_ck_loop_fuel (msg : List uint8_t) (n : Nat) :
    ∀ (f i ck_a ck_b : Nat), n + 4 + 2 - i ≤ f →
      ublox_ck_loop msg n (f + 1) i ck_a ck_b = ublox_ck_loop msg n f i ck_a ck_b := by
  intro f
  induction f with
  | zero =>
    intro i ck_a ck_b h
    simp [ublox_ck_loop, show ¬ i < n + 4 + 2 by omega]
  | succ f ih =>
    intro i ck_a ck_b h
    rw [ublox_ck_loop]
    conv => rhs; rw [ublox_ck_loop]
    by_cases hi : i < n + 4 + 2
    · rw [if_pos hi, if_pos hi]
      cases rd msg i with
      | none => rfl
      | some b => exact ih _ _ _ (by omega)
    · rw [if_neg hi, if_neg hi]

theorem nmea_csum_loop_fuel (msg : List uint8_t) (s : Nat) :
    ∀ (f i acc : Nat), s - i ≤ f →
      nmea_csum_loop msg s (f + 1) i acc = nmea_csum_loop msg s f i acc := by
  intro f
  induction f with
  | zero =>
    intro i acc h
    simp [nmea_csum_loop, show ¬ i < s by omega]
  | succ f ih =>
    intro i acc h
    rw [nmea_csum_loop]
    conv => rhs; rw [nmea_csum_loop]
    by_cases hi : i < s
    · rw [if_pos hi, if_pos hi]
      cases rd msg i with
      | none => rfl
      | some b => exact ih _ _ (by omega)
    · rw [if_neg hi, if_neg hi]

theorem nmea_scan_fuel (msg : List uint8_t) (max_len : Nat) :
    ∀ (f i : Nat) (cp : Int), max_len - i ≤ f →
      nmea_scan msg max_len (f + 1) i cp = nmea_scan msg max_len f i cp := by
  intro f
  induction f with
  | zero =>
    intro i cp h
    rw [nmea_scan_succ, if_neg (show ¬ i < max_len by omega)]
    rfl
  | succ f ih =>
    intro i cp h
    rw [nmea_scan_succ msg max_len (f + 1) i cp, nmea_scan_succ msg max_len f i cp]
    by_cases hi : i < max_len
    · rw [if_pos hi, if_pos hi]
      by_cases hmax : i > NMEA_MAX
      · rw [if_pos hmax, if_pos hmax]
      · rw [if_neg hmax, if_neg hmax]
        cases rd msg i with
        | none => rfl
        | some c =>
          simp only
          by_cases c1 : c = 0x2a
          · rw [if_pos c1, if_pos c1]; exact ih _ _ (by omega)
          · rw [if_neg c1, if_neg c1]
            by_cases c2 : c = 0x0d
            · rw [if_pos c2, if_pos c2]
            · rw [if_neg c2, if_neg c2]
              by_cases c4 : ¬ (isprint c = true)
              · rw [if_pos c4, if_pos c4]
              · rw [if_neg c4, if_neg c4]; exact ih _ _ (by omega)
    · rw [if_neg hi, if_neg hi]

theorem find_msg_loop_fuel (buf : List uint8_t) (buf_size : Nat) :
    ∀ (f msg_pos : Nat), buf_size - msg_pos ≤ f →
      find_msg_loop buf buf_size (f + 1) msg_pos = find_msg_loop buf buf_size f msg_pos := by
  intro f
  induction f with
  | zero =>
    intro msg_pos h
    simp [find_msg_loop, show ¬ msg_pos < buf_size by omega]
  | succ f ih =>
    intro msg_pos h
    rw [find_msg_loop]
    conv => rhs; rw [find_msg_loop]
    by_cases hi : msg_pos < buf_size
    · rw [if_pos hi, if_pos hi]
      cases looks_like_nmea (List.drop msg_pos buf) (buf_size - msg_pos) with
      | none => rfl
      | some rn =>
        simp only
        split
        · rfl
        · cases looks_like_sirf (List.drop msg_pos buf) (buf_size - msg_pos) with
          | none => rfl
          | some rs =>
            simp only
            split
            · rfl
            · cases looks_like_ublox (List.drop msg_pos buf) (buf_size - msg_pos) with
              | none => rfl
              | some ru =>
                simp only
                split
                · rfl
                · exact ih _ (by omega)
    · rw [if_neg hi, if_neg hi]
/-! ## C5 to C9: properties shared by the detectors -/

/-- C5. In a buffer where `looks_like_sirf` (resp. `looks_like_ublox`) finds a
valid message of length L, replacing one payload byte or one checksum byte by a
different value makes that detector return NOT_THIS_PROTOCOL (0, hence not
TRUNCATED) for every `max_len ≥ L`.  SiRF payload and checksum are the indices
`4 ≤ k < L - 2`, UBX payload and checksum the indices `6 ≤ k < L`. -/
theorem sirf_ublox_mutation (msg : List uint8_t) (max_len m k old : Nat) (L : Int) (v : uint8_t)
    (hL : 0 < L) (hold : rd msg k = some old) (hv : v.val ≠ old) (hm : L ≤ (m : Int)) :
    (looks_like_sirf msg max_len = some L → 4 ≤ k → (k : Int) + 2 < L →
      looks_like_sirf (msg.set k v) m = some LOOKS_NOT_LIKE_GPS_MSG) ∧
    (looks_like_ublox msg max_len = some L → 6 ≤ k → (k : Int) < L →
      looks_like_ublox (msg.set k v) m = some LOOKS_NOT_LIKE_GPS_MSG) :=
  ⟨fun h hk1 hk2 => sirf_mutation v h hL hk1 hk2 hold hv hm,
   fun h hk1 hk2 => ublox_mutation v h hL hk1 hk2 hold hv hm⟩

/-- C6, as the code has it.  In a buffer where `looks_like_nmea` finds a valid
sentence of length L whose checksum section is `*` and two hexadecimal digits,
replacing one body byte (index `1 ≤ p < L - 5`) by a different value, or
replacing one of the two checksum digits by a byte which is not a hexadecimal
digit of the same value and, for the first digit, is not a space or a sign,
makes `looks_like_nmea` return NOT_THIS_PROTOCOL for every `max_len ≥ L`. -/
theorem nmea_mutation (msg : List uint8_t) (max_len m L p old : Nat) (v : uint8_t)
    (h : looks_like_nmea msg max_len = some (L : Int)) (hL : 0 < L)
    (hcs : nmea_checksummed msg L) (hold : rd msg p = some old) (hv : v.val ≠ old)
    (hm : L ≤ m)
    (hpos : (1 ≤ p ∧ p + 5 < L) ∨
      (p + 4 = L ∧ ¬ same_hex_digit v.val old ∧
        v.val ≠ 0x20 ∧ v.val ≠ 0x2b ∧ v.val ≠ 0x2d) ∨
      (p + 3 = L ∧ ¬ same_hex_digit v.val old)) :
    looks_like_nmea (msg.set p v) m = some LOOKS_NOT_LIKE_GPS_MSG := by
  rcases hpos with ⟨hp1, hp2⟩ | ⟨hp, hne, hsign⟩ | ⟨hp, hne⟩
  · exact nmea_mutation_body v h hL hcs hp1 hp2 hold hv hm
  · exact nmea_mutation_csum v h hL hcs (Or.inl hp) hold hne (fun _ => hsign) hm
  · exact nmea_mutation_csum v h hL hcs (Or.inr hp) hold hne
      (fun hcon => by omega) hm

/-- C7. Truncation monotonicity: if a detector returns a valid length L on a
buffer, it returns TRUNCATED (-1) on the same bytes for every window
`1 ≤ max_len < L`. -/
theorem truncation_monotone (msg : List uint8_t) (max_len m : Nat) (L : Int)
    (hL : 0 < L) (hm1 : 1 ≤ m) (hm : (m : Int) < L) :
    (looks_like_nmea msg max_len = some L →
      looks_like_nmea msg m = some LOOKS_LIKE_TRUNCATED_MSG) ∧
    (looks_like_sirf msg max_len = some L →
      looks_like_sirf msg m = some LOOKS_LIKE_TRUNCATED_MSG) ∧
    (looks_like_ublox msg max_len = some L →
      looks_like_ublox msg m = some LOOKS_LIKE_TRUNCATED_MSG) :=
  ⟨fun h => nmea_truncated h hL hm1 hm, fun h => sirf_truncated h hL hm,
   fun h => ublox_truncated h hL hm⟩

/-- C8. Definitive verdicts are stable under extension: if a detector returns
a verdict `r` other than TRUNCATED at window size `n ≥ 1`, it returns `r` at
every window size `m ≥ n` on every buffer which agrees on the first `n`
bytes. -/
theorem verdict_stable (msg msg2 : List uint8_t) (n m : Nat) (r : Int)
    (hn : 1 ≤ n) (hnm : n ≤ m) (hagree : msg2.take n = msg.take n)
    (hr : r ≠ LOOKS_LIKE_TRUNCATED_MSG) :
    (looks_like_nmea msg n = some r → looks_like_nmea msg2 m = some r) ∧
    (looks_like_sirf msg n = some r → looks_like_sirf msg2 m = some r) ∧
    (looks_like_ublox msg n = some r → looks_like_ublox msg2 m = some r) := by
  refine ⟨fun h => ?_, fun h => ?_, fun h => ?_⟩
  · apply nmea_extend _ hr hnm
    rw [nmea_window msg2 hn, hagree, ← nmea_window msg hn]
    exact h
  · apply sirf_extend _ hr hnm
    rw [sirf_window msg2 hn, hagree, ← sirf_window msg hn]
    exact h
  · apply ublox_extend _ hr hnm
    rw [ublox_window msg2 hn, hagree, ← ublox_window msg hn]
    exact h

/-- C9. For every buffer and every `max_len ≥ 1` inside it, each detector reads
only indices below `max_len`: on the buffer cut to its first `max_len` bytes no
lookup fails, and the verdict is the one on the whole buffer. -/
theorem reads_in_window (msg : List uint8_t) (max_len : Nat)
    (h1 : 1 ≤ max_len) (hlen : max_len ≤ msg.length) :
    ((looks_like_nmea (msg.take max_len) max_len).isSome = true ∧
      looks_like_nmea msg max_len = looks_like_nmea (msg.take max_len) max_len) ∧
    ((looks_like_sirf (msg.take max_len) max_len).isSome = true ∧
      looks_like_sirf msg max_len = looks_like_sirf (msg.take max_len) max_len) ∧
    ((looks_like_ublox (msg.take max_len) max_len).isSome = true ∧
      looks_like_ublox msg max_len = looks_like_ublox (msg.take max_len) max_len) := by
  have hl : max_len ≤ (msg.take max_len).length := by
    rw [List.length_take]; omega
  refine ⟨⟨?_, nmea_window msg h1⟩, ⟨?_, sirf_window msg h1⟩, ⟨?_, ublox_window msg h1⟩⟩
  · obtain ⟨r, hr⟩ := nmea_total h1 hl
    rw [hr]; rfl
  · obtain ⟨r, hr⟩ := sirf_total h1 hl
    rw [hr]; rfl
  · obtain ⟨r, hr⟩ := ublox_total h1 hl
    rw [hr]; rfl
/-! ## Concrete instances -/

/-- The one-byte body `K` is a body of an NMEA sentence. -/
theorem nmea_body_ok_K : nmea_body_ok [0x4b] := by
  intro b hb
  simp only [List.mem_singleton] at hb
  subst hb
  decide

/-- Instance of C1: a SiRF frame with the two payload bytes 01 02. -/
theorem sirf_round_trip_witness :
    ([1, 2] : List uint8_t).length ≤ 1023 ∧ ([1, 2] : List uint8_t).length + 8 ≤ 10 ∧
    looks_like_sirf (sirf_frame [1, 2] ++ []) 10
      = some ((([1, 2] : List uint8_t).length : Int) + 8) :=
  ⟨by decide, by decide, sirf_round_trip [1, 2] [] 10 (by decide) (by decide)⟩

/-- Instance of C2: a UBX frame of class 1, id 2 with the payload byte 05. -/
theorem ublox_round_trip_witness :
    ([5] : List uint8_t).length ≤ 4096 ∧ ([5] : List uint8_t).length + 8 ≤ 9 ∧
    looks_like_ublox (ublox_frame 1 2 [5] ++ []) 9
      = some ((([5] : List uint8_t).length : Int) + 8) :=
  ⟨by decide, by decide, ublox_round_trip 1 2 [5] [] 9 (by decide) (by decide)⟩

/-- Instance of C3: the sentence `$K*4B` CR LF. -/
theorem nmea_round_trip_witness :
    nmea_body_ok [0x4b] ∧ (nmea_sentence [0x4b]).length ≤ 512 ∧
    (nmea_sentence [0x4b]).length ≤ 7 ∧
    looks_like_nmea (nmea_sentence [0x4b] ++ []) 7
      = some ((nmea_sentence [0x4b]).length : Int) :=
  ⟨nmea_body_ok_K, by simp [nmea_sentence], by decide,
   nmea_round_trip [0x4b] [] 7 (nmea_body_ok_K) (by simp [nmea_sentence])
     (by decide)⟩

/-- Instance of C4: the sentence `$K` CR LF. -/
theorem nmea_round_trip_plain_witness :
    nmea_body_ok [0x4b] ∧ (nmea_sentence_plain [0x4b]).length ≤ 512 ∧
    (nmea_sentence_plain [0x4b]).length ≤ 4 ∧
    looks_like_nmea (nmea_sentence_plain [0x4b] ++ []) 4
      = some ((nmea_sentence_plain [0x4b]).length : Int) :=
  ⟨nmea_body_ok_K, by simp [nmea_sentence_plain], by decide,
   nmea_round_trip_plain [0x4b] [] 4 (nmea_body_ok_K)
     (by simp [nmea_sentence_plain]) (by decide)⟩

/-- Instance of C5: in the SiRF frame with payload 01 02 the payload byte at
index 4 is replaced by 09. -/
theorem sirf_ublox_mutation_witness :
    (0 : Int) < 10 ∧ rd (sirf_frame [1, 2]) 4 = some 1 ∧ (9 : uint8_t).val ≠ 1 ∧
    (10 : Int) ≤ ((10 : Nat) : Int) ∧
    looks_like_sirf (sirf_frame [1, 2]) 10 = some 10 ∧
    looks_like_sirf ((sirf_frame [1, 2]).set 4 9) 10 = some LOOKS_NOT_LIKE_GPS_MSG :=
  ⟨by decide, by decide, by decide, by decide, by decide,
   (sirf_ublox_mutation (sirf_frame [1, 2]) 10 10 4 1 10 9 (by decide) (by decide)
      (by decide) (by decide)).1 (by decide) (by decide) (by decide)⟩

/-- C6 fails as stated: in the valid sentence `$K*4B` CR LF (length 7) the
second checksum character `B` is replaced by the different byte `b`, and
`looks_like_nmea` still returns the valid length 7, not NOT_THIS_PROTOCOL. -/
theorem nmea_mutation_counterexample :
    looks_like_nmea (nmea_sentence [0x4b]) 7 = some 7 ∧
    rd (nmea_sentence [0x4b]) 4 = some 0x42 ∧ (0x62 : uint8_t).val ≠ 0x42 ∧
    looks_like_nmea ((nmea_sentence [0x4b]).set 4 0x62) 7 = some 7 ∧
    looks_like_nmea ((nmea_sentence [0x4b]).set 4 0x62) 7 ≠ some LOOKS_NOT_LIKE_GPS_MSG := by
  decide

/-- Instance of the amended C6: in `$K*4B` CR LF the body byte `K` is replaced
by `L`. -/
theorem nmea_mutation_witness :
    looks_like_nmea (nmea_sentence [0x4b]) 7 = some ((7 : Nat) : Int) ∧
    nmea_checksummed (nmea_sentence [0x4b]) 7 ∧
    rd (nmea_sentence [0x4b]) 1 = some 0x4b ∧ (0x4c : uint8_t).val ≠ 0x4b ∧
    looks_like_nmea ((nmea_sentence [0x4b]).set 1 0x4c) 7 = some LOOKS_NOT_LIKE_GPS_MSG :=
  ⟨by decide, ⟨by decide, 0x34, 0x42, by decide, by decide, by decide, by decide⟩,
   by decide, by decide,
   nmea_mutation (nmea_sentence [0x4b]) 7 7 7 1 0x4b 0x4c (by decide) (by decide)
     ⟨by decide, 0x34, 0x42, by decide, by decide, by decide, by decide⟩
     (by decide) (by decide) (by decide) (Or.inl ⟨by decide, by decide⟩)⟩

/-- Instance of C7: the sentence `$K*4B` CR LF cut to its first 6 bytes. -/
theorem truncation_monotone_witness :
    (0 : Int) < 7 ∧ 1 ≤ 6 ∧ ((6 : Nat) : Int) < 7 ∧
    looks_like_nmea (nmea_sentence [0x4b]) 7 = some 7 ∧
    looks_like_nmea (nmea_sentence [0x4b]) 6 = some LOOKS_LIKE_TRUNCATED_MSG :=
  ⟨by decide, by decide, by decide, by decide,
   (truncation_monotone (nmea_sentence [0x4b]) 7 6 7 (by decide) (by decide)
      (by decide)).1 (by decide)⟩

/-- Instance of C8: the sentence `$K*4B` CR LF followed by two more bytes. -/
theorem verdict_stable_witness :
    1 ≤ 7 ∧ 7 ≤ 9 ∧
    (nmea_sentence [0x4b] ++ [0x24, 0x47]).take 7 = (nmea_sentence [0x4b]).take 7 ∧
    (7 : Int) ≠ LOOKS_LIKE_TRUNCATED_MSG ∧
    looks_like_nmea (nmea_sentence [0x4b]) 7 = some 7 ∧
    looks_like_nmea (nmea_sentence [0x4b] ++ [0x24, 0x47]) 9 = some 7 :=
  ⟨by decide, by decide, by decide, by decide, by decide,
   (verdict_stable (nmea_sentence [0x4b]) (nmea_sentence [0x4b] ++ [0x24, 0x47]) 7 9 7
      (by decide) (by decide) (by decide) (by decide)).1 (by decide)⟩

/-- Instance of C9: a window of 3 bytes on a SiRF frame. -/
theorem reads_in_window_witness :
    1 ≤ 3 ∧ 3 ≤ (sirf_frame [1, 2]).length ∧
    ((looks_like_nmea ((sirf_frame [1, 2]).take 3) 3).isSome = true ∧
      looks_like_nmea (sirf_frame [1, 2]) 3
        = looks_like_nmea ((sirf_frame [1, 2]).take 3) 3) ∧
    ((looks_like_sirf ((sirf_frame [1, 2]).take 3) 3).isSome = true ∧
      looks_like_sirf (sirf_frame [1, 2]) 3
        = looks_like_sirf ((sirf_frame [1, 2]).take 3) 3) ∧
    ((looks_like_ublox ((sirf_frame [1, 2]).take 3) 3).isSome = true ∧
      looks_like_ublox (sirf_frame [1, 2]) 3
        = looks_like_ublox ((sirf_frame [1, 2]).take 3) 3) :=
  ⟨by decide, by decide, reads_in_window (sirf_frame [1, 2]) 3 (by decide) (by decide)⟩

/-- Instance of C10: one junk byte followed by the sentence `$K` CR LF. -/
theorem find_msg_spec_witness :
    5 ≤ ([0x01, 0x24, 0x4b, 0x0d, 0x0a] : List uint8_t).length ∧
    ∃ (ret : Int) (res2 : gps_msg_metadata_t),
      find_msg [0x01, 0x24, 0x4b, 0x0d, 0x0a] 0 5
          { type := .MSG_TYPE_UBLOX, size := 0, is_truncated := false } = some (ret, res2) ∧
      (ret = -1 ↔ ∀ p, 0 ≤ p → p < 5 → rejected_at [0x01, 0x24, 0x4b, 0x0d, 0x0a] 5 p) ∧
      (ret = -1 → res2 = { type := .MSG_TYPE_UBLOX, size := 0, is_truncated := false }) ∧
      (ret ≠ -1 → ∃ (p : Nat) (r : Int), ret = (p : Int) ∧ 0 ≤ p ∧ p < 5 ∧
        (∀ q, 0 ≤ q → q < p → rejected_at [0x01, 0x24, 0x4b, 0x0d, 0x0a] 5 q) ∧
        detector res2.type (([0x01, 0x24, 0x4b, 0x0d, 0x0a] : List uint8_t).drop p) (5 - p)
          = some r ∧
        r ≠ LOOKS_NOT_LIKE_GPS_MSG ∧
        (∀ t2, t2 ≠ res2.type →
          detector t2 (([0x01, 0x24, 0x4b, 0x0d, 0x0a] : List uint8_t).drop p) (5 - p)
            = some LOOKS_NOT_LIKE_GPS_MSG) ∧
        (res2.is_truncated = true ↔ r = LOOKS_LIKE_TRUNCATED_MSG) ∧
        (r = LOOKS_LIKE_TRUNCATED_MSG → res2.size = 5 - p) ∧
        (r ≠ LOOKS_LIKE_TRUNCATED_MSG → 0 < r ∧ (res2.size : Int) = r)) :=
  ⟨by decide, find_msg_spec [0x01, 0x24, 0x4b, 0x0d, 0x0a] 0 5
    { type := .MSG_TYPE_UBLOX, size := 0, is_truncated := false } (by decide)⟩

/-- The result of `find_msg` on that buffer: offset 1, an NMEA sentence of 4 bytes. -/
theorem find_msg_example :
    find_msg [0x01, 0x24, 0x4b, 0x0d, 0x0a] 0 5
        { type := .MSG_TYPE_UBLOX, size := 0, is_truncated := false }
      = some (1, { type := .MSG_TYPE_NMEA, size := 4, is_truncated := false }) := by
  decide

/-- Another byte which `strtol` lets pass in the first checksum place: in the
valid sentence `$05*05` CR LF the first checksum character `0` is replaced by
a space, and `looks_like_nmea` still returns the length 8. -/
theorem nmea_mutation_space_example :
    looks_like_nmea (nmea_sentence [0x30, 0x35]) 8 = some 8 ∧
    rd (nmea_sentence [0x30, 0x35]) 4 = some 0x30 ∧
    looks_like_nmea ((nmea_sentence [0x30, 0x35]).set 4 0x20) 8 = some 8 := by
  decide
/-! ## C11: scanning again from a later offset -/

/-- The loop outcome is the same from every start offset up to the first
offset which is not rejected. -/
theorem find_msg_loop_rescan {buf : List uint8_t} {buf_size s s2 : Nat}
    (hlen : buf_size ≤ buf.length) (hs : s ≤ s2) :
    (∀ (p : Nat) (hit : msg_type_t × Int),
      find_msg_loop buf buf_size (buf_size - s) s = some (p, some hit) → s2 ≤ p →
      find_msg_loop buf buf_size (buf_size - s2) s2 = some (p, some hit)) ∧
    (∀ q, find_msg_loop buf buf_size (buf_size - s) s = some (q, none) →
      ∃ q2, find_msg_loop buf buf_size (buf_size - s2) s2 = some (q2, none)) := by
  rcases find_msg_loop_spec hlen (buf_size - s) s (le_refl _) with
    ⟨q, hq, hall⟩ | ⟨p, t, r, hq, h1, h2, h3, h4, h5, h6⟩
  · refine ⟨fun p hit h _ => ?_, fun _ _ => ?_⟩
    · rw [hq] at h; simp at h
    · rcases find_msg_loop_spec hlen (buf_size - s2) s2 (le_refl _) with
        ⟨q2, hq2, _⟩ | ⟨p2, t2, r2, hq2, g1, g2, _, g4, g5, _⟩
      · exact ⟨q2, hq2⟩
      · have := hall p2 (by omega) g2 t2
        rw [g4] at this
        exact absurd (Option.some.inj this) g5
  · refine ⟨fun p' hit h hp' => ?_, fun q h => ?_⟩
    · rw [hq] at h
      simp only [Option.some.injEq, Prod.mk.injEq] at h
      obtain ⟨hpp, hhit⟩ := h
      subst hpp
      rcases find_msg_loop_spec hlen (buf_size - s2) s2 (le_refl _) with
        ⟨q2, _, hall2⟩ | ⟨p2, t2, r2, hq2, g1, g2, g3, g4, g5, g6⟩
      · have := hall2 p hp' h2 t
        rw [h4] at this
        exact absurd (Option.some.inj this) h5
      · have hpe : p2 = p := by
          by_contra hne
          by_cases hlt : p2 < p
          · have := h3 p2 (by omega) hlt t2
            rw [g4] at this
            exact g5 (Option.some.inj this)
          · have := g3 p (by omega) (by omega) t
            rw [h4] at this
            exact h5 (Option.some.inj this)
        subst hpe
        have hte : t2 = t := by
          by_contra hne
          have := h6 t2 hne
          rw [g4] at this
          exact g5 (Option.some.inj this)
        subst hte
        rw [h4] at g4
        have hre : r = r2 := Option.some.inj g4
        subst hre
        rw [hq2, ← hhit]
    · rw [hq] at h; simp at h

/-- C11. Idempotent re-scan: with `n` bytes in the buffer, if
`find_msg(buf, s, n)` returns a position `p` with some metadata, then for every
`s2` with `s ≤ s2 ≤ p` the call `find_msg(buf, s2, n)` returns the same position
and the same metadata (whatever `*res` held before); and if
`find_msg(buf, s, n)` returns -1 then `find_msg(buf, s2, n)` returns -1 for every
`s2 ≥ s`, leaving `*res` as it was. -/
theorem find_msg_rescan (buf : List uint8_t) (s s2 n : Nat) (res res2 : gps_msg_metadata_t)
    (hlen : n ≤ buf.length) (hs : s ≤ s2) :
    (∀ (p : Nat) (md : gps_msg_metadata_t),
      find_msg buf s n res = some ((p : Int), md) → s2 ≤ p →
      find_msg buf s2 n res2 = some ((p : Int), md)) ∧
    (∀ md, find_msg buf s n res = some (-1, md) →
      find_msg buf s2 n res2 = some (-1, res2)) := by
  obtain ⟨hfound, hnone⟩ := @find_msg_loop_rescan buf n s s2 hlen hs
  refine ⟨fun p md h hp => ?_, fun md h => ?_⟩
  · unfold find_msg at h
    cases hl : find_msg_loop buf n (n - s) s with
    | none => simp [hl] at h
    | some out =>
      obtain ⟨q, o⟩ := out
      cases o with
      | none =>
        simp only [hl, Option.some.injEq, Prod.mk.injEq] at h
        omega
      | some hit =>
        obtain ⟨t, r⟩ := hit
        simp only [hl] at h
        have hq : q = p := by
          split at h <;>
            (simp only [Option.some.injEq, Prod.mk.injEq] at h; omega)
        subst hq
        have h2 := hfound q (t, r) hl hp
        unfold find_msg
        rw [h2]
        simp only
        split at h
        · next hc =>
          rw [if_pos hc]
          simp only [Option.some.injEq, Prod.mk.injEq] at h ⊢
          exact ⟨trivial, h.2⟩
        · next hc =>
          rw [if_neg hc]
          simp only [Option.some.injEq, Prod.mk.injEq] at h ⊢
          exact ⟨trivial, h.2⟩
  · unfold find_msg at h
    cases hl : find_msg_loop buf n (n - s) s with
    | none => simp [hl] at h
    | some out =>
      obtain ⟨q, o⟩ := out
      cases o with
      | none =>
        obtain ⟨q2, h2⟩ := hnone q hl
        unfold find_msg
        rw [h2]
      | some hit =>
        obtain ⟨t, r⟩ := hit
        simp only [hl] at h
        split at h <;>
          (simp only [Option.some.injEq, Prod.mk.injEq] at h; omega)
theorem find_msg_rescan_witness :
    5 ≤ [(0x01 : uint8_t), 0x02, 0x24, 0x4b, 0x0d, 0x0a].length ∧ 0 ≤ 1 ∧
    ((∀ (p : Nat) (md : gps_msg_metadata_t),
      find_msg [0x01, 0x02, 0x24, 0x4b, 0x0d, 0x0a] 0 6
          { type := .MSG_TYPE_UBLOX, size := 0, is_truncated := false }
        = some ((p : Int), md) → 1 ≤ p →
      find_msg [0x01, 0x02, 0x24, 0x4b, 0x0d, 0x0a] 1 6
          { type := .MSG_TYPE_SIRF, size := 7, is_truncated := true }
        = some ((p : Int), md)) ∧
    (∀ md, find_msg [0x01, 0x02, 0x24, 0x4b, 0x0d, 0x0a] 0 6
          { type := .MSG_TYPE_UBLOX, size := 0, is_truncated := false }
        = some (-1, md) →
      find_msg [0x01, 0x02, 0x24, 0x4b, 0x0d, 0x0a] 1 6
          { type := .MSG_TYPE_SIRF, size := 7, is_truncated := true }
        = some (-1, { type := .MSG_TYPE_SIRF, size := 7, is_truncated := true }))) :=
  ⟨by decide, by decide,
    find_msg_rescan [0x01, 0x02, 0x24, 0x4b, 0x0d, 0x0a] 0 1 6
      { type := .MSG_TYPE_UBLOX, size := 0, is_truncated := false }
      { type := .MSG_TYPE_SIRF, size := 7, is_truncated := true } (by decide) (by decide)⟩
/-! ## The length cap of the NMEA scan -/

/-- A valid length returned by `looks_like_nmea` is at most `NMEA_MAX + 2`: the
scan gives up at an index above `NMEA_MAX`, so the CR may stand at index
`NMEA_MAX` itself. -/
theorem nmea_length_bound {msg : List uint8_t} {max_len : Nat} {L : Int}
    (h : looks_like_nmea msg max_len = some L) (hL : 0 < L) :
    L ≤ (NMEA_MAX : Int) + 2 := by
  obtain ⟨k, cp2, hLk, -, hk, -⟩ := nmea_valid_inv h hL
  omega

/-- A sentence without checksum whose CR stands at an index up to `NMEA_MAX` is
accepted with its length, which is up to `NMEA_MAX + 2`. -/
theorem nmea_plain_accept (body rest : List uint8_t) (max_len : Nat)
    (hbody : nmea_body_ok body) (hL : body.length + 1 ≤ NMEA_MAX)
    (hm : (nmea_sentence_plain body).length ≤ max_len) :
    looks_like_nmea (nmea_sentence_plain body ++ rest) max_len
      = some ((nmea_sentence_plain body).length : Int) := by
  have hlen : (nmea_sentence_plain body).length = body.length + 3 := by
    simp [nmea_sentence_plain]
  rw [hlen] at hm ⊢
  have hF : nmea_sentence_plain body ++ rest = [0x24] ++ body ++ [0x0d, 0x0a] ++ rest := rfl
  have f0 : rd (nmea_sentence_plain body ++ rest) 0 = some 0x24 := by
    rw [hF, rd_layout_head _ _ _ _ (by simp)]; rfl
  have fb : ∀ j, j < body.length →
      ∃ b ∈ body, rd (nmea_sentence_plain body ++ rest) (1 + j) = some b.val := by
    intro j hj
    obtain ⟨b, hb, hr⟩ := rd_mem hj
    refine ⟨b, hb, ?_⟩
    rw [hF, ← hr]
    exact rd_layout_mid [0x24] body _ rest hj
  have ft3 : rd (nmea_sentence_plain body ++ rest) (body.length + 1) = some 0x0d := by
    have := rd_layout_tail [0x24] body [0x0d, 0x0a] rest (j := 0) (by simp)
    rw [hF, show body.length + 1 = [(0x24 : uint8_t)].length + body.length + 0 by simp; omega,
      this]
    rfl
  have ft4 : rd (nmea_sentence_plain body ++ rest) (body.length + 1 + 1) = some 0x0a := by
    have := rd_layout_tail [0x24] body [0x0d, 0x0a] rest (j := 1) (by simp)
    rw [hF, show body.length + 1 + 1 = [(0x24 : uint8_t)].length + body.length + 1 by
      simp; omega, this]
    rfl
  have hp : ∀ j, 1 ≤ j → j < body.length + 1 →
      ∃ c, rd (nmea_sentence_plain body ++ rest) j = some c ∧ isprint c = true := by
    intro j hj1 hj2
    obtain ⟨b, hb, hr⟩ := fb (j - 1) (by omega)
    rw [show 1 + (j - 1) = j by omega] at hr
    exact ⟨_, hr, (hbody b hb).1⟩
  obtain ⟨cp2, hstar, he⟩ := @nmea_eval _ max_len _ f0 (by omega) hL (by omega) hp ft3 ft4
  have hcp : cp2 = -1 := by
    rcases hstar with ⟨e, _⟩ | ⟨s, _, hs1, hs2, hs3, _⟩
    · exact e
    · obtain ⟨b, hb, hr⟩ := fb (s - 1) (by omega)
      rw [show 1 + (s - 1) = s by omega, hs3] at hr
      exact absurd (Option.some.inj hr).symm (hbody b hb).2.1
  rw [he, hcp, nmea_after_loop_plain]
  congr 1

/-- An NMEA verdict other than 0 and -1 at offset 0: `find_msg` returns offset 0
and the frame with that size. -/
theorem find_msg_nmea_at_start {buf : List uint8_t} {n : Nat} {r : Int}
    (res : gps_msg_metadata_t) (hn : 0 < n)
    (h : looks_like_nmea buf n = some r) (hr0 : r ≠ LOOKS_NOT_LIKE_GPS_MSG)
    (hr1 : r ≠ LOOKS_LIKE_TRUNCATED_MSG) :
    find_msg buf 0 n res
      = some (0, { type := .MSG_TYPE_NMEA, size := r.toNat, is_truncated := false }) := by
  obtain ⟨fuel, hf⟩ : ∃ fuel, n - 0 = fuel + 1 := ⟨n - 1, by omega⟩
  have hloop : find_msg_loop buf n (n - 0) 0
      = some (0, some (msg_type_t.MSG_TYPE_NMEA, r)) := by
    rw [hf, find_msg_loop, if_pos hn, List.drop_zero, Nat.sub_zero, h]
    simp only [if_pos hr0]
  unfold find_msg
  rw [hloop]
  simp only [if_neg hr1]
  rfl

/-- C12 fails at 514 bytes.  For the sentence `$`, 511 times `A`, CR LF the scan
finds the CR at index 512, which the test `i > NMEA_MAX` lets pass:
`looks_like_nmea` returns 514, and `find_msg` hands the frame on with size 514,
above `NMEA_MAX = 512`. -/
theorem nmea_cap_exceeded (res : gps_msg_metadata_t) :
    looks_like_nmea (nmea_sentence_plain (List.replicate 511 0x41)) 514 = some 514 ∧
    find_msg (nmea_sentence_plain (List.replicate 511 0x41)) 0 514 res
      = some (0, { type := .MSG_TYPE_NMEA, size := 514, is_truncated := false }) ∧
    NMEA_MAX < 514 := by
  have hb : nmea_body_ok (List.replicate 511 0x41) := by
    intro b hb
    rw [List.mem_replicate] at hb
    rw [hb.2]
    decide
  have hl : (nmea_sentence_plain (List.replicate 511 (0x41 : uint8_t))).length = 514 := by
    simp only [nmea_sentence_plain, List.length_append, List.length_replicate,
      List.length_cons, List.length_nil]
  have h := nmea_plain_accept (List.replicate 511 0x41) [] 514 hb
    (by rw [List.length_replicate]; simp only [NMEA_MAX]; omega) (by rw [hl])
  rw [List.append_nil, hl] at h
  have hf := find_msg_nmea_at_start res (by omega) h
    (by simp only [LOOKS_NOT_LIKE_GPS_MSG]; omega)
    (by simp only [LOOKS_LIKE_TRUNCATED_MSG]; omega)
  exact ⟨h, hf, by simp only [NMEA_MAX]; omega⟩
/-! ## The checksum section of an NMEA sentence -/

/-- C13 fails for a leading space or sign.  `strtol` skips white space and
reads a sign in front of the digits, so in `$05*05` CR LF (checksum 0x05) the
first checksum character may be a space, `+` or `-`: `looks_like_nmea` returns
the length 8 for `$05* 5` and `$05*+5` as for `$05*05`, and for `$00*-0`
(checksum 0), although the two characters after `*` are not both hexadecimal
digits. -/
theorem nmea_checksum_not_two_digits :
    looks_like_nmea [0x24, 0x30, 0x35, 0x2a, 0x30, 0x35, 0x0d, 0x0a] 8 = some 8 ∧
    looks_like_nmea [0x24, 0x30, 0x35, 0x2a, 0x20, 0x35, 0x0d, 0x0a] 8 = some 8 ∧
    looks_like_nmea [0x24, 0x30, 0x35, 0x2a, 0x2b, 0x35, 0x0d, 0x0a] 8 = some 8 ∧
    looks_like_nmea [0x24, 0x30, 0x30, 0x2a, 0x2d, 0x30, 0x0d, 0x0a] 8 = some 8 ∧
    is_digit_of 16 0x20 = false ∧ is_digit_of 16 0x2b = false
      ∧ is_digit_of 16 0x2d = false := by
  decide
/-! ## C14: the same instant -/

theorem to_int_small {u : Nat} (h : u < 2147483648) : to_int u = (u : Int) := by
  unfold to_int
  have e : u % 2 ^ 32 = u := Nat.mod_eq_of_lt (by norm_num at h ⊢; omega)
  rw [e, if_pos (by norm_num; omega)]

theorem wrap_int_small {x : Int} (h1 : -2147483648 ≤ x) (h2 : x < 2147483648) :
    wrap_int x = x := by
  unfold wrap_int
  norm_num
  omega

theorem c_abs_small {x : Int} (h1 : -2147483648 < x) (h2 : x < 2147483648) :
    c_abs x = |x| := by
  unfold c_abs
  split
  · rw [wrap_int_small (by omega) (by omega), abs_of_neg (by omega)]
  · rw [wrap_int_small (by omega) (by omega), abs_of_nonneg (by omega)]

theorem is_same_fix_time_iff {t1 t2 : nmea_fix_time_t} (h1 : t1.mss ≤ 999) (h2 : t2.mss ≤ 999) :
    is_same_fix_time t1 t2 = true ↔
      t1.hhmmss = t2.hhmmss ∧ |(t1.mss : Int) - (t2.mss : Int)| < 50 := by
  unfold is_same_fix_time
  rw [to_int_small (by omega), to_int_small (by omega), wrap_int_small (by omega) (by omega),
    c_abs_small (by omega) (by omega), abs_sub_comm]
  by_cases h : t1.hhmmss = t2.hhmmss
  · simp [h]
  · simp [h]

/-- C14. For fix times with `mss` in 0..999, `is_same_fix_time(t1, t2)` is true
if and only if `t1.hhmmss = t2.hhmmss` and `|t1.mss - t2.mss| < 50`; it is
reflexive and symmetric. -/
theorem is_same_fix_time_spec (t1 t2 : nmea_fix_time_t) (h1 : t1.mss ≤ 999)
    (h2 : t2.mss ≤ 999) :
    (is_same_fix_time t1 t2 = true ↔
      t1.hhmmss = t2.hhmmss ∧ |(t1.mss : Int) - (t2.mss : Int)| < 50) ∧
    is_same_fix_time t1 t1 = true ∧
    is_same_fix_time t1 t2 = is_same_fix_time t2 t1 := by
  refine ⟨is_same_fix_time_iff h1 h2, ?_, ?_⟩
  · rw [is_same_fix_time_iff h1 h1]
    simp
  · rw [Bool.eq_iff_iff, is_same_fix_time_iff h1 h2, is_same_fix_time_iff h2 h1, abs_sub_comm]
    constructor
    · rintro ⟨a, b⟩; exact ⟨a.symm, b⟩
    · rintro ⟨a, b⟩; exact ⟨a.symm, b⟩

/-- Instance of C14: 12:35:19.010 and 12:35:19.059. -/
theorem is_same_fix_time_spec_witness :
    (10 : Nat) ≤ 999 ∧ (59 : Nat) ≤ 999 ∧
    ((is_same_fix_time ⟨123519, 10⟩ ⟨123519, 59⟩ = true ↔
      (123519 : Nat) = 123519 ∧ |((10 : Nat) : Int) - ((59 : Nat) : Int)| < 50) ∧
    is_same_fix_time ⟨123519, 10⟩ ⟨123519, 10⟩ = true ∧
    is_same_fix_time ⟨123519, 10⟩ ⟨123519, 59⟩
      = is_same_fix_time ⟨123519, 59⟩ ⟨123519, 10⟩) :=
  ⟨by simp, by simp, is_same_fix_time_spec ⟨123519, 10⟩ ⟨123519, 59⟩ (by simp) (by simp)⟩
/-! ## C15: a time field of decimal digits -/

theorem dec_digit_facts {c : Nat} (h : 0x30 ≤ c ∧ c ≤ 0x39) :
    isspace c = false ∧ c ≠ 0x2d ∧ c ≠ 0x2b ∧ c ≠ 0 ∧ is_digit_of 10 c = true ∧
      digit_or_zero c = c - 0x30 := by
  refine ⟨?_, by omega, by omega, by omega, ?_, ?_⟩
  · simp only [isspace, Bool.or_eq_false_iff, Bool.and_eq_false_iff, decide_eq_false_iff_not]
    omega
  · unfold is_digit_of digit_value
    rw [if_pos h]
    simp only [decide_eq_true_eq]
    omega
  · unfold digit_or_zero digit_value
    rw [if_pos h]
    rfl

theorem takeWhile_all {p : Nat → Bool} : ∀ (s : List Nat), (∀ c ∈ s, p c = true) →
    s.takeWhile p = s := by
  intro s
  induction s with
  | nil => intro _; rfl
  | cons c t ih =>
    intro h
    rw [List.takeWhile_cons, if_pos (h c (List.mem_cons_self _ _)),
      ih (fun x hx => h x (List.mem_cons_of_mem _ hx))]

theorem dec_fold_eq : ∀ (s : List Nat) (acc : Nat), all_dec_digits s →
    s.foldl (fun acc c => acc * 10 + digit_or_zero c) acc
      = s.foldl (fun acc c => acc * 10 + (c - 0x30)) acc := by
  intro s
  induction s with
  | nil => intro acc _; rfl
  | cons c t ih =>
    intro acc h
    simp only [List.foldl_cons]
    rw [(dec_digit_facts (h c (List.mem_cons_self _ _))).2.2.2.2.2,
      ih _ (fun x hx => h x (List.mem_cons_of_mem _ hx))]

/-- The function `strtoul` in base 10 on a string of decimal digits: its value, cut at
`ULONG_MAX`; `endptr` is at the terminating NUL. -/
theorem strtoul_digits (ulong_max : Nat) {s : List Nat} (hne : s ≠ [])
    (hd : all_dec_digits s) :
    strtoul ulong_max s 10
      = ((if dec_value s > ulong_max then ulong_max else dec_value s), s.length) := by
  obtain ⟨c, t, rfl⟩ := List.exists_cons_of_ne_nil hne
  obtain ⟨hsp, hm, hp, _, _, _⟩ := dec_digit_facts (hd c (List.mem_cons_self _ _))
  have hall : (c :: t).takeWhile (is_digit_of 10) = c :: t :=
    takeWhile_all _ (fun x hx => (dec_digit_facts (hd x hx)).2.2.2.2.1)
  have hfold := dec_fold_eq (c :: t) 0 hd
  unfold strtoul
  simp only [List.takeWhile_cons, hsp, Bool.false_eq_true, if_false, List.length_nil,
    List.drop_zero, hm, hp, decide_False, or_self, Nat.zero_add]
  have hpx : (match c :: t with
      | z :: x :: d :: _ =>
        if 10 = 16 ∧ z = 0x30 ∧ (x = 0x78 ∨ x = 0x58) ∧ is_digit_of 16 d = true then 2 else 0
      | _ => 0) = 0 := by
    split
    · rw [if_neg (by omega)]
    · rfl
  rw [hpx]
  simp only [List.drop_zero]
  rw [hall, hfold]
  simp only [List.length_cons, Nat.add_one_ne_zero, if_false, Nat.zero_add]
  unfold dec_value
  split <;> rfl

theorem c_char_at_end (s : List Nat) : c_char_at s s.length = 0 := by
  unfold c_char_at
  rw [List.getD_eq_default _ _ (le_refl _)]

/-- What `parse_nmea_fix_time` returns on a non-empty field of decimal digits. -/
theorem fix_time_digits_eval (ulong_max : Nat) (hmax : 4294967295 ≤ ulong_max) {s : List Nat}
    (hne : s ≠ []) (hd : all_dec_digits s) (dst : nmea_fix_time_t) :
    parse_nmea_fix_time ulong_max s dst =
      if dec_value s ≤ 240000 ∧ dec_value s % 10000 ≤ 6000 ∧ dec_value s % 100 ≤ 60 then
        some (.FIELD_VALID, { hhmmss := dec_value s, mss := 0 })
      else some (.FIELD_INVALID, dst) := by
  have h0 : c_char_at s 0 ≠ 0 := by
    obtain ⟨c, t, rfl⟩ := List.exists_cons_of_ne_nil hne
    have := (dec_digit_facts (hd c (List.mem_cons_self _ _))).2.2.2.1
    simpa [c_char_at] using this
  unfold parse_nmea_fix_time
  rw [if_neg h0]
  simp only [strtoul_digits ulong_max hne hd, c_char_at_end]
  rw [if_neg (by simp)]
  by_cases hbig : dec_value s > ulong_max
  · rw [if_pos hbig, if_pos (by omega), if_neg (by omega)]
  · rw [if_neg hbig]
    by_cases c1 : dec_value s > 240000
    · rw [if_pos c1, if_neg (by omega)]
    · rw [if_neg c1]
      by_cases c2 : dec_value s % 10000 > 6000
      · rw [if_pos c2, if_neg (by omega)]
      · rw [if_neg c2]
        by_cases c3 : dec_value s % 100 > 60
        · rw [if_pos c3, if_neg (by omega)]
        · rw [if_neg c3, if_neg (by simp), if_pos (by omega)]
          have : dec_value s % 2 ^ 32 = dec_value s :=
            Nat.mod_eq_of_lt (by norm_num; omega)
          rw [this]

/-- C15, as the code has it.  For every non-empty time field of decimal digits
with value v, `parse_nmea_fix_time` returns FIELD_VALID with `hhmmss = v` if
and only if `v ≤ 240000`, `v mod 10000 ≤ 6000` (minutes at most 59, or minutes
60 with seconds 00) and the seconds `v mod 100` are at most 60; then `mss = 0`,
and otherwise it returns FIELD_INVALID and leaves `*dst` as it was. -/
theorem fix_time_digits (ulong_max : Nat) (s : List Nat) (dst : nmea_fix_time_t)
    (hmax : 4294967295 ≤ ulong_max) (hne : s ≠ []) (hd : all_dec_digits s) :
    ((∃ t, parse_nmea_fix_time ulong_max s dst = some (.FIELD_VALID, t) ∧
        t.hhmmss = dec_value s) ↔
      (dec_value s ≤ 240000 ∧ dec_value s % 10000 ≤ 6000 ∧ dec_value s % 100 ≤ 60)) ∧
    ((dec_value s ≤ 240000 ∧ dec_value s % 10000 ≤ 6000 ∧ dec_value s % 100 ≤ 60) →
      parse_nmea_fix_time ulong_max s dst
        = some (.FIELD_VALID, { hhmmss := dec_value s, mss := 0 })) ∧
    (¬ (dec_value s ≤ 240000 ∧ dec_value s % 10000 ≤ 6000 ∧ dec_value s % 100 ≤ 60) →
      parse_nmea_fix_time ulong_max s dst = some (.FIELD_INVALID, dst)) := by
  have he := fix_time_digits_eval ulong_max hmax hne hd dst
  refine ⟨⟨?_, ?_⟩, ?_, ?_⟩
  · rintro ⟨t, ht, _⟩
    by_contra hc
    rw [he, if_neg hc] at ht
    simp at ht
  · intro hc
    rw [he, if_pos hc]
    exact ⟨_, rfl, rfl⟩
  · intro hc
    rw [he, if_pos hc]
  · intro hc
    rw [he, if_neg hc]

/-- C15 fails as stated: the field `6030` has the value 6030 with minutes
component 60 and seconds component 30, both at most 60, and
`parse_nmea_fix_time` returns FIELD_INVALID. -/
theorem fix_time_digits_counterexample :
    dec_value (chars "6030") = 6030 ∧ 6030 ≤ 240000 ∧ (6030 / 100) % 100 ≤ 60 ∧
    6030 % 100 ≤ 60 ∧
    parse_nmea_fix_time 4294967295 (chars "6030") ⟨0, 0⟩
      = some (.FIELD_INVALID, ⟨0, 0⟩) := by
  decide

theorem all_dec_digits_123519 : all_dec_digits (chars "123519") := by
  intro c hc
  simp only [chars] at hc
  revert c
  decide

/-- Instance of C15: the field `123519`. -/
theorem fix_time_digits_witness :
    4294967295 ≤ 4294967295 ∧ chars "123519" ≠ [] ∧ all_dec_digits (chars "123519") ∧
    parse_nmea_fix_time 4294967295 (chars "123519") ⟨0, 0⟩
      = some (.FIELD_VALID, { hhmmss := 123519, mss := 0 }) :=
  ⟨by simp, by decide, all_dec_digits_123519,
   (fix_time_digits 4294967295 (chars "123519") ⟨0, 0⟩ (by simp) (by decide)
      all_dec_digits_123519).2.1 (by decide)⟩
/-! ## The milliseconds of a fix time -/

/-- C16 fails for a sign in the fraction.  In the field `123519.-12` the three
characters `-12` are copied to `mss_s`; `strtoul` reads them to the end and
returns the negated value, which is 4294967284 as `unsigned`, and the assertion
`mss < 1000` fails (`none`), for a 32-bit and for a 64-bit `unsigned long`. -/
theorem fix_time_mss_assert :
    (∀ c ∈ chars "123519.-12", isprint c = true ∧ c ≠ 0x2c ∧ c ≠ 0x2a) ∧
    c_string (mss_copy_loop (chars "123519.-12") 6 3 0 [0x30, 0x30, 0x30, 0]) = chars "-12" ∧
    (strtoul 4294967295 (chars "-12") 10).1 % 2 ^ 32 = 4294967284 ∧
    (strtoul 18446744073709551615 (chars "-12") 10).1 % 2 ^ 32 = 4294967284 ∧
    parse_nmea_fix_time 4294967295 (chars "123519.-12") ⟨0, 0⟩ = none ∧
    parse_nmea_fix_time 18446744073709551615 (chars "123519.-12") ⟨0, 0⟩ = none := by
  decide
/-! ## The fix window: `close_nmea_fix`, `put_nmea_timedout`, `compose_location` -/

theorem merge_full_time_fix {M : c_lib} (ctx : nmea_parser_t M) :
    (merge_full_time ctx).fix = ctx.fix := rfl

/-- Whether the window is closed after `close_nmea_fix`: it was closed before,
or it held none of GGA, RMC, GLL. -/
theorem close_nmea_fix_is_closed {M : c_lib} (ctx : nmea_parser_t M)
    (status : gps_msg_status_t M) :
    ((close_nmea_fix ctx status).2.1.fix.is_closed = true ↔
      (ctx.fix.is_closed = true ∨
        (ctx.fix.gpgga_active = false ∧ ctx.fix.gprmc_active = false
          ∧ ctx.fix.gpgll_active = false))) := by
  unfold close_nmea_fix
  by_cases hc : ctx.fix.is_closed = true
  · simp [hc]
  · by_cases hn : ¬ ctx.fix.gpgga_active ∧ ¬ ctx.fix.gprmc_active ∧ ¬ ctx.fix.gpgll_active
    · simp only [hc, hn]
      simp at hn
      simp [hn]
    · simp only [hc, hn]
      simp only [if_false, Bool.false_eq_true, not_false_eq_true, and_self]
      rw [merge_full_time_fix]
      simp at hn
      simp [hc]
      intro h1 h2
      have := hn h1 h2
      simpa using this

/-- The flag `location_changed` after `close_nmea_fix`: the window was open. -/
theorem close_nmea_fix_location_changed {M : c_lib} (ctx : nmea_parser_t M)
    (status : gps_msg_status_t M) :
    (close_nmea_fix ctx status).2.2.location_changed = !ctx.fix.is_closed := by
  unfold close_nmea_fix
  by_cases hc : ctx.fix.is_closed = true
  · simp [hc]
  · by_cases hn : ¬ ctx.fix.gpgga_active ∧ ¬ ctx.fix.gprmc_active ∧ ¬ ctx.fix.gpgll_active
    · simp only [hc, hn]; simp
    · simp only [hc, hn]; simp

/-- C18, as the code has it.  A window which is open and holds a GGA, RMC or
GLL record is still open after `put_nmea_timedout` (`close_nmea_fix` sets
`is_closed` only where none of the three is active), and a second
`put_nmea_timedout` issued right after the first reports `location_changed`
again. -/
theorem put_nmea_timedout_twice {M : c_lib} (ctx : nmea_parser_t M)
    (status : gps_msg_status_t M)
    (hopen : ctx.fix.is_closed = false)
    (hact : ctx.fix.gpgga_active = true ∨ ctx.fix.gprmc_active = true
      ∨ ctx.fix.gpgll_active = true) :
    (put_nmea_timedout ctx status).1.fix.is_closed = false ∧
    (put_nmea_timedout ctx status).2.location_changed = true ∧
    (put_nmea_timedout (put_nmea_timedout ctx status).1
      (put_nmea_timedout ctx status).2).2.location_changed = true := by
  have h1 : (put_nmea_timedout ctx status).1.fix.is_closed = false := by
    have h := close_nmea_fix_is_closed ctx { status with is_valid := false, err := "" }
    unfold put_nmea_timedout
    cases hb : (close_nmea_fix ctx { status with is_valid := false, err := "" }).2.1.fix.is_closed
    · rfl
    · exfalso
      rcases h.mp hb with h2 | ⟨h2, h3, h4⟩
      · rw [hopen] at h2; exact Bool.noConfusion h2
      · rcases hact with h5 | h5 | h5
        · rw [h2] at h5; exact Bool.noConfusion h5
        · rw [h3] at h5; exact Bool.noConfusion h5
        · rw [h4] at h5; exact Bool.noConfusion h5
  refine ⟨h1, ?_, ?_⟩
  · unfold put_nmea_timedout
    rw [close_nmea_fix_location_changed, hopen]; rfl
  · have h2 : ∀ (c : nmea_parser_t M) (s : gps_msg_status_t M),
        (put_nmea_timedout c s).2.location_changed = !c.fix.is_closed := by
      intro c s
      unfold put_nmea_timedout
      rw [close_nmea_fix_location_changed]
    rw [h2, h1]; rfl

/-- The complementary case: a window which is closed already, or holds none of
GGA, RMC, GLL, is closed after `put_nmea_timedout`, and a second
`put_nmea_timedout` reports no change. -/
theorem put_nmea_timedout_closed {M : c_lib} (ctx : nmea_parser_t M)
    (status : gps_msg_status_t M)
    (h : ctx.fix.is_closed = true ∨
      (ctx.fix.gpgga_active = false ∧ ctx.fix.gprmc_active = false
        ∧ ctx.fix.gpgll_active = false)) :
    (put_nmea_timedout ctx status).1.fix.is_closed = true ∧
    (put_nmea_timedout (put_nmea_timedout ctx status).1
      (put_nmea_timedout ctx status).2).2.location_changed = false := by
  have h1 : (put_nmea_timedout ctx status).1.fix.is_closed = true := by
    unfold put_nmea_timedout
    exact (close_nmea_fix_is_closed ctx _).mpr h
  refine ⟨h1, ?_⟩
  have h2 : ∀ (c : nmea_parser_t M) (s : gps_msg_status_t M),
      (put_nmea_timedout c s).2.location_changed = !c.fix.is_closed := by
    intro c s
    unfold put_nmea_timedout
    rw [close_nmea_fix_location_changed]
  rw [h2, h1]; rfl

theorem put_nmea_timedout_twice_witness :
    (with_gga (zero_parser_ctx c_lib_int) 1 (48 : Int) (11 : Int)).fix.is_closed = false ∧
    ((put_nmea_timedout (with_gga (zero_parser_ctx c_lib_int) 1 (48 : Int) (11 : Int))
        (zero_status c_lib_int)).1.fix.is_closed = false ∧
     (put_nmea_timedout (with_gga (zero_parser_ctx c_lib_int) 1 (48 : Int) (11 : Int))
        (zero_status c_lib_int)).2.location_changed = true ∧
     (put_nmea_timedout
        (put_nmea_timedout (with_gga (zero_parser_ctx c_lib_int) 1 (48 : Int) (11 : Int))
          (zero_status c_lib_int)).1
        (put_nmea_timedout (with_gga (zero_parser_ctx c_lib_int) 1 (48 : Int) (11 : Int))
          (zero_status c_lib_int)).2).2.location_changed = true) :=
  ⟨rfl, put_nmea_timedout_twice _ _ rfl (Or.inl rfl)⟩
theorem bool_ite_not (v : Bool) : (if ¬ (v = true) then false else true) = v := by
  cases v <;> rfl

/-- The flag `is_valid` which `compose_location` computes before it fills
`*dst`. -/
theorem compose_location_is_valid_raw {M : c_lib} (ctx : nmea_parser_t M) (dst : location_t M) :
    (compose_location ctx dst).is_valid =
      (if ctx.fix.gprmc_active then
        (if ctx.fix.gpgga_active then
          ((ctx.fix.gpgga_active && ctx.fix.gpgga.has_latitude && ctx.fix.gpgga.has_longitude)
            || (ctx.fix.gprmc_active && ctx.fix.gprmc.has_latitude
              && ctx.fix.gprmc.has_longitude)
            || (ctx.fix.gpgll_active && ctx.fix.gpgll.has_latitude
              && ctx.fix.gpgll.has_longitude))
            && decide (ctx.fix.gpgga.fix_quality ≠ 0)
         else
          ((ctx.fix.gpgga_active && ctx.fix.gpgga.has_latitude && ctx.fix.gpgga.has_longitude)
            || (ctx.fix.gprmc_active && ctx.fix.gprmc.has_latitude
              && ctx.fix.gprmc.has_longitude)
            || (ctx.fix.gpgll_active && ctx.fix.gpgll.has_latitude
              && ctx.fix.gpgll.has_longitude)))
          && ctx.fix.gprmc.status_active
       else
        (if ctx.fix.gpgga_active then
          ((ctx.fix.gpgga_active && ctx.fix.gpgga.has_latitude && ctx.fix.gpgga.has_longitude)
            || (ctx.fix.gprmc_active && ctx.fix.gprmc.has_latitude
              && ctx.fix.gprmc.has_longitude)
            || (ctx.fix.gpgll_active && ctx.fix.gpgll.has_latitude
              && ctx.fix.gpgll.has_longitude))
            && decide (ctx.fix.gpgga.fix_quality ≠ 0)
         else
          ((ctx.fix.gpgga_active && ctx.fix.gpgga.has_latitude && ctx.fix.gpgga.has_longitude)
            || (ctx.fix.gprmc_active && ctx.fix.gprmc.has_latitude
              && ctx.fix.gprmc.has_longitude)
            || (ctx.fix.gpgll_active && ctx.fix.gpgll.has_latitude
              && ctx.fix.gpgll.has_longitude)))) := by
  unfold compose_location
  dsimp only
  rw [apply_ite location_t.is_valid]
  exact bool_ite_not _

/-- The flag `is_valid` of `compose_location` in terms of the window: one of
GGA, RMC, GLL is active with both coordinates, an active GGA has a quality
other than 0, and an active RMC has the status active. -/
theorem compose_location_is_valid {M : c_lib} (ctx : nmea_parser_t M) (dst : location_t M) :
    ((compose_location ctx dst).is_valid = true ↔
      ((ctx.fix.gpgga_active = true ∧ ctx.fix.gpgga.has_latitude = true
          ∧ ctx.fix.gpgga.has_longitude = true)
        ∨ (ctx.fix.gprmc_active = true ∧ ctx.fix.gprmc.has_latitude = true
          ∧ ctx.fix.gprmc.has_longitude = true)
        ∨ (ctx.fix.gpgll_active = true ∧ ctx.fix.gpgll.has_latitude = true
          ∧ ctx.fix.gpgll.has_longitude = true))
      ∧ (ctx.fix.gpgga_active = true → ctx.fix.gpgga.fix_quality ≠ 0)
      ∧ (ctx.fix.gprmc_active = true → ctx.fix.gprmc.status_active = true)) := by
  rw [compose_location_is_valid_raw]
  generalize ctx.fix.gpgga_active = a
  generalize ctx.fix.gprmc_active = b
  generalize ctx.fix.gpgll_active = c
  generalize ctx.fix.gpgga.has_latitude = a1
  generalize ctx.fix.gpgga.has_longitude = a2
  generalize ctx.fix.gprmc.has_latitude = b1
  generalize ctx.fix.gprmc.has_longitude = b2
  generalize ctx.fix.gpgll.has_latitude = c1
  generalize ctx.fix.gpgll.has_longitude = c2
  generalize ctx.fix.gprmc.status_active = s
  generalize ctx.fix.gpgga.fix_quality = q
  cases a <;> cases b <;> simp <;> tauto

/-- C19, as the code has it.  `compose_location` yields `is_valid = true` if
and only if at least one of the three holds (GGA active with `fix_quality != 0`
and both coordinates; RMC active with status active and both coordinates; GLL
active with both coordinates) and moreover no active GGA has `fix_quality = 0`
and no active RMC has a status which is not active. -/
theorem compose_location_valid_iff {M : c_lib} (ctx : nmea_parser_t M) (dst : location_t M) :
    ((compose_location ctx dst).is_valid = true ↔
      ((ctx.fix.gpgga_active = true ∧ ctx.fix.gpgga.fix_quality ≠ 0
          ∧ ctx.fix.gpgga.has_latitude = true ∧ ctx.fix.gpgga.has_longitude = true)
        ∨ (ctx.fix.gprmc_active = true ∧ ctx.fix.gprmc.status_active = true
          ∧ ctx.fix.gprmc.has_latitude = true ∧ ctx.fix.gprmc.has_longitude = true)
        ∨ (ctx.fix.gpgll_active = true ∧ ctx.fix.gpgll.has_latitude = true
          ∧ ctx.fix.gpgll.has_longitude = true))
      ∧ ¬ (ctx.fix.gpgga_active = true ∧ ctx.fix.gpgga.fix_quality = 0)
      ∧ ¬ (ctx.fix.gprmc_active = true ∧ ctx.fix.gprmc.status_active = false)) := by
  rw [compose_location_is_valid]
  generalize ctx.fix.gpgga_active = a
  generalize ctx.fix.gprmc_active = b
  generalize ctx.fix.gpgll_active = c
  generalize ctx.fix.gpgga.has_latitude = a1
  generalize ctx.fix.gpgga.has_longitude = a2
  generalize ctx.fix.gprmc.has_latitude = b1
  generalize ctx.fix.gprmc.has_longitude = b2
  generalize ctx.fix.gpgll.has_latitude = c1
  generalize ctx.fix.gpgll.has_longitude = c2
  generalize ctx.fix.gprmc.status_active = s
  generalize ctx.fix.gpgga.fix_quality = q
  cases a <;> cases b <;> cases s <;> simp <;> tauto

/-- C19 as worded fails: a window with an active GGA record of quality 0 and an
active GLL record, both with latitude and longitude.  The third condition of
the claim holds, and `compose_location` yields `is_valid = false`. -/
theorem compose_location_valid_counterexample :
    ¬ ((compose_location
          (with_gll (with_gga (zero_parser_ctx c_lib_int) 0 (48 : Int) (11 : Int))
            (48 : Int) (11 : Int))
          (zero_status c_lib_int).location).is_valid = true ↔
        ((with_gll (with_gga (zero_parser_ctx c_lib_int) 0 (48 : Int) (11 : Int))
              (48 : Int) (11 : Int)).fix.gpgga_active = true
            ∧ (with_gll (with_gga (zero_parser_ctx c_lib_int) 0 (48 : Int) (11 : Int))
              (48 : Int) (11 : Int)).fix.gpgga.fix_quality ≠ 0
            ∧ (with_gll (with_gga (zero_parser_ctx c_lib_int) 0 (48 : Int) (11 : Int))
              (48 : Int) (11 : Int)).fix.gpgga.has_latitude = true
            ∧ (with_gll (with_gga (zero_parser_ctx c_lib_int) 0 (48 : Int) (11 : Int))
              (48 : Int) (11 : Int)).fix.gpgga.has_longitude = true)
          ∨ ((with_gll (with_gga (zero_parser_ctx c_lib_int) 0 (48 : Int) (11 : Int))
              (48 : Int) (11 : Int)).fix.gprmc_active = true
            ∧ (with_gll (with_gga (zero_parser_ctx c_lib_int) 0 (48 : Int) (11 : Int))
              (48 : Int) (11 : Int)).fix.gprmc.status_active = true
            ∧ (with_gll (with_gga (zero_parser_ctx c_lib_int) 0 (48 : Int) (11 : Int))
              (48 : Int) (11 : Int)).fix.gprmc.has_latitude = true
            ∧ (with_gll (with_gga (zero_parser_ctx c_lib_int) 0 (48 : Int) (11 : Int))
              (48 : Int) (11 : Int)).fix.gprmc.has_longitude = true)
          ∨ ((with_gll (with_gga (zero_parser_ctx c_lib_int) 0 (48 : Int) (11 : Int))
              (48 : Int) (11 : Int)).fix.gpgll_active = true
            ∧ (with_gll (with_gga (zero_parser_ctx c_lib_int) 0 (48 : Int) (11 : Int))
              (48 : Int) (11 : Int)).fix.gpgll.has_latitude = true
            ∧ (with_gll (with_gga (zero_parser_ctx c_lib_int) 0 (48 : Int) (11 : Int))
              (48 : Int) (11 : Int)).fix.gpgll.has_longitude = true)) := by
  intro h
  have hv : (compose_location
      (with_gll (with_gga (zero_parser_ctx c_lib_int) 0 (48 : Int) (11 : Int))
        (48 : Int) (11 : Int))
      (zero_status c_lib_int).location).is_valid = false := rfl
  rw [hv] at h
  exact Bool.noConfusion (h.mpr (Or.inr (Or.inr ⟨rfl, rfl, rfl⟩)))

/-- C20.  Whenever `compose_location` yields a valid location, its latitude
and longitude are those of the GGA record if GGA is active with both
coordinates present, else those of the RMC record if RMC is active with both
present, else those of the GLL record, which then is active with both present:
the pair comes from one sentence. -/
theorem compose_location_lat_lon {M : c_lib} (ctx : nmea_parser_t M) (dst : location_t M)
    (hv : (compose_location ctx dst).is_valid = true) :
    (if ctx.fix.gpgga_active = true ∧ ctx.fix.gpgga.has_latitude = true
        ∧ ctx.fix.gpgga.has_longitude = true then
      (compose_location ctx dst).latitude = ctx.fix.gpgga.latitude ∧
      (compose_location ctx dst).longitude = ctx.fix.gpgga.longitude
    else if ctx.fix.gprmc_active = true ∧ ctx.fix.gprmc.has_latitude = true
        ∧ ctx.fix.gprmc.has_longitude = true then
      (compose_location ctx dst).latitude = ctx.fix.gprmc.latitude ∧
      (compose_location ctx dst).longitude = ctx.fix.gprmc.longitude
    else
      (ctx.fix.gpgll_active = true ∧ ctx.fix.gpgll.has_latitude = true
        ∧ ctx.fix.gpgll.has_longitude = true) ∧
      (compose_location ctx dst).latitude = ctx.fix.gpgll.latitude ∧
      (compose_location ctx dst).longitude = ctx.fix.gpgll.longitude) := by
  have hiff := (compose_location_is_valid ctx dst).mp hv
  have hraw := compose_location_is_valid_raw ctx dst
  rw [hv] at hraw
  have hlat : (compose_location ctx dst).latitude =
      (if (ctx.fix.gpgga_active && ctx.fix.gpgga.has_latitude && ctx.fix.gpgga.has_longitude)
          = true then ctx.fix.gpgga.latitude
       else if (ctx.fix.gprmc_active && ctx.fix.gprmc.has_latitude
          && ctx.fix.gprmc.has_longitude) = true then ctx.fix.gprmc.latitude
       else ctx.fix.gpgll.latitude) := by
    unfold compose_location
    dsimp only
    rw [apply_ite location_t.latitude]
    exact if_neg (not_not_intro hraw.symm)
  have hlon : (compose_location ctx dst).longitude =
      (if (ctx.fix.gpgga_active && ctx.fix.gpgga.has_latitude && ctx.fix.gpgga.has_longitude)
          = true then ctx.fix.gpgga.longitude
       else if (ctx.fix.gprmc_active && ctx.fix.gprmc.has_latitude
          && ctx.fix.gprmc.has_longitude) = true then ctx.fix.gprmc.longitude
       else ctx.fix.gpgll.longitude) := by
    unfold compose_location
    dsimp only
    rw [apply_ite location_t.longitude]
    exact if_neg (not_not_intro hraw.symm)
  rw [hlat, hlon]
  obtain ⟨h3, -, -⟩ := hiff
  by_cases hg : ctx.fix.gpgga_active = true ∧ ctx.fix.gpgga.has_latitude = true
      ∧ ctx.fix.gpgga.has_longitude = true
  · rw [if_pos hg]
    have : (ctx.fix.gpgga_active && ctx.fix.gpgga.has_latitude
        && ctx.fix.gpgga.has_longitude) = true := by simp [hg.1, hg.2.1, hg.2.2]
    rw [if_pos this, if_pos this]
    exact ⟨rfl, rfl⟩
  · rw [if_neg hg]
    have hg2 : ¬ ((ctx.fix.gpgga_active && ctx.fix.gpgga.has_latitude
        && ctx.fix.gpgga.has_longitude) = true) := by
      intro h; apply hg; simpa [and_assoc] using h
    rw [if_neg hg2, if_neg hg2]
    by_cases hr : ctx.fix.gprmc_active = true ∧ ctx.fix.gprmc.has_latitude = true
        ∧ ctx.fix.gprmc.has_longitude = true
    · rw [if_pos hr]
      have : (ctx.fix.gprmc_active && ctx.fix.gprmc.has_latitude
          && ctx.fix.gprmc.has_longitude) = true := by simp [hr.1, hr.2.1, hr.2.2]
      rw [if_pos this, if_pos this]
      exact ⟨rfl, rfl⟩
    · rw [if_neg hr]
      have hr2 : ¬ ((ctx.fix.gprmc_active && ctx.fix.gprmc.has_latitude
          && ctx.fix.gprmc.has_longitude) = true) := by
        intro h; apply hr; simpa [and_assoc] using h
      rw [if_neg hr2, if_neg hr2]
      refine ⟨?_, rfl, rfl⟩
      rcases h3 with h | h | h
      · exact absurd h hg
      · exact absurd h hr
      · exact h

theorem compose_location_lat_lon_witness :
    (compose_location
        (with_gll (with_gga (zero_parser_ctx c_lib_int) 1 (48 : Int) (11 : Int))
          (50 : Int) (14 : Int))
        (zero_status c_lib_int).location).is_valid = true ∧
    (if (with_gll (with_gga (zero_parser_ctx c_lib_int) 1 (48 : Int) (11 : Int))
          (50 : Int) (14 : Int)).fix.gpgga_active = true
        ∧ (with_gll (with_gga (zero_parser_ctx c_lib_int) 1 (48 : Int) (11 : Int))
          (50 : Int) (14 : Int)).fix.gpgga.has_latitude = true
        ∧ (with_gll (with_gga (zero_parser_ctx c_lib_int) 1 (48 : Int) (11 : Int))
          (50 : Int) (14 : Int)).fix.gpgga.has_longitude = true then
      (compose_location
          (with_gll (with_gga (zero_parser_ctx c_lib_int) 1 (48 : Int) (11 : Int))
            (50 : Int) (14 : Int))
          (zero_status c_lib_int).location).latitude
        = (with_gll (with_gga (zero_parser_ctx c_lib_int) 1 (48 : Int) (11 : Int))
            (50 : Int) (14 : Int)).fix.gpgga.latitude ∧
      (compose_location
          (with_gll (with_gga (zero_parser_ctx c_lib_int) 1 (48 : Int) (11 : Int))
            (50 : Int) (14 : Int))
          (zero_status c_lib_int).location).longitude
        = (with_gll (with_gga (zero_parser_ctx c_lib_int) 1 (48 : Int) (11 : Int))
            (50 : Int) (14 : Int)).fix.gpgga.longitude
    else if (with_gll (with_gga (zero_parser_ctx c_lib_int) 1 (48 : Int) (11 : Int))
          (50 : Int) (14 : Int)).fix.gprmc_active = true
        ∧ (with_gll (with_gga (zero_parser_ctx c_lib_int) 1 (48 : Int) (11 : Int))
          (50 : Int) (14 : Int)).fix.gprmc.has_latitude = true
        ∧ (with_gll (with_gga (zero_parser_ctx c_lib_int) 1 (48 : Int) (11 : Int))
          (50 : Int) (14 : Int)).fix.gprmc.has_longitude = true then
      (compose_location
          (with_gll (with_gga (zero_parser_ctx c_lib_int) 1 (48 : Int) (11 : Int))
            (50 : Int) (14 : Int))
          (zero_status c_lib_int).location).latitude
        = (with_gll (with_gga (zero_parser_ctx c_lib_int) 1 (48 : Int) (11 : Int))
            (50 : Int) (14 : Int)).fix.gprmc.latitude ∧
      (compose_location
          (with_gll (with_gga (zero_parser_ctx c_lib_int) 1 (48 : Int) (11 : Int))
            (50 : Int) (14 : Int))
          (zero_status c_lib_int).location).longitude
        = (with_gll (with_gga (zero_parser_ctx c_lib_int) 1 (48 : Int) (11 : Int))
            (50 : Int) (14 : Int)).fix.gprmc.longitude
    else
      ((with_gll (with_gga (zero_parser_ctx c_lib_int) 1 (48 : Int) (11 : Int))
          (50 : Int) (14 : Int)).fix.gpgll_active = true
        ∧ (with_gll (with_gga (zero_parser_ctx c_lib_int) 1 (48 : Int) (11 : Int))
          (50 : Int) (14 : Int)).fix.gpgll.has_latitude = true
        ∧ (with_gll (with_gga (zero_parser_ctx c_lib_int) 1 (48 : Int) (11 : Int))
          (50 : Int) (14 : Int)).fix.gpgll.has_longitude = true) ∧
      (compose_location
          (with_gll (with_gga (zero_parser_ctx c_lib_int) 1 (48 : Int) (11 : Int))
            (50 : Int) (14 : Int))
          (zero_status c_lib_int).location).latitude
        = (with_gll (with_gga (zero_parser_ctx c_lib_int) 1 (48 : Int) (11 : Int))
            (50 : Int) (14 : Int)).fix.gpgll.latitude ∧
      (compose_location
          (with_gll (with_gga (zero_parser_ctx c_lib_int) 1 (48 : Int) (11 : Int))
            (50 : Int) (14 : Int))
          (zero_status c_lib_int).location).longitude
        = (with_gll (with_gga (zero_parser_ctx c_lib_int) 1 (48 : Int) (11 : Int))
            (50 : Int) (14 : Int)).fix.gpgll.longitude) :=
  ⟨rfl, compose_location_lat_lon _ _ rfl⟩
/-! ## `put_nmea_msg` and the fix window -/

/-- The relation `is_same_fix_time` is reflexive, whatever the members hold. -/
theorem is_same_fix_time_refl (t : nmea_fix_time_t) : is_same_fix_time t t = true := by
  unfold is_same_fix_time
  simp [c_abs, wrap_int]

/-- The window after the statements which follow a successful parse: its fix
time is the same instant as `t`, and it is closed exactly when it was closed
before and its fix time was the same instant as `t`. -/
theorem roll_nmea_fix_spec {M : c_lib} (ctx : nmea_parser_t M) (status : gps_msg_status_t M)
    (t : nmea_fix_time_t) :
    is_same_fix_time (roll_nmea_fix ctx status t).1.fix.fix_time t = true ∧
    ((roll_nmea_fix ctx status t).1.fix.is_closed = true ↔
      (ctx.fix.is_closed = true ∧ is_same_fix_time ctx.fix.fix_time t = true)) := by
  unfold roll_nmea_fix
  by_cases h : is_same_fix_time ctx.fix.fix_time t = true
  · rw [if_neg (not_not_intro h)]
    exact ⟨h, by simp [h]⟩
  · rw [if_pos h]
    refine ⟨is_same_fix_time_refl t, ?_⟩
    simp [open_nmea_fix, h]

/-- What `put_nmea_msg` does with a GGA sentence which `parse_gga` accepts. -/
theorem put_nmea_msg_gga {M : c_lib} (P : nmea_parsers M) (ctx : nmea_parser_t M)
    (msg : List uint8_t) (msg_size : Nat) (status status1 : gps_msg_status_t M)
    (gxgga : nmea_gpgga_t M)
    (hid : is_gga_id msg msg_size)
    (hparse : P.parse_gga msg msg_size
      { status with is_valid := false, location_changed := false, err := "" }
        = some (some gxgga, status1)) :
    put_nmea_msg P ctx msg msg_size status =
      some ((roll_nmea_fix ctx status1 gxgga.fix_time).2.is_valid,
        { (roll_nmea_fix ctx status1 gxgga.fix_time).1 with
          fix := { (roll_nmea_fix ctx status1 gxgga.fix_time).1.fix with
            gpgga_active := true, gpgga := gxgga } },
        (roll_nmea_fix ctx status1 gxgga.fix_time).2) := by
  obtain ⟨filled, hf, hcmp⟩ := hid
  unfold put_nmea_msg
  simp only [hf]
  rw [if_pos hcmp]
  simp only [hparse]

/-- The window after a GGA sentence, from every state.  After `put_nmea_msg` has parsed a GGA
sentence with fix time `T`, the GGA slot is active and holds the new record and
the fix time of the window is the same instant as `T`; the window is closed
afterwards exactly when it was closed before and its fix time was already the
same instant as `T`: `open_nmea_fix` is called only for a different instant. -/
theorem put_nmea_msg_gga_window {M : c_lib} (P : nmea_parsers M) (ctx : nmea_parser_t M)
    (msg : List uint8_t) (msg_size : Nat) (status status1 : gps_msg_status_t M)
    (gxgga : nmea_gpgga_t M)
    (hid : is_gga_id msg msg_size)
    (hparse : P.parse_gga msg msg_size
      { status with is_valid := false, location_changed := false, err := "" }
        = some (some gxgga, status1)) :
    ∃ r ctx1 status2, put_nmea_msg P ctx msg msg_size status = some (r, ctx1, status2) ∧
      ctx1.fix.gpgga_active = true ∧ ctx1.fix.gpgga = gxgga ∧
      is_same_fix_time ctx1.fix.fix_time gxgga.fix_time = true ∧
      (ctx1.fix.is_closed = true ↔
        (ctx.fix.is_closed = true ∧
          is_same_fix_time ctx.fix.fix_time gxgga.fix_time = true)) := by
  refine ⟨_, _, _, put_nmea_msg_gga P ctx msg msg_size status status1 gxgga hid hparse,
    rfl, rfl, ?_, ?_⟩
  · exact (roll_nmea_fix_spec ctx status1 gxgga.fix_time).1
  · exact (roll_nmea_fix_spec ctx status1 gxgga.fix_time).2

/-- C17 fails right after `reset_nmea_parser`: a GGA sentence whose fix time is
000000 with less than 50 milliseconds is the same instant as the fix time 0 of
the reset state, so no window is opened.  After `put_nmea_msg` the GGA slot is
active and holds the record, and `fix.is_closed` is still `true`. -/
theorem put_nmea_msg_after_reset {M : c_lib} (P : nmea_parsers M) (now : tm)
    (ctx : nmea_parser_t M) (msg : List uint8_t) (msg_size : Nat)
    (status status1 : gps_msg_status_t M) (gxgga : nmea_gpgga_t M)
    (hid : is_gga_id msg msg_size)
    (hparse : P.parse_gga msg msg_size
      { status with is_valid := false, location_changed := false, err := "" }
        = some (some gxgga, status1))
    (hh : gxgga.fix_time.hhmmss = 0) (hm : gxgga.fix_time.mss < 50) :
    ∃ ctx1, put_nmea_msg P (reset_nmea_parser_ctx now ctx) msg msg_size status
        = some (status1.is_valid, ctx1, status1) ∧
      ctx1.fix.is_closed = true ∧ ctx1.fix.gpgga_active = true ∧ ctx1.fix.gpgga = gxgga := by
  have hsame : is_same_fix_time (reset_nmea_parser_ctx now ctx).fix.fix_time gxgga.fix_time
      = true := by
    unfold is_same_fix_time
    have h1 : (reset_nmea_parser_ctx now ctx).fix.fix_time = ⟨0, 0⟩ := rfl
    rw [h1]
    simp only [hh, ne_eq, not_true_eq_false, if_false]
    have h2 : to_int gxgga.fix_time.mss = (gxgga.fix_time.mss : Int) := by
      unfold to_int
      have : gxgga.fix_time.mss % 2 ^ 32 = gxgga.fix_time.mss := Nat.mod_eq_of_lt (by omega)
      rw [this, if_pos (by omega)]
    have h3 : to_int 0 = 0 := by decide
    rw [h2, h3]
    have h4 : wrap_int ((gxgga.fix_time.mss : Int) - 0) = (gxgga.fix_time.mss : Int) := by
      unfold wrap_int; omega
    rw [h4]
    unfold c_abs
    rw [if_neg (by omega)]
    have h5 : wrap_int (gxgga.fix_time.mss : Int) = (gxgga.fix_time.mss : Int) := by
      unfold wrap_int; omega
    rw [h5]
    simp only [decide_eq_true_eq]
    omega
  have hroll : roll_nmea_fix (reset_nmea_parser_ctx now ctx) status1 gxgga.fix_time
      = (reset_nmea_parser_ctx now ctx, status1) := by
    unfold roll_nmea_fix
    rw [if_neg (not_not_intro hsame)]
  refine ⟨{ reset_nmea_parser_ctx now ctx with
      fix := { (reset_nmea_parser_ctx now ctx).fix with
        gpgga_active := true, gpgga := gxgga } },
    ?_, rfl, rfl, rfl⟩
  rw [put_nmea_msg_gga P _ msg msg_size status status1 gxgga hid hparse, hroll]

theorem is_gga_id_gga_midnight : is_gga_id gga_midnight 67 :=
  ⟨[0x24, 0x47, 0x50, 0x47, 0x47, 0x41, 0, 0, 0], by decide, Or.inl (by decide)⟩

theorem put_nmea_msg_after_reset_witness :
    is_gga_id gga_midnight 67 ∧
    gga_midnight_record.fix_time.hhmmss = 0 ∧ gga_midnight_record.fix_time.mss < 50 ∧
    ∃ ctx1, put_nmea_msg (one_gga_parsers c_lib_int gga_midnight gga_midnight_record)
          (reset_nmea_parser_ctx ⟨0, 0, 0, 1, 0, 70, 4, 0, 0⟩ (zero_parser_ctx c_lib_int))
          gga_midnight 67 (zero_status c_lib_int)
        = some (false, ctx1, zero_status c_lib_int) ∧
      ctx1.fix.is_closed = true ∧ ctx1.fix.gpgga_active = true
        ∧ ctx1.fix.gpgga = gga_midnight_record :=
  ⟨is_gga_id_gga_midnight, rfl, by decide,
    put_nmea_msg_after_reset (one_gga_parsers c_lib_int gga_midnight gga_midnight_record)
      ⟨0, 0, 0, 1, 0, 70, 4, 0, 0⟩ (zero_parser_ctx c_lib_int) gga_midnight 67
      (zero_status c_lib_int) (zero_status c_lib_int) gga_midnight_record
      is_gga_id_gga_midnight (by simp [one_gga_parsers, zero_status]) rfl (by decide)⟩
/-! ## `compose_location`: satellites, altitude, speed and bearing -/

/-- Counting by a fold is the length of the filtered list. -/
theorem count_prn_fold (p : Nat → Bool) (l : List Nat) (n0 : Int) :
    l.foldl (fun n i => if p i = true then n + 1 else n) n0
      = n0 + ((l.filter p).length : Int) := by
  induction l generalizing n0 with
  | nil => simp
  | cons a t ih =>
    rw [List.foldl_cons, ih]
    by_cases h : p a = true
    · simp [h]; omega
    · simp [h]

/-- The loop of `compose_location` over the PRN slots counts the entries which
are not zero. -/
theorem count_prn_eq (prn : List Nat) : count_prn prn = (nonzero_prn prn : Int) := by
  unfold count_prn nonzero_prn
  have h := count_prn_fold (fun i => decide (prn.getD i 0 ≠ 0)) (List.range 12) 0
  rw [zero_add] at h
  rw [← h]
  congr 1
  funext n i
  generalize prn.getD i 0 = v
  by_cases hz : v = 0
  · subst hz; simp
  · have hp : v > 0 := Nat.pos_of_ne_zero hz
    simp [hz, hp]

/-- The satellites of a valid location, as `compose_location` computes them. -/
theorem compose_location_satellites_raw {M : c_lib} (ctx : nmea_parser_t M) (dst : location_t M)
    (hv : (compose_location ctx dst).is_valid = true) :
    (compose_location ctx dst).satellites =
      (if (ctx.fix.gpgga_active && ctx.fix.gpgga.has_latitude && ctx.fix.gpgga.has_longitude
          && ctx.fix.gpgga.has_sattelites_nb) = true then ctx.fix.gpgga.sattelites_nb
       else if ctx.gpgsa.is_valid = true then count_prn ctx.gpgsa.prn
       else -1) := by
  have hraw := compose_location_is_valid_raw ctx dst
  rw [hv] at hraw
  unfold compose_location
  dsimp only
  rw [apply_ite location_t.satellites]
  exact if_neg (not_not_intro hraw.symm)

/-- The flag `has_altitude` and the altitude of a valid location, as
`compose_location` computes them. -/
theorem compose_location_altitude_raw {M : c_lib} (ctx : nmea_parser_t M) (dst : location_t M)
    (hv : (compose_location ctx dst).is_valid = true) :
    (compose_location ctx dst).has_altitude =
      (ctx.fix.gpgga_active && ctx.fix.gpgga.has_latitude && ctx.fix.gpgga.has_longitude
        && ctx.fix.gpgga.has_altitude) ∧
    (compose_location ctx dst).altitude =
      (if (ctx.fix.gpgga_active && ctx.fix.gpgga.has_latitude && ctx.fix.gpgga.has_longitude
          && ctx.fix.gpgga.has_altitude) = true then ctx.fix.gpgga.altitude
       else M.double_zero) := by
  have hraw := compose_location_is_valid_raw ctx dst
  rw [hv] at hraw
  constructor
  · unfold compose_location
    dsimp only
    rw [apply_ite location_t.has_altitude]
    exact if_neg (not_not_intro hraw.symm)
  · unfold compose_location
    dsimp only
    rw [apply_ite location_t.altitude]
    exact if_neg (not_not_intro hraw.symm)

/-- C21, as the code has it.  Whenever `compose_location` yields a valid
location, `satellites` is the satellite count of the GGA record if GGA is
active with latitude and longitude present and that count is present;
otherwise the number of non-zero entries among the 12 PRN slots of the latest
GSA if one is valid; otherwise -1. -/
theorem compose_location_satellites {M : c_lib} (ctx : nmea_parser_t M) (dst : location_t M)
    (hv : (compose_location ctx dst).is_valid = true) :
    (compose_location ctx dst).satellites =
      (if ctx.fix.gpgga_active = true ∧ ctx.fix.gpgga.has_latitude = true
          ∧ ctx.fix.gpgga.has_longitude = true ∧ ctx.fix.gpgga.has_sattelites_nb = true then
        ctx.fix.gpgga.sattelites_nb
       else if ctx.gpgsa.is_valid = true then (nonzero_prn ctx.gpgsa.prn : Int)
       else -1) := by
  rw [compose_location_satellites_raw ctx dst hv, count_prn_eq]
  by_cases h : ctx.fix.gpgga_active = true ∧ ctx.fix.gpgga.has_latitude = true
      ∧ ctx.fix.gpgga.has_longitude = true ∧ ctx.fix.gpgga.has_sattelites_nb = true
  · rw [if_pos h, if_pos (by simp [h.1, h.2.1, h.2.2.1, h.2.2.2])]
  · rw [if_neg h, if_neg (by intro h2; apply h; simpa [and_assoc] using h2)]

/-- C21 as worded fails: the window holds an active GGA record of quality 1
with the satellite count 8 and without latitude and longitude, and an active
RMC record with a position; no GSA is valid.  The location is valid and its
`satellites` is -1, not the count 8 of the active GGA. -/
theorem compose_location_satellites_counterexample :
    (compose_location
        (with_rmc (with_gga_no_position (zero_parser_ctx c_lib_int) 1 (545 : Int) 8)
          (48 : Int) (11 : Int))
        (zero_status c_lib_int).location).is_valid = true ∧
    (with_rmc (with_gga_no_position (zero_parser_ctx c_lib_int) 1 (545 : Int) 8)
        (48 : Int) (11 : Int)).fix.gpgga_active = true ∧
    (with_rmc (with_gga_no_position (zero_parser_ctx c_lib_int) 1 (545 : Int) 8)
        (48 : Int) (11 : Int)).fix.gpgga.has_sattelites_nb = true ∧
    (with_rmc (with_gga_no_position (zero_parser_ctx c_lib_int) 1 (545 : Int) 8)
        (48 : Int) (11 : Int)).fix.gpgga.sattelites_nb = 8 ∧
    (compose_location
        (with_rmc (with_gga_no_position (zero_parser_ctx c_lib_int) 1 (545 : Int) 8)
          (48 : Int) (11 : Int))
        (zero_status c_lib_int).location).satellites = -1 :=
  ⟨rfl, rfl, rfl, rfl, rfl⟩

theorem compose_location_satellites_witness :
    (compose_location
        (with_gll (with_gga (zero_parser_ctx c_lib_int) 1 (48 : Int) (11 : Int))
          (50 : Int) (14 : Int))
        (zero_status c_lib_int).location).is_valid = true ∧
    (compose_location
        (with_gll (with_gga (zero_parser_ctx c_lib_int) 1 (48 : Int) (11 : Int))
          (50 : Int) (14 : Int))
        (zero_status c_lib_int).location).satellites =
      (if (with_gll (with_gga (zero_parser_ctx c_lib_int) 1 (48 : Int) (11 : Int))
            (50 : Int) (14 : Int)).fix.gpgga_active = true
          ∧ (with_gll (with_gga (zero_parser_ctx c_lib_int) 1 (48 : Int) (11 : Int))
            (50 : Int) (14 : Int)).fix.gpgga.has_latitude = true
          ∧ (with_gll (with_gga (zero_parser_ctx c_lib_int) 1 (48 : Int) (11 : Int))
            (50 : Int) (14 : Int)).fix.gpgga.has_longitude = true
          ∧ (with_gll (with_gga (zero_parser_ctx c_lib_int) 1 (48 : Int) (11 : Int))
            (50 : Int) (14 : Int)).fix.gpgga.has_sattelites_nb = true then
        (with_gll (with_gga (zero_parser_ctx c_lib_int) 1 (48 : Int) (11 : Int))
          (50 : Int) (14 : Int)).fix.gpgga.sattelites_nb
       else if (with_gll (with_gga (zero_parser_ctx c_lib_int) 1 (48 : Int) (11 : Int))
          (50 : Int) (14 : Int)).gpgsa.is_valid = true then
        (nonzero_prn (with_gll (with_gga (zero_parser_ctx c_lib_int) 1 (48 : Int) (11 : Int))
          (50 : Int) (14 : Int)).gpgsa.prn : Int)
       else -1) :=
  ⟨rfl, compose_location_satellites _ _ rfl⟩

/-- C22, as the code has it.  Whenever `compose_location` yields a valid
location, `has_altitude` is true exactly when the window holds an active GGA
record with latitude and longitude present whose altitude is present, and then
`altitude` is the altitude of that record; otherwise `has_altitude` is false
and `altitude` is 0. -/
theorem compose_location_altitude {M : c_lib} (ctx : nmea_parser_t M) (dst : location_t M)
    (hv : (compose_location ctx dst).is_valid = true) :
    ((compose_location ctx dst).has_altitude = true ↔
      (ctx.fix.gpgga_active = true ∧ ctx.fix.gpgga.has_latitude = true
        ∧ ctx.fix.gpgga.has_longitude = true ∧ ctx.fix.gpgga.has_altitude = true)) ∧
    ((compose_location ctx dst).has_altitude = true →
      (compose_location ctx dst).altitude = ctx.fix.gpgga.altitude) ∧
    ((compose_location ctx dst).has_altitude = false →
      (compose_location ctx dst).altitude = M.double_zero) := by
  obtain ⟨h1, h2⟩ := compose_location_altitude_raw ctx dst hv
  rw [h1, h2]
  refine ⟨by simp [and_assoc], fun h => by rw [if_pos h], fun h => ?_⟩
  rw [if_neg (by rw [h]; exact Bool.false_ne_true)]

/-- C22 as worded fails: the window holds an active GGA record of quality 1
whose altitude is present, without latitude and longitude, and an active RMC
record which supplies the position.  The location is valid and `has_altitude`
is false. -/
theorem compose_location_altitude_counterexample :
    (compose_location
        (with_rmc (with_gga_no_position (zero_parser_ctx c_lib_int) 1 (545 : Int) 8)
          (48 : Int) (11 : Int))
        (zero_status c_lib_int).location).is_valid = true ∧
    (with_rmc (with_gga_no_position (zero_parser_ctx c_lib_int) 1 (545 : Int) 8)
        (48 : Int) (11 : Int)).fix.gpgga_active = true ∧
    (with_rmc (with_gga_no_position (zero_parser_ctx c_lib_int) 1 (545 : Int) 8)
        (48 : Int) (11 : Int)).fix.gpgga.has_altitude = true ∧
    (compose_location
        (with_rmc (with_gga_no_position (zero_parser_ctx c_lib_int) 1 (545 : Int) 8)
          (48 : Int) (11 : Int))
        (zero_status c_lib_int).location).has_altitude = false :=
  ⟨rfl, rfl, rfl, rfl⟩

theorem compose_location_altitude_witness :
    (compose_location
        (with_gll (with_gga (zero_parser_ctx c_lib_int) 1 (48 : Int) (11 : Int))
          (50 : Int) (14 : Int))
        (zero_status c_lib_int).location).is_valid = true ∧
    (compose_location
        (with_gll (with_gga (zero_parser_ctx c_lib_int) 1 (48 : Int) (11 : Int))
          (50 : Int) (14 : Int))
        (zero_status c_lib_int).location).has_altitude = false :=
  ⟨rfl, by
    have h := (compose_location_altitude
      (with_gll (with_gga (zero_parser_ctx c_lib_int) 1 (48 : Int) (11 : Int))
        (50 : Int) (14 : Int))
      (zero_status c_lib_int).location rfl).1
    cases hb : (compose_location
        (with_gll (with_gga (zero_parser_ctx c_lib_int) 1 (48 : Int) (11 : Int))
          (50 : Int) (14 : Int))
        (zero_status c_lib_int).location).has_altitude
    · rfl
    · exact absurd (h.mp hb).2.2.2 (by decide)⟩
/-! ## sirf.c: message id 41 -/

theorem get4u_some_of_lt {msg : List uint8_t} {off : Nat} (h : off + 3 < msg.length) :
    ∃ v, get4u msg off = some v := by
  obtain ⟨b0, h0⟩ := rd_some_of_lt (show off < msg.length by omega)
  obtain ⟨b1, h1⟩ := rd_some_of_lt (show off + 1 < msg.length by omega)
  obtain ⟨b2, h2⟩ := rd_some_of_lt (show off + 2 < msg.length by omega)
  obtain ⟨b3, h3⟩ := rd_some_of_lt h
  exact ⟨_, by unfold get4u; rw [h0, h1, h2, h3]⟩

theorem get4s_some_of_lt {msg : List uint8_t} {off : Nat} (h : off + 3 < msg.length) :
    ∃ v, get4s msg off = some v := by
  obtain ⟨u, hu⟩ := get4u_some_of_lt h
  exact ⟨_, by unfold get4s; rw [hu]⟩

/-- With 93 bytes in the buffer every read of `parse_tracker_data` succeeds;
the member `nav_type` is `get2u(&msg[7])`. -/
theorem read_tracker_fields_some {msg : List uint8_t} (h : 93 ≤ msg.length) :
    ∃ r, read_tracker_fields msg = some r ∧ get2u msg 7 = some r.nav_type := by
  obtain ⟨v1, h1⟩ := @get2u_some_of_lt msg 7 (by omega)
  obtain ⟨v2, h2⟩ := @get2u_some_of_lt msg 15 (by omega)
  obtain ⟨v3, h3⟩ := @rd_some_of_lt msg 17 (by omega)
  obtain ⟨v4, h4⟩ := @rd_some_of_lt msg 18 (by omega)
  obtain ⟨v5, h5⟩ := @rd_some_of_lt msg 19 (by omega)
  obtain ⟨v6, h6⟩ := @rd_some_of_lt msg 20 (by omega)
  obtain ⟨v7, h7⟩ := @get2u_some_of_lt msg 21 (by omega)
  obtain ⟨v8, h8⟩ := @get4s_some_of_lt msg 27 (by omega)
  obtain ⟨v9, h9⟩ := @get4s_some_of_lt msg 31 (by omega)
  obtain ⟨v10, h10⟩ := @get4s_some_of_lt msg 39 (by omega)
  obtain ⟨v11, h11⟩ := @get2u_some_of_lt msg 44 (by omega)
  obtain ⟨v12, h12⟩ := @get2u_some_of_lt msg 46 (by omega)
  obtain ⟨v13, h13⟩ := @get4u_some_of_lt msg 54 (by omega)
  obtain ⟨v14, h14⟩ := @rd_some_of_lt msg 92 (by omega)
  refine ⟨⟨v1, v2, v3, v4, v5, v6, v7, v8, v9, v10, v11, v12, v13, v14⟩, ?_, h1⟩
  unfold read_tracker_fields
  rw [h1, h2, h3, h4, h5, h6, h7, h8, h9, h10, h11, h12, h13, h14]

theorem and_7_mod (x : Nat) : x &&& 0x07 = x % 8 := by
  have := Nat.and_pow_two_sub_one_eq_mod x 3
  simpa using this

/-- The text which `snprintf` leaves is not empty when the formatted text
starts with a non-empty literal. -/
theorem c_snprintf_ne_empty (a b : String) (ha : a ≠ "") :
    c_snprintf 200 (a ++ b) ≠ "" := by
  unfold c_snprintf
  intro h
  have h2 : ((a ++ b).toList.take (200 - 1)) = [] := by
    have := congrArg String.toList h
    simpa using this
  have h3 : (a ++ b).toList = a.toList ++ b.toList := String.data_append a b
  rw [h3] at h2
  have ha2 : a.toList ≠ [] := by
    intro h4
    apply ha
    cases a
    simp_all
  cases hl : a.toList with
  | nil => exact ha2 hl
  | cons c t => rw [hl] at h2; simp at h2

/-- C26 fails for `location_changed`.  For a message with id 41 whose payload
length is not 91, `put_sirf_msg` returns `false` with `is_valid = false` and a
diagnostic which is not empty, and leaves `location_changed` and `location` as
they were before the call: `parse_tracker_data` writes `err` and `is_valid`
only. -/
theorem put_sirf_msg_wrong_size {M : c_lib} (K : c_num M) (now : tm) (msg : List uint8_t)
    (status : gps_msg_status_t M) (payload_size : Nat)
    (hmid : rd msg 4 = some 41) (hsize : get2u msg 2 = some payload_size)
    (hne : payload_size ≠ 91) :
    ∃ st, put_sirf_msg K now msg status = some (false, st) ∧
      st.is_valid = false ∧ st.err ≠ "" ∧
      st.location_changed = status.location_changed ∧ st.location = status.location := by
  refine ⟨{ status with
      err := c_snprintf 200 ("Wrong SiRF MID41 payload size " ++ Nat.repr payload_size)
      is_valid := false }, ?_, rfl, ?_, rfl, rfl⟩
  · unfold put_sirf_msg
    rw [hmid]
    simp only [if_true]
    unfold parse_tracker_data
    rw [hsize]
    simp only [if_pos hne]
  · exact c_snprintf_ne_empty _ _ (by decide)

theorem put_sirf_msg_wrong_size_witness :
    rd (sirf_frame [41]) 4 = some 41 ∧ get2u (sirf_frame [41]) 2 = some 1 ∧ 1 ≠ 91 ∧
    ∃ st, put_sirf_msg c_num_rat epoch_tm (sirf_frame [41])
        { zero_status c_lib_rat with location_changed := true } = some (false, st) ∧
      st.is_valid = false ∧ st.err ≠ "" ∧
      st.location_changed = true ∧ st.location = (zero_status c_lib_rat).location :=
  ⟨by decide, by decide, by decide,
    put_sirf_msg_wrong_size c_num_rat epoch_tm (sirf_frame [41])
      { zero_status c_lib_rat with location_changed := true } 1
      (by decide) (by decide) (by decide)⟩

/-- What `put_sirf_msg` does with a message of id 41 and payload length 91. -/
theorem put_sirf_msg_tracker {M : c_lib} (K : c_num M) (now : tm) (msg : List uint8_t)
    (status : gps_msg_status_t M)
    (hmid : rd msg 4 = some 41) (hsize : get2u msg 2 = some 91) (hlen : 93 ≤ msg.length) :
    ∃ (nav : Nat) (st : gps_msg_status_t M), get2u msg 7 = some nav ∧
      put_sirf_msg K now msg status = some (true, st) ∧
      st.is_valid = true ∧ st.location_changed = true ∧ st.err = "" ∧
      st.location.is_valid = decide (nav % 8 ≠ 0) := by
  obtain ⟨r, hr, hnav⟩ := read_tracker_fields_some hlen
  have hp : ∃ st, parse_tracker_data K now msg status = some st ∧
      st.is_valid = true ∧ st.location_changed = true ∧ st.err = "" ∧
      st.location.is_valid = decide (r.nav_type % 8 ≠ 0) := by
    unfold parse_tracker_data
    rw [hsize]
    simp only [ne_eq, not_true_eq_false, if_false, hr]
    exact ⟨_, rfl, rfl, rfl, rfl, by simp only [and_7_mod]⟩
  obtain ⟨st, hst, h1, h2, h3, h4⟩ := hp
  refine ⟨r.nav_type, st, hnav, ?_, h1, h2, h3, h4⟩
  unfold put_sirf_msg
  rw [hmid]
  simp only [if_true, hst, h1]

/-- C27, as the code has it.  For a SiRF message of id 41 with a 91-byte
payload the decoded location has `is_valid = true` exactly when bits 0-2 of the
16-bit field in the payload bytes 3-4 (`msg[7]`, `msg[8]`, big-endian; the
navigation type) are not all zero, and `is_valid = false` when they are zero.
The field in the payload bytes 1-2 is not read. -/
theorem tracker_data_validity {M : c_lib} (K : c_num M) (now : tm) (msg : List uint8_t)
    (status : gps_msg_status_t M)
    (hmid : rd msg 4 = some 41) (hsize : get2u msg 2 = some 91) (hlen : 93 ≤ msg.length) :
    ∃ (nav : Nat) (st : gps_msg_status_t M), get2u msg 7 = some nav ∧
      put_sirf_msg K now msg status = some (true, st) ∧ st.location_changed = true ∧
      (st.location.is_valid = true ↔ nav % 8 ≠ 0) ∧
      (st.location.is_valid = false ↔ nav % 8 = 0) := by
  obtain ⟨nav, st, h1, h2, -, h4, -, h6⟩ := put_sirf_msg_tracker K now msg status hmid hsize hlen
  refine ⟨nav, st, h1, h2, h4, ?_, ?_⟩
  · rw [h6]; simp
  · rw [h6]; simp

/-- C27 as worded fails: in the frame `tracker_frame 0 0` the payload bytes
1-2 are zero, so bits 0-2 of that field are zero, and the decoded location has
`is_valid = false`; in `tracker_frame 1 1` the bits are not zero and the
location has `is_valid = true`. -/
theorem tracker_data_validity_counterexample :
    get2u (tracker_frame 0 0) 2 = some 91 ∧ rd (tracker_frame 0 0) 4 = some 41 ∧
    get2u (tracker_frame 0 0) 5 = some 0 ∧
    (put_sirf_msg c_num_rat epoch_tm (tracker_frame 0 0) (zero_status c_lib_rat)).map
      (fun r => (r.1, r.2.location_changed, r.2.location.is_valid)) = some (true, true, false) ∧
    get2u (tracker_frame 1 1) 2 = some 91 ∧ rd (tracker_frame 1 1) 4 = some 41 ∧
    get2u (tracker_frame 1 1) 5 = some 1 ∧
    (put_sirf_msg c_num_rat epoch_tm (tracker_frame 1 1) (zero_status c_lib_rat)).map
      (fun r => (r.1, r.2.location_changed, r.2.location.is_valid)) = some (true, true, true) := by
  decide

theorem tracker_data_validity_witness :
    rd (tracker_frame 0 4) 4 = some 41 ∧ get2u (tracker_frame 0 4) 2 = some 91 ∧
    93 ≤ (tracker_frame 0 4).length ∧
    ∃ (nav : Nat) (st : gps_msg_status_t c_lib_rat), get2u (tracker_frame 0 4) 7 = some nav ∧
      put_sirf_msg c_num_rat epoch_tm (tracker_frame 0 4) (zero_status c_lib_rat)
        = some (true, st) ∧ st.location_changed = true ∧
      (st.location.is_valid = true ↔ nav % 8 ≠ 0) ∧
      (st.location.is_valid = false ↔ nav % 8 = 0) :=
  ⟨by decide, by decide, by decide,
    tracker_data_validity c_num_rat epoch_tm (tracker_frame 0 4) (zero_status c_lib_rat)
      (by decide) (by decide) (by decide)⟩

/-! ## usbconverter.c: `handle_msg` on UBX frames -/

/-- A UBX frame of more than 8 bytes is acknowledged: `is_valid = true`,
`location_changed = false`, an empty diagnostic, the parser state untouched. -/
theorem handle_msg_ublox {M : c_lib} (P : nmea_parsers M) (K : c_num M) (now : tm)
    (nmea : nmea_parser_t M) (msg : List uint8_t) (size : Nat) (result : gps_msg_status_t M)
    (h0 : rd msg 0 = some 0xb5) (hsize : 8 < size) :
    handle_msg P K now nmea msg { type := .MSG_TYPE_UBLOX, size := size, is_truncated := false }
        result
      = some (nmea, { result with is_valid := true, location_changed := false, err := "" }) := by
  unfold handle_msg
  simp only [h0]
  rw [if_neg (not_not_intro hsize)]
  simp

/-- C28 fails for the empty payload.  The frame `B5 62 cls id 00 00 ck_a ck_b`
of 8 bytes is accepted by `looks_like_ublox` with the length 8 and handed on by
`find_msg` with size 8, and `handle_msg` does not return: its assertion
`metadata->size > 8` fails. -/
theorem handle_msg_ublox_empty {M : c_lib} (P : nmea_parsers M) (K : c_num M) (now : tm)
    (nmea : nmea_parser_t M) (result : gps_msg_status_t M) (res : gps_msg_metadata_t) :
    looks_like_ublox (ublox_frame 0x0a 0x04 []) 8 = some 8 ∧
    find_msg (ublox_frame 0x0a 0x04 []) 0 8 res
      = some (0, { type := .MSG_TYPE_UBLOX, size := 8, is_truncated := false }) ∧
    handle_msg P K now nmea (ublox_frame 0x0a 0x04 [])
      { type := .MSG_TYPE_UBLOX, size := 8, is_truncated := false } result = none := by
  refine ⟨by decide, ?_, ?_⟩
  · have hl : find_msg_loop (ublox_frame 0x0a 0x04 []) 8 (8 - 0) 0
        = some (0, some (msg_type_t.MSG_TYPE_UBLOX, 8)) := by decide
    unfold find_msg
    rw [hl]
    rfl
  · unfold handle_msg
    simp
/-! ## usbreader.c: the shared buffer -/

theorem wrap_uint_room {pos : Nat} (h : pos ≤ USB_READER_BUF_SIZE) :
    wrap_uint ((USB_READER_BUF_SIZE : Int) - (pos : Int)) = USB_READER_BUF_SIZE - pos := by
  unfold wrap_uint
  simp only [USB_READER_BUF_SIZE] at h ⊢
  omega

theorem c_memcpy_eq {dst src : List uint8_t} {off n : Nat} (h1 : off + n ≤ dst.length)
    (h2 : n ≤ src.length) :
    c_memcpy dst off src n = some (dst.take off ++ src.take n ++ dst.drop (off + n)) := by
  unfold c_memcpy
  rw [if_pos ⟨h1, h2⟩]

theorem take_layout {α : Type} (a b c : List α) (n : Nat) (h : n = a.length + b.length) :
    (a ++ b ++ c).take n = a ++ b := by
  subst h
  rw [← List.length_append]
  exact List.take_left' rfl

/-- What `share` does on a shared buffer which satisfies its invariant: it
moves `k = min(n, 8192 - used)` bytes. -/
theorem share_spec (ctx : usb_reader_thread_ctx_t) (buf : List uint8_t) (n : Nat)
    (hlen : ctx.shared_rxbuf.length = USB_READER_BUF_SIZE)
    (hpos : ctx.shared_rxbuf_pos ≤ USB_READER_BUF_SIZE)
    (hn : n ≤ buf.length) :
    ∃ ctx1 buf1,
      share ctx buf n
        = some (n - min n (USB_READER_BUF_SIZE - ctx.shared_rxbuf_pos), ctx1, buf1) ∧
      ctx1.shared_rxbuf.length = USB_READER_BUF_SIZE ∧
      ctx1.shared_rxbuf_pos
        = ctx.shared_rxbuf_pos + min n (USB_READER_BUF_SIZE - ctx.shared_rxbuf_pos) ∧
      ctx1.shared_rxbuf_pos ≤ USB_READER_BUF_SIZE ∧
      shared_bytes ctx1
        = shared_bytes ctx ++ buf.take (min n (USB_READER_BUF_SIZE - ctx.shared_rxbuf_pos)) ∧
      buf1.take (n - min n (USB_READER_BUF_SIZE - ctx.shared_rxbuf_pos))
        = (buf.take n).drop (min n (USB_READER_BUF_SIZE - ctx.shared_rxbuf_pos)) ∧
      buf1.length = buf.length ∧
      ctx1.is_running = ctx.is_running ∧ ctx1.fast_cycle = ctx.fast_cycle ∧
      ctx1.last_event_errno = ctx.last_event_errno ∧ ctx1.max_pkt_size = ctx.max_pkt_size := by
  have hU : USB_READER_BUF_SIZE = 8192 := rfl
  by_cases h0 : n = 0
  · subst h0
    refine ⟨ctx, buf, ?_, hlen, by simp, hpos, by simp, by simp, rfl, rfl, rfl, rfl, rfl⟩
    unfold share
    simp
  · set k := min n (USB_READER_BUF_SIZE - ctx.shared_rxbuf_pos) with hk
    have hkn : k ≤ n := Nat.min_le_left _ _
    have hkr : k ≤ USB_READER_BUF_SIZE - ctx.shared_rxbuf_pos := Nat.min_le_right _ _
    have hmoved : (if n < USB_READER_BUF_SIZE - ctx.shared_rxbuf_pos then n
        else USB_READER_BUF_SIZE - ctx.shared_rxbuf_pos) = k := by
      rw [hk]
      by_cases hlt : n < USB_READER_BUF_SIZE - ctx.shared_rxbuf_pos
      · rw [if_pos hlt, Nat.min_eq_left (Nat.le_of_lt hlt)]
      · rw [if_neg hlt, Nat.min_eq_right (Nat.le_of_not_lt hlt)]
    have hshare : share ctx buf n =
        match (if k > 0 then
            (c_memcpy ctx.shared_rxbuf ctx.shared_rxbuf_pos buf k).map
              (fun shared => { ctx with
                shared_rxbuf := shared
                shared_rxbuf_pos := (ctx.shared_rxbuf_pos + k) % 2 ^ 32 })
          else some ctx) with
        | none => none
        | some ctx1 =>
          match (if n ≠ k ∧ k > 0 then c_memcpy buf 0 (buf.drop k) (n - k) else some buf) with
          | none => none
          | some buf1 => some (n - k, ctx1, buf1) := by
      unfold share
      rw [if_neg h0]
      simp only [wrap_uint_room hpos, hmoved]
    rw [hshare]
    have hmod : (ctx.shared_rxbuf_pos + k) % 2 ^ 32 = ctx.shared_rxbuf_pos + k := by
      apply Nat.mod_eq_of_lt
      rw [hU] at hkr hpos
      omega
    have hbuf1 : ∃ buf1, (if n ≠ k ∧ k > 0 then c_memcpy buf 0 (buf.drop k) (n - k)
          else some buf) = some buf1 ∧
        buf1.take (n - k) = (buf.take n).drop k ∧ buf1.length = buf.length := by
      by_cases hc : n ≠ k ∧ k > 0
      · rw [if_pos hc, c_memcpy_eq (by omega) (by rw [List.length_drop]; omega)]
        refine ⟨_, rfl, ?_, ?_⟩
        · rw [List.take_zero, List.nil_append, Nat.zero_add]
          rw [List.take_append_of_le_length (by rw [List.length_take, List.length_drop]; omega)]
          rw [List.take_take, Nat.min_self, List.drop_take]
        · simp only [List.take_zero, List.nil_append, Nat.zero_add, List.length_append,
            List.length_take, List.length_drop]
          omega
      · rw [if_neg hc]
        refine ⟨buf, rfl, ?_, rfl⟩
        by_cases hk0 : k > 0
        · have hnk : n = k := by
            by_contra hne
            exact hc ⟨hne, hk0⟩
          rw [← hnk, Nat.sub_self, List.take_zero]
          rw [List.drop_eq_nil_of_le (by rw [List.length_take]; omega)]
        · have hk00 : k = 0 := by omega
          rw [hk00, Nat.sub_zero, List.drop_zero]
    obtain ⟨buf1, hb1, hb2, hb3⟩ := hbuf1
    by_cases hk0 : k > 0
    · have hcpy := @c_memcpy_eq ctx.shared_rxbuf buf ctx.shared_rxbuf_pos k
        (by rw [hlen]; omega) (by omega)
      rw [if_pos hk0, hcpy]
      simp only [Option.map_some', hb1, hmod]
      refine ⟨_, buf1, rfl, ?_, rfl, ?_, ?_, hb2, hb3, rfl, rfl, rfl, rfl⟩
      · simp only [List.length_append, List.length_take, List.length_drop]
        rw [hU] at hkr hpos hlen ⊢
        omega
      · show ctx.shared_rxbuf_pos + k ≤ USB_READER_BUF_SIZE
        omega
      · unfold shared_bytes
        show (List.take ctx.shared_rxbuf_pos ctx.shared_rxbuf ++ List.take k buf
            ++ List.drop (ctx.shared_rxbuf_pos + k) ctx.shared_rxbuf).take
              (ctx.shared_rxbuf_pos + k) = _
        rw [take_layout]
        rw [List.length_take, List.length_take]
        omega
    · have hk00 : k = 0 := by omega
      rw [if_neg hk0]
      simp only [hb1]
      refine ⟨ctx, buf1, rfl, hlen, by rw [hk00]; rfl, hpos, ?_, hb2, hb3, rfl, rfl, rfl, rfl⟩
      rw [hk00, List.take_zero, List.append_nil]

/-- What `usb_read` does on a shared buffer which is not empty, into a
destination of `dst_size > 0` bytes: it delivers `k = min(dst_size, used)`
bytes. -/
theorem usb_read_spec (ctx : usb_reader_thread_ctx_t) (dst : List uint8_t) (dst_size : Nat)
    (wait : Option usb_reader_thread_ctx_t)
    (hlen : ctx.shared_rxbuf.length = USB_READER_BUF_SIZE)
    (hpos : ctx.shared_rxbuf_pos ≤ USB_READER_BUF_SIZE)
    (hne : 0 < ctx.shared_rxbuf_pos) (hd0 : 0 < dst_size) (hd : dst_size ≤ dst.length) :
    ∃ ctx1 dst1,
      usb_read ctx dst dst_size wait
        = some (((min dst_size ctx.shared_rxbuf_pos : Nat) : Int), none, ctx1, dst1) ∧
      ctx1.shared_rxbuf.length = USB_READER_BUF_SIZE ∧
      ctx1.shared_rxbuf_pos = ctx.shared_rxbuf_pos - min dst_size ctx.shared_rxbuf_pos ∧
      dst1.take (min dst_size ctx.shared_rxbuf_pos)
        = (shared_bytes ctx).take (min dst_size ctx.shared_rxbuf_pos) ∧
      shared_bytes ctx1 = (shared_bytes ctx).drop (min dst_size ctx.shared_rxbuf_pos) ∧
      dst1.length = dst.length := by
  set k := min dst_size ctx.shared_rxbuf_pos with hk
  have hkd : k ≤ dst_size := Nat.min_le_left _ _
  have hkp : k ≤ ctx.shared_rxbuf_pos := Nat.min_le_right _ _
  have hbr : (if dst_size < ctx.shared_rxbuf_pos then dst_size else ctx.shared_rxbuf_pos)
      = k := by
    rw [hk]
    by_cases hlt : dst_size < ctx.shared_rxbuf_pos
    · rw [if_pos hlt, Nat.min_eq_left (Nat.le_of_lt hlt)]
    · rw [if_neg hlt, Nat.min_eq_right (Nat.le_of_not_lt hlt)]
  have hp0 : ¬ (ctx.shared_rxbuf_pos = 0) := by omega
  have hread : usb_read ctx dst dst_size wait =
      match c_memcpy dst 0 ctx.shared_rxbuf k with
      | none => none
      | some dst1 =>
        match (if k ≠ ctx.shared_rxbuf_pos then
            c_memcpy ctx.shared_rxbuf 0 (ctx.shared_rxbuf.drop k) (ctx.shared_rxbuf_pos - k)
          else some ctx.shared_rxbuf) with
        | none => none
        | some shared =>
          some ((k : Int), none,
            { ctx with shared_rxbuf := shared, shared_rxbuf_pos := ctx.shared_rxbuf_pos - k },
            dst1) := by
    unfold usb_read
    rw [if_neg (fun h => hp0 h.1)]
    simp only [if_neg hp0]
    rw [if_neg (by omega)]
    simp only [hbr]
  rw [hread, c_memcpy_eq (by omega) (by rw [hlen]; omega)]
  simp only []
  have hsh : ∃ shared, (if k ≠ ctx.shared_rxbuf_pos then
        c_memcpy ctx.shared_rxbuf 0 (ctx.shared_rxbuf.drop k) (ctx.shared_rxbuf_pos - k)
      else some ctx.shared_rxbuf) = some shared ∧
      shared.length = USB_READER_BUF_SIZE ∧
      shared.take (ctx.shared_rxbuf_pos - k) = (ctx.shared_rxbuf.take ctx.shared_rxbuf_pos).drop k
        := by
    by_cases hc : k ≠ ctx.shared_rxbuf_pos
    · rw [if_pos hc, c_memcpy_eq (by rw [hlen]; omega)
        (by rw [List.length_drop, hlen]; omega)]
      refine ⟨_, rfl, ?_, ?_⟩
      · simp only [List.take_zero, List.nil_append, Nat.zero_add, List.length_append,
          List.length_take, List.length_drop]
        omega
      · rw [List.take_zero, List.nil_append, Nat.zero_add]
        rw [List.take_append_of_le_length
          (by rw [List.length_take, List.length_drop, hlen]; omega)]
        rw [List.take_take, Nat.min_self, List.drop_take]
    · rw [if_neg hc]
      have hkk : k = ctx.shared_rxbuf_pos := by
        by_contra h; exact hc h
      refine ⟨_, rfl, hlen, ?_⟩
      rw [← hkk, Nat.sub_self, List.take_zero]
      rw [List.drop_eq_nil_of_le (by rw [List.length_take]; omega)]
  obtain ⟨shared, hs1, hs2, hs3⟩ := hsh
  simp only [hs1]
  refine ⟨_, _, rfl, hs2, rfl, ?_, hs3, ?_⟩
  · rw [List.take_zero, List.nil_append, Nat.zero_add]
    rw [List.take_append_of_le_length (by rw [List.length_take, hlen]; omega)]
    rw [List.take_take, Nat.min_self]
    unfold shared_bytes
    rw [List.take_take, Nat.min_eq_left hkp]
  · simp only [List.take_zero, List.nil_append, Nat.zero_add, List.length_append,
      List.length_take, List.length_drop]
    rw [hlen]
    have : USB_READER_BUF_SIZE = 8192 := rfl
    omega
/-- A step of a run keeps the invariant and the conservation law. -/
theorem fifo_step_inv (s : fifo_run) (op : fifo_op) (hinv : fifo_inv s) (hop : fifo_op_ok op) :
    ∃ s1, fifo_step s op = some s1 ∧ fifo_inv s1 := by
  obtain ⟨hlen, hpos, hcons⟩ := hinv
  cases op with
  | share buf n =>
    obtain ⟨ctx1, buf1, h1, h2, h3, h4, h5, -⟩ := share_spec s.ctx buf n hlen hpos hop.1
    have hstep : fifo_step s (.share buf n) = some ⟨ctx1, s.accepted
        ++ buf.take (n - (n - min n (USB_READER_BUF_SIZE - s.ctx.shared_rxbuf_pos))),
        s.delivered⟩ := by
      simp only [fifo_step, h1]
    refine ⟨_, hstep, h2, h4, ?_⟩
    show s.delivered ++ shared_bytes ctx1 = s.accepted ++ _
    rw [h5, ← List.append_assoc, hcons]
    congr 2
    have : min n (USB_READER_BUF_SIZE - s.ctx.shared_rxbuf_pos) ≤ n := Nat.min_le_left _ _
    omega
  | usb_read dst dst_size =>
    by_cases hp : 0 < s.ctx.shared_rxbuf_pos
    · by_cases hd : 0 < dst_size
      · obtain ⟨ctx1, dst1, h1, h2, h3, h4, h5, -⟩ :=
          usb_read_spec s.ctx dst dst_size none hlen hpos hp hd hop
        have h4' : ctx1.shared_rxbuf_pos ≤ USB_READER_BUF_SIZE := by rw [h3]; omega
        have hstep : fifo_step s (.usb_read dst dst_size) = some ⟨ctx1, s.accepted,
            s.delivered
              ++ dst1.take ((min dst_size s.ctx.shared_rxbuf_pos : Nat) : Int).toNat⟩ := by
          simp only [fifo_step, h1]
        refine ⟨_, hstep, h2, h4', ?_⟩
        show (s.delivered ++ dst1.take _) ++ shared_bytes ctx1 = s.accepted
        rw [Int.toNat_ofNat, h4, h5, List.append_assoc, List.take_append_drop, hcons]
      · have hd0 : dst_size = 0 := by omega
        have hr : usb_read s.ctx dst dst_size none = some (0, none, s.ctx, dst) := by
          unfold usb_read
          have hp0 : ¬ (s.ctx.shared_rxbuf_pos = 0) := by omega
          rw [if_neg (fun h => hp0 h.1)]
          simp only [if_neg hp0, hd0, if_true]
        have hstep : fifo_step s (.usb_read dst dst_size) = some ⟨s.ctx, s.accepted,
            s.delivered ++ dst.take (0 : Int).toNat⟩ := by
          simp only [fifo_step, hr]
        refine ⟨_, hstep, hlen, hpos, ?_⟩
        show (s.delivered ++ dst.take _) ++ shared_bytes s.ctx = s.accepted
        simp [hcons]
    · have hp0 : s.ctx.shared_rxbuf_pos = 0 := by omega
      have hr : ∃ e, usb_read s.ctx dst dst_size none = some (-1, e, s.ctx, dst) := by
        unfold usb_read
        by_cases hrun : s.ctx.is_running = true
        · rw [if_neg (fun h => h.2 hrun)]
          simp only [hp0, if_true]
          exact ⟨_, rfl⟩
        · rw [if_pos ⟨hp0, hrun⟩]
          exact ⟨_, rfl⟩
      obtain ⟨e, hr⟩ := hr
      have hstep : fifo_step s (.usb_read dst dst_size) = some ⟨s.ctx, s.accepted,
          s.delivered ++ dst.take (-1 : Int).toNat⟩ := by
        simp only [fifo_step, hr]
      refine ⟨_, hstep, hlen, hpos, ?_⟩
      show (s.delivered ++ dst.take _) ++ shared_bytes s.ctx = s.accepted
      simp [hcons]

/-- Every run of steps from a state which satisfies the invariant ends in a
state which satisfies it. -/
theorem fifo_steps_inv (ops : List fifo_op) :
    ∀ (s : fifo_run), fifo_inv s → (∀ op ∈ ops, fifo_op_ok op) →
      ∃ s1, fifo_steps ops s = some s1 ∧ fifo_inv s1 := by
  induction ops with
  | nil => intro s h _; exact ⟨s, rfl, h⟩
  | cons op ops ih =>
    intro s h hok
    obtain ⟨s1, h1, h2⟩ := fifo_step_inv s op h (hok op (List.mem_cons_self _ _))
    obtain ⟨s2, h3, h4⟩ := ih s1 h2 (fun o ho => hok o (List.mem_cons_of_mem _ ho))
    exact ⟨s2, by unfold fifo_steps; rw [h1]; exact h3, h4⟩

/-- C29.  Shared-buffer conservation on explicit state, for a shared buffer
with its 8192 entries whose fill level `used` is at most 8192.  `share(buf, n)`
with `n` bytes in `buf` appends the first `k = min(n, 8192 - used)` bytes of
`buf` to the shared bytes, leaves the remaining `n - k` bytes at the front of
`buf` and returns `n - k`, and `used` stays at most 8192.  `usb_read` with a
shared buffer which is not empty and `dst_size > 0` returns
`k = min(dst_size, used)`, stores the first `k` shared bytes in the
destination and leaves the remaining `used - k` bytes in order.  For every run
of `share` and `usb_read` steps, the bytes delivered followed by the bytes
still buffered are the bytes accepted. -/
theorem fifo_conservation :
    (∀ (ctx : usb_reader_thread_ctx_t) (buf : List uint8_t) (n : Nat),
      ctx.shared_rxbuf.length = USB_READER_BUF_SIZE →
      ctx.shared_rxbuf_pos ≤ USB_READER_BUF_SIZE → n ≤ buf.length →
      ∃ ctx1 buf1,
        share ctx buf n
          = some (n - min n (USB_READER_BUF_SIZE - ctx.shared_rxbuf_pos), ctx1, buf1) ∧
        shared_bytes ctx1
          = shared_bytes ctx ++ buf.take (min n (USB_READER_BUF_SIZE - ctx.shared_rxbuf_pos)) ∧
        buf1.take (n - min n (USB_READER_BUF_SIZE - ctx.shared_rxbuf_pos))
          = (buf.take n).drop (min n (USB_READER_BUF_SIZE - ctx.shared_rxbuf_pos)) ∧
        ctx1.shared_rxbuf.length = USB_READER_BUF_SIZE ∧
        ctx1.shared_rxbuf_pos ≤ USB_READER_BUF_SIZE) ∧
    (∀ (ctx : usb_reader_thread_ctx_t) (dst : List uint8_t) (dst_size : Nat)
        (wait : Option usb_reader_thread_ctx_t),
      ctx.shared_rxbuf.length = USB_READER_BUF_SIZE →
      ctx.shared_rxbuf_pos ≤ USB_READER_BUF_SIZE →
      0 < ctx.shared_rxbuf_pos → 0 < dst_size → dst_size ≤ dst.length →
      ∃ ctx1 dst1,
        usb_read ctx dst dst_size wait
          = some (((min dst_size ctx.shared_rxbuf_pos : Nat) : Int), none, ctx1, dst1) ∧
        dst1.take (min dst_size ctx.shared_rxbuf_pos)
          = (shared_bytes ctx).take (min dst_size ctx.shared_rxbuf_pos) ∧
        shared_bytes ctx1 = (shared_bytes ctx).drop (min dst_size ctx.shared_rxbuf_pos) ∧
        ctx1.shared_rxbuf.length = USB_READER_BUF_SIZE ∧
        ctx1.shared_rxbuf_pos ≤ USB_READER_BUF_SIZE) ∧
    (∀ (ops : List fifo_op) (s : fifo_run),
      fifo_inv s → (∀ op ∈ ops, fifo_op_ok op) →
      ∃ s1, fifo_steps ops s = some s1 ∧
        s1.delivered ++ shared_bytes s1.ctx = s1.accepted ∧
        s1.ctx.shared_rxbuf_pos ≤ USB_READER_BUF_SIZE) := by
  refine ⟨?_, ?_, ?_⟩
  · intro ctx buf n hlen hpos hn
    obtain ⟨ctx1, buf1, h1, h2, h3, h4, h5, h6, -⟩ := share_spec ctx buf n hlen hpos hn
    exact ⟨ctx1, buf1, h1, h5, h6, h2, h4⟩
  · intro ctx dst dst_size wait hlen hpos hne hd0 hd
    obtain ⟨ctx1, dst1, h1, h2, h3, h4, h5, -⟩ :=
      usb_read_spec ctx dst dst_size wait hlen hpos hne hd0 hd
    exact ⟨ctx1, dst1, h1, h4, h5, h2, by rw [h3]; omega⟩
  · intro ops s hinv hok
    obtain ⟨s1, h1, h2, h3, h4⟩ := fifo_steps_inv ops s hinv hok
    exact ⟨s1, h1, h4, h3⟩

theorem filled_ctx_length (pos : Nat) (b : uint8_t) :
    (filled_ctx pos b).shared_rxbuf.length = USB_READER_BUF_SIZE :=
  List.length_replicate _ _

theorem fifo_inv_empty : fifo_inv ⟨filled_ctx 0 0, [], []⟩ :=
  ⟨filled_ctx_length 0 0, Nat.zero_le _, rfl⟩

theorem fifo_ops_ok_example :
    ∀ op ∈ [fifo_op.share [1, 2, 3] 3, fifo_op.usb_read [0, 0] 2], fifo_op_ok op := by
  intro op hop
  rcases List.mem_cons.1 hop with h | h
  · subst h
    exact ⟨by decide, by norm_num⟩
  · rcases List.mem_cons.1 h with h | h
    · subst h
      show 2 ≤ 2
      exact Nat.le_refl _
    · cases h

theorem fifo_conservation_witness :
    fifo_inv ⟨filled_ctx 0 0, [], []⟩ ∧
    (∀ op ∈ [fifo_op.share [1, 2, 3] 3, fifo_op.usb_read [0, 0] 2], fifo_op_ok op) ∧
    ∃ s1, fifo_steps [fifo_op.share [1, 2, 3] 3, fifo_op.usb_read [0, 0] 2]
          ⟨filled_ctx 0 0, [], []⟩ = some s1 ∧
      s1.delivered ++ shared_bytes s1.ctx = s1.accepted ∧
      s1.ctx.shared_rxbuf_pos ≤ USB_READER_BUF_SIZE :=
  ⟨fifo_inv_empty, fifo_ops_ok_example,
    fifo_conservation.2.2 [fifo_op.share [1, 2, 3] 3, fifo_op.usb_read [0, 0] 2]
      ⟨filled_ctx 0 0, [], []⟩ fifo_inv_empty fifo_ops_ok_example⟩

/-! ## usbreader.c: the loop of the reader thread -/

/-- What the branch `rcvd > 0` of the reader loop does: it calls `share` on
the `rxbuf_pos + rcvd` bytes of `rx_buf`, and the fill level afterwards is the
value returned by `share` when that is below 8128, and 0 otherwise. -/
theorem reader_rcvd_step_spec (ctx : usb_reader_thread_ctx_t) (rx_buf : List uint8_t)
    (rxbuf_pos rcvd req_len : Nat)
    (hlen : ctx.shared_rxbuf.length = USB_READER_BUF_SIZE)
    (hpos : ctx.shared_rxbuf_pos ≤ USB_READER_BUF_SIZE)
    (hbuf : rx_buf.length = USB_READER_BUF_SIZE)
    (hfill : rxbuf_pos + rcvd ≤ USB_READER_BUF_SIZE) :
    ∃ ctx2 rx_buf1,
      reader_rcvd_step ctx rx_buf rxbuf_pos rcvd req_len
        = some (ctx2, rx_buf1,
            if rxbuf_pos + rcvd
                - min (rxbuf_pos + rcvd) (USB_READER_BUF_SIZE - ctx.shared_rxbuf_pos)
                ≥ USB_READER_BUF_SIZE - USB_IOCTL_WATERMARK then 0
            else rxbuf_pos + rcvd
                - min (rxbuf_pos + rcvd) (USB_READER_BUF_SIZE - ctx.shared_rxbuf_pos)) ∧
      shared_bytes ctx2 = shared_bytes ctx
        ++ rx_buf.take (min (rxbuf_pos + rcvd) (USB_READER_BUF_SIZE - ctx.shared_rxbuf_pos)) ∧
      rx_buf1.take (rxbuf_pos + rcvd
          - min (rxbuf_pos + rcvd) (USB_READER_BUF_SIZE - ctx.shared_rxbuf_pos))
        = (rx_buf.take (rxbuf_pos + rcvd)).drop
            (min (rxbuf_pos + rcvd) (USB_READER_BUF_SIZE - ctx.shared_rxbuf_pos)) := by
  have hU : USB_READER_BUF_SIZE = 8192 := rfl
  have hmod : (rxbuf_pos + rcvd) % 2 ^ 32 = rxbuf_pos + rcvd := by
    apply Nat.mod_eq_of_lt
    rw [hU] at hfill
    omega
  have key : ∀ (c : usb_reader_thread_ctx_t),
      c.shared_rxbuf = ctx.shared_rxbuf → c.shared_rxbuf_pos = ctx.shared_rxbuf_pos →
      ∃ ctx2 rx_buf1,
        share c rx_buf (rxbuf_pos + rcvd)
          = some (rxbuf_pos + rcvd
              - min (rxbuf_pos + rcvd) (USB_READER_BUF_SIZE - ctx.shared_rxbuf_pos),
            ctx2, rx_buf1) ∧
        shared_bytes ctx2 = shared_bytes ctx
          ++ rx_buf.take (min (rxbuf_pos + rcvd) (USB_READER_BUF_SIZE - ctx.shared_rxbuf_pos)) ∧
        rx_buf1.take (rxbuf_pos + rcvd
            - min (rxbuf_pos + rcvd) (USB_READER_BUF_SIZE - ctx.shared_rxbuf_pos))
          = (rx_buf.take (rxbuf_pos + rcvd)).drop
              (min (rxbuf_pos + rcvd) (USB_READER_BUF_SIZE - ctx.shared_rxbuf_pos)) := by
    intro c hc1 hc2
    obtain ⟨ctx2, b1, h1, -, -, -, h5, h6, -⟩ := share_spec c rx_buf (rxbuf_pos + rcvd)
      (by rw [hc1]; exact hlen) (by rw [hc2]; exact hpos) (by rw [hbuf]; exact hfill)
    rw [hc2] at h1 h5 h6
    refine ⟨ctx2, b1, h1, ?_, h6⟩
    rw [h5]
    unfold shared_bytes
    rw [hc1, hc2]
  obtain ⟨ctx2, b1, h1, h2, h3⟩ := key
    (if rcvd ≥ req_len then { ctx with fast_cycle := true } else ctx)
    (by split <;> rfl) (by split <;> rfl)
  refine ⟨ctx2, b1, ?_, h2, h3⟩
  unfold reader_rcvd_step
  simp only [hmod, h1]
  split <;> rfl

/-- C30, as the code has it.  In the producer loop, after a successful
transport read, the local fill level after the step equals the value returned
by `share` whenever that value is below 8128 (`sizeof(rx_buf)` less
`USB_IOCTL_WATERMARK`), and the bytes which `share` did not accept are then
at the front of the local buffer; when the value is 8128 or more the fill
level is set to 0. -/
theorem reader_rcvd_step_retains (ctx : usb_reader_thread_ctx_t) (rx_buf : List uint8_t)
    (rxbuf_pos rcvd req_len : Nat)
    (hlen : ctx.shared_rxbuf.length = USB_READER_BUF_SIZE)
    (hpos : ctx.shared_rxbuf_pos ≤ USB_READER_BUF_SIZE)
    (hbuf : rx_buf.length = USB_READER_BUF_SIZE)
    (hfill : rxbuf_pos + rcvd ≤ USB_READER_BUF_SIZE) :
    ∃ (left : Nat) (ctx1 ctx2 : usb_reader_thread_ctx_t) (rx_buf1 : List uint8_t) (pos1 : Nat),
      share ctx1 rx_buf (rxbuf_pos + rcvd) = some (left, ctx2, rx_buf1) ∧
      ctx1.shared_rxbuf = ctx.shared_rxbuf ∧ ctx1.shared_rxbuf_pos = ctx.shared_rxbuf_pos ∧
      reader_rcvd_step ctx rx_buf rxbuf_pos rcvd req_len = some (ctx2, rx_buf1, pos1) ∧
      (left < 8128 → pos1 = left ∧
        rx_buf1.take left = (rx_buf.take (rxbuf_pos + rcvd)).drop (rxbuf_pos + rcvd - left)) ∧
      (8128 ≤ left → pos1 = 0) := by
  have hU : USB_READER_BUF_SIZE = 8192 := rfl
  have hW : USB_IOCTL_WATERMARK = 64 := rfl
  obtain ⟨ctx2, b1, h1, -, h3⟩ :=
    reader_rcvd_step_spec ctx rx_buf rxbuf_pos rcvd req_len hlen hpos hbuf hfill
  have hc1 : (if rcvd ≥ req_len then { ctx with fast_cycle := true } else ctx).shared_rxbuf
      = ctx.shared_rxbuf := by split <;> rfl
  have hc2 : (if rcvd ≥ req_len then { ctx with fast_cycle := true } else ctx).shared_rxbuf_pos
      = ctx.shared_rxbuf_pos := by split <;> rfl
  have hmod : (rxbuf_pos + rcvd) % 2 ^ 32 = rxbuf_pos + rcvd := by
    apply Nat.mod_eq_of_lt
    rw [hU] at hfill
    omega
  have hs : ∃ c2 b2, share (if rcvd ≥ req_len then { ctx with fast_cycle := true } else ctx)
      rx_buf (rxbuf_pos + rcvd)
        = some (rxbuf_pos + rcvd
            - min (rxbuf_pos + rcvd) (USB_READER_BUF_SIZE - ctx.shared_rxbuf_pos), c2, b2) := by
    obtain ⟨c2, b2, h, -⟩ := share_spec
      (if rcvd ≥ req_len then { ctx with fast_cycle := true } else ctx) rx_buf (rxbuf_pos + rcvd)
      (by rw [hc1]; exact hlen) (by rw [hc2]; exact hpos) (by rw [hbuf]; exact hfill)
    rw [hc2] at h
    exact ⟨c2, b2, h⟩
  obtain ⟨c2, b2, hs⟩ := hs
  have hstep := h1
  unfold reader_rcvd_step at hstep
  simp only [hmod, hs] at hstep
  have hkn : min (rxbuf_pos + rcvd) (USB_READER_BUF_SIZE - ctx.shared_rxbuf_pos)
      ≤ rxbuf_pos + rcvd := Nat.min_le_left _ _
  by_cases hge : rxbuf_pos + rcvd
      - min (rxbuf_pos + rcvd) (USB_READER_BUF_SIZE - ctx.shared_rxbuf_pos)
      ≥ USB_READER_BUF_SIZE - USB_IOCTL_WATERMARK
  · rw [if_pos hge, if_pos hge] at hstep
    simp only [Option.some.injEq, Prod.mk.injEq] at hstep
    obtain ⟨e1, e2, -⟩ := hstep
    subst e1; subst e2
    refine ⟨_, _, _, _, 0, hs, hc1, hc2, ?_, ?_, fun _ => rfl⟩
    · rw [h1, if_pos hge]
    · intro hlt
      rw [hU, hW] at hge
      omega
  · rw [if_neg hge, if_neg hge] at hstep
    simp only [Option.some.injEq, Prod.mk.injEq] at hstep
    obtain ⟨e1, e2, -⟩ := hstep
    subst e1; subst e2
    refine ⟨_, _, _, _, rxbuf_pos + rcvd
        - min (rxbuf_pos + rcvd) (USB_READER_BUF_SIZE - ctx.shared_rxbuf_pos),
      hs, hc1, hc2, ?_, ?_, ?_⟩
    · rw [h1, if_neg hge]
    · intro _
      refine ⟨rfl, ?_⟩
      rw [h3]
      congr 1
      omega
    · intro hle
      rw [hU, hW] at hge
      omega

/-- C30 as worded fails: the shared buffer is full (8192 bytes) and the local
buffer holds 8064 bytes when 64 more arrive.  `share` accepts nothing and
returns 8128, and the fill level after the step is 0: the 8128 bytes are
given up. -/
theorem reader_rcvd_step_counterexample :
    ∃ ctx2 rx_buf1,
      share (filled_ctx 8192 0) (List.replicate 8192 1) 8128 = some (8128, ctx2, rx_buf1) ∧
      reader_rcvd_step (filled_ctx 8192 0) (List.replicate 8192 1) 8064 64 128
        = some (ctx2, rx_buf1, 0) := by
  obtain ⟨ctx2, b1, h1, -⟩ := share_spec (filled_ctx 8192 0) (List.replicate 8192 1) 8128
    (filled_ctx_length _ _) (Nat.le_refl _) (by rw [List.length_replicate]; omega)
  have hv : 8128 - min 8128 (USB_READER_BUF_SIZE - (filled_ctx 8192 0).shared_rxbuf_pos)
      = 8128 := by
    show 8128 - min 8128 (8192 - 8192) = 8128
    norm_num
  rw [hv] at h1
  refine ⟨ctx2, b1, h1, ?_⟩
  unfold reader_rcvd_step
  have hc : ¬ (64 ≥ 128) := by omega
  have h2 : (8064 + 64) % 2 ^ 32 = 8128 := by norm_num
  simp only [if_neg hc, h2, h1]
  exact if_pos (by show 8128 ≥ 8192 - 64; omega)

theorem reader_rcvd_step_retains_witness :
    (filled_ctx 8000 0).shared_rxbuf.length = USB_READER_BUF_SIZE ∧
    (filled_ctx 8000 0).shared_rxbuf_pos ≤ USB_READER_BUF_SIZE ∧
    (List.replicate USB_READER_BUF_SIZE (1 : uint8_t)).length = USB_READER_BUF_SIZE ∧
    100 + 200 ≤ USB_READER_BUF_SIZE ∧
    ∃ (left : Nat) (ctx1 ctx2 : usb_reader_thread_ctx_t) (rx_buf1 : List uint8_t) (pos1 : Nat),
      share ctx1 (List.replicate USB_READER_BUF_SIZE 1) (100 + 200)
        = some (left, ctx2, rx_buf1) ∧
      ctx1.shared_rxbuf = (filled_ctx 8000 0).shared_rxbuf ∧
      ctx1.shared_rxbuf_pos = (filled_ctx 8000 0).shared_rxbuf_pos ∧
      reader_rcvd_step (filled_ctx 8000 0) (List.replicate USB_READER_BUF_SIZE 1) 100 200 64
        = some (ctx2, rx_buf1, pos1) ∧
      (left < 8128 → pos1 = left ∧
        rx_buf1.take left
          = ((List.replicate USB_READER_BUF_SIZE (1 : uint8_t)).take (100 + 200)).drop
              (100 + 200 - left)) ∧
      (8128 ≤ left → pos1 = 0) :=
  ⟨filled_ctx_length 8000 0, by show 8000 ≤ 8192; omega, List.length_replicate _ _,
    by show 100 + 200 ≤ 8192; omega,
    reader_rcvd_step_retains (filled_ctx 8000 0) (List.replicate USB_READER_BUF_SIZE 1)
      100 200 64 (filled_ctx_length 8000 0) (by show 8000 ≤ 8192; omega)
      (List.length_replicate _ _) (by show 100 + 200 ≤ 8192; omega)⟩
/-! ## nmea.c: a rejected sentence leaves the parser state alone -/

/-- A parser which returns `true` leaves `status->is_valid` set. -/
theorem parse_finish_some {M : c_lib} {α : Type} (status : gps_msg_status_t M)
    (msg : List uint8_t) (msg_size : Nat) (p : parse_t α) (rec : α) (st : gps_msg_status_t M)
    (h : parse_finish status msg msg_size p = some (some rec, st)) : st.is_valid = true := by
  cases p with
  | abort => simp [parse_finish] at h
  | invalid e =>
    unfold parse_finish at h
    cases hs : set_nmea_error status msg msg_size e with
    | none => simp [hs] at h
    | some s1 => simp [hs] at h
  | valid r =>
    simp only [parse_finish, Option.some.injEq, Prod.mk.injEq] at h
    rw [← h.2]

/-- A parser which returns `false` has called `set_nmea_error`: `is_valid` and
`location_changed` are `false`. -/
theorem parse_finish_none {M : c_lib} {α : Type} (status : gps_msg_status_t M)
    (msg : List uint8_t) (msg_size : Nat) (p : parse_t α) (st : gps_msg_status_t M)
    (h : parse_finish status msg msg_size p = some (none, st)) :
    st.is_valid = false ∧ st.location_changed = false := by
  cases p with
  | abort => simp [parse_finish] at h
  | invalid e =>
    unfold parse_finish at h
    cases hs : set_nmea_error status msg msg_size e with
    | none => simp [hs] at h
    | some s1 =>
      simp only [hs, Option.some.injEq, Prod.mk.injEq, true_and] at h
      subst h
      unfold set_nmea_error at hs
      split at hs
      · cases hs
      · simp only [Option.some.injEq] at hs
        subst hs
        exact ⟨rfl, rfl⟩
  | valid r => simp [parse_finish] at h

/-- The contract of a sentence parser, for the shape which the seven parsers
share: `split_nmea_str` and then the body. -/
theorem parse_wrap_contract {M : c_lib} {α : Type} (status : gps_msg_status_t M)
    (msg : List uint8_t) (msg_size : Nat)
    (split : Option (List Nat × List Nat × Nat))
    (body : List Nat → List Nat → Nat → parse_t α)
    (r : Option α) (st : gps_msg_status_t M)
    (h : (if ¬ (msg_size ≤ NMEA_MAX) then none
      else
        match split with
        | none => none
        | some (buf, fields, fields_nb) =>
          parse_finish status msg msg_size (body buf fields fields_nb)) = some (r, st)) :
    (r ≠ none → st.is_valid = true) ∧
    (r = none → st.is_valid = false ∧ st.location_changed = false) := by
  split at h
  · cases h
  · cases split with
    | none => cases h
    | some v =>
      obtain ⟨buf, fields, fields_nb⟩ := v
      cases r with
      | none => exact ⟨fun hne => absurd rfl hne, fun _ => parse_finish_none _ _ _ _ _ h⟩
      | some rec => exact ⟨fun _ => parse_finish_some _ _ _ _ _ _ h, fun hn => by cases hn⟩

/-- The seven parsers of nmea.c keep the contract. -/
theorem c_parsers_contract {M : c_lib} (K : c_num M) (U : nmea_locals M) (msg : List uint8_t)
    (msg_size : Nat) (status : gps_msg_status_t M) :
    (∀ r st, parse_gga K U msg msg_size status = some (r, st) →
      (r ≠ none → st.is_valid = true) ∧
      (r = none → st.is_valid = false ∧ st.location_changed = false)) ∧
    (∀ r st, parse_rmc K U msg msg_size status = some (r, st) →
      (r ≠ none → st.is_valid = true) ∧
      (r = none → st.is_valid = false ∧ st.location_changed = false)) ∧
    (∀ r st, parse_gll K U msg msg_size status = some (r, st) →
      (r ≠ none → st.is_valid = true) ∧
      (r = none → st.is_valid = false ∧ st.location_changed = false)) ∧
    (∀ r st, parse_gst K U msg msg_size status = some (r, st) →
      (r ≠ none → st.is_valid = true) ∧
      (r = none → st.is_valid = false ∧ st.location_changed = false)) ∧
    (∀ r st, parse_gsa K U msg msg_size status = some (r, st) →
      (r ≠ none → st.is_valid = true) ∧
      (r = none → st.is_valid = false ∧ st.location_changed = false)) ∧
    (∀ r st, parse_vtg K U msg msg_size status = some (r, st) →
      (r ≠ none → st.is_valid = true) ∧
      (r = none → st.is_valid = false ∧ st.location_changed = false)) ∧
    (∀ r st, parse_zda K U msg msg_size status = some (r, st) →
      (r ≠ none → st.is_valid = true) ∧
      (r = none → st.is_valid = false ∧ st.location_changed = false)) := by
  refine ⟨?_, ?_, ?_, ?_, ?_, ?_, ?_⟩
  · intro r st h
    exact parse_wrap_contract status msg msg_size _ (parse_gga_fields K U) r st h
  · intro r st h
    exact parse_wrap_contract status msg msg_size _ (parse_rmc_fields K U) r st h
  · intro r st h
    exact parse_wrap_contract status msg msg_size _ (parse_gll_fields K U) r st h
  · intro r st h
    exact parse_wrap_contract status msg msg_size _ (parse_gst_fields K U) r st h
  · intro r st h
    exact parse_wrap_contract status msg msg_size _ (parse_gsa_fields K U) r st h
  · intro r st h
    exact parse_wrap_contract status msg msg_size _ (parse_vtg_fields K U) r st h
  · intro r st h
    exact parse_wrap_contract status msg msg_size _ (parse_zda_fields K U) r st h

/-- Whether or not `close_nmea_fix` is called, `status->is_valid` stays. -/
theorem roll_nmea_fix_is_valid {M : c_lib} (ctx : nmea_parser_t M) (status : gps_msg_status_t M)
    (t : nmea_fix_time_t) : (roll_nmea_fix ctx status t).2.is_valid = status.is_valid := by
  unfold roll_nmea_fix
  split
  · unfold close_nmea_fix
    dsimp only
    split
    · rfl
    · split <;> rfl
  · rfl
/-- A call of `put_nmea_msg` which returns `false` has left `*ctx` as it was,
with `is_valid` and `location_changed` both `false`. -/
theorem put_nmea_msg_false {M : c_lib} (K : c_num M) (U : nmea_locals M)
    (ctx : nmea_parser_t M) (msg : List uint8_t) (msg_size : Nat)
    (status : gps_msg_status_t M) (ctx1 : nmea_parser_t M) (status1 : gps_msg_status_t M)
    (h : put_nmea_msg (c_parsers K U) ctx msg msg_size status = some (false, ctx1, status1)) :
    ctx1 = ctx ∧ status1.is_valid = false ∧ status1.location_changed = false := by
  unfold put_nmea_msg at h
  generalize msg_id_loop msg msg_size 9 0 (List.replicate 9 0) = ml at h
  cases ml with
  | none => cases h
  | some filled =>
    simp only [c_parsers] at h
    have hC := c_parsers_contract K U msg msg_size
      { status with is_valid := false, location_changed := false, err := "" }
    split at h
    · generalize hp : parse_gga K U msg msg_size
          { status with is_valid := false, location_changed := false, err := "" } = res at h
      cases res with
      | none => cases h
      | some v =>
        obtain ⟨r, st⟩ := v
        cases r with
        | none =>
          simp only [Option.some.injEq, Prod.mk.injEq] at h
          obtain ⟨-, h2, h3⟩ := h
          subst h2; subst h3
          exact ⟨rfl, (hC.1 none _ hp).2 rfl⟩
        | some x =>
          simp only [Option.some.injEq, Prod.mk.injEq] at h
          have hv := (hC.1 (some x) st hp).1 (by simp)
          rw [roll_nmea_fix_is_valid, hv] at h
          exact absurd h.1 (by simp)
    · split at h
      · generalize hp : parse_rmc K U msg msg_size
            { status with is_valid := false, location_changed := false, err := "" } = res at h
        cases res with
        | none => cases h
        | some v =>
          obtain ⟨r, st⟩ := v
          cases r with
          | none =>
            simp only [Option.some.injEq, Prod.mk.injEq] at h
            obtain ⟨-, h2, h3⟩ := h
            subst h2; subst h3
            exact ⟨rfl, (hC.2.1 none _ hp).2 rfl⟩
          | some x =>
            simp only [Option.some.injEq, Prod.mk.injEq] at h
            have hv := (hC.2.1 (some x) st hp).1 (by simp)
            rw [roll_nmea_fix_is_valid, hv] at h
            exact absurd h.1 (by simp)
      · split at h
        · generalize hp : parse_gll K U msg msg_size
              { status with is_valid := false, location_changed := false, err := "" } = res at h
          cases res with
          | none => cases h
          | some v =>
            obtain ⟨r, st⟩ := v
            cases r with
            | none =>
              simp only [Option.some.injEq, Prod.mk.injEq] at h
              obtain ⟨-, h2, h3⟩ := h
              subst h2; subst h3
              exact ⟨rfl, (hC.2.2.1 none _ hp).2 rfl⟩
            | some x =>
              simp only [Option.some.injEq, Prod.mk.injEq] at h
              have hv := (hC.2.2.1 (some x) st hp).1 (by simp)
              rw [roll_nmea_fix_is_valid, hv] at h
              exact absurd h.1 (by simp)
        · split at h
          · generalize hp : parse_gst K U msg msg_size
                { status with is_valid := false, location_changed := false, err := "" } = res at h
            cases res with
            | none => cases h
            | some v =>
              obtain ⟨r, st⟩ := v
              cases r with
              | none =>
                simp only [Option.some.injEq, Prod.mk.injEq] at h
                obtain ⟨-, h2, h3⟩ := h
                subst h2; subst h3
                exact ⟨rfl, (hC.2.2.2.1 none _ hp).2 rfl⟩
              | some x =>
                simp only [Option.some.injEq, Prod.mk.injEq] at h
                have hv := (hC.2.2.2.1 (some x) st hp).1 (by simp)
                rw [roll_nmea_fix_is_valid, hv] at h
                exact absurd h.1 (by simp)
          · split at h
            · generalize hp : parse_gsa K U msg msg_size
                  { status with is_valid := false, location_changed := false, err := "" } = res at h
              cases res with
              | none => cases h
              | some v =>
                obtain ⟨r, st⟩ := v
                cases r with
                | none =>
                  simp only [Option.some.injEq, Prod.mk.injEq] at h
                  obtain ⟨-, h2, h3⟩ := h
                  subst h2; subst h3
                  exact ⟨rfl, (hC.2.2.2.2.1 none _ hp).2 rfl⟩
                | some x =>
                  simp only [Option.some.injEq, Prod.mk.injEq] at h
                  have hv := (hC.2.2.2.2.1 (some x) st hp).1 (by simp)
                  rw [hv] at h
                  exact absurd h.1 (by simp)
            · split at h
              · generalize hp : parse_vtg K U msg msg_size
                    { status with is_valid := false, location_changed := false, err := "" } = res at h
                cases res with
                | none => cases h
                | some v =>
                  obtain ⟨r, st⟩ := v
                  cases r with
                  | none =>
                    simp only [Option.some.injEq, Prod.mk.injEq] at h
                    obtain ⟨-, h2, h3⟩ := h
                    subst h2; subst h3
                    exact ⟨rfl, (hC.2.2.2.2.2.1 none _ hp).2 rfl⟩
                  | some x =>
                    simp only [Option.some.injEq, Prod.mk.injEq] at h
                    have hv := (hC.2.2.2.2.2.1 (some x) st hp).1 (by simp)
                    rw [hv] at h
                    exact absurd h.1 (by simp)
              · split at h
                · generalize hp : parse_zda K U msg msg_size
                      { status with is_valid := false, location_changed := false, err := "" } = res at h
                  cases res with
                  | none => cases h
                  | some v =>
                    obtain ⟨r, st⟩ := v
                    cases r with
                    | none =>
                      simp only [Option.some.injEq, Prod.mk.injEq] at h
                      obtain ⟨-, h2, h3⟩ := h
                      subst h2; subst h3
                      exact ⟨rfl, (hC.2.2.2.2.2.2 none _ hp).2 rfl⟩
                    | some x =>
                      simp only [Option.some.injEq, Prod.mk.injEq] at h
                      have hv := (hC.2.2.2.2.2.2 (some x) st hp).1 (by simp)
                      rw [hv] at h
                      exact absurd h.1 (by simp)
                · split at h
                  · simp at h
                  · split at h
                    · simp at h
                    · cases hs : set_nmea_error
                          { status with is_valid := false, location_changed := false, err := "" }
                          msg msg_size "unk msg" with
                      | none => simp [hs] at h
                      | some s1 => simp [hs] at h

/-- C25.  Atomicity of rejection, for the parsers of nmea.c, every parser
state, every message and every status: if `put_nmea_msg` returns `false`, then
`*ctx` after the call is `*ctx` before the call (the fix time, `is_closed`, the
active flags and the five slots of the window, the GSA record, the VTG record
and `time_full`), and `*status` has `is_valid = false` and
`location_changed = false`. -/
theorem put_nmea_msg_rejection {M : c_lib} (K : c_num M) (U : nmea_locals M)
    (ctx : nmea_parser_t M) (msg : List uint8_t) (msg_size : Nat)
    (status : gps_msg_status_t M)
    (h : (put_nmea_msg (c_parsers K U) ctx msg msg_size status).map (fun r => r.1)
      = some false) :
    ∃ status1, put_nmea_msg (c_parsers K U) ctx msg msg_size status
        = some (false, ctx, status1) ∧
      status1.is_valid = false ∧ status1.location_changed = false := by
  cases hr : put_nmea_msg (c_parsers K U) ctx msg msg_size status with
  | none => rw [hr] at h; cases h
  | some v =>
    obtain ⟨b, ctx1, status1⟩ := v
    rw [hr] at h
    simp only [Option.map_some', Option.some.injEq] at h
    subst h
    obtain ⟨h1, h2, h3⟩ := put_nmea_msg_false K U ctx msg msg_size status ctx1 status1 hr
    subst h1
    exact ⟨status1, rfl, h2, h3⟩

theorem put_nmea_msg_rejection_witness :
    (put_nmea_msg (c_parsers c_num_rat (zero_locals c_lib_rat))
        (with_gga (zero_parser_ctx c_lib_rat) 1 (48 : ℚ) (11 : ℚ))
        (text_bytes "$GPGGA,123519,4807.038,N\r\n") 26 (zero_status c_lib_rat)).map
      (fun r => r.1) = some false ∧
    ∃ status1, put_nmea_msg (c_parsers c_num_rat (zero_locals c_lib_rat))
        (with_gga (zero_parser_ctx c_lib_rat) 1 (48 : ℚ) (11 : ℚ))
        (text_bytes "$GPGGA,123519,4807.038,N\r\n") 26 (zero_status c_lib_rat)
        = some (false, with_gga (zero_parser_ctx c_lib_rat) 1 (48 : ℚ) (11 : ℚ), status1) ∧
      status1.is_valid = false ∧ status1.location_changed = false :=
  ⟨by decide!, put_nmea_msg_rejection _ _ _ _ _ _ (by decide!)⟩
/-! ## nmea.c: a GSA sentence and the time-out -/

/-- An id which compares equal to one text does not compare equal to a text
with another C string. -/
theorem strcmp_eq_other {a b id : List Nat} (h : strcmp_eq a id = true)
    (hne : c_string b ≠ c_string a) : ¬ (strcmp_eq b id = true) := by
  unfold strcmp_eq at h ⊢
  rw [decide_eq_true_eq] at h ⊢
  intro hb
  exact hne (hb.trans h.symm)

/-- What `put_nmea_msg` does with a GSA sentence which `parse_gsa` accepts: the
record is stored with `is_valid = true`, the window is not touched. -/
theorem put_nmea_msg_gsa {M : c_lib} (P : nmea_parsers M) (ctx : nmea_parser_t M)
    (msg : List uint8_t) (msg_size : Nat) (status status1 : gps_msg_status_t M)
    (gpgsa : nmea_gpgsa_t M)
    (hid : is_gsa_id msg msg_size)
    (hparse : P.parse_gsa msg msg_size
      { status with is_valid := false, location_changed := false, err := "" }
        = some (some gpgsa, status1)) :
    put_nmea_msg P ctx msg msg_size status =
      some (status1.is_valid, { ctx with gpgsa := { gpgsa with is_valid := true } }, status1) := by
  obtain ⟨filled, hf, hcmp⟩ := hid
  have n1 : ¬ (strcmp_eq (chars "$GPGGA") (filled.set 8 0) = true
      ∨ strcmp_eq (chars "$GNGGA") (filled.set 8 0) = true
      ∨ strcmp_eq (chars "$GLGGA") (filled.set 8 0) = true
      ∨ strcmp_eq (chars "$GAGGA") (filled.set 8 0) = true) := by
    intro h
    rcases h with h | h | h | h
    · exact strcmp_eq_other hcmp (by decide) h
    · exact strcmp_eq_other hcmp (by decide) h
    · exact strcmp_eq_other hcmp (by decide) h
    · exact strcmp_eq_other hcmp (by decide) h
  have n2 : ¬ (strcmp_eq (chars "$GPRMC") (filled.set 8 0) = true
      ∨ strcmp_eq (chars "$GNRMC") (filled.set 8 0) = true
      ∨ strcmp_eq (chars "$GLRMC") (filled.set 8 0) = true
      ∨ strcmp_eq (chars "$GARMC") (filled.set 8 0) = true) := by
    intro h
    rcases h with h | h | h | h
    · exact strcmp_eq_other hcmp (by decide) h
    · exact strcmp_eq_other hcmp (by decide) h
    · exact strcmp_eq_other hcmp (by decide) h
    · exact strcmp_eq_other hcmp (by decide) h
  have n3 : ¬ (strcmp_eq (chars "$GPGLL") (filled.set 8 0) = true) :=
    strcmp_eq_other hcmp (by decide)
  have n4 : ¬ (strcmp_eq (chars "$GPGST") (filled.set 8 0) = true) :=
    strcmp_eq_other hcmp (by decide)
  unfold put_nmea_msg
  simp only [hf]
  rw [if_neg n1, if_neg n2, if_neg n3, if_neg n4, if_pos hcmp]
  simp only [hparse]

/-- After `reset_nmea_parser` the window is closed, and `put_nmea_timedout` on
a closed window writes `is_valid = false`, an empty `err` and
`location_changed = false`, and leaves `*ctx` as it is. -/
theorem put_nmea_timedout_on_closed {M : c_lib} (ctx : nmea_parser_t M)
    (status : gps_msg_status_t M) (h : ctx.fix.is_closed = true) :
    put_nmea_timedout ctx status
      = (ctx, { status with is_valid := false, err := "", location_changed := false }) := by
  unfold put_nmea_timedout close_nmea_fix
  simp only [h, if_true]

/-- C23, as the code has it.  Starting from a freshly reset parser, feeding one
GSA sentence which `parse_gsa` accepts and then calling `put_nmea_timedout`
yields a status with `is_valid = false`, `location_changed = false` and an
empty diagnostic: the GSA sentence is stored and opens no fix window, so the
time-out finds the window closed, as `reset_nmea_parser` left it. -/
theorem gsa_only_timeout {M : c_lib} (K : c_num M) (U : nmea_locals M) (now : tm)
    (ctx : nmea_parser_t M) (msg : List uint8_t) (msg_size : Nat)
    (status : gps_msg_status_t M)
    (hid : is_gsa_id msg msg_size)
    (hparse : (parse_gsa K U msg msg_size
      { status with is_valid := false, location_changed := false, err := "" }).map
        (fun r => r.1.isSome) = some true) :
    ∃ ctx1 status1,
      put_nmea_msg (c_parsers K U) (reset_nmea_parser_ctx now ctx) msg msg_size status
        = some (true, ctx1, status1) ∧
      ctx1.gpgsa.is_valid = true ∧
      ctx1.fix = (reset_nmea_parser_ctx now ctx).fix ∧ ctx1.fix.is_closed = true ∧
      ctx1.fix.gpgga_active = false ∧ ctx1.fix.gprmc_active = false ∧
      ctx1.fix.gpgll_active = false ∧
      (put_nmea_timedout ctx1 status1).1 = ctx1 ∧
      (put_nmea_timedout ctx1 status1).2.is_valid = false ∧
      (put_nmea_timedout ctx1 status1).2.location_changed = false ∧
      (put_nmea_timedout ctx1 status1).2.err = "" := by
  cases hp : parse_gsa K U msg msg_size
      { status with is_valid := false, location_changed := false, err := "" } with
  | none => rw [hp] at hparse; cases hparse
  | some v =>
    obtain ⟨r, st⟩ := v
    cases r with
    | none => rw [hp] at hparse; simp at hparse
    | some gsa =>
      have hv : st.is_valid = true :=
        ((c_parsers_contract K U msg msg_size _).2.2.2.2.1 _ _ hp).1 (by simp)
      have hput := put_nmea_msg_gsa (c_parsers K U) (reset_nmea_parser_ctx now ctx) msg msg_size
        status st gsa hid hp
      rw [hv] at hput
      refine ⟨_, _, hput, rfl, rfl, rfl, rfl, rfl, rfl, ?_⟩
      rw [put_nmea_timedout_on_closed _ _ rfl]
      exact ⟨rfl, rfl, rfl, rfl⟩

/-- C23 as worded fails: from the reset parser, the sentence
`$GPGSA,A,3,04,05,,09,12,,,24,,,,,2.5,1.3,2.1*39` is a framed sentence of 49
bytes, `put_nmea_msg` returns `true` and stores the GSA record, and after
`put_nmea_timedout` the status has `is_valid = false` and the diagnostic is
empty. -/
theorem gsa_only_timeout_counterexample :
    looks_like_nmea example_gsa 49 = some 49 ∧
    (put_nmea_msg (c_parsers c_num_rat (zero_locals c_lib_rat))
        (reset_nmea_parser_ctx epoch_tm (zero_parser_ctx c_lib_rat)) example_gsa 49
        (zero_status c_lib_rat)).map
      (fun r => (r.1, r.2.1.gpgsa.is_valid,
        r.2.1.fix.gpgga_active || r.2.1.fix.gprmc_active || r.2.1.fix.gpgll_active,
        (put_nmea_timedout r.2.1 r.2.2).2.is_valid, (put_nmea_timedout r.2.1 r.2.2).2.err))
      = some (true, true, false, false, "") := by
  constructor
  · decide!
  · decide!

theorem is_gsa_id_example_gsa : is_gsa_id example_gsa 49 :=
  ⟨_, rfl, by decide⟩

theorem gsa_only_timeout_witness :
    is_gsa_id example_gsa 49 ∧
    (parse_gsa c_num_rat (zero_locals c_lib_rat) example_gsa 49
      { zero_status c_lib_rat with is_valid := false, location_changed := false, err := "" }).map
        (fun r => r.1.isSome) = some true ∧
    ∃ ctx1 status1,
      put_nmea_msg (c_parsers c_num_rat (zero_locals c_lib_rat))
          (reset_nmea_parser_ctx epoch_tm (zero_parser_ctx c_lib_rat)) example_gsa 49
          (zero_status c_lib_rat)
        = some (true, ctx1, status1) ∧
      ctx1.gpgsa.is_valid = true ∧
      ctx1.fix = (reset_nmea_parser_ctx epoch_tm (zero_parser_ctx c_lib_rat)).fix ∧
      ctx1.fix.is_closed = true ∧
      ctx1.fix.gpgga_active = false ∧ ctx1.fix.gprmc_active = false ∧
      ctx1.fix.gpgll_active = false ∧
      (put_nmea_timedout ctx1 status1).1 = ctx1 ∧
      (put_nmea_timedout ctx1 status1).2.is_valid = false ∧
      (put_nmea_timedout ctx1 status1).2.location_changed = false ∧
      (put_nmea_timedout ctx1 status1).2.err = "" :=
  ⟨is_gsa_id_example_gsa, by decide!,
    gsa_only_timeout c_num_rat (zero_locals c_lib_rat) epoch_tm (zero_parser_ctx c_lib_rat)
      example_gsa 49 (zero_status c_lib_rat) is_gsa_id_example_gsa (by decide!)⟩
/-! ## nmea.c: the fix assembly example -/

/-- A parser which accepts a sentence stores the same record whatever `*status`
holds, and sets `is_valid` and clears `err`. -/
theorem parse_finish_status {M : c_lib} {α : Type} (s t : gps_msg_status_t M)
    (msg : List uint8_t) (msg_size : Nat) (p : parse_t α) (g : α)
    (h : (parse_finish s msg msg_size p).map (fun r => r.1) = some (some g)) :
    parse_finish t msg msg_size p = some (some g, { t with is_valid := true, err := "" }) := by
  cases p with
  | abort => simp [parse_finish] at h
  | invalid e =>
    unfold parse_finish at h
    cases hs : set_nmea_error s msg msg_size e with
    | none => simp [hs] at h
    | some s1 => simp [hs] at h
  | valid r =>
    simp only [parse_finish, Option.map_some', Option.some.injEq] at h
    subst h
    rfl

/-- The same for the shape which the seven parsers share. -/
theorem parse_wrap_status {M : c_lib} {α : Type} (s t : gps_msg_status_t M)
    (msg : List uint8_t) (msg_size : Nat)
    (split : Option (List Nat × List Nat × Nat))
    (body : List Nat → List Nat → Nat → parse_t α) (g : α)
    (h : (if ¬ (msg_size ≤ NMEA_MAX) then none
      else
        match split with
        | none => none
        | some (buf, fields, fields_nb) =>
          parse_finish s msg msg_size (body buf fields fields_nb)).map (fun r => r.1)
        = some (some g)) :
    (if ¬ (msg_size ≤ NMEA_MAX) then none
      else
        match split with
        | none => none
        | some (buf, fields, fields_nb) =>
          parse_finish t msg msg_size (body buf fields fields_nb))
      = some (some g, { t with is_valid := true, err := "" }) := by
  split at h
  · cases h
  · rename_i hle
    rw [if_neg hle]
    cases split with
    | none => cases h
    | some v =>
      obtain ⟨buf, fields, fields_nb⟩ := v
      exact parse_finish_status s t msg msg_size _ g h

theorem parse_gga_status {M : c_lib} (K : c_num M) (U : nmea_locals M) (msg : List uint8_t)
    (msg_size : Nat) (s t : gps_msg_status_t M) (g : nmea_gpgga_t M)
    (h : (parse_gga K U msg msg_size s).map (fun r => r.1) = some (some g)) :
    parse_gga K U msg msg_size t = some (some g, { t with is_valid := true, err := "" }) :=
  parse_wrap_status s t msg msg_size _ (parse_gga_fields K U) g h

theorem parse_rmc_status {M : c_lib} (K : c_num M) (U : nmea_locals M) (msg : List uint8_t)
    (msg_size : Nat) (s t : gps_msg_status_t M) (g : nmea_gprmc_t M)
    (h : (parse_rmc K U msg msg_size s).map (fun r => r.1) = some (some g)) :
    parse_rmc K U msg msg_size t = some (some g, { t with is_valid := true, err := "" }) :=
  parse_wrap_status s t msg msg_size _ (parse_rmc_fields K U) g h

/-- From a projection of the parser's result to the record. -/
theorem record_of_projection {α β γ : Type} (res : Option (Option α × β)) (f : α → γ) (v : γ)
    (h : res.map (fun r => r.1.map f) = some (some v)) :
    ∃ g, res.map (fun r => r.1) = some (some g) ∧ f g = v := by
  cases res with
  | none => cases h
  | some r =>
    obtain ⟨o, b⟩ := r
    cases o with
    | none => simp at h
    | some g =>
      simp only [Option.map_some', Option.some.injEq] at h
      exact ⟨g, rfl, h⟩

/-- What `put_nmea_msg` does with an RMC sentence which `parse_rmc` accepts. -/
theorem put_nmea_msg_rmc {M : c_lib} (P : nmea_parsers M) (ctx : nmea_parser_t M)
    (msg : List uint8_t) (msg_size : Nat) (status status1 : gps_msg_status_t M)
    (gxrmc : nmea_gprmc_t M)
    (hid : is_rmc_id msg msg_size)
    (hparse : P.parse_rmc msg msg_size
      { status with is_valid := false, location_changed := false, err := "" }
        = some (some gxrmc, status1)) :
    put_nmea_msg P ctx msg msg_size status =
      some ((roll_nmea_fix ctx status1 gxrmc.fix_time).2.is_valid,
        { (roll_nmea_fix ctx status1 gxrmc.fix_time).1 with
          fix := { (roll_nmea_fix ctx status1 gxrmc.fix_time).1.fix with
            gprmc_active := true, gprmc := gxrmc } },
        (roll_nmea_fix ctx status1 gxrmc.fix_time).2) := by
  obtain ⟨filled, hf, hcmp⟩ := hid
  have n1 : ¬ (strcmp_eq (chars "$GPGGA") (filled.set 8 0) = true
      ∨ strcmp_eq (chars "$GNGGA") (filled.set 8 0) = true
      ∨ strcmp_eq (chars "$GLGGA") (filled.set 8 0) = true
      ∨ strcmp_eq (chars "$GAGGA") (filled.set 8 0) = true) := by
    intro h
    rcases hcmp with c | c | c | c <;> rcases h with h | h | h | h <;>
      exact strcmp_eq_other c (by decide) h
  unfold put_nmea_msg
  simp only [hf]
  rw [if_neg n1, if_pos hcmp]
  simp only [hparse]

/-- The first sentence of a fix on a closed window: the window is opened at the
fix time of the sentence and nothing is reported. -/
theorem roll_nmea_fix_on_closed {M : c_lib} (ctx : nmea_parser_t M)
    (status : gps_msg_status_t M) (t : nmea_fix_time_t)
    (hc : ctx.fix.is_closed = true) (hs : is_same_fix_time ctx.fix.fix_time t = false) :
    roll_nmea_fix ctx status t
      = ({ ctx with fix := open_nmea_fix ctx.fix t },
         { status with location_changed := false }) := by
  unfold roll_nmea_fix close_nmea_fix
  simp only [hs, hc, if_true]
  rfl

/-- A sentence of the same fix time leaves the window and the status. -/
theorem roll_nmea_fix_same {M : c_lib} (ctx : nmea_parser_t M)
    (status : gps_msg_status_t M) (t : nmea_fix_time_t)
    (hs : is_same_fix_time ctx.fix.fix_time t = true) :
    roll_nmea_fix ctx status t = (ctx, status) := by
  unfold roll_nmea_fix
  simp only [hs, not_true_eq_false, if_false]

/-- A sentence of another fix time on an open window with an active GGA: the
location is composed and reported, and the window is opened anew. -/
theorem roll_nmea_fix_on_open {M : c_lib} (ctx : nmea_parser_t M)
    (status : gps_msg_status_t M) (t : nmea_fix_time_t)
    (ho : ctx.fix.is_closed = false) (hs : is_same_fix_time ctx.fix.fix_time t = false)
    (hg : ctx.fix.gpgga_active = true) :
    roll_nmea_fix ctx status t
      = ({ merge_full_time ctx with fix := open_nmea_fix (merge_full_time ctx).fix t },
         { status with
           location_changed := true
           location := compose_location (merge_full_time ctx) status.location }) := by
  unfold roll_nmea_fix close_nmea_fix
  simp only [hs, ho, hg]
  rfl

/-- The location which `compose_location` fills from a window with an active
GGA record with both coordinates and a quality other than 0 and an active RMC
record of status active. -/
theorem compose_location_gga_rmc {M : c_lib} (ctx : nmea_parser_t M) (dst : location_t M)
    (h1 : ctx.fix.gpgga_active = true) (h2 : ctx.fix.gpgga.has_latitude = true)
    (h3 : ctx.fix.gpgga.has_longitude = true) (h4 : ctx.fix.gpgga.fix_quality ≠ 0)
    (h5 : ctx.fix.gprmc_active = true) (h6 : ctx.fix.gprmc.status_active = true)
    (h7 : ctx.fix.gpgga.has_altitude = true) (h8 : ctx.fix.gpgga.has_sattelites_nb = true)
    (h9 : ctx.fix.gprmc.has_course = true) (h10 : ctx.fix.gprmc.has_speed = true) :
    (compose_location ctx dst).is_valid = true ∧
    (compose_location ctx dst).latitude = ctx.fix.gpgga.latitude ∧
    (compose_location ctx dst).longitude = ctx.fix.gpgga.longitude ∧
    (compose_location ctx dst).has_altitude = true ∧
    (compose_location ctx dst).altitude = ctx.fix.gpgga.altitude ∧
    (compose_location ctx dst).satellites = ctx.fix.gpgga.sattelites_nb ∧
    (compose_location ctx dst).has_bearing = true ∧
    (compose_location ctx dst).bearing = ctx.fix.gprmc.course ∧
    (compose_location ctx dst).has_speed = true ∧
    (compose_location ctx dst).speed = ctx.fix.gprmc.speed := by
  unfold compose_location
  simp [h1, h2, h3, h4, h5, h6, h7, h8, h9, h10]

theorem c_parsers_parse_gga {M : c_lib} (K : c_num M) (U : nmea_locals M) :
    (c_parsers K U).parse_gga = parse_gga K U := rfl

theorem c_parsers_parse_rmc {M : c_lib} (K : c_num M) (U : nmea_locals M) :
    (c_parsers K U).parse_rmc = parse_rmc K U := rfl
/-- The first sentence of a fix, a GGA, on a closed window. -/
theorem put_gga_on_closed {M : c_lib} (P : nmea_parsers M) (ctx : nmea_parser_t M)
    (msg : List uint8_t) (msg_size : Nat) (status status1 : gps_msg_status_t M)
    (g : nmea_gpgga_t M) (hid : is_gga_id msg msg_size)
    (hparse : P.parse_gga msg msg_size
      { status with is_valid := false, location_changed := false, err := "" }
        = some (some g, status1))
    (hc : ctx.fix.is_closed = true)
    (hs : is_same_fix_time ctx.fix.fix_time g.fix_time = false) :
    ∃ ctx1, put_nmea_msg P ctx msg msg_size status
        = some (status1.is_valid, ctx1, { status1 with location_changed := false }) ∧
      ctx1.fix.fix_time = g.fix_time ∧ ctx1.fix.is_closed = false ∧
      ctx1.fix.gpgga_active = true ∧ ctx1.fix.gpgga = g := by
  have h := put_nmea_msg_gga P ctx msg msg_size status status1 g hid hparse
  rw [roll_nmea_fix_on_closed ctx status1 g.fix_time hc hs] at h
  exact ⟨_, h, rfl, rfl, rfl, rfl⟩

/-- An RMC sentence of the fix time of the window. -/
theorem put_rmc_same {M : c_lib} (P : nmea_parsers M) (ctx : nmea_parser_t M)
    (msg : List uint8_t) (msg_size : Nat) (status status1 : gps_msg_status_t M)
    (r : nmea_gprmc_t M) (hid : is_rmc_id msg msg_size)
    (hparse : P.parse_rmc msg msg_size
      { status with is_valid := false, location_changed := false, err := "" }
        = some (some r, status1))
    (hs : is_same_fix_time ctx.fix.fix_time r.fix_time = true) :
    ∃ ctx1, put_nmea_msg P ctx msg msg_size status = some (status1.is_valid, ctx1, status1) ∧
      ctx1.fix.fix_time = ctx.fix.fix_time ∧ ctx1.fix.is_closed = ctx.fix.is_closed ∧
      ctx1.fix.gpgga_active = ctx.fix.gpgga_active ∧ ctx1.fix.gpgga = ctx.fix.gpgga ∧
      ctx1.fix.gprmc_active = true ∧ ctx1.fix.gprmc = r := by
  have h := put_nmea_msg_rmc P ctx msg msg_size status status1 r hid hparse
  rw [roll_nmea_fix_same ctx status1 r.fix_time hs] at h
  exact ⟨_, h, rfl, rfl, rfl, rfl, rfl, rfl⟩

/-- A GGA sentence of another fix time on an open window with an active GGA:
the location of the window is reported. -/
theorem put_gga_closes {M : c_lib} (P : nmea_parsers M) (ctx : nmea_parser_t M)
    (msg : List uint8_t) (msg_size : Nat) (status status1 : gps_msg_status_t M)
    (g : nmea_gpgga_t M) (hid : is_gga_id msg msg_size)
    (hparse : P.parse_gga msg msg_size
      { status with is_valid := false, location_changed := false, err := "" }
        = some (some g, status1))
    (ho : ctx.fix.is_closed = false)
    (hs : is_same_fix_time ctx.fix.fix_time g.fix_time = false)
    (hg : ctx.fix.gpgga_active = true) :
    ∃ ctx1, put_nmea_msg P ctx msg msg_size status
        = some (status1.is_valid, ctx1,
          { status1 with
            location_changed := true
            location := compose_location (merge_full_time ctx) status1.location }) := by
  have h := put_nmea_msg_gga P ctx msg msg_size status status1 g hid hparse
  rw [roll_nmea_fix_on_open ctx status1 g.fix_time ho hs hg] at h
  exact ⟨_, h⟩

set_option maxRecDepth 100000 in
/-- The GGA sentence of the example, parsed with exact arithmetic: fix time
123519, quality 1, 8 satellites, latitude 48 + 7.038/60, longitude 11 + 31/60,
altitude 545.4. -/
theorem example_gga_parse :
    ∃ g : nmea_gpgga_t c_lib_rat,
      (parse_gga c_num_rat (zero_locals c_lib_rat) example_gga 67 (zero_status c_lib_rat)).map
        (fun r => r.1) = some (some g) ∧
      g.fix_time = ⟨123519, 0⟩ ∧ g.fix_quality = 1 ∧ g.sattelites_nb = 8 ∧
      g.has_latitude = true ∧ g.has_longitude = true ∧ g.has_altitude = true ∧
      g.has_sattelites_nb = true ∧
      @Eq ℚ g.latitude (48 + (7038 / 1000) / 60) ∧ @Eq ℚ g.longitude (11 + 31 / 60) ∧
      @Eq ℚ g.altitude (5454 / 10) := by
  have e1 : (parse_gga c_num_rat (zero_locals c_lib_rat) example_gga 67
      (zero_status c_lib_rat)).map
      (fun r => r.1.map (fun g => (g.fix_time, g.fix_quality, g.sattelites_nb,
        g.has_latitude && g.has_longitude && g.has_altitude && g.has_sattelites_nb)))
      = some (some (⟨123519, 0⟩, 1, 8, true)) := by
    decide!
  have e2 : (parse_gga c_num_rat (zero_locals c_lib_rat) example_gga 67
      (zero_status c_lib_rat)).map
      (fun r => r.1.map (fun g => ((g.latitude : ℚ), (g.longitude : ℚ), (g.altitude : ℚ))))
      = some (some ((48 : ℚ) + (7038 / 1000) / 60, (11 : ℚ) + 31 / 60, (5454 : ℚ) / 10)) := by
    decide!
  obtain ⟨g, hg, hv⟩ := record_of_projection _ _ _ e1
  obtain ⟨g2, hg2, hv2⟩ := record_of_projection _ _ _ e2
  rw [hg] at hg2
  simp only [Option.some.injEq] at hg2
  subst hg2
  simp only [Prod.mk.injEq, Bool.and_eq_true] at hv hv2
  obtain ⟨a1, a2, a3, ⟨⟨b1, b2⟩, b3⟩, b4⟩ := hv
  obtain ⟨c1, c2, c3⟩ := hv2
  exact ⟨g, hg, a1, a2, a3, b1, b2, b3, b4, c1, c2, c3⟩

set_option maxRecDepth 100000 in
/-- The RMC sentence of the example, parsed with exact arithmetic: fix time
123519, status active, course 84.4, a speed. -/
theorem example_rmc_parse :
    ∃ r : nmea_gprmc_t c_lib_rat,
      (parse_rmc c_num_rat (zero_locals c_lib_rat) example_rmc 70 (zero_status c_lib_rat)).map
        (fun r => r.1) = some (some r) ∧
      r.fix_time = ⟨123519, 0⟩ ∧ r.status_active = true ∧ r.has_course = true ∧
      r.has_speed = true ∧ @Eq ℚ r.course (844 / 10) := by
  have e2 : (parse_rmc c_num_rat (zero_locals c_lib_rat) example_rmc 70
      (zero_status c_lib_rat)).map
      (fun r => r.1.map (fun g => (g.fix_time,
        g.status_active && g.has_course && g.has_speed, (g.course : ℚ))))
      = some (some (⟨123519, 0⟩, true, (844 : ℚ) / 10)) := by
    decide!
  obtain ⟨r, hr, hv⟩ := record_of_projection _ _ _ e2
  simp only [Prod.mk.injEq, Bool.and_eq_true] at hv
  obtain ⟨a1, ⟨⟨b1, b2⟩, b3⟩, c1⟩ := hv
  exact ⟨r, hr, a1, b1, b2, b3, c1⟩

theorem is_gga_id_example_gga : is_gga_id example_gga 67 :=
  ⟨_, rfl, Or.inl (by decide)⟩

theorem is_rmc_id_example_rmc : is_rmc_id example_rmc 70 :=
  ⟨_, rfl, Or.inl (by decide)⟩

theorem is_gga_id_example_gga_next : is_gga_id example_gga_next 67 :=
  ⟨_, rfl, Or.inl (by decide)⟩


/-! ## `split_nmea_str` and the content of `buf` and `fields` before the call -/

theorem getD_set_other (l : List Nat) (i j v : Nat) (h : i ≠ j) :
    (l.set i v).getD j 0 = l.getD j 0 := by
  simp only [List.getD_eq_getElem?_getD, List.getElem?_set_ne h]

theorem getD_set_same (l l1 : List Nat) (hlen : l.length = l1.length) (i v : Nat) :
    (l.set i v).getD i 0 = (l1.set i v).getD i 0 := by
  simp only [List.getD_eq_getElem?_getD]
  by_cases h : i < l.length
  · rw [List.getElem?_set_self h, List.getElem?_set_self (hlen ▸ h)]
  · rw [List.getElem?_eq_none (by rw [List.length_set]; omega),
      List.getElem?_eq_none (by rw [List.length_set]; omega)]

theorem getD_drop_add (l : List Nat) (off j : Nat) :
    (l.drop off).getD j 0 = l.getD (off + j) 0 := by
  simp only [List.getD_eq_getElem?_getD, List.getElem?_drop]

/-- Two arrays which agree on the characters of a C string and on its
terminating NUL hold the same C string. -/
theorem c_string_agree : ∀ (ys xs : List Nat),
    (∀ j, j ≤ (c_string ys).length → xs.getD j 0 = ys.getD j 0) →
    c_string xs = c_string ys := by
  intro ys
  induction ys with
  | nil =>
    intro xs h
    have h0 := h 0 (Nat.zero_le _)
    cases xs with
    | nil => rfl
    | cons x t =>
      simp only [List.getD_cons_zero, List.getD_nil] at h0
      simp [c_string, h0]
  | cons y t ih =>
    intro xs h
    by_cases hy : y = 0
    · have h0 := h 0 (Nat.zero_le _)
      cases xs with
      | nil => simp [c_string, hy]
      | cons x t1 =>
        simp only [List.getD_cons_zero] at h0
        simp [c_string, hy, h0]
    · have hcs : c_string (y :: t) = y :: c_string t := by
        simp [c_string, hy]
      rw [hcs] at h
      have h0 := h 0 (Nat.zero_le _)
      cases xs with
      | nil =>
        simp only [List.getD_nil, List.getD_cons_zero] at h0
        exact absurd h0.symm hy
      | cons x t1 =>
        simp only [List.getD_cons_zero] at h0
        have hx : x ≠ 0 := by rw [h0]; exact hy
        have hcx : c_string (x :: t1) = x :: c_string t1 := by
          simp [c_string, hx]
        rw [hcx, hcs, h0, ih t1 (fun j hj => by
          have := h (j + 1) (by simp only [List.length_cons]; omega)
          simpa only [List.getD_cons_succ] using this)]

/-- The character behind a C string is the NUL. -/
theorem getD_c_string_end : ∀ (ys : List Nat), ys.getD (c_string ys).length 0 = 0 := by
  intro ys
  induction ys with
  | nil => rfl
  | cons y t ih =>
    by_cases hy : y = 0
    · simp [c_string, hy]
    · have hcs : c_string (y :: t) = y :: c_string t := by
        simp [c_string, hy]
      rw [hcs, List.length_cons, List.getD_cons_succ]
      exact ih

/-- The characters of a C string are those of the array. -/
theorem getD_c_string_mem : ∀ (ys : List Nat) (j : Nat), j < (c_string ys).length →
    ys.getD j 0 ∈ c_string ys := by
  intro ys
  induction ys with
  | nil => intro j hj; simp [c_string] at hj
  | cons y t ih =>
    intro j hj
    by_cases hy : y = 0
    · simp [c_string, hy] at hj
    · have hcs : c_string (y :: t) = y :: c_string t := by
        simp [c_string, hy]
      rw [hcs] at hj ⊢
      cases j with
      | zero => simp
      | succ j1 =>
        rw [List.getD_cons_succ]
        exact List.mem_cons_of_mem _ (ih j1 (by simpa using hj))

/-- The loop of `split_nmea_str` on two pairs of arrays which agree on what is
written so far: it ends in the same way, the arrays agree on what is written
and hold behind it what they held before. -/
theorem split_loop_agree (msg : List uint8_t) (n fs : Nat) :
    ∀ (fuel i : Nat) (B B1 F F1 : List Nat) (nb : Nat),
      B.length = B1.length → F.length = F1.length →
      (∀ j, j < i → B.getD j 0 = B1.getD j 0) →
      (∀ j, j < nb → F.getD j 0 = F1.getD j 0) →
      (split_loop msg n fs fuel i B F nb = none ∧ split_loop msg n fs fuel i B1 F1 nb = none) ∨
      ∃ b f b1 f1 m e,
        split_loop msg n fs fuel i B F nb = some (b, f, m) ∧
        split_loop msg n fs fuel i B1 F1 nb = some (b1, f1, m) ∧
        b.length = B.length ∧ b1.length = B1.length ∧ i ≤ e ∧
        (∀ j, j < e → b.getD j 0 = b1.getD j 0) ∧
        (∀ j, e ≤ j → b.getD j 0 = B.getD j 0 ∧ b1.getD j 0 = B1.getD j 0) ∧
        (∀ j, j < m → f.getD j 0 = f1.getD j 0) := by
  intro fuel
  induction fuel with
  | zero =>
    intro i B B1 F F1 nb hB hF hb hf
    exact Or.inr ⟨B, F, B1, F1, nb, i, rfl, rfl, rfl, rfl, le_refl _, hb,
      fun j _ => ⟨rfl, rfl⟩, hf⟩
  | succ fuel ih =>
    intro i B B1 F F1 nb hB hF hb hf
    rw [split_loop, split_loop]
    by_cases hi : i < n
    · rw [if_pos hi, if_pos hi]
      cases hc : rd msg i with
      | none => exact Or.inl ⟨rfl, rfl⟩
      | some c =>
        cases hp : rd msg (i - 1) with
        | none => exact Or.inl ⟨rfl, rfl⟩
        | some p =>
          simp only
          have hset : ∀ (v : Nat) (j : Nat), j < i + 1 →
              (B.set i v).getD j 0 = (B1.set i v).getD j 0 := by
            intro v j hj
            by_cases hji : j = i
            · rw [hji]
              exact getD_set_same B B1 hB i v
            · rw [getD_set_other _ _ _ _ (Ne.symm hji), getD_set_other _ _ _ _ (Ne.symm hji)]
              exact hb j (by omega)
          have hkeep : ∀ (l : List Nat) (v : Nat) (j : Nat), i + 1 ≤ j →
              (l.set i v).getD j 0 = l.getD j 0 := by
            intro l v j hj
            exact getD_set_other _ _ _ _ (by omega)
          by_cases hfull : p = 0x2c ∧ nb ≥ fs
          · rw [if_pos hfull, if_pos hfull]
            exact Or.inr ⟨_, _, _, _, nb, i + 1, rfl, rfl, by rw [List.length_set],
              by rw [List.length_set], by omega, hset _,
              fun j hj => ⟨hkeep _ _ j hj, hkeep _ _ j hj⟩, hf⟩
          · rw [if_neg hfull, if_neg hfull]
            have hfields : ∀ j, j < (if p = 0x2c then nb + 1 else nb) →
                (if p = 0x2c then F.set nb i else F).getD j 0
                  = (if p = 0x2c then F1.set nb i else F1).getD j 0 := by
              intro j hj
              by_cases hpc : p = 0x2c
              · rw [if_pos hpc] at hj
                rw [if_pos hpc, if_pos hpc]
                by_cases hjn : j = nb
                · rw [hjn]
                  exact getD_set_same F F1 hF nb i
                · rw [getD_set_other _ _ _ _ (Ne.symm hjn),
                    getD_set_other _ _ _ _ (Ne.symm hjn)]
                  exact hf j (by omega)
              · rw [if_neg hpc] at hj
                rw [if_neg hpc, if_neg hpc]
                exact hf j hj
            by_cases hend : c = 0x2a ∨ c = 0x0d ∨ c = 0x0a
            · rw [if_pos hend, if_pos hend]
              refine Or.inr ⟨_, _, _, _, _, i + 1, rfl, rfl, by simp only [List.length_set],
                by simp only [List.length_set], by omega, ?_, ?_, hfields⟩
              · intro j hj
                by_cases hji : j = i
                · rw [hji]
                  exact getD_set_same _ _ (by simp only [List.length_set]; exact hB) i 0
                · rw [getD_set_other (B.set i _) i j 0 (Ne.symm hji),
                    getD_set_other (B1.set i _) i j 0 (Ne.symm hji)]
                  exact hset _ j hj
              · intro j hj
                rw [hkeep _ _ j hj, hkeep _ _ j hj, hkeep _ _ j hj, hkeep _ _ j hj]
                exact ⟨rfl, rfl⟩
            · rw [if_neg hend, if_neg hend]
              rcases ih (i + 1) (B.set i (if c = 0x2c then 0 else c))
                  (B1.set i (if c = 0x2c then 0 else c))
                  (if p = 0x2c then F.set nb i else F) (if p = 0x2c then F1.set nb i else F1)
                  (if p = 0x2c then nb + 1 else nb)
                  (by simp only [List.length_set]; exact hB)
                  (by
                    by_cases hpc : p = 0x2c
                    · rw [if_pos hpc, if_pos hpc]
                      simp only [List.length_set]
                      exact hF
                    · rw [if_neg hpc, if_neg hpc]
                      exact hF)
                  (hset _) hfields with
                ⟨h1, h2⟩ | ⟨b, f, b1, f1, m, e, h1, h2, l1, l2, he, ha, hk, hfe⟩
              · exact Or.inl ⟨h1, h2⟩
              · refine Or.inr ⟨b, f, b1, f1, m, e, h1, h2, by rw [l1, List.length_set],
                  by rw [l2, List.length_set], by omega, ha, ?_, hfe⟩
                intro j hj
                obtain ⟨k1, k2⟩ := hk j hj
                rw [k1, k2, hkeep _ _ j (by omega), hkeep _ _ j (by omega)]
                exact ⟨rfl, rfl⟩
    · rw [if_neg hi, if_neg hi]
      exact Or.inr ⟨B, F, B1, F1, nb, i, rfl, rfl, rfl, rfl, le_refl _, hb,
        fun j _ => ⟨rfl, rfl⟩, hf⟩

theorem getD_range_map (g : Nat → Nat) (len j : Nat) :
    ((List.range len).map g).getD j 0 = if j < len then g j else 0 := by
  simp only [List.getD_eq_getElem?_getD, List.getElem?_map, List.getElem?_range]
  by_cases h : j < len
  · rw [if_pos h, List.getElem?_range h]
    rfl
  · rw [if_neg h, List.getElem?_eq_none (by rw [List.length_range]; omega)]
    rfl

/-- The fields which `split_nmea_str` leaves do not depend on what `buf` and
`fields` held before the call: they are those of the call on a `buf` filled
with the character 1 and a `fields` filled with 0, for every field in which
the character 1 does not occur. -/
theorem split_nmea_str_any (msg : List uint8_t) (n fs : Nat) (bo fo : List Nat) (m : Nat)
    (hones : split_nmea_str msg n (fun _ => 0) fs (fun _ => 1) = some (bo, fo, m))
    (fields0 buf0 : Nat → Nat) :
    ∃ b f, split_nmea_str msg n fields0 fs buf0 = some (b, f, m) ∧
      ∀ k, k < m → 1 ∉ nmea_field bo fo k → nmea_field b f k = nmea_field bo fo k := by
  unfold split_nmea_str at hones ⊢
  cases h0 : rd msg 0 with
  | none => rw [h0] at hones; cases hones
  | some c0 =>
    rw [h0] at hones
    simp only at hones ⊢
    have hlenB : (((List.range NMEA_MAX).map buf0).set 0 c0).length
        = (((List.range NMEA_MAX).map (fun _ => 1)).set 0 c0).length := by
      simp only [List.length_set, List.length_map, List.length_range]
    have hlenF : (((List.range fs).map fields0).set 0 0).length
        = (((List.range fs).map (fun _ => 0)).set 0 0).length := by
      simp only [List.length_set, List.length_map, List.length_range]
    rcases split_loop_agree msg n fs n 1 _ _ _ _ 1 hlenB hlenF
        (fun j hj => by
          have hj0 : j = 0 := by omega
          rw [hj0]
          exact getD_set_same _ _ (by simp only [List.length_map, List.length_range]) 0 c0)
        (fun j hj => by
          have hj0 : j = 0 := by omega
          rw [hj0]
          exact getD_set_same _ _ (by simp only [List.length_map, List.length_range]) 0 0)
      with ⟨h1, h2⟩ | ⟨b, f, b1, f1, m1, e, h1, h2, l1, l2, he, ha, hk, hfe⟩
    · rw [h2] at hones
      cases hones
    · rw [h2] at hones
      simp only [Option.some.injEq, Prod.mk.injEq] at hones
      obtain ⟨e1, e2, e3⟩ := hones
      subst e2
      subst e3
      rw [h1]
      refine ⟨_, _, rfl, ?_⟩
      intro k hk1 hno
      have hoff : f.getD k 0 = f1.getD k 0 := hfe k hk1
      rw [← e1] at hno ⊢
      unfold nmea_field at hno ⊢
      rw [hoff]
      generalize f1.getD k 0 = off at hno ⊢
      have hlen : b.length = b1.length := by
        rw [l1, l2]
        exact hlenB
      have hlen1 : b1.length = NMEA_MAX := by
        rw [l2]
        simp only [List.length_set, List.length_map, List.length_range]
      apply c_string_agree
      intro j hj
      rw [getD_drop_add, getD_drop_add]
      by_cases hlast : off + j = n - 1
      · rw [hlast]
        exact getD_set_same _ _ hlen _ 0
      · rw [getD_set_other _ _ _ _ (Ne.symm hlast), getD_set_other _ _ _ _ (Ne.symm hlast)]
        by_cases hin : off + j < NMEA_MAX
        · by_cases hje : off + j < e
          · exact ha _ hje
          · exfalso
            obtain ⟨-, k2⟩ := hk (off + j) (by omega)
            have hb1 : b1.getD (off + j) 0 = 1 := by
              rw [k2, getD_set_other _ _ _ _ (by omega), getD_range_map, if_pos hin]
            have hval : ((b1.set (n - 1) 0).drop off).getD j 0
                = b1.getD (off + j) 0 := by
              rw [getD_drop_add, getD_set_other _ _ _ _ (Ne.symm hlast)]
            rcases Nat.lt_or_eq_of_le hj with hlt | heq
            · have hmem := getD_c_string_mem _ j hlt
              rw [hval, hb1] at hmem
              exact hno hmem
            · have hend := getD_c_string_end ((b1.set (n - 1) 0).drop off)
              rw [← heq, hval, hb1] at hend
              cases hend
        · rw [List.getD_eq_default _ _ (by omega), List.getD_eq_default _ _ (by omega)]

/-! ## The sentences of the fix assembly example on every platform -/

/-- Whether `strtoul` in base 10 sets `ERANGE` on a string of decimal digits. -/
theorem strtoul_erange_digits (ulong_max : Nat) {s : List Nat} (hne : s ≠ [])
    (hd : all_dec_digits s) :
    strtoul_erange ulong_max s 10 = decide (dec_value s > ulong_max) := by
  obtain ⟨c, t, rfl⟩ := List.exists_cons_of_ne_nil hne
  obtain ⟨hsp, hm, hp, _, _, _⟩ := dec_digit_facts (hd c (List.mem_cons_self _ _))
  have hall : (c :: t).takeWhile (is_digit_of 10) = c :: t :=
    takeWhile_all _ (fun x hx => (dec_digit_facts (hd x hx)).2.2.2.2.1)
  have hfold := dec_fold_eq (c :: t) 0 hd
  unfold strtoul_erange
  simp only [List.takeWhile_cons, hsp, Bool.false_eq_true, if_false, List.length_nil,
    List.drop_zero, hm, hp, decide_False, or_self, Nat.zero_add]
  have h16 : ¬ ((10 : Nat) = 16) := by decide
  have hmain : ∀ px : Nat, px = 0 →
      (decide ((List.takeWhile (is_digit_of 10) (List.drop px (c :: t))).length ≠ 0) &&
        decide (List.foldl (fun acc c => acc * 10 + digit_or_zero c) 0
          (List.takeWhile (is_digit_of 10) (List.drop px (c :: t))) > ulong_max))
      = decide (dec_value (c :: t) > ulong_max) := by
    intro px hpx
    subst hpx
    simp only [List.drop_zero, hall, hfold, List.length_cons, ne_eq, Nat.add_one_ne_zero,
      not_false_eq_true, decide_True, Bool.true_and]
    rfl
  apply hmain
  split
  · rw [if_neg (fun h => h16 h.1)]
  · rfl

/-- The test of nmea.c after `strtoul` accepts a string of decimal digits whose
value is at most `ULONG_MAX`. -/
theorem strtoul_rejects_digits (ulong_max top : Nat) {s : List Nat} (hne : s ≠ [])
    (hd : all_dec_digits s) (hv : dec_value s ≤ ulong_max) :
    strtoul_rejects ulong_max top s = false ∧
    strtoul ulong_max s 10 = (dec_value s, s.length) := by
  have h1 := strtoul_erange_digits ulong_max hne hd
  have h2 := strtoul_digits ulong_max hne hd
  rw [if_neg (by omega)] at h2
  have h3 : decide (dec_value s > ulong_max) = false := by
    rw [decide_eq_false_iff_not]
    omega
  refine ⟨?_, h2⟩
  unfold strtoul_rejects
  rw [h1, h2, h3]
  simp only [Bool.false_and, Bool.false_or, c_char_at_end, ne_eq, not_true_eq_false,
    decide_False]

/-- `parse_float` on a field which is not empty and which `strtof` reads to its
end: the value of `strtof`. -/
theorem parse_float_reads {M : c_lib} (K : c_num M) (s : List Nat) (dst : M.float)
    (h0 : c_char_at s 0 ≠ 0) (h : reads_to_end K.strtof s) :
    parse_float K s dst = (true, (K.strtof s).1, true) := by
  unfold reads_to_end at h
  unfold parse_float
  rw [if_neg h0]
  simp only [h, c_char_at_end, Bool.false_eq_true, ne_eq, not_true_eq_false, or_self, if_false]

/-- `parse_nmea_degrees` on a field which is not empty and which `strtod` reads
to its end, without reversal of the direction. -/
theorem parse_nmea_degrees_reads {M : c_lib} (K : c_num M) (s : List Nat) (dst : M.double)
    (h0 : c_char_at s 0 ≠ 0) (h : reads_to_end K.strtod s) :
    parse_nmea_degrees K s false dst = (true, degrees_minutes K (K.strtod s).1, true) := by
  unfold reads_to_end at h
  unfold parse_nmea_degrees degrees_minutes
  rw [if_neg h0]
  simp only [h, c_char_at_end, Bool.false_eq_true, ne_eq, not_true_eq_false, or_self, if_false]

/-- `parse_nmea_latitude` on such a field with a direction other than `S` and a
value within the bounds which the code tests. -/
theorem parse_nmea_latitude_reads {M : c_lib} (K : c_num M) (s ns : List Nat) (dst : M.double)
    (h0 : c_char_at s 0 ≠ 0) (h : reads_to_end K.strtod s) (hns : c_char_at ns 0 ≠ 0x53)
    (hlo : K.d_le (K.d_const (-90) 0) (degrees_minutes K (K.strtod s).1) = true)
    (hhi : K.d_le (degrees_minutes K (K.strtod s).1) (K.d_const 90 0) = true) :
    parse_nmea_latitude K s ns dst = (true, degrees_minutes K (K.strtod s).1, true) := by
  unfold parse_nmea_latitude
  have hd : decide (c_char_at ns 0 = 0x53) = false := by
    rw [decide_eq_false_iff_not]
    exact hns
  simp only [hd, parse_nmea_degrees_reads K s dst h0 h, not_true_eq_false, if_false, hlo, hhi,
    Bool.and_self]

/-- `parse_nmea_longitude` on such a field with a direction other than `W`. -/
theorem parse_nmea_longitude_reads {M : c_lib} (K : c_num M) (s ew : List Nat) (dst : M.double)
    (h0 : c_char_at s 0 ≠ 0) (h : reads_to_end K.strtod s) (hew : c_char_at ew 0 ≠ 0x57)
    (hlo : K.d_le (K.d_const (-180) 0) (degrees_minutes K (K.strtod s).1) = true)
    (hhi : K.d_le (degrees_minutes K (K.strtod s).1) (K.d_const 180 0) = true) :
    parse_nmea_longitude K s ew dst = (true, degrees_minutes K (K.strtod s).1, true) := by
  unfold parse_nmea_longitude
  have hd : decide (c_char_at ew 0 = 0x57) = false := by
    rw [decide_eq_false_iff_not]
    exact hew
  simp only [hd, parse_nmea_degrees_reads K s dst h0 h, not_true_eq_false, if_false, hlo, hhi,
    Bool.and_self]

theorem all_dec_digits_of_decide {s : List Nat}
    (h : s.all (fun c => decide (0x30 ≤ c ∧ c ≤ 0x39)) = true) : all_dec_digits s := by
  intro c hc
  rw [List.all_eq_true] at h
  simpa using h c hc

set_option maxRecDepth 100000 in
/-- The fields of the GGA sentence of the example as `split_nmea_str` leaves
them in a `buf` which held the character 1 everywhere before the call. -/
theorem example_gga_fields :
    (split_nmea_str example_gga 67 (fun _ => 0) 15 (fun _ => 1)).map
      (fun r => (r.2.2, [1, 2, 3, 4, 5, 6, 7, 8, 9, 11].map (nmea_field r.1 r.2.1)))
      = some (15, [chars "123519", chars "4807.038", chars "N", chars "01131.000", chars "E",
          chars "1", chars "08", chars "0.9", chars "545.4", chars "46.9"]) := by
  decide!

set_option maxRecDepth 100000 in
/-- The fields of the RMC sentence of the example as `split_nmea_str` leaves
them in a `buf` which held the character 1 everywhere before the call. -/
theorem example_rmc_fields :
    (split_nmea_str example_rmc 70 (fun _ => 0) 12 (fun _ => 1)).map
      (fun r => (r.2.2, [1, 2, 3, 4, 5, 6, 7, 8, 9].map (nmea_field r.1 r.2.1)))
      = some (12, [chars "123519", chars "A", chars "4807.038", chars "N", chars "01131.000",
          chars "E", chars "022.4", chars "084.4", chars "230394"]) := by
  decide!

/-- The field `123519` as a fix time. -/
theorem fix_time_123519 (ulong_max : Nat) (hmax : 4294967295 ≤ ulong_max)
    (dst : nmea_fix_time_t) :
    parse_nmea_fix_time ulong_max (chars "123519") dst
      = some (.FIELD_VALID, { hhmmss := 123519, mss := 0 }) := by
  rw [fix_time_digits_eval ulong_max hmax (by decide) all_dec_digits_123519 dst]
  have hv : dec_value (chars "123519") = 123519 := by decide
  rw [hv, if_pos (by decide)]

/-- The GGA sentence of the example on a platform which reads its decimal
fields to their end and on which the coordinates pass the tests of the bounds,
whatever the local variables held before: the record which `parse_gga` stores. -/
theorem example_gga_parse_any {M : c_lib} (K : c_num M) (U : nmea_locals M)
    (hmax : 4294967295 ≤ K.ulong_max)
    (hd : ∀ s ∈ [chars "4807.038", chars "01131.000", chars "545.4", chars "46.9"],
      reads_to_end K.strtod s)
    (hf : reads_to_end K.strtof (chars "0.9"))
    (hlat : K.d_le (K.d_const (-90) 0) (degrees_minutes K (K.strtod (chars "4807.038")).1)
        = true ∧
      K.d_le (degrees_minutes K (K.strtod (chars "4807.038")).1) (K.d_const 90 0) = true)
    (hlon : K.d_le (K.d_const (-180) 0) (degrees_minutes K (K.strtod (chars "01131.000")).1)
        = true ∧
      K.d_le (degrees_minutes K (K.strtod (chars "01131.000")).1) (K.d_const 180 0) = true) :
    ∃ g : nmea_gpgga_t M,
      (parse_gga K U example_gga 67 (zero_status M)).map
        (fun r => r.1) = some (some g) ∧
      g.fix_time = ⟨123519, 0⟩ ∧ g.fix_quality = 1 ∧ g.sattelites_nb = 8 ∧
      g.has_latitude = true ∧ g.has_longitude = true ∧ g.has_altitude = true ∧
      g.has_sattelites_nb = true ∧
      g.latitude = degrees_minutes K (K.strtod (chars "4807.038")).1 ∧
      g.longitude = degrees_minutes K (K.strtod (chars "01131.000")).1 ∧
      g.altitude = (K.strtod (chars "545.4")).1 := by
  have d1 := hd (chars "4807.038") (by simp)
  have d2 := hd (chars "01131.000") (by simp)
  have d3 := hd (chars "545.4") (by simp)
  have d4 := hd (chars "46.9") (by simp)
  have hs := example_gga_fields
  cases hsplit : split_nmea_str example_gga 67 (fun _ => 0) 15 (fun _ => 1) with
  | none => rw [hsplit] at hs; cases hs
  | some v =>
    obtain ⟨bo, fo, nb⟩ := v
    rw [hsplit] at hs
    simp only [Option.map_some', Option.some.injEq, Prod.mk.injEq, List.map_cons, List.map_nil,
      List.cons.injEq, and_true] at hs
    obtain ⟨hnb, o1, o2, o3, o4, o5, o6, o7, o8, o9, o11⟩ := hs
    subst hnb
    obtain ⟨buf, fields, hsplit1, hany⟩ :=
      split_nmea_str_any example_gga 67 15 bo fo 15 hsplit U.fields U.buf
    have f1 := (hany 1 (by decide) (by rw [o1]; decide)).trans o1
    have f2 := (hany 2 (by decide) (by rw [o2]; decide)).trans o2
    have f3 := (hany 3 (by decide) (by rw [o3]; decide)).trans o3
    have f4 := (hany 4 (by decide) (by rw [o4]; decide)).trans o4
    have f5 := (hany 5 (by decide) (by rw [o5]; decide)).trans o5
    have f6 := (hany 6 (by decide) (by rw [o6]; decide)).trans o6
    have f7 := (hany 7 (by decide) (by rw [o7]; decide)).trans o7
    have f8 := (hany 8 (by decide) (by rw [o8]; decide)).trans o8
    have f9 := (hany 9 (by decide) (by rw [o9]; decide)).trans o9
    have f11 := (hany 11 (by decide) (by rw [o11]; decide)).trans o11
    have ht := fix_time_123519 K.ulong_max hmax U.gpgga.fix_time
    have hla := parse_nmea_latitude_reads K (chars "4807.038") (chars "N")
      U.gpgga.latitude (by decide) d1 (by decide) hlat.1 hlat.2
    have hlo := parse_nmea_longitude_reads K (chars "01131.000") (chars "E")
      U.gpgga.longitude (by decide) d2 (by decide) hlon.1 hlon.2
    have hq := strtoul_rejects_digits K.ulong_max K.ulong_max (s := chars "1") (by decide)
      (all_dec_digits_of_decide (by decide))
      (by have : dec_value (chars "1") = 1 := by decide
          omega)
    have hn := strtoul_rejects_digits K.ulong_max K.long_max (s := chars "08") (by decide)
      (all_dec_digits_of_decide (by decide))
      (by have : dec_value (chars "08") = 8 := by decide
          omega)
    have hh := parse_float_reads K (chars "0.9") U.gpgga.hdop (by decide) hf
    unfold reads_to_end at d3 d4
    obtain ⟨g, hg⟩ : ∃ g : nmea_gpgga_t M, g = {
        fix_time := ⟨123519, 0⟩
        fix_quality := 1
        latitude := degrees_minutes K (K.strtod (chars "4807.038")).1
        longitude := degrees_minutes K (K.strtod (chars "01131.000")).1
        altitude := (K.strtod (chars "545.4")).1
        sattelites_nb := 8
        hdop := (K.strtof (chars "0.9")).1
        geoid_height := (K.strtod (chars "46.9")).1
        has_latitude := true
        has_longitude := true
        has_altitude := true
        has_sattelites_nb := true
        has_hdop := true
        has_geoid_height := true } := ⟨_, rfl⟩
    have hfields : parse_gga_fields K U buf fields 15 = .valid g := by
      subst hg
      have c6 : c_char_at (chars "1") 0 ≠ 0 := by decide
      have c7 : c_char_at (chars "08") 0 ≠ 0 := by decide
      have c9 : c_char_at (chars "545.4") 0 ≠ 0 := by decide
      have c11 : c_char_at (chars "46.9") 0 ≠ 0 := by decide
      have v6 : dec_value (chars "1") % 2 ^ 32 = 1 := by decide
      have v7 : to_int (dec_value (chars "08")) = 8 := by decide
      unfold parse_gga_fields
      simp only [f1, f2, f3, f4, f5, f6, f7, f8, f9, f11, ht, hla, hlo, hq.1, hq.2, hn.1, hn.2,
        hh, d3, d4, c6, c7, c9, c11, v6, v7, c_char_at_end, lt_irrefl, if_false, ne_eq,
        not_true_eq_false, not_false_eq_true, decide_True, decide_False, Bool.false_eq_true,
        and_false, false_and, or_self, if_true, true_and]
    refine ⟨g, ?_, by rw [hg], by rw [hg], by rw [hg], by rw [hg], by rw [hg], by rw [hg],
      by rw [hg], by rw [hg], by rw [hg], by rw [hg]⟩
    unfold parse_gga
    rw [if_neg (by decide), hsplit1]
    simp only [hfields, parse_finish, Option.map_some']

/-- The RMC sentence of the example on a platform which reads its decimal
fields to their end and on which the coordinates pass the tests of the bounds,
whatever the local variables held before: the record which `parse_rmc` stores. -/
theorem example_rmc_parse_any {M : c_lib} (K : c_num M) (U : nmea_locals M)
    (hmax : 4294967295 ≤ K.ulong_max)
    (hd : ∀ s ∈ [chars "4807.038", chars "01131.000", chars "545.4", chars "46.9"],
      reads_to_end K.strtod s)
    (hf : ∀ s ∈ [chars "022.4", chars "084.4"], reads_to_end K.strtof s)
    (hlat : K.d_le (K.d_const (-90) 0) (degrees_minutes K (K.strtod (chars "4807.038")).1)
        = true ∧
      K.d_le (degrees_minutes K (K.strtod (chars "4807.038")).1) (K.d_const 90 0) = true)
    (hlon : K.d_le (K.d_const (-180) 0) (degrees_minutes K (K.strtod (chars "01131.000")).1)
        = true ∧
      K.d_le (degrees_minutes K (K.strtod (chars "01131.000")).1) (K.d_const 180 0) = true) :
    ∃ r : nmea_gprmc_t M,
      (parse_rmc K U example_rmc 70 (zero_status M)).map
        (fun r => r.1) = some (some r) ∧
      r.fix_time = ⟨123519, 0⟩ ∧ r.status_active = true ∧ r.has_course = true ∧
      r.has_speed = true ∧ r.course = (K.strtof (chars "084.4")).1 := by
  have d1 := hd (chars "4807.038") (by simp)
  have d2 := hd (chars "01131.000") (by simp)
  have g1 := hf (chars "022.4") (by simp)
  have g2 := hf (chars "084.4") (by simp)
  have hs := example_rmc_fields
  cases hsplit : split_nmea_str example_rmc 70 (fun _ => 0) 12 (fun _ => 1) with
  | none => rw [hsplit] at hs; cases hs
  | some v =>
    obtain ⟨bo, fo, nb⟩ := v
    rw [hsplit] at hs
    simp only [Option.map_some', Option.some.injEq, Prod.mk.injEq, List.map_cons, List.map_nil,
      List.cons.injEq, and_true] at hs
    obtain ⟨hnb, o1, o2, o3, o4, o5, o6, o7, o8, o9⟩ := hs
    subst hnb
    obtain ⟨buf, fields, hsplit1, hany⟩ :=
      split_nmea_str_any example_rmc 70 12 bo fo 12 hsplit U.fields U.buf
    have f1 := (hany 1 (by decide) (by rw [o1]; decide)).trans o1
    have f2 := (hany 2 (by decide) (by rw [o2]; decide)).trans o2
    have f3 := (hany 3 (by decide) (by rw [o3]; decide)).trans o3
    have f4 := (hany 4 (by decide) (by rw [o4]; decide)).trans o4
    have f5 := (hany 5 (by decide) (by rw [o5]; decide)).trans o5
    have f6 := (hany 6 (by decide) (by rw [o6]; decide)).trans o6
    have f7 := (hany 7 (by decide) (by rw [o7]; decide)).trans o7
    have f8 := (hany 8 (by decide) (by rw [o8]; decide)).trans o8
    have f9 := (hany 9 (by decide) (by rw [o9]; decide)).trans o9
    have ht := fix_time_123519 K.ulong_max hmax U.gprmc.fix_time
    have hla := parse_nmea_latitude_reads K (chars "4807.038") (chars "N")
      U.gprmc.latitude (by decide) d1 (by decide) hlat.1 hlat.2
    have hlo := parse_nmea_longitude_reads K (chars "01131.000") (chars "E")
      U.gprmc.longitude (by decide) d2 (by decide) hlon.1 hlon.2
    have hsp := parse_float_reads K (chars "022.4") U.gprmc.speed (by decide) g1
    have hco := parse_float_reads K (chars "084.4") U.gprmc.course (by decide) g2
    have hv : dec_value (chars "230394") = 230394 := by decide
    have hdate := strtoul_rejects_digits K.ulong_max K.ulong_max (s := chars "230394")
      (by decide) (all_dec_digits_of_decide (by decide)) (by omega)
    have her := strtoul_erange_digits K.ulong_max (s := chars "230394")
      (by decide) (all_dec_digits_of_decide (by decide))
    have her1 : strtoul_erange K.ulong_max (chars "230394") 10 = false := by
      rw [her, decide_eq_false_iff_not]
      omega
    obtain ⟨r, hr⟩ : ∃ r : nmea_gprmc_t M, r = {
        fix_time := ⟨123519, 0⟩
        latitude := degrees_minutes K (K.strtod (chars "4807.038")).1
        longitude := degrees_minutes K (K.strtod (chars "01131.000")).1
        ddmmyy := 230394
        status_active := true
        speed := K.f_of_d (K.d_mul (K.d_of_f (K.strtof (chars "022.4")).1)
          (K.d_const 514444 (-6)))
        course := (K.strtof (chars "084.4")).1
        has_latitude := true
        has_longitude := true
        has_ddmmyy := true
        has_status_active := U.gprmc.has_status_active
        has_speed := true
        has_course := true } := ⟨_, rfl⟩
    have hfields : parse_rmc_fields K U buf fields 12 = .valid r := by
      subst hr
      have c2 : c_char_at (chars "A") 0 = 0x41 := by decide
      have c9 : c_char_at (chars "230394") 0 ≠ 0 := by decide
      have v9 : 230394 % 2 ^ 32 = 230394 := by decide
      have w9 : ¬ (230394 > 311299) := by decide
      unfold parse_rmc_fields
      simp only [f1, f2, f3, f4, f5, f6, f7, f8, f9, ht, hla, hlo, hsp, hco, hdate.2, her1, hv,
        c2, c9, v9, w9, c_char_at_end, lt_irrefl, if_false, ne_eq,
        not_true_eq_false, not_false_eq_true, decide_True, decide_False, Bool.false_eq_true,
        and_false, false_and, or_self, if_true, true_and, List.length_cons, List.length_nil]
    refine ⟨r, ?_, by rw [hr], by rw [hr], by rw [hr], by rw [hr], by rw [hr]⟩
    unfold parse_rmc
    rw [if_neg (by decide), hsplit1]
    simp only [hfields, parse_finish, Option.map_some']

/-- C24.  The fix assembly example, on every platform (every interpretation
`K` of the floating-point arithmetic and of `strtod`, `strtof`) with an
`unsigned long` of 32 bits or more on which `strtod` and `strtof` read the
decimal fields of the two sentences to their end and the coordinates pass the
tests of the bounds, and whatever the local variables of the parsers held
before the calls (`U`).  From a freshly reset parser, `put_nmea_msg` on the GGA
sentence `$GPGGA,123519,4807.038,N,01131.000,E,1,08,0.9,545.4,M,46.9,M,,*47`
and then on the RMC sentence
`$GPRMC,123519,A,4807.038,N,01131.000,E,022.4,084.4,230394,003.1,W*6A` returns
`true` with `location_changed = false` both times; a third call on any GGA
sentence which `parse_gga` accepts with a fix time that is not the same instant
as 123519 returns `true` with `location_changed = true` and a location which
has `is_valid = true`, `satellites = 8`, `has_altitude` with the altitude which
`strtod` reads from `545.4`, `has_speed`, `has_bearing` with the bearing which
`strtof` reads from `084.4`, and the latitude and the longitude which the code
computes from what `strtod` reads from `4807.038` and `01131.000`:
`1.0 * (degrees + minutes / 60.0)` with
`minutes = 100.0 * modf(res / 100.0, &degrees)`, in the arithmetic of the
platform. -/
theorem fix_assembly_example {M : c_lib} (K : c_num M) (U : nmea_locals M) (now : tm)
    (ctx : nmea_parser_t M)
    (status : gps_msg_status_t M) (msg3 : List uint8_t) (n3 : Nat)
    (T : nmea_fix_time_t)
    (hmax : 4294967295 ≤ K.ulong_max)
    (hd : ∀ s ∈ [chars "4807.038", chars "01131.000", chars "545.4", chars "46.9"],
      reads_to_end K.strtod s)
    (hf : ∀ s ∈ [chars "0.9", chars "022.4", chars "084.4"], reads_to_end K.strtof s)
    (hlat : K.d_le (K.d_const (-90) 0) (degrees_minutes K (K.strtod (chars "4807.038")).1)
        = true ∧
      K.d_le (degrees_minutes K (K.strtod (chars "4807.038")).1) (K.d_const 90 0) = true)
    (hlon : K.d_le (K.d_const (-180) 0) (degrees_minutes K (K.strtod (chars "01131.000")).1)
        = true ∧
      K.d_le (degrees_minutes K (K.strtod (chars "01131.000")).1) (K.d_const 180 0) = true)
    (hid : is_gga_id msg3 n3)
    (hparse : (parse_gga K U msg3 n3
      (zero_status M)).map (fun r => r.1.map (fun g => g.fix_time)) = some (some T))
    (hT : is_same_fix_time ⟨123519, 0⟩ T = false) :
    ∃ ctx1 st1,
      put_nmea_msg (c_parsers K U)
        (reset_nmea_parser_ctx now ctx) example_gga 67 status = some (true, ctx1, st1) ∧
      st1.location_changed = false ∧
      ∃ ctx2 st2,
        put_nmea_msg (c_parsers K U) ctx1 example_rmc 70 st1
          = some (true, ctx2, st2) ∧
        st2.location_changed = false ∧
        ∃ ctx3 st3,
          put_nmea_msg (c_parsers K U) ctx2 msg3 n3 st2
            = some (true, ctx3, st3) ∧
          st3.location_changed = true ∧
          st3.location.is_valid = true ∧
          st3.location.satellites = 8 ∧
          st3.location.has_altitude = true ∧
          st3.location.altitude = (K.strtod (chars "545.4")).1 ∧
          st3.location.has_speed = true ∧
          st3.location.has_bearing = true ∧
          st3.location.bearing = (K.strtof (chars "084.4")).1 ∧
          st3.location.latitude = degrees_minutes K (K.strtod (chars "4807.038")).1 ∧
          st3.location.longitude = degrees_minutes K (K.strtod (chars "01131.000")).1 := by
  obtain ⟨g, hg, g1, g2, g3, g4, g5, g6, g7, g8, g9, g10⟩ :=
    example_gga_parse_any K U hmax hd (hf (chars "0.9") (by simp)) hlat hlon
  obtain ⟨r, hr, r1, r2, r3, r4, r5⟩ :=
    example_rmc_parse_any K U hmax hd
      (fun s hs => hf s (by
        simp only [List.mem_cons, List.mem_singleton, List.not_mem_nil, or_false] at hs ⊢
        rcases hs with h | h
        · exact Or.inr (Or.inl h)
        · exact Or.inr (Or.inr h))) hlat hlon
  obtain ⟨g', hg', t1⟩ := record_of_projection _ _ _ hparse
  have hs1 : is_same_fix_time (reset_nmea_parser_ctx now ctx).fix.fix_time g.fix_time
      = false := by
    rw [g1]
    rfl
  have q1 := parse_gga_status K U example_gga 67
    (zero_status M)
    { status with is_valid := false, location_changed := false, err := "" } g hg
  rw [← c_parsers_parse_gga] at q1
  obtain ⟨ctx1, p1, a1, a2, a3, a4⟩ :=
    put_gga_on_closed (c_parsers K U)
      (reset_nmea_parser_ctx now ctx) example_gga 67 status _ g is_gga_id_example_gga
      q1 rfl hs1
  refine ⟨ctx1, _, p1, rfl, ?_⟩
  have hs2 : is_same_fix_time ctx1.fix.fix_time r.fix_time = true := by
    rw [a1, g1, r1]
    exact is_same_fix_time_refl _
  generalize hst1 : ({ ({ status with is_valid := false, location_changed := false, err := "" }
      : gps_msg_status_t M) with is_valid := true, err := "", location_changed := false }
      : gps_msg_status_t M) = st1
  have q2 := parse_rmc_status K U example_rmc 70
    (zero_status M)
    { st1 with is_valid := false, location_changed := false, err := "" } r hr
  rw [← c_parsers_parse_rmc] at q2
  obtain ⟨ctx2, p2, b1, b2, b3, b4, b5, b6⟩ :=
    put_rmc_same (c_parsers K U) ctx1 example_rmc 70 st1 _ r
      is_rmc_id_example_rmc q2 hs2
  refine ⟨ctx2, _, p2, by rw [← hst1], ?_⟩
  have hs3 : is_same_fix_time ctx2.fix.fix_time g'.fix_time = false := by
    rw [b1, a1, g1, t1]
    exact hT
  generalize hst2 : ({ ({ st1 with is_valid := false, location_changed := false, err := "" }
      : gps_msg_status_t M) with is_valid := true, err := "" }
      : gps_msg_status_t M) = st2
  have q3 := parse_gga_status K U msg3 n3
    (zero_status M)
    { st2 with is_valid := false, location_changed := false, err := "" } g' hg'
  rw [← c_parsers_parse_gga] at q3
  obtain ⟨ctx3, p3⟩ :=
    put_gga_closes (c_parsers K U) ctx2 msg3 n3 st2 _ g' hid
      q3 (b2.trans a2) hs3 (b3.trans a3)
  refine ⟨ctx3, _, p3, rfl, ?_⟩
  have hfix : (merge_full_time ctx2).fix = ctx2.fix := merge_full_time_fix ctx2
  have hgga : (merge_full_time ctx2).fix.gpgga = g := by rw [hfix, b4, a4]
  have hrmc : (merge_full_time ctx2).fix.gprmc = r := by rw [hfix, b6]
  obtain ⟨c1, c2, c3, c4, c5, c6, c7, c8, c9, -⟩ :=
    compose_location_gga_rmc (merge_full_time ctx2) st2.location
      (by rw [hfix, b3, a3]) (by rw [hgga, g4]) (by rw [hgga, g5])
      (by rw [hgga, g2]; decide) (by rw [hfix, b5]) (by rw [hrmc, r2])
      (by rw [hgga, g6]) (by rw [hgga, g7]) (by rw [hrmc, r3]) (by rw [hrmc, r4])
  rw [hgga] at c2 c3 c5 c6
  rw [hrmc] at c8
  refine ⟨c1, c6.trans g3, c4, ?_, c9, c7, ?_, ?_, ?_⟩
  · exact c5.trans g10
  · exact c8.trans r5
  · exact c2.trans g8
  · exact c3.trans g9


set_option maxRecDepth 100000 in
/-- The GGA sentence of the next second has the fix time 123520. -/
theorem example_gga_next_fix_time :
    (parse_gga c_num_rat (zero_locals c_lib_rat) example_gga_next 67
      (zero_status c_lib_rat)).map (fun r => r.1.map (fun g => g.fix_time))
        = some (some ⟨123520, 0⟩) := by
  decide!

/-! ## The fix assembly example in binary floating-point arithmetic -/

set_option maxRecDepth 100000 in
/-- In binary64 `strtod` reads the decimal fields of the example to their end. -/
theorem ieee_reads_double :
    ∀ s ∈ [chars "4807.038", chars "01131.000", chars "545.4", chars "46.9"],
      reads_to_end c_num_ieee.strtod s := by
  decide!

set_option maxRecDepth 100000 in
/-- In binary32 `strtof` reads the decimal fields of the example to their end. -/
theorem ieee_reads_float :
    ∀ s ∈ [chars "0.9", chars "022.4", chars "084.4"], reads_to_end c_num_ieee.strtof s := by
  decide!

set_option maxRecDepth 100000 in
/-- In binary64 the latitude of the example passes the test of its bounds. -/
theorem ieee_latitude_bounds :
    c_num_ieee.d_le (c_num_ieee.d_const (-90) 0)
        (degrees_minutes c_num_ieee (c_num_ieee.strtod (chars "4807.038")).1) = true ∧
      c_num_ieee.d_le (degrees_minutes c_num_ieee (c_num_ieee.strtod (chars "4807.038")).1)
        (c_num_ieee.d_const 90 0) = true := by
  decide!

set_option maxRecDepth 100000 in
/-- In binary64 the longitude of the example passes the test of its bounds. -/
theorem ieee_longitude_bounds :
    c_num_ieee.d_le (c_num_ieee.d_const (-180) 0)
        (degrees_minutes c_num_ieee (c_num_ieee.strtod (chars "01131.000")).1) = true ∧
      c_num_ieee.d_le (degrees_minutes c_num_ieee (c_num_ieee.strtod (chars "01131.000")).1)
        (c_num_ieee.d_const 180 0) = true := by
  decide!

set_option maxRecDepth 100000 in
/-- The GGA sentence of the next second has the fix time 123520, in binary
floating-point arithmetic as well. -/
theorem example_gga_next_fix_time_ieee :
    (parse_gga c_num_ieee (zero_locals c_lib_ieee) example_gga_next 67
      (zero_status c_lib_ieee)).map (fun r => r.1.map (fun g => g.fix_time))
        = some (some ⟨123520, 0⟩) := by
  decide!

set_option maxRecDepth 100000 in
/-- C24, the claim as stated fails in the arithmetic of the program.  With
binary64 for `double` and binary32 for `float`, the three calls of the example
(the third on the GGA sentence of the next second) end with
`location_changed = true` and a valid location whose latitude is
3385953974219911 / 2^46 = 48.117299999999986...: this is neither the number
48 + 7.038/60 = 48.1173 nor the `double` nearest to it, which is
423244246777489 / 2^43.  The longitude is the `double` nearest to 11 + 31/60,
the altitude the `double` nearest to 545.4 and the bearing the `float` nearest
to 84.4; none of these is the decimal number itself. -/
theorem fix_assembly_example_counterexample :
    ((put_nmea_msg (c_parsers c_num_ieee (zero_locals c_lib_ieee))
        (reset_nmea_parser_ctx epoch_tm (zero_parser_ctx c_lib_ieee)) example_gga 67
        (zero_status c_lib_ieee)).bind (fun r1 =>
      (put_nmea_msg (c_parsers c_num_ieee (zero_locals c_lib_ieee)) r1.2.1 example_rmc 70
        r1.2.2).bind (fun r2 =>
      put_nmea_msg (c_parsers c_num_ieee (zero_locals c_lib_ieee)) r2.2.1 example_gga_next 67
        r2.2.2))).map
      (fun r => (r.1, r.2.2.location_changed, r.2.2.location.is_valid,
        (r.2.2.location.latitude : ℚ), (r.2.2.location.longitude : ℚ)))
      = some (true, true, true, (3385953974219911 : ℚ) / 2 ^ 46,
          round_double ((11 : ℚ) + 31 / 60)) ∧
    ((put_nmea_msg (c_parsers c_num_ieee (zero_locals c_lib_ieee))
        (reset_nmea_parser_ctx epoch_tm (zero_parser_ctx c_lib_ieee)) example_gga 67
        (zero_status c_lib_ieee)).bind (fun r1 =>
      (put_nmea_msg (c_parsers c_num_ieee (zero_locals c_lib_ieee)) r1.2.1 example_rmc 70
        r1.2.2).bind (fun r2 =>
      put_nmea_msg (c_parsers c_num_ieee (zero_locals c_lib_ieee)) r2.2.1 example_gga_next 67
        r2.2.2))).map
      (fun r => (r.2.2.location.satellites, (r.2.2.location.altitude : ℚ),
        (r.2.2.location.bearing : ℚ)))
      = some (8, round_double ((5454 : ℚ) / 10), round_float ((844 : ℚ) / 10)) ∧
    (3385953974219911 : ℚ) / 2 ^ 46 ≠ 48 + (7038 / 1000) / 60 ∧
    (3385953974219911 : ℚ) / 2 ^ 46 ≠ round_double (48 + (7038 / 1000) / 60) ∧
    round_double (48 + (7038 / 1000) / 60) = (423244246777489 : ℚ) / 2 ^ 43 ∧
    round_double ((11 : ℚ) + 31 / 60) ≠ 11 + 31 / 60 ∧
    round_double ((5454 : ℚ) / 10) ≠ 5454 / 10 ∧
    round_float ((844 : ℚ) / 10) ≠ 844 / 10 := by
  refine ⟨by decide!, by decide!, by decide!, by decide!, by decide!, by decide!, by decide!,
    by decide!⟩

theorem fix_assembly_example_witness :
    4294967295 ≤ c_num_ieee.ulong_max ∧
    (∀ s ∈ [chars "4807.038", chars "01131.000", chars "545.4", chars "46.9"],
      reads_to_end c_num_ieee.strtod s) ∧
    (∀ s ∈ [chars "0.9", chars "022.4", chars "084.4"], reads_to_end c_num_ieee.strtof s) ∧
    is_gga_id example_gga_next 67 ∧
    (parse_gga c_num_ieee (zero_locals c_lib_ieee) example_gga_next 67
      (zero_status c_lib_ieee)).map (fun r => r.1.map (fun g => g.fix_time))
        = some (some ⟨123520, 0⟩) ∧
    is_same_fix_time ⟨123519, 0⟩ ⟨123520, 0⟩ = false ∧
    ∃ ctx1 st1,
      put_nmea_msg (c_parsers c_num_ieee (zero_locals c_lib_ieee))
        (reset_nmea_parser_ctx epoch_tm (zero_parser_ctx c_lib_ieee)) example_gga 67
        (zero_status c_lib_ieee) = some (true, ctx1, st1) ∧
      st1.location_changed = false ∧
      ∃ ctx2 st2,
        put_nmea_msg (c_parsers c_num_ieee (zero_locals c_lib_ieee)) ctx1 example_rmc 70 st1
          = some (true, ctx2, st2) ∧
        st2.location_changed = false ∧
        ∃ ctx3 st3,
          put_nmea_msg (c_parsers c_num_ieee (zero_locals c_lib_ieee)) ctx2 example_gga_next 67
              st2
            = some (true, ctx3, st3) ∧
          st3.location_changed = true ∧
          st3.location.is_valid = true ∧
          st3.location.satellites = 8 ∧
          st3.location.has_altitude = true ∧
          st3.location.altitude = (c_num_ieee.strtod (chars "545.4")).1 ∧
          st3.location.has_speed = true ∧
          st3.location.has_bearing = true ∧
          st3.location.bearing = (c_num_ieee.strtof (chars "084.4")).1 ∧
          st3.location.latitude
            = degrees_minutes c_num_ieee (c_num_ieee.strtod (chars "4807.038")).1 ∧
          st3.location.longitude
            = degrees_minutes c_num_ieee (c_num_ieee.strtod (chars "01131.000")).1 :=
  ⟨by decide, ieee_reads_double, ieee_reads_float, is_gga_id_example_gga_next,
    example_gga_next_fix_time_ieee, by decide,
    fix_assembly_example c_num_ieee (zero_locals c_lib_ieee) epoch_tm (zero_parser_ctx c_lib_ieee)
      (zero_status c_lib_ieee) example_gga_next 67 ⟨123520, 0⟩ (by decide) ieee_reads_double
      ieee_reads_float ieee_latitude_bounds ieee_longitude_bounds is_gga_id_example_gga_next
      example_gga_next_fix_time_ieee (by decide)⟩
/-! ## The detectors: when the verdict is "truncated", and how long a frame is -/

/-- The scanning loop of `looks_like_nmea`, entered at an index up to 513 with
fuel for the rest of the window, ends without a CR LF pair only in a window of
at most 513 bytes. -/
theorem nmea_scan_truncated_bound {msg : List uint8_t} {max_len : Nat} :
    ∀ (fuel i : Nat) (cp : Int) (r : nmea_scan_t),
      nmea_scan msg max_len fuel i cp = some r → max_len - i < fuel → i ≤ NMEA_MAX + 1 →
      ¬ scan_final r → max_len ≤ NMEA_MAX + 1 := by
  intro fuel
  induction fuel with
  | zero => intro i cp r _ hf; omega
  | succ f ih =>
    intro i cp r h hf hi hr
    rw [nmea_scan_succ] at h
    by_cases him : i < max_len
    · rw [if_pos him] at h
      by_cases hmax : i > NMEA_MAX
      · rw [if_pos hmax] at h
        simp only [Option.some.injEq] at h
        subst h
        exact absurd (by simp [scan_final, LOOKS_NOT_LIKE_GPS_MSG, LOOKS_LIKE_TRUNCATED_MSG]) hr
      · rw [if_neg hmax] at h
        cases hc : rd msg i with
        | none => rw [hc] at h; cases h
        | some c =>
          rw [hc] at h
          simp only at h
          by_cases c1 : c = 0x2a
          · rw [if_pos c1] at h
            exact ih (i + 1) _ r h (by omega) (by omega) hr
          · rw [if_neg c1] at h
            by_cases c2 : c = 0x0d
            · rw [if_pos c2] at h
              by_cases c3 : i + 1 = max_len
              · omega
              · rw [if_neg c3] at h
                cases hd : rd msg (i + 1) with
                | none => rw [hd] at h; cases h
                | some d =>
                  rw [hd] at h
                  simp only at h
                  by_cases c4 : d ≠ 0x0a
                  · rw [if_pos c4] at h
                    simp only [Option.some.injEq] at h
                    subst h
                    exact absurd
                      (by simp [scan_final, LOOKS_NOT_LIKE_GPS_MSG, LOOKS_LIKE_TRUNCATED_MSG]) hr
                  · rw [if_neg c4] at h
                    simp only [Option.some.injEq] at h
                    subst h
                    exact absurd (by simp [scan_final]) hr
            · rw [if_neg c2] at h
              by_cases c5 : ¬ (isprint c = true)
              · rw [if_pos c5] at h
                simp only [Option.some.injEq] at h
                subst h
                exact absurd
                  (by simp [scan_final, LOOKS_NOT_LIKE_GPS_MSG, LOOKS_LIKE_TRUNCATED_MSG]) hr
              · rw [if_neg c5] at h
                exact ih (i + 1) _ r h (by omega) (by omega) hr
    · omega

/-- With a CR LF pair found, the statements after the loop do not answer
"truncated". -/
theorem nmea_after_loop_not_truncated {msg : List uint8_t} {crlf cp : Int} (hc : 0 ≤ crlf) :
    nmea_after_loop msg crlf cp ≠ some LOOKS_LIKE_TRUNCATED_MSG := by
  unfold nmea_after_loop
  rw [if_neg (by omega)]
  simp only [LOOKS_LIKE_TRUNCATED_MSG, LOOKS_NOT_LIKE_GPS_MSG]
  split
  · split
    · simp
    · split
      · split
        · simp
        · split
          · simp
          · split
            · simp
            · simp only [ne_eq, Option.some.injEq]
              omega
      · simp
  · simp only [ne_eq, Option.some.injEq]
    omega

/-- The verdict "truncated" of `looks_like_nmea` needs a window of at most 513
bytes. -/
theorem nmea_truncated_bound {msg : List uint8_t} {max_len : Nat}
    (h : looks_like_nmea msg max_len = some LOOKS_LIKE_TRUNCATED_MSG) : max_len ≤ 513 := by
  unfold looks_like_nmea at h
  cases h0 : rd msg 0 with
  | none => rw [h0] at h; cases h
  | some m0 =>
    rw [h0] at h
    simp only at h
    by_cases c0 : m0 ≠ 0x24
    · rw [if_pos c0] at h
      simp [LOOKS_NOT_LIKE_GPS_MSG, LOOKS_LIKE_TRUNCATED_MSG] at h
    · rw [if_neg c0] at h
      cases hs : nmea_scan msg max_len max_len 1 (-1) with
      | none => rw [hs] at h; cases h
      | some r =>
        rw [hs] at h
        have hb := nmea_scan_truncated_bound max_len 1 (-1) r hs
        simp only [NMEA_MAX] at hb
        by_cases hm : max_len ≤ 513
        · exact hm
        · exfalso
          have hfin : scan_final r := by
            by_contra hn
            exact hm (hb (by omega) (by omega) hn)
          cases r with
          | ret v =>
            simp only [Option.some.injEq] at h
            exact hfin h
          | out crlf cp =>
            simp only at h
            exact nmea_after_loop_not_truncated hfin h

/-- The verdict "truncated" of `looks_like_sirf` needs a window of at most 1030
bytes. -/
theorem sirf_truncated_bound {msg : List uint8_t} {max_len : Nat}
    (h : looks_like_sirf msg max_len = some LOOKS_LIKE_TRUNCATED_MSG) : max_len ≤ 1030 := by
  by_cases hm : max_len ≤ 1030
  · exact hm
  · exfalso
    rcases sirf_inv h with e | e | ⟨n, e, -⟩
    · simp [LOOKS_LIKE_TRUNCATED_MSG] at e
    · unfold looks_like_sirf at h
      cases h0 : rd msg 0 with
      | none => rw [h0] at h; cases h
      | some m0 =>
        rw [h0] at h
        simp only at h
        by_cases c0 : m0 ≠ 0xa0
        · rw [if_pos c0] at h
          simp [LOOKS_NOT_LIKE_GPS_MSG, LOOKS_LIKE_TRUNCATED_MSG] at h
        · rw [if_neg c0, if_neg (by omega)] at h
          cases h1 : rd msg 1 with
          | none => rw [h1] at h; cases h
          | some m1 =>
            rw [h1] at h
            simp only at h
            by_cases c1 : m1 ≠ 0xa2
            · rw [if_pos c1] at h
              simp [LOOKS_NOT_LIKE_GPS_MSG, LOOKS_LIKE_TRUNCATED_MSG] at h
            · rw [if_neg c1] at h
              cases h2 : get2u msg 2 with
              | none => rw [h2] at h; cases h
              | some pl =>
                rw [h2] at h
                simp only at h
                by_cases c2 : pl > SIRF_MAX
                · rw [if_pos c2] at h
                  simp [LOOKS_NOT_LIKE_GPS_MSG, LOOKS_LIKE_TRUNCATED_MSG] at h
                · rw [if_neg c2] at h
                  simp only [SIRF_MAX] at c2
                  rw [if_neg (by omega)] at h
                  revert h
                  simp only [LOOKS_LIKE_TRUNCATED_MSG, LOOKS_NOT_LIKE_GPS_MSG]
                  split
                  · simp
                  · split
                    · simp
                    · split
                      · simp
                      · split
                        · simp
                        · split
                          · simp
                          · split
                            · simp
                            · split
                              · simp
                              · simp only [Option.some.injEq]
                                omega
    · simp only [LOOKS_LIKE_TRUNCATED_MSG] at e
      omega

/-- The verdict "truncated" of `looks_like_ublox` needs a window of at most
4103 bytes. -/
theorem ublox_truncated_bound {msg : List uint8_t} {max_len : Nat}
    (h : looks_like_ublox msg max_len = some LOOKS_LIKE_TRUNCATED_MSG) : max_len ≤ 4103 := by
  by_cases hm : max_len ≤ 4103
  · exact hm
  · exfalso
    rw [ublox_head] at h
    cases h0 : rd msg 0 with
    | none => rw [h0] at h; cases h
    | some m0 =>
      rw [h0] at h
      simp only at h
      by_cases c0 : m0 ≠ 0xb5
      · rw [if_pos c0] at h
        simp [LOOKS_NOT_LIKE_GPS_MSG, LOOKS_LIKE_TRUNCATED_MSG] at h
      · rw [if_neg c0, if_neg (by omega)] at h
        cases h1 : rd msg 1 with
        | none => rw [h1] at h; cases h
        | some m1 =>
          rw [h1] at h
          simp only at h
          by_cases c1 : m1 ≠ 0x62
          · rw [if_pos c1] at h
            simp [LOOKS_NOT_LIKE_GPS_MSG, LOOKS_LIKE_TRUNCATED_MSG] at h
          · rw [if_neg c1] at h
            cases h4 : rd msg 4 with
            | none => rw [h4] at h; simp at h
            | some m4 =>
              cases h5 : rd msg 5 with
              | none => rw [h4, h5] at h; simp at h
              | some m5 =>
                rw [h4, h5] at h
                simp only at h
                by_cases c2 : m5 * 256 + m4 > UBLOX_MAX
                · rw [if_pos c2] at h
                  simp [LOOKS_NOT_LIKE_GPS_MSG, LOOKS_LIKE_TRUNCATED_MSG] at h
                · rw [if_neg c2] at h
                  simp only [UBLOX_MAX] at c2
                  rw [if_neg (by omega)] at h
                  revert h
                  simp only [LOOKS_LIKE_TRUNCATED_MSG, LOOKS_NOT_LIKE_GPS_MSG]
                  split
                  · simp
                  · split
                    · simp
                    · split
                      · simp
                      · split
                        · simp
                        · split
                          · simp
                          · simp only [Option.some.injEq]
                            omega

/-- The verdict "truncated" of a detector needs a window of at most 4103
bytes. -/
theorem detector_truncated_bound {t : msg_type_t} {msg : List uint8_t} {max_len : Nat}
    (h : detector t msg max_len = some LOOKS_LIKE_TRUNCATED_MSG) : max_len ≤ 4103 := by
  cases t with
  | MSG_TYPE_NMEA => have := nmea_truncated_bound h; omega
  | MSG_TYPE_SIRF => have := sirf_truncated_bound h; omega
  | MSG_TYPE_UBLOX => exact ublox_truncated_bound h

/-- A frame which a detector accepts lies inside the window. -/
theorem detector_le {t : msg_type_t} {msg : List uint8_t} {max_len : Nat} {r : Int}
    (h : detector t msg max_len = some r) (hr : 0 < r) : r ≤ (max_len : Int) := by
  cases t with
  | MSG_TYPE_NMEA =>
    obtain ⟨k, cp2, hL, -, -, hk, -⟩ := nmea_valid_inv h hr
    omega
  | MSG_TYPE_SIRF =>
    obtain ⟨n, hL, -, hn, -⟩ := sirf_valid_inv h hr
    omega
  | MSG_TYPE_UBLOX =>
    obtain ⟨n, m4, m5, hL, -, hn, -⟩ := ublox_valid_inv h hr
    omega

/-- The verdicts of a detector: -1, 0 or a positive length. -/
theorem detector_range {t : msg_type_t} {msg : List uint8_t} {max_len : Nat} {r : Int}
    (h : detector t msg max_len = some r) : -1 ≤ r := by
  cases t with
  | MSG_TYPE_NMEA => exact nmea_range h
  | MSG_TYPE_SIRF => exact sirf_range h
  | MSG_TYPE_UBLOX => exact ublox_range h

/-- What the loop of `find_msg` has found when it is left by `break`: a
detector which does not answer 0 at the position. -/
theorem find_msg_loop_found {buf : List uint8_t} {buf_size : Nat} :
    ∀ (fuel msg_pos p : Nat) (t : msg_type_t) (r : Int),
      find_msg_loop buf buf_size fuel msg_pos = some (p, some (t, r)) →
      msg_pos ≤ p ∧ p < buf_size ∧
      detector t (buf.drop p) (buf_size - p) = some r ∧ r ≠ LOOKS_NOT_LIKE_GPS_MSG := by
  intro fuel
  induction fuel with
  | zero => intro msg_pos p t r h; simp [find_msg_loop] at h
  | succ f ih =>
    intro msg_pos p t r h
    rw [find_msg_loop] at h
    by_cases hp : msg_pos < buf_size
    · rw [if_pos hp] at h
      cases hn : looks_like_nmea (buf.drop msg_pos) (buf_size - msg_pos) with
      | none => rw [hn] at h; cases h
      | some rn =>
        rw [hn] at h
        simp only at h
        by_cases cn : rn ≠ LOOKS_NOT_LIKE_GPS_MSG
        · rw [if_pos cn] at h
          simp only [Option.some.injEq, Prod.mk.injEq] at h
          obtain ⟨e1, e2, e3⟩ := h
          subst e1; subst e2; subst e3
          exact ⟨le_refl _, hp, hn, cn⟩
        · rw [if_neg cn] at h
          cases hs : looks_like_sirf (buf.drop msg_pos) (buf_size - msg_pos) with
          | none => rw [hs] at h; cases h
          | some rs =>
            rw [hs] at h
            simp only at h
            by_cases cs : rs ≠ LOOKS_NOT_LIKE_GPS_MSG
            · rw [if_pos cs] at h
              simp only [Option.some.injEq, Prod.mk.injEq] at h
              obtain ⟨e1, e2, e3⟩ := h
              subst e1; subst e2; subst e3
              exact ⟨le_refl _, hp, hs, cs⟩
            · rw [if_neg cs] at h
              cases hu : looks_like_ublox (buf.drop msg_pos) (buf_size - msg_pos) with
              | none => rw [hu] at h; cases h
              | some ru =>
                rw [hu] at h
                simp only at h
                by_cases cu : ru ≠ LOOKS_NOT_LIKE_GPS_MSG
                · rw [if_pos cu] at h
                  simp only [Option.some.injEq, Prod.mk.injEq] at h
                  obtain ⟨e1, e2, e3⟩ := h
                  subst e1; subst e2; subst e3
                  exact ⟨le_refl _, hp, hu, cu⟩
                · rw [if_neg cu] at h
                  obtain ⟨a, b, c, d⟩ := ih (msg_pos + 1) p t r h
                  exact ⟨by omega, b, c, d⟩
    · rw [if_neg hp] at h
      simp at h

/-- What `find_msg` returns: -1 with `*res` as it was, or a position from
`start_pos` on inside the buffer with a candidate which is truncated and
reaches to the end of the buffer, or with a frame which lies inside the
buffer. -/
theorem find_msg_result {buf : List uint8_t} {start_pos buf_size : Nat}
    {res md : gps_msg_metadata_t} {ret : Int}
    (h : find_msg buf start_pos buf_size res = some (ret, md)) :
    (ret = -1 ∧ md = res) ∨
    ∃ (p : Nat) (r : Int), ret = (p : Int) ∧ start_pos ≤ p ∧ p < buf_size ∧
      detector md.type (buf.drop p) (buf_size - p) = some r ∧
      ((r = LOOKS_LIKE_TRUNCATED_MSG ∧ md.is_truncated = true ∧ md.size = buf_size - p) ∨
       (0 < r ∧ md.is_truncated = false ∧ (md.size : Int) = r ∧ p + md.size ≤ buf_size)) := by
  unfold find_msg at h
  cases hl : find_msg_loop buf buf_size (buf_size - start_pos) start_pos with
  | none => rw [hl] at h; cases h
  | some v =>
    obtain ⟨p, o⟩ := v
    cases o with
    | none =>
      rw [hl] at h
      simp only [Option.some.injEq, Prod.mk.injEq] at h
      exact Or.inl ⟨h.1.symm, h.2.symm⟩
    | some tr =>
      obtain ⟨t, r⟩ := tr
      rw [hl] at h
      simp only at h
      obtain ⟨h1, h2, h3, h4⟩ := find_msg_loop_found _ _ _ _ _ hl
      have hrange := detector_range h3
      right
      by_cases htr : r = LOOKS_LIKE_TRUNCATED_MSG
      · rw [if_pos htr] at h
        simp only [Option.some.injEq, Prod.mk.injEq] at h
        obtain ⟨e1, e2⟩ := h
        subst e1; subst e2
        exact ⟨p, r, rfl, h1, h2, h3, Or.inl ⟨htr, rfl, rfl⟩⟩
      · rw [if_neg htr] at h
        simp only [Option.some.injEq, Prod.mk.injEq] at h
        obtain ⟨e1, e2⟩ := h
        subst e1; subst e2
        simp only [LOOKS_LIKE_TRUNCATED_MSG, LOOKS_NOT_LIKE_GPS_MSG] at htr h4
        have hpos : 0 < r := by omega
        have hle := detector_le h3 hpos
        refine ⟨p, r, rfl, h1, h2, h3, Or.inr ⟨hpos, rfl, ?_, ?_⟩⟩
        · simp only
          omega
        · simp only
          omega

/-- Inside the filled part of a buffer `find_msg` returns. -/
theorem find_msg_total (buf : List uint8_t) (start_pos buf_size : Nat)
    (res : gps_msg_metadata_t) (hlen : buf_size ≤ buf.length) :
    ∃ ret md, find_msg buf start_pos buf_size res = some (ret, md) := by
  rcases find_msg_loop_spec hlen (buf_size - start_pos) start_pos (le_refl _) with
    ⟨q, hq, -⟩ | ⟨p, t, r, hq, -⟩
  · exact ⟨_, _, by unfold find_msg; rw [hq]⟩
  · unfold find_msg
    rw [hq]
    simp only
    split
    · exact ⟨_, _, rfl⟩
    · exact ⟨_, _, rfl⟩
/-! ## usbconverter.c: the loop of `handle_rcvd` -/

/-- The iteration when `find_msg` has found nothing: the whole filled part is
added to the junk counter and the buffer is emptied. -/
theorem handle_rcvd_iter_none {σ : Type}
    (handle : σ → List uint8_t → gps_msg_metadata_t → Option σ)
    (v : rcvd_vars) (s : rcvd_state σ) (h : v.msg_pos < 0) :
    handle_rcvd_iter handle v s
      = some (.done { s with junk := add_junk s.junk s.rxbuf_pos, rxbuf_pos := 0 }) := by
  unfold handle_rcvd_iter
  rw [if_pos h]

/-- The junk counter after the statement `if (pred_msg_pos + pred_msg_len !=
msg_pos) junk += ...`. -/
theorem handle_rcvd_iter_truncated_zero {σ : Type}
    (handle : σ → List uint8_t → gps_msg_metadata_t → Option σ)
    (v : rcvd_vars) (s : rcvd_state σ) (h0 : v.msg_pos = 0)
    (ht : v.msg.is_truncated = true) (hn : s.rxbuf_pos ≠ USB_READER_BUF_SIZE) :
    ∃ junk1, handle_rcvd_iter handle v s = some (.done { s with junk := junk1 }) := by
  unfold handle_rcvd_iter
  rw [if_neg (by omega)]
  simp only [ht, not_true_eq_false, if_false, h0, if_true, hn]
  exact ⟨_, rfl⟩

/-- The iteration at a truncated candidate behind the start of the buffer. -/
theorem handle_rcvd_iter_truncated {σ : Type}
    (handle : σ → List uint8_t → gps_msg_metadata_t → Option σ)
    (v : rcvd_vars) (s : rcvd_state σ) (h0 : 0 < v.msg_pos)
    (ht : v.msg.is_truncated = true) :
    ∃ junk1, handle_rcvd_iter handle v s =
      match c_memcpy s.rx_buf 0 (s.rx_buf.drop v.msg_pos.toNat) v.msg.size with
      | none => none
      | some rx_buf1 =>
        some (.done { s with junk := junk1, rx_buf := rx_buf1, rxbuf_pos := v.msg.size }) := by
  unfold handle_rcvd_iter
  rw [if_neg (by omega)]
  simp only [ht, not_true_eq_false, if_false, if_neg (show ¬ v.msg_pos = 0 by omega)]
  refine ⟨(if v.pred_msg_pos + v.pred_msg_len ≠ v.msg_pos then
      add_junk s.junk (v.msg_pos - v.pred_msg_pos - v.pred_msg_len) else s.junk), ?_⟩
  cases c_memcpy s.rx_buf 0 (s.rx_buf.drop v.msg_pos.toNat) v.msg.size with
  | none => rfl
  | some b => rfl

/-- The iteration at a message: `handle_msg`, then the end of the buffer or the
next `find_msg`. -/
theorem handle_rcvd_iter_msg {σ : Type}
    (handle : σ → List uint8_t → gps_msg_metadata_t → Option σ)
    (v : rcvd_vars) (s : rcvd_state σ) (h0 : 0 ≤ v.msg_pos)
    (ht : v.msg.is_truncated = false) :
    ∃ junk1, handle_rcvd_iter handle v s =
      match handle s.reader (s.rx_buf.drop v.msg_pos.toNat) v.msg with
      | none => none
      | some reader1 =>
        if v.msg_pos + (v.msg.size : Int) = (s.rxbuf_pos : Int) then
          some (.done { s with junk := junk1, reader := reader1, rxbuf_pos := 0 })
        else if ¬ (v.msg_pos + (v.msg.size : Int) < (s.rxbuf_pos : Int)) then none
        else
          match find_msg s.rx_buf (v.msg_pos + (v.msg.size : Int)).toNat s.rxbuf_pos v.msg with
          | none => none
          | some (msg_pos, msg) =>
            some (.next ⟨v.msg_pos, (v.msg.size : Int), msg_pos, msg⟩
              { s with junk := junk1, reader := reader1 }) := by
  unfold handle_rcvd_iter
  rw [if_neg (by omega)]
  simp only [ht, Bool.false_eq_true, not_false_eq_true, if_true]
  refine ⟨(if v.pred_msg_pos + v.pred_msg_len ≠ v.msg_pos then
      add_junk s.junk (v.msg_pos - v.pred_msg_pos - v.pred_msg_len) else s.junk), ?_⟩
  cases handle s.reader (s.rx_buf.drop v.msg_pos.toNat) v.msg with
  | none => rfl
  | some r1 => rfl

/-- The copy `memmove(&rx_buf[0], &rx_buf[p], n)` inside the array. -/
theorem c_memcpy_front {buf : List uint8_t} {p n : Nat} (h : p + n ≤ buf.length) :
    c_memcpy buf 0 (buf.drop p) n = some ((buf.drop p).take n ++ buf.drop n) := by
  unfold c_memcpy
  rw [if_pos ⟨by omega, by rw [List.length_drop]; omega⟩]
  simp

/-- An iteration of the loop of `handle_rcvd` whose local variables are as
`find_msg` has left them.  If the loop goes on, the scan offset
`pred_msg_pos + pred_msg_len` has grown and is inside the filled part, the
buffer and `rxbuf_pos` are as before and the local variables are again as
`find_msg` has left them; if the loop is left, `rxbuf_pos` is below the size of
the buffer; and the iteration ends when `handle_msg` returns. -/
theorem handle_rcvd_iter_spec {σ : Type}
    (handle : σ → List uint8_t → gps_msg_metadata_t → Option σ)
    (v : rcvd_vars) (s : rcvd_state σ) (hok : rcvd_vars_ok v s)
    (hcap : s.rx_buf.length = USB_READER_BUF_SIZE) :
    (∀ v1 s1, handle_rcvd_iter handle v s = some (.next v1 s1) →
      rcvd_vars_ok v1 s1 ∧
      v.pred_msg_pos + v.pred_msg_len < v1.pred_msg_pos + v1.pred_msg_len ∧
      s1.rxbuf_pos = s.rxbuf_pos ∧ s1.rx_buf = s.rx_buf) ∧
    (∀ s1, handle_rcvd_iter handle v s = some (.done s1) →
      s1.rxbuf_pos < USB_READER_BUF_SIZE ∧ s1.rx_buf.length = USB_READER_BUF_SIZE) ∧
    ((∀ r m md, ∃ r1, handle r m md = some r1) →
      ∃ step, handle_rcvd_iter handle v s = some step) := by
  obtain ⟨hlen, hpp, hpl, hoff, res, hf⟩ := hok
  have hU : USB_READER_BUF_SIZE = 8192 := rfl
  rcases find_msg_result hf with ⟨hret, -⟩ | ⟨p, r, hret, hsp, hpn, hdet, hcase⟩
  · have hi := handle_rcvd_iter_none handle v s (by omega)
    rw [hi]
    refine ⟨fun v1 s1 h => (by cases h), fun s1 h => ?_, fun _ => ⟨_, rfl⟩⟩
    simp only [Option.some.injEq, rcvd_step_t.done.injEq] at h
    subst h
    exact ⟨by simp [hU], hcap⟩
  · rcases hcase with ⟨htr, htrunc, hsize⟩ | ⟨hpos, hnt, hsize, hin⟩
    · have hshort := detector_truncated_bound (htr ▸ hdet)
      by_cases hp0 : p = 0
      · have hn : s.rxbuf_pos ≠ USB_READER_BUF_SIZE := by omega
        obtain ⟨j, hi⟩ := handle_rcvd_iter_truncated_zero handle v s (by omega) htrunc hn
        rw [hi]
        refine ⟨fun v1 s1 h => (by cases h), fun s1 h => ?_, fun _ => ⟨_, rfl⟩⟩
        simp only [Option.some.injEq, rcvd_step_t.done.injEq] at h
        subst h
        exact ⟨by simp only; omega, hcap⟩
      · obtain ⟨j, hi⟩ := handle_rcvd_iter_truncated handle v s (by omega) htrunc
        have hcopy : c_memcpy s.rx_buf 0 (s.rx_buf.drop v.msg_pos.toNat) v.msg.size
            = some ((s.rx_buf.drop p).take (s.rxbuf_pos - p)
                ++ s.rx_buf.drop (s.rxbuf_pos - p)) := by
          rw [hret, Int.toNat_ofNat, hsize]
          exact c_memcpy_front (by omega)
        rw [hi, hcopy]
        refine ⟨fun v1 s1 h => (by cases h), fun s1 h => ?_, fun _ => ⟨_, rfl⟩⟩
        simp only [Option.some.injEq, rcvd_step_t.done.injEq] at h
        subst h
        refine ⟨by simp only; omega, ?_⟩
        simp only [List.length_append, List.length_take, List.length_drop]
        omega
    · obtain ⟨j, hi⟩ := handle_rcvd_iter_msg handle v s (by omega) hnt
      rw [hi]
      cases hh : handle s.reader (s.rx_buf.drop v.msg_pos.toNat) v.msg with
      | none =>
        refine ⟨fun v1 s1 h => (by cases h), fun s1 h => (by cases h), fun ht => ?_⟩
        obtain ⟨r1, hr1⟩ := ht s.reader (s.rx_buf.drop v.msg_pos.toNat) v.msg
        rw [hh] at hr1
        cases hr1
      | some r1 =>
        simp only
        by_cases hend : v.msg_pos + (v.msg.size : Int) = (s.rxbuf_pos : Int)
        · rw [if_pos hend]
          refine ⟨fun v1 s1 h => (by cases h), fun s1 h => ?_, fun _ => ⟨_, rfl⟩⟩
          simp only [Option.some.injEq, rcvd_step_t.done.injEq] at h
          subst h
          exact ⟨by simp [hU], hcap⟩
        · rw [if_neg hend, if_neg (by omega)]
          obtain ⟨ret2, md2, hf2⟩ := find_msg_total s.rx_buf
            (v.msg_pos + (v.msg.size : Int)).toNat s.rxbuf_pos v.msg hlen
          rw [hf2]
          refine ⟨fun v1 s1 h => ?_, fun s1 h => (by cases h), fun _ => ⟨_, rfl⟩⟩
          simp only [Option.some.injEq, rcvd_step_t.next.injEq] at h
          obtain ⟨e1, e2⟩ := h
          subst e1; subst e2
          refine ⟨⟨hlen, by simp only; omega, by simp only; omega, by simp only; omega,
            v.msg, hf2⟩, by simp only; omega, rfl, rfl⟩

/-- An iteration of the loop of `handle_rcvd` which does not end: the candidate
is a message, not truncated, and it is the call of `handle_msg` on it which
does not return.  The assertion of the loop and the calls of `find_msg` and
`memmove` always return. -/
theorem handle_rcvd_iter_stops {σ : Type}
    (handle : σ → List uint8_t → gps_msg_metadata_t → Option σ)
    (v : rcvd_vars) (s : rcvd_state σ) (hok : rcvd_vars_ok v s)
    (h : handle_rcvd_iter handle v s = none) :
    0 ≤ v.msg_pos ∧ v.msg.is_truncated = false ∧
    handle s.reader (s.rx_buf.drop v.msg_pos.toNat) v.msg = none := by
  obtain ⟨hlen, hpp, hpl, hoff, res, hf⟩ := hok
  rcases find_msg_result hf with ⟨hret, -⟩ | ⟨p, r, hret, hsp, hpn, hdet, hcase⟩
  · rw [handle_rcvd_iter_none handle v s (by omega)] at h
    cases h
  · rcases hcase with ⟨htr, htrunc, hsize⟩ | ⟨hpos, hnt, hsize, hin⟩
    · by_cases hp0 : p = 0
      · by_cases hn : s.rxbuf_pos = USB_READER_BUF_SIZE
        · have hshort := detector_truncated_bound (htr ▸ hdet)
          have hU : USB_READER_BUF_SIZE = 8192 := rfl
          omega
        · obtain ⟨j, hi⟩ := handle_rcvd_iter_truncated_zero handle v s (by omega) htrunc hn
          rw [hi] at h
          cases h
      · obtain ⟨j, hi⟩ := handle_rcvd_iter_truncated handle v s (by omega) htrunc
        have hcopy : c_memcpy s.rx_buf 0 (s.rx_buf.drop v.msg_pos.toNat) v.msg.size
            = some ((s.rx_buf.drop p).take (s.rxbuf_pos - p)
                ++ s.rx_buf.drop (s.rxbuf_pos - p)) := by
          rw [hret, Int.toNat_ofNat, hsize]
          exact c_memcpy_front (by omega)
        rw [hi, hcopy] at h
        cases h
    · obtain ⟨j, hi⟩ := handle_rcvd_iter_msg handle v s (by omega) hnt
      rw [hi] at h
      cases hh : handle s.reader (s.rx_buf.drop v.msg_pos.toNat) v.msg with
      | none => exact ⟨by omega, hnt, rfl⟩
      | some r1 =>
        rw [hh] at h
        simp only at h
        by_cases hend : v.msg_pos + (v.msg.size : Int) = (s.rxbuf_pos : Int)
        · rw [if_pos hend] at h
          cases h
        · rw [if_neg hend, if_neg (by omega)] at h
          obtain ⟨ret2, md2, hf2⟩ := find_msg_total s.rx_buf
            (v.msg_pos + (v.msg.size : Int)).toNat s.rxbuf_pos v.msg hlen
          rw [hf2] at h
          cases h

/-- The loop of `handle_rcvd`, for every `handle_msg`, with fuel for as many
iterations as bytes lie between the scan offset and the end of the filled
part: the loop is left, with `rxbuf_pos` below the size of the buffer, or a
call of `handle_msg` on a message which `find_msg` has found in the buffer, not
truncated, does not return.  The fuel is never used up. -/
theorem handle_rcvd_loop_outcome {σ : Type}
    (handle : σ → List uint8_t → gps_msg_metadata_t → Option σ) :
    ∀ (fuel : Nat) (v : rcvd_vars) (s : rcvd_state σ), rcvd_vars_ok v s →
      s.rx_buf.length = USB_READER_BUF_SIZE →
      (s.rxbuf_pos : Int) - (v.pred_msg_pos + v.pred_msg_len) ≤ (fuel : Int) →
      (∃ s1, handle_rcvd_loop handle fuel v s = some s1 ∧
        s1.rxbuf_pos < USB_READER_BUF_SIZE ∧ s1.rx_buf.length = USB_READER_BUF_SIZE) ∨
      (handle_rcvd_loop handle fuel v s = none ∧
        ∃ (r : σ) (start : Nat) (res md : gps_msg_metadata_t) (p : Int),
          find_msg s.rx_buf start s.rxbuf_pos res = some (p, md) ∧ 0 ≤ p ∧
          md.is_truncated = false ∧ handle r (s.rx_buf.drop p.toNat) md = none) := by
  intro fuel
  induction fuel with
  | zero =>
    intro v s hok _ hf
    obtain ⟨-, -, -, hoff, -⟩ := hok
    omega
  | succ f ih =>
    intro v s hok hcap hf
    obtain ⟨hnext, hdone, -⟩ := handle_rcvd_iter_spec handle v s hok hcap
    cases hstep : handle_rcvd_iter handle v s with
    | none =>
      obtain ⟨h0, hnt, hh⟩ := handle_rcvd_iter_stops handle v s hok hstep
      obtain ⟨-, -, -, -, res, hfind⟩ := hok
      refine Or.inr ⟨by rw [handle_rcvd_loop, hstep], s.reader, _, res, v.msg, v.msg_pos,
        hfind, h0, hnt, hh⟩
    | some step =>
      cases step with
      | done s1 =>
        refine Or.inl ⟨s1, ?_, hdone s1 hstep⟩
        rw [handle_rcvd_loop, hstep]
      | next v1 s1 =>
        obtain ⟨hok1, hgrow, hpos1, hbuf1⟩ := hnext v1 s1 hstep
        rcases ih v1 s1 hok1 (by rw [hbuf1]; exact hcap) (by rw [hpos1]; omega) with
          ⟨s2, h2, h3⟩ | ⟨h2, r, start, res, md, p, hfind, h0, hnt, hh⟩
        · refine Or.inl ⟨s2, ?_, h3⟩
          rw [handle_rcvd_loop, hstep]
          exact h2
        · rw [hbuf1, hpos1] at hfind
          rw [hbuf1] at hh
          refine Or.inr ⟨?_, r, start, res, md, p, hfind, h0, hnt, hh⟩
          rw [handle_rcvd_loop, hstep]
          exact h2

/-- The loop of `handle_rcvd` ends within as many iterations as bytes lie
between the scan offset and the end of the filled part. -/
theorem handle_rcvd_loop_ends {σ : Type}
    (handle : σ → List uint8_t → gps_msg_metadata_t → Option σ)
    (htotal : ∀ r m md, ∃ r1, handle r m md = some r1) :
    ∀ (fuel : Nat) (v : rcvd_vars) (s : rcvd_state σ), rcvd_vars_ok v s →
      s.rx_buf.length = USB_READER_BUF_SIZE →
      (s.rxbuf_pos : Int) - (v.pred_msg_pos + v.pred_msg_len) ≤ (fuel : Int) →
      ∃ s1, handle_rcvd_loop handle fuel v s = some s1 ∧
        s1.rxbuf_pos < USB_READER_BUF_SIZE ∧ s1.rx_buf.length = USB_READER_BUF_SIZE := by
  intro fuel
  induction fuel with
  | zero =>
    intro v s hok _ hf
    obtain ⟨-, -, -, hoff, -⟩ := hok
    omega
  | succ f ih =>
    intro v s hok hcap hf
    obtain ⟨hnext, hdone, htot⟩ := handle_rcvd_iter_spec handle v s hok hcap
    obtain ⟨step, hstep⟩ := htot htotal
    cases step with
    | done s1 =>
      refine ⟨s1, ?_, hdone s1 hstep⟩
      rw [handle_rcvd_loop, hstep]
    | next v1 s1 =>
      obtain ⟨hok1, hgrow, hpos1, hbuf1⟩ := hnext v1 s1 hstep
      obtain ⟨s2, h2, h3⟩ := ih v1 s1 hok1 (by rw [hbuf1]; exact hcap) (by rw [hpos1]; omega)
      refine ⟨s2, ?_, h3⟩
      rw [handle_rcvd_loop, hstep]
      exact h2

/-- C39.  `handle_rcvd` terminates, for every `handle_msg` and every buffer of
8192 bytes of which at most 8192 are filled.  Within the `rxbuf_pos + 1`
iterations which the embedding allows, the call returns, and on exit
`rxbuf_pos` is below 8192; or a call of `handle_msg`, on a message which
`find_msg` has found in the buffer and which is not truncated, does not return
(an assertion in a decoder stops the program).  The loop itself never fails to
end: when every call of `handle_msg` returns, `handle_rcvd` returns.  In every
iteration which is followed by another one the scan offset
`pred_msg_pos + pred_msg_len` grows and stays below `rxbuf_pos`, which does not
change. -/
theorem handle_rcvd_terminates {σ : Type}
    (handle : σ → List uint8_t → gps_msg_metadata_t → Option σ)
    (msg0 : gps_msg_metadata_t) (s : rcvd_state σ)
    (hcap : s.rx_buf.length = USB_READER_BUF_SIZE)
    (hpos : s.rxbuf_pos ≤ USB_READER_BUF_SIZE) :
    ((∃ s1, handle_rcvd handle msg0 s = some s1 ∧ s1.rxbuf_pos < USB_READER_BUF_SIZE) ∨
      (handle_rcvd handle msg0 s = none ∧
        ∃ (r : σ) (start : Nat) (res md : gps_msg_metadata_t) (p : Int),
          find_msg s.rx_buf start s.rxbuf_pos res = some (p, md) ∧ 0 ≤ p ∧
          md.is_truncated = false ∧ handle r (s.rx_buf.drop p.toNat) md = none)) ∧
    ((∀ r m md, ∃ r1, handle r m md = some r1) →
      ∃ s1, handle_rcvd handle msg0 s = some s1 ∧ s1.rxbuf_pos < USB_READER_BUF_SIZE) ∧
    (∀ (v v1 : rcvd_vars) (s0 s1 : rcvd_state σ), rcvd_vars_ok v s0 →
      s0.rx_buf.length = USB_READER_BUF_SIZE →
      handle_rcvd_iter handle v s0 = some (.next v1 s1) →
      v.pred_msg_pos + v.pred_msg_len < v1.pred_msg_pos + v1.pred_msg_len ∧
      v1.pred_msg_pos + v1.pred_msg_len < (s1.rxbuf_pos : Int) ∧
      s1.rxbuf_pos = s0.rxbuf_pos) := by
  have hmain : (∃ s1, handle_rcvd handle msg0 s = some s1 ∧
        s1.rxbuf_pos < USB_READER_BUF_SIZE) ∨
      (handle_rcvd handle msg0 s = none ∧
        ∃ (r : σ) (start : Nat) (res md : gps_msg_metadata_t) (p : Int),
          find_msg s.rx_buf start s.rxbuf_pos res = some (p, md) ∧ 0 ≤ p ∧
          md.is_truncated = false ∧ handle r (s.rx_buf.drop p.toNat) md = none) := by
    unfold handle_rcvd
    by_cases h0 : s.rxbuf_pos = 0
    · rw [if_pos h0]
      exact Or.inl ⟨s, rfl, by rw [h0]; decide⟩
    · rw [if_neg h0]
      obtain ⟨ret, md, hf⟩ := find_msg_total s.rx_buf 0 s.rxbuf_pos msg0 (by omega)
      rw [hf]
      rcases handle_rcvd_loop_outcome handle (s.rxbuf_pos + 1) ⟨0, 0, ret, md⟩ s
        ⟨by omega, le_refl _, le_refl _, by simp only; omega, msg0, hf⟩ hcap
        (by simp only; omega) with ⟨s1, h1, h2, -⟩ | ⟨h1, hstop⟩
      · exact Or.inl ⟨s1, h1, h2⟩
      · exact Or.inr ⟨h1, hstop⟩
  refine ⟨hmain, fun htotal => ?_, ?_⟩
  · rcases hmain with hret | ⟨-, r, start, res, md, p, -, -, -, hh⟩
    · exact hret
    · obtain ⟨r1, hr1⟩ := htotal r (s.rx_buf.drop p.toNat) md
      rw [hh] at hr1
      cases hr1
  · intro v v1 s0 s1 hok hc hstep
    obtain ⟨hok1, hgrow, hp, -⟩ := (handle_rcvd_iter_spec handle v s0 hok hc).1 v1 s1 hstep
    exact ⟨hgrow, hok1.2.2.2.1, hp⟩

theorem rx_buf_of_length {head : List uint8_t} (h : head.length ≤ USB_READER_BUF_SIZE) :
    (rx_buf_of head).length = USB_READER_BUF_SIZE := by
  unfold rx_buf_of
  rw [List.length_append, List.length_replicate]
  omega

set_option maxRecDepth 100000 in
/-- The loop of `handle_rcvd` with the `handle_msg` of the program on a buffer
which holds the GGA sentence and the RMC sentence of the fix assembly example,
137 bytes: both are handed to `handle_msg`, and the call returns with the
buffer empty and no junk. -/
theorem handle_rcvd_example_run :
    (handle_rcvd
      (handle_msg_call (c_parsers c_num_ieee (zero_locals c_lib_ieee)) c_num_ieee epoch_tm
        (zero_status c_lib_ieee))
      ⟨.MSG_TYPE_NMEA, 0, false⟩
      ⟨rx_buf_of (example_gga ++ example_rmc), 137, 0, zero_parser_ctx c_lib_ieee⟩).map
      (fun s => (s.rxbuf_pos, s.junk, s.reader.fix.gpgga_active, s.reader.fix.gprmc_active))
      = some (0, 0, true, true) := by
  decide!

set_option maxRecDepth 100000 in
/-- The loop of `handle_rcvd` with the `handle_msg` of the program on a buffer
which holds a u-blox frame with an empty payload, 8 bytes: `handle_msg` does
not return, and so `handle_rcvd` does not. -/
theorem handle_rcvd_example_stop :
    (handle_rcvd
      (handle_msg_call (c_parsers c_num_ieee (zero_locals c_lib_ieee)) c_num_ieee epoch_tm
        (zero_status c_lib_ieee))
      ⟨.MSG_TYPE_NMEA, 0, false⟩
      ⟨rx_buf_of (ublox_frame 0x0a 0x04 []), 8, 0, zero_parser_ctx c_lib_ieee⟩).isNone
      = true := by
  decide!

set_option maxRecDepth 100000 in
theorem example_buffer_length :
    (rx_buf_of (example_gga ++ example_rmc)).length = USB_READER_BUF_SIZE :=
  rx_buf_of_length (by decide!)

theorem handle_rcvd_terminates_witness :
    (rx_buf_of (example_gga ++ example_rmc)).length = USB_READER_BUF_SIZE ∧
    137 ≤ USB_READER_BUF_SIZE ∧
    ((∃ s1, handle_rcvd
        (handle_msg_call (c_parsers c_num_ieee (zero_locals c_lib_ieee)) c_num_ieee epoch_tm
          (zero_status c_lib_ieee))
        ⟨.MSG_TYPE_NMEA, 0, false⟩
        ⟨rx_buf_of (example_gga ++ example_rmc), 137, 0, zero_parser_ctx c_lib_ieee⟩ = some s1 ∧
        s1.rxbuf_pos < USB_READER_BUF_SIZE) ∨
      (handle_rcvd
        (handle_msg_call (c_parsers c_num_ieee (zero_locals c_lib_ieee)) c_num_ieee epoch_tm
          (zero_status c_lib_ieee))
        ⟨.MSG_TYPE_NMEA, 0, false⟩
        ⟨rx_buf_of (example_gga ++ example_rmc), 137, 0, zero_parser_ctx c_lib_ieee⟩ = none ∧
        ∃ (r : nmea_parser_t c_lib_ieee) (start : Nat) (res md : gps_msg_metadata_t) (p : Int),
          find_msg (rx_buf_of (example_gga ++ example_rmc)) start 137 res = some (p, md) ∧
          0 ≤ p ∧ md.is_truncated = false ∧
          handle_msg_call (c_parsers c_num_ieee (zero_locals c_lib_ieee)) c_num_ieee epoch_tm
            (zero_status c_lib_ieee) r ((rx_buf_of (example_gga ++ example_rmc)).drop p.toNat) md
            = none)) ∧
    (handle_rcvd
      (handle_msg_call (c_parsers c_num_ieee (zero_locals c_lib_ieee)) c_num_ieee epoch_tm
        (zero_status c_lib_ieee))
      ⟨.MSG_TYPE_NMEA, 0, false⟩
      ⟨rx_buf_of (example_gga ++ example_rmc), 137, 0, zero_parser_ctx c_lib_ieee⟩).map
      (fun s => (s.rxbuf_pos, s.junk, s.reader.fix.gpgga_active, s.reader.fix.gprmc_active))
      = some (0, 0, true, true) ∧
    (handle_rcvd
      (handle_msg_call (c_parsers c_num_ieee (zero_locals c_lib_ieee)) c_num_ieee epoch_tm
        (zero_status c_lib_ieee))
      ⟨.MSG_TYPE_NMEA, 0, false⟩
      ⟨rx_buf_of (ublox_frame 0x0a 0x04 []), 8, 0, zero_parser_ctx c_lib_ieee⟩).isNone
      = true :=
  ⟨example_buffer_length, by decide,
    (handle_rcvd_terminates
      (handle_msg_call (c_parsers c_num_ieee (zero_locals c_lib_ieee)) c_num_ieee epoch_tm
        (zero_status c_lib_ieee))
      ⟨.MSG_TYPE_NMEA, 0, false⟩
      ⟨rx_buf_of (example_gga ++ example_rmc), 137, 0, zero_parser_ctx c_lib_ieee⟩
      example_buffer_length (by decide)).1,
    handle_rcvd_example_run, handle_rcvd_example_stop⟩

/-- C32.  An iteration of the loop of `handle_rcvd` whose local variables are
as `find_msg` has left them, with a truncated candidate at `msg_pos = p`.  For
`p > 0` the loop is left with `rxbuf_pos = n - p`, where `n` is the old
`rxbuf_pos`, and the first `n - p` bytes of the buffer are the old bytes
`p .. n-1` in order; for `p = 0` and a buffer which is not full the loop is left
with the buffer and `rxbuf_pos` as they were. -/
theorem handle_rcvd_truncated {σ : Type}
    (handle : σ → List uint8_t → gps_msg_metadata_t → Option σ)
    (v : rcvd_vars) (s : rcvd_state σ) (hok : rcvd_vars_ok v s)
    (h0 : 0 ≤ v.msg_pos) (ht : v.msg.is_truncated = true) :
    (0 < v.msg_pos →
      ∃ s1, handle_rcvd_iter handle v s = some (.done s1) ∧
        (∀ fuel, handle_rcvd_loop handle (fuel + 1) v s = some s1) ∧
        s1.rxbuf_pos = s.rxbuf_pos - v.msg_pos.toNat ∧
        s1.rx_buf.take (s.rxbuf_pos - v.msg_pos.toNat)
          = (s.rx_buf.drop v.msg_pos.toNat).take (s.rxbuf_pos - v.msg_pos.toNat) ∧
        s1.rx_buf.length = s.rx_buf.length ∧ s1.reader = s.reader) ∧
    (v.msg_pos = 0 → s.rxbuf_pos ≠ USB_READER_BUF_SIZE →
      ∃ s1, handle_rcvd_iter handle v s = some (.done s1) ∧
        (∀ fuel, handle_rcvd_loop handle (fuel + 1) v s = some s1) ∧
        s1.rxbuf_pos = s.rxbuf_pos ∧ s1.rx_buf = s.rx_buf ∧ s1.reader = s.reader) := by
  obtain ⟨hlen, hpp, hpl, hoff, res, hf⟩ := hok
  rcases find_msg_result hf with ⟨hret, -⟩ | ⟨p, r, hret, hsp, hpn, hdet, hcase⟩
  · omega
  · rcases hcase with ⟨htr, htrunc, hsize⟩ | ⟨hpos, hnt, hsize, hin⟩
    · constructor
      · intro hp
        obtain ⟨j, hi⟩ := handle_rcvd_iter_truncated handle v s hp ht
        have hcopy : c_memcpy s.rx_buf 0 (s.rx_buf.drop v.msg_pos.toNat) v.msg.size
            = some ((s.rx_buf.drop p).take (s.rxbuf_pos - p)
                ++ s.rx_buf.drop (s.rxbuf_pos - p)) := by
          rw [hret, Int.toNat_ofNat, hsize]
          exact c_memcpy_front (by omega)
        rw [hcopy] at hi
        refine ⟨_, hi, fun fuel => by rw [handle_rcvd_loop, hi], ?_, ?_, ?_, rfl⟩
        · simp only [hsize, hret, Int.toNat_ofNat]
        · simp only [hret, Int.toNat_ofNat]
          rw [List.take_append_of_le_length]
          · rw [List.take_take, Nat.min_self]
          · rw [List.length_take, List.length_drop]
            omega
        · simp only [List.length_append, List.length_take, List.length_drop]
          omega
      · intro hp hn
        obtain ⟨j, hi⟩ := handle_rcvd_iter_truncated_zero handle v s hp ht hn
        exact ⟨_, hi, fun fuel => by rw [handle_rcvd_loop, hi], rfl, rfl, rfl⟩
    · rw [hnt] at ht
      cases ht

set_option maxRecDepth 100000 in
/-- In the buffer `x$K` of 3 bytes `find_msg` finds a truncated NMEA candidate
at offset 1. -/
theorem find_msg_truncated_example :
    find_msg (rx_buf_of (text_bytes "x$K")) ((0 : Int) + 0).toNat 3 ⟨.MSG_TYPE_NMEA, 0, false⟩
      = some (1, ⟨.MSG_TYPE_NMEA, 2, true⟩) := by
  decide!

theorem handle_rcvd_truncated_witness :
    rcvd_vars_ok ⟨0, 0, 1, ⟨.MSG_TYPE_NMEA, 2, true⟩⟩
      (⟨rx_buf_of (text_bytes "x$K"), 3, 0, []⟩ : rcvd_state (List gps_msg_metadata_t)) ∧
    ∃ s1, handle_rcvd_iter record_msg ⟨0, 0, 1, ⟨.MSG_TYPE_NMEA, 2, true⟩⟩
        ⟨rx_buf_of (text_bytes "x$K"), 3, 0, []⟩ = some (.done s1) ∧
      (∀ fuel, handle_rcvd_loop record_msg (fuel + 1) ⟨0, 0, 1, ⟨.MSG_TYPE_NMEA, 2, true⟩⟩
        ⟨rx_buf_of (text_bytes "x$K"), 3, 0, []⟩ = some s1) ∧
      s1.rxbuf_pos = 3 - 1 ∧
      s1.rx_buf.take (3 - 1) = ((rx_buf_of (text_bytes "x$K")).drop 1).take (3 - 1) ∧
      s1.rx_buf.length = (rx_buf_of (text_bytes "x$K")).length ∧ s1.reader = [] :=
  have hok : rcvd_vars_ok ⟨0, 0, 1, ⟨.MSG_TYPE_NMEA, 2, true⟩⟩
      (⟨rx_buf_of (text_bytes "x$K"), 3, 0, []⟩ : rcvd_state (List gps_msg_metadata_t)) :=
    ⟨by rw [rx_buf_of_length (by decide)]; decide, by decide, by decide, by decide,
      ⟨.MSG_TYPE_NMEA, 0, false⟩, find_msg_truncated_example⟩
  ⟨hok, (handle_rcvd_truncated record_msg ⟨0, 0, 1, ⟨.MSG_TYPE_NMEA, 2, true⟩⟩
      ⟨rx_buf_of (text_bytes "x$K"), 3, 0, []⟩ hok (by decide) rfl).1 (by decide)⟩

/-- C40.  A verdict "truncated" needs a short window: `looks_like_nmea`
answers it only for `max_len ≤ 513`, `looks_like_sirf` only for
`max_len ≤ 1030`, `looks_like_ublox` only for `max_len ≤ 4103`.  So a truncated
candidate which `find_msg` reports in a buffer filled with 8192 bytes starts at
offset 4089 or behind, and at the head of the loop of `handle_rcvd` the test
`msg_pos == 0` of a truncated candidate with `rxbuf_pos == 8192`, which guards
the discard of one byte, never holds. -/
theorem truncated_only_short :
    (∀ (msg : List uint8_t) (max_len : Nat),
      looks_like_nmea msg max_len = some LOOKS_LIKE_TRUNCATED_MSG → max_len ≤ 513) ∧
    (∀ (msg : List uint8_t) (max_len : Nat),
      looks_like_sirf msg max_len = some LOOKS_LIKE_TRUNCATED_MSG → max_len ≤ 1030) ∧
    (∀ (msg : List uint8_t) (max_len : Nat),
      looks_like_ublox msg max_len = some LOOKS_LIKE_TRUNCATED_MSG → max_len ≤ 4103) ∧
    (∀ (buf : List uint8_t) (start_pos : Nat) (res md : gps_msg_metadata_t) (msg_pos : Int),
      find_msg buf start_pos USB_READER_BUF_SIZE res = some (msg_pos, md) →
      0 ≤ msg_pos → md.is_truncated = true → 4089 ≤ msg_pos) ∧
    (∀ (σ : Type) (v : rcvd_vars) (s : rcvd_state σ), rcvd_vars_ok v s →
      s.rxbuf_pos = USB_READER_BUF_SIZE → 0 ≤ v.msg_pos →
      ¬ (v.msg.is_truncated = true ∧ v.msg_pos = 0)) := by
  have hU : USB_READER_BUF_SIZE = 8192 := rfl
  have key : ∀ (buf : List uint8_t) (start_pos : Nat) (res md : gps_msg_metadata_t)
      (msg_pos : Int), find_msg buf start_pos USB_READER_BUF_SIZE res = some (msg_pos, md) →
      0 ≤ msg_pos → md.is_truncated = true → 4089 ≤ msg_pos := by
    intro buf start_pos res md msg_pos hf h0 ht
    rcases find_msg_result hf with ⟨hret, -⟩ | ⟨p, r, hret, -, hpn, hdet, hcase⟩
    · omega
    · rcases hcase with ⟨htr, -, -⟩ | ⟨-, hnt, -⟩
      · have := detector_truncated_bound (htr ▸ hdet)
        omega
      · rw [hnt] at ht
        cases ht
  refine ⟨fun _ _ h => nmea_truncated_bound h, fun _ _ h => sirf_truncated_bound h,
    fun _ _ h => ublox_truncated_bound h, key, ?_⟩
  intro σ v s hok hfull h0 hc
  obtain ⟨-, -, -, -, res, hf⟩ := hok
  rw [hfull] at hf
  have := key _ _ _ _ _ hf h0 hc.1
  omega

theorem truncated_only_short_witness :
    looks_like_nmea (text_bytes "$K") 2 = some LOOKS_LIKE_TRUNCATED_MSG ∧ 2 ≤ 513 :=
  ⟨by decide, truncated_only_short.1 (text_bytes "$K") 2 (by decide)⟩

/-! ## usbconverter.c: the junk counter -/

set_option maxRecDepth 100000 in
/-- C31 fails for a message which is followed by junk.  The buffer holds the
sentence `$K` CR LF and the byte `x`, 5 bytes.  `handle_rcvd` hands the
sentence of 4 bytes to `handle_msg`; the next `find_msg` finds nothing, and
the branch `msg_pos < 0` adds the whole `rxbuf_pos = 5` to the junk counter and
empties the buffer.  The junk counter has grown by 5, one message of size 4 was
dispatched and 0 bytes are retained: the sum is 9, not 5. -/
theorem handle_rcvd_junk_overcount :
    looks_like_nmea (text_bytes "$K\r\nx") 5 = some 4 ∧
    (handle_rcvd record_msg ⟨.MSG_TYPE_NMEA, 0, false⟩
        ⟨rx_buf_of (text_bytes "$K\r\nx"), 5, 0, []⟩).map
      (fun s => (s.junk, s.reader, s.rxbuf_pos))
      = some (5, [⟨.MSG_TYPE_NMEA, 4, false⟩], 0) ∧
    (handle_rcvd record_msg ⟨.MSG_TYPE_NMEA, 0, false⟩
        ⟨rx_buf_of (text_bytes "$K\r\nx"), 5, 0, []⟩).map
      (fun s => s.junk + (s.reader.map (fun m => m.size)).sum + s.rxbuf_pos)
      = some 9 ∧
    9 ≠ 5 := by
  refine ⟨by decide!, by decide!, by decide!, by decide⟩
/-! ## sirf.c: the longest frames -/

/-- The verdict of `looks_like_sirf` on a frame built from a payload. -/
theorem sirf_frame_verdict (payload rest : List uint8_t) (max_len : Nat)
    (hn : payload.length ≤ 1023) (hm : payload.length + 8 ≤ max_len) :
    looks_like_sirf (sirf_frame payload ++ rest) max_len
      = some ((payload.length : Int) + 8) := by
  have hF : sirf_frame payload ++ rest
      = [0xa0, 0xa2, byte (payload.length / 256), byte (payload.length % 256)] ++ payload ++
        [byte (sirf_checksum payload / 256), byte (sirf_checksum payload % 256), 0xb0, 0xb3]
        ++ rest := rfl
  have hck : sirf_checksum payload < 32768 := by
    rw [sirf_checksum_eq]; exact Nat.mod_lt _ (by norm_num)
  have h0 : rd (sirf_frame payload ++ rest) 0 = some 0xa0 := by
    rw [hF, rd_layout_head _ _ _ _ (by simp)]; rfl
  have h1 : rd (sirf_frame payload ++ rest) 1 = some 0xa2 := by
    rw [hF, rd_layout_head _ _ _ _ (by simp)]; rfl
  have h2 : rd (sirf_frame payload ++ rest) 2 = some (payload.length / 256 % 256) := by
    rw [hF, rd_layout_head _ _ _ _ (by simp)]; rfl
  have h3 : rd (sirf_frame payload ++ rest) (2 + 1) = some (payload.length % 256 % 256) := by
    rw [hF, rd_layout_head _ _ _ _ (by simp)]; rfl
  have t0 : rd (sirf_frame payload ++ rest) (4 + payload.length)
      = some (sirf_checksum payload / 256 % 256) := by
    have := rd_layout_tail [0xa0, 0xa2, byte (payload.length / 256), byte (payload.length % 256)]
      payload [byte (sirf_checksum payload / 256), byte (sirf_checksum payload % 256), 0xb0, 0xb3]
      rest (j := 0) (by simp)
    rw [hF]; simpa using this
  have t1 : rd (sirf_frame payload ++ rest) (4 + payload.length + 1)
      = some (sirf_checksum payload % 256 % 256) := by
    have := rd_layout_tail [0xa0, 0xa2, byte (payload.length / 256), byte (payload.length % 256)]
      payload [byte (sirf_checksum payload / 256), byte (sirf_checksum payload % 256), 0xb0, 0xb3]
      rest (j := 1) (by simp)
    rw [hF]; exact this
  have t2 : rd (sirf_frame payload ++ rest) (4 + payload.length + 2) = some 0xb0 := by
    have := rd_layout_tail [0xa0, 0xa2, byte (payload.length / 256), byte (payload.length % 256)]
      payload [byte (sirf_checksum payload / 256), byte (sirf_checksum payload % 256), 0xb0, 0xb3]
      rest (j := 2) (by simp)
    rw [hF]; exact this
  have t3 : rd (sirf_frame payload ++ rest) (4 + payload.length + 3) = some 0xb3 := by
    have := rd_layout_tail [0xa0, 0xa2, byte (payload.length / 256), byte (payload.length % 256)]
      payload [byte (sirf_checksum payload / 256), byte (sirf_checksum payload % 256), 0xb0, 0xb3]
      rest (j := 3) (by simp)
    rw [hF]; exact this
  have hlen : get2u (sirf_frame payload ++ rest) 2 = some payload.length := by
    rw [get2u_eq h2 h3]; congr 1; omega
  have hcs : get2u (sirf_frame payload ++ rest) (4 + payload.length)
      = some (sirf_checksum payload) := by
    rw [get2u_eq t0 t1]; congr 1; omega
  have hsum : sirf_csum (sirf_frame payload ++ rest) 4 payload.length
      = some (sirf_checksum payload) := by
    rw [sirf_csum_eq (by rw [hF]; simp; omega), sirf_checksum_eq]
    have := seg_layout [0xa0, 0xa2, byte (payload.length / 256), byte (payload.length % 256)]
      payload [byte (sirf_checksum payload / 256), byte (sirf_checksum payload % 256), 0xb0, 0xb3]
      rest
    rw [hF]
    simp only [List.length_cons, List.length_nil] at this
    rw [this]
  unfold looks_like_sirf
  rw [h0]
  simp only [ne_eq, not_true_eq_false, if_false]
  rw [if_neg (by omega), h1]
  simp only [ne_eq, not_true_eq_false, if_false, hlen]
  rw [if_neg (by simp [SIRF_MAX]; omega), if_neg (by omega), t2]
  simp only [ne_eq, not_true_eq_false, if_false, t3, hcs, hsum]
  simp

/-- A SiRF verdict other than 0 and -1 at offset 0: `find_msg` returns offset 0
and the frame with that size. -/
theorem find_msg_sirf_at_start {buf : List uint8_t} {n : Nat} {r : Int}
    (res : gps_msg_metadata_t) (hn : 0 < n)
    (h : looks_like_sirf buf n = some r) (hr0 : r ≠ LOOKS_NOT_LIKE_GPS_MSG)
    (hr1 : r ≠ LOOKS_LIKE_TRUNCATED_MSG) :
    find_msg buf 0 n res
      = some (0, { type := .MSG_TYPE_SIRF, size := r.toNat, is_truncated := false }) := by
  obtain ⟨fuel, hf⟩ : ∃ fuel, n - 0 = fuel + 1 := ⟨n - 1, by omega⟩
  have h0 := sirf_lead h hr0
  have hnm : looks_like_nmea buf n = some LOOKS_NOT_LIKE_GPS_MSG := by
    unfold looks_like_nmea
    rw [h0]
    simp
  have hloop : find_msg_loop buf n (n - 0) 0
      = some (0, some (msg_type_t.MSG_TYPE_SIRF, r)) := by
    rw [hf, find_msg_loop, if_pos hn, List.drop_zero, Nat.sub_zero, hnm]
    simp only [ne_eq, not_true_eq_false, if_false, h, if_pos hr0]
  unfold find_msg
  rw [hloop]
  simp only [if_neg hr1]
  rfl

/-- C38 fails at 1024 bytes.  The frame `A0 A2 03 F8`, 1016 zero bytes of
payload, the checksum `00 00`, `B0 B3` passes the test
`payload_length > SIRF_MAX`: `looks_like_sirf` returns 1024 and `find_msg`
hands the frame on with size 1024, above `SIRF_MAX = 1023`, so the assertion
`msg_size <= SIRF_MAX` at the entry of `put_sirf_msg` fails. -/
theorem sirf_cap_exceeded (res : gps_msg_metadata_t) :
    looks_like_sirf (sirf_frame (List.replicate 1016 0)) 1024 = some 1024 ∧
    find_msg (sirf_frame (List.replicate 1016 0)) 0 1024 res
      = some (0, { type := .MSG_TYPE_SIRF, size := 1024, is_truncated := false }) ∧
    SIRF_MAX < 1024 := by
  have h := sirf_frame_verdict (List.replicate 1016 0) [] 1024
    (by rw [List.length_replicate]; omega) (by rw [List.length_replicate])
  rw [List.append_nil, List.length_replicate] at h
  have h2 : looks_like_sirf (sirf_frame (List.replicate 1016 0)) 1024 = some 1024 := h
  have hf := find_msg_sirf_at_start res (by omega) h2
    (by simp only [LOOKS_NOT_LIKE_GPS_MSG]; omega)
    (by simp only [LOOKS_LIKE_TRUNCATED_MSG]; omega)
  exact ⟨h2, hf, by simp only [SIRF_MAX]; omega⟩
/-! ## nmea.c: ZDA, GLL, GSA and VTG sentences -/

/-- From the flag of success of a parser to the record. -/
theorem record_of_isSome {α β : Type} (res : Option (Option α × β))
    (h : res.map (fun r => r.1.isSome) = some true) :
    ∃ g, res.map (fun r => r.1) = some (some g) := by
  cases res with
  | none => cases h
  | some r =>
    obtain ⟨o, b⟩ := r
    cases o with
    | none => simp at h
    | some g => exact ⟨g, rfl⟩

theorem parse_zda_status {M : c_lib} (K : c_num M) (U : nmea_locals M) (msg : List uint8_t)
    (msg_size : Nat) (s t : gps_msg_status_t M) (g : nmea_gpzda_t)
    (h : (parse_zda K U msg msg_size s).map (fun r => r.1) = some (some g)) :
    parse_zda K U msg msg_size t = some (some g, { t with is_valid := true, err := "" }) :=
  parse_wrap_status s t msg msg_size _ (parse_zda_fields K U) g h

theorem parse_gll_status {M : c_lib} (K : c_num M) (U : nmea_locals M) (msg : List uint8_t)
    (msg_size : Nat) (s t : gps_msg_status_t M) (g : nmea_gpgll_t M)
    (h : (parse_gll K U msg msg_size s).map (fun r => r.1) = some (some g)) :
    parse_gll K U msg msg_size t = some (some g, { t with is_valid := true, err := "" }) :=
  parse_wrap_status s t msg msg_size _ (parse_gll_fields K U) g h

theorem parse_gsa_status {M : c_lib} (K : c_num M) (U : nmea_locals M) (msg : List uint8_t)
    (msg_size : Nat) (s t : gps_msg_status_t M) (g : nmea_gpgsa_t M)
    (h : (parse_gsa K U msg msg_size s).map (fun r => r.1) = some (some g)) :
    parse_gsa K U msg msg_size t = some (some g, { t with is_valid := true, err := "" }) :=
  parse_wrap_status s t msg msg_size _ (parse_gsa_fields K U) g h

theorem parse_vtg_status {M : c_lib} (K : c_num M) (U : nmea_locals M) (msg : List uint8_t)
    (msg_size : Nat) (s t : gps_msg_status_t M) (g : nmea_gpvtg_t M)
    (h : (parse_vtg K U msg msg_size s).map (fun r => r.1) = some (some g)) :
    parse_vtg K U msg msg_size t = some (some g, { t with is_valid := true, err := "" }) :=
  parse_wrap_status s t msg msg_size _ (parse_vtg_fields K U) g h

/-- The branches of `put_nmea_msg` in front of the one for `$GPGSA` are not
taken for an id which is none of theirs. -/
theorem put_nmea_msg_skip_fix_ids {id : List Nat}
    (h : ∃ a, strcmp_eq a id = true ∧
      c_string (chars "$GPGGA") ≠ c_string a ∧ c_string (chars "$GNGGA") ≠ c_string a ∧
      c_string (chars "$GLGGA") ≠ c_string a ∧ c_string (chars "$GAGGA") ≠ c_string a ∧
      c_string (chars "$GPRMC") ≠ c_string a ∧ c_string (chars "$GNRMC") ≠ c_string a ∧
      c_string (chars "$GLRMC") ≠ c_string a ∧ c_string (chars "$GARMC") ≠ c_string a ∧
      c_string (chars "$GPGLL") ≠ c_string a ∧ c_string (chars "$GPGST") ≠ c_string a) :
    ¬ (strcmp_eq (chars "$GPGGA") id = true ∨ strcmp_eq (chars "$GNGGA") id = true
      ∨ strcmp_eq (chars "$GLGGA") id = true ∨ strcmp_eq (chars "$GAGGA") id = true) ∧
    ¬ (strcmp_eq (chars "$GPRMC") id = true ∨ strcmp_eq (chars "$GNRMC") id = true
      ∨ strcmp_eq (chars "$GLRMC") id = true ∨ strcmp_eq (chars "$GARMC") id = true) ∧
    ¬ (strcmp_eq (chars "$GPGLL") id = true) ∧ ¬ (strcmp_eq (chars "$GPGST") id = true) := by
  obtain ⟨a, ha, h1, h2, h3, h4, h5, h6, h7, h8, h9, h10⟩ := h
  refine ⟨?_, ?_, strcmp_eq_other ha h9, strcmp_eq_other ha h10⟩
  · intro h
    rcases h with h | h | h | h
    · exact strcmp_eq_other ha h1 h
    · exact strcmp_eq_other ha h2 h
    · exact strcmp_eq_other ha h3 h
    · exact strcmp_eq_other ha h4 h
  · intro h
    rcases h with h | h | h | h
    · exact strcmp_eq_other ha h5 h
    · exact strcmp_eq_other ha h6 h
    · exact strcmp_eq_other ha h7 h
    · exact strcmp_eq_other ha h8 h

/-- What `put_nmea_msg` does with a ZDA sentence which `parse_zda` accepts: the
record is stored in the window as it is. -/
theorem put_nmea_msg_zda {M : c_lib} (P : nmea_parsers M) (ctx : nmea_parser_t M)
    (msg : List uint8_t) (msg_size : Nat) (status status1 : gps_msg_status_t M)
    (gpzda : nmea_gpzda_t)
    (hid : is_zda_id msg msg_size)
    (hparse : P.parse_zda msg msg_size
      { status with is_valid := false, location_changed := false, err := "" }
        = some (some gpzda, status1)) :
    put_nmea_msg P ctx msg msg_size status =
      some (status1.is_valid,
        { ctx with fix := { ctx.fix with gpzda_active := true, gpzda := gpzda } }, status1) := by
  obtain ⟨filled, hf, hcmp⟩ := hid
  obtain ⟨n1, n2, n3, n4⟩ := put_nmea_msg_skip_fix_ids
    ⟨_, hcmp, by decide, by decide, by decide, by decide, by decide, by decide, by decide,
      by decide, by decide, by decide⟩
  have n5 : ¬ (strcmp_eq (chars "$GPGSA") (filled.set 8 0) = true) :=
    strcmp_eq_other hcmp (by decide)
  have n6 : ¬ (strcmp_eq (chars "$GPVTG") (filled.set 8 0) = true) :=
    strcmp_eq_other hcmp (by decide)
  unfold put_nmea_msg
  simp only [hf]
  rw [if_neg n1, if_neg n2, if_neg n3, if_neg n4, if_neg n5, if_neg n6, if_pos hcmp]
  simp only [hparse]

/-- The branch `$GPZDA` of `put_nmea_msg` on a sentence which `parse_zda`
accepts: the call returns `true`, sets `gpzda_active` and the record, reports
`location_changed = false` and leaves the fix time of the window, `is_closed`,
the other flags and slots and the rest of the parser state as they were. -/
theorem put_nmea_msg_zda_stored {M : c_lib} (K : c_num M) (U : nmea_locals M)
    (ctx : nmea_parser_t M) (msg : List uint8_t) (msg_size : Nat)
    (status : gps_msg_status_t M)
    (hid : is_zda_id msg msg_size)
    (hparse : (parse_zda K U msg msg_size
      { status with is_valid := false, location_changed := false, err := "" }).map
        (fun r => r.1.isSome) = some true) :
    ∃ gpzda status1,
      (parse_zda K U msg msg_size
        { status with is_valid := false, location_changed := false, err := "" }).map
          (fun r => r.1) = some (some gpzda) ∧
      put_nmea_msg (c_parsers K U) ctx msg msg_size status
        = some (true,
          { ctx with fix := { ctx.fix with gpzda_active := true, gpzda := gpzda } }, status1) ∧
      status1.location_changed = false := by
  obtain ⟨z, hz⟩ := record_of_isSome _ hparse
  have hp := parse_zda_status K U msg msg_size _
    { status with is_valid := false, location_changed := false, err := "" } z hz
  have hput := put_nmea_msg_zda (c_parsers K U) ctx msg msg_size status _ z hid hp
  exact ⟨z, _, hz, hput, rfl⟩

set_option maxRecDepth 100000 in
/-- C33 fails: the branch `$GPZDA` of `put_nmea_msg` stores the record without
the test `is_same_fix_time` and without the calls of `close_nmea_fix` and
`open_nmea_fix` which the branches of GGA, RMC, GLL and GST make.  For every
ZDA sentence which `parse_zda` accepts, whatever its time, the call returns
`true` with `location_changed = false` and the parser state is the one of
before with `gpzda_active` and the record set.  On the sentence
`$GPZDA,123520.00,23,03,1994,00,00*66`, parsed with the time 123520, and a
window open at the fix time 123519 with an active GGA record, which is not the
same instant: `location_changed = false`, the fix time of the window is still
123519, the window is open and the GGA record is still active, next to the ZDA
record. -/
theorem put_nmea_msg_zda_no_roll :
    (∀ (M : c_lib) (K : c_num M) (U : nmea_locals M) (ctx : nmea_parser_t M)
        (msg : List uint8_t) (msg_size : Nat) (status : gps_msg_status_t M),
      is_zda_id msg msg_size →
      (parse_zda K U msg msg_size
        { status with is_valid := false, location_changed := false, err := "" }).map
          (fun r => r.1.isSome) = some true →
      ∃ gpzda status1,
        (parse_zda K U msg msg_size
          { status with is_valid := false, location_changed := false, err := "" }).map
            (fun r => r.1) = some (some gpzda) ∧
        put_nmea_msg (c_parsers K U) ctx msg msg_size status
          = some (true,
            { ctx with fix := { ctx.fix with gpzda_active := true, gpzda := gpzda } },
            status1) ∧
        status1.location_changed = false) ∧
    looks_like_nmea example_zda 38 = some 38 ∧
    (parse_zda c_num_rat (zero_locals c_lib_rat) example_zda 38 (zero_status c_lib_rat)).map
      (fun r => r.1.map (fun z => z.fix_time)) = some (some ⟨123520, 0⟩) ∧
    is_same_fix_time ⟨123519, 0⟩ ⟨123520, 0⟩ = false ∧
    (put_nmea_msg (c_parsers c_num_rat (zero_locals c_lib_rat)) (open_window_gga ⟨123519, 0⟩)
        example_zda 38 (zero_status c_lib_rat)).map
      (fun r => (r.1, r.2.2.location_changed, r.2.1.fix.fix_time, r.2.1.fix.is_closed,
        r.2.1.fix.gpgga_active && r.2.1.fix.gpzda_active))
      = some (true, false, ⟨123519, 0⟩, false, true) := by
  refine ⟨?_, by decide!, by decide!, by decide, by decide!⟩
  intro M K U ctx msg msg_size status hid hparse
  exact put_nmea_msg_zda_stored K U ctx msg msg_size status hid hparse

theorem is_zda_id_example_zda : is_zda_id example_zda 38 :=
  ⟨_, rfl, by decide⟩

set_option maxRecDepth 100000 in
/-- The ZDA sentence of the example is accepted by `parse_zda`. -/
theorem example_zda_accepted :
    (parse_zda c_num_rat (zero_locals c_lib_rat) example_zda 38
      { zero_status c_lib_rat with is_valid := false, location_changed := false, err := "" }).map
        (fun r => r.1.isSome) = some true := by
  decide!

theorem put_nmea_msg_zda_no_roll_witness :
    is_zda_id example_zda 38 ∧
    (parse_zda c_num_rat (zero_locals c_lib_rat) example_zda 38
      { zero_status c_lib_rat with is_valid := false, location_changed := false, err := "" }).map
        (fun r => r.1.isSome) = some true ∧
    ∃ gpzda status1,
      (parse_zda c_num_rat (zero_locals c_lib_rat) example_zda 38
        { zero_status c_lib_rat with
          is_valid := false, location_changed := false, err := "" }).map
          (fun r => r.1) = some (some gpzda) ∧
      put_nmea_msg (c_parsers c_num_rat (zero_locals c_lib_rat)) (open_window_gga ⟨123519, 0⟩)
          example_zda 38 (zero_status c_lib_rat)
        = some (true,
          { open_window_gga ⟨123519, 0⟩ with
            fix := { (open_window_gga ⟨123519, 0⟩).fix with
              gpzda_active := true, gpzda := gpzda } }, status1) ∧
      status1.location_changed = false :=
  ⟨is_zda_id_example_zda, example_zda_accepted,
    put_nmea_msg_zda_no_roll.1 c_lib_rat c_num_rat (zero_locals c_lib_rat)
      (open_window_gga ⟨123519, 0⟩) example_zda 38 (zero_status c_lib_rat)
      is_zda_id_example_zda example_zda_accepted⟩

/-- The record of an accepted GLL sentence has the member `fix_time` which the
local variable held before the call. -/
theorem parse_gll_fix_time_local {M : c_lib} (K : c_num M) (U : nmea_locals M)
    (msg : List uint8_t) (msg_size : Nat) (status st : gps_msg_status_t M)
    (g : nmea_gpgll_t M) (h : parse_gll K U msg msg_size status = some (some g, st)) :
    g.fix_time = U.gpgll.fix_time := by
  unfold parse_gll at h
  split at h
  · cases h
  · cases hs : split_nmea_str msg msg_size U.fields 6 U.buf with
    | none => rw [hs] at h; cases h
    | some v =>
      obtain ⟨buf, fields, fields_nb⟩ := v
      rw [hs] at h
      simp only at h
      cases hp : parse_gll_fields K U buf fields fields_nb with
      | abort => rw [hp] at h; simp [parse_finish] at h
      | invalid e =>
        rw [hp] at h
        unfold parse_finish at h
        cases he : set_nmea_error status msg msg_size e with
        | none => simp [he] at h
        | some s1 => simp [he] at h
      | valid r =>
        rw [hp] at h
        simp only [parse_finish, Option.some.injEq, Prod.mk.injEq] at h
        obtain ⟨e1, -⟩ := h
        subst e1
        unfold parse_gll_fields at hp
        simp only at hp
        split at hp
        · cases hp
        · split at hp
          · cases hp
          · split at hp
            · cases hp
            · simp only [parse_t.valid.injEq] at hp
              rw [← hp]

set_option maxRecDepth 100000 in
/-- C34 fails: `parse_gll` never writes `gpgll.fix_time`.  For every accepted
GLL sentence the `fix_time` of the record is what the local variable of
`parse_gll` held before the call.  On the sentence
`$GPGLL,4807.038,N,01131.000,E,123519,A*25`, with the window open at the fix
time 123519 and an active GGA record: if the local variable held 123519,
`put_nmea_msg` leaves the window (`location_changed = false`); if it held 0,
`put_nmea_msg` closes the window, reports `location_changed = true` and opens a
window at the fix time 0.  The sentence and the parser state are the same in
both calls. -/
theorem parse_gll_fix_time_unset :
    (∀ (M : c_lib) (K : c_num M) (U : nmea_locals M) (msg : List uint8_t) (msg_size : Nat)
        (status : gps_msg_status_t M),
      (parse_gll K U msg msg_size status).map (fun r => r.1.isSome) = some true →
      (parse_gll K U msg msg_size status).map (fun r => r.1.map (fun g => g.fix_time))
        = some (some U.gpgll.fix_time)) ∧
    looks_like_nmea example_gll 43 = some 43 ∧
    (put_nmea_msg (c_parsers c_num_rat (locals_gll_time c_lib_rat ⟨123519, 0⟩))
        (open_window_gga ⟨123519, 0⟩) example_gll 43 (zero_status c_lib_rat)).map
      (fun r => (r.1, r.2.2.location_changed, r.2.1.fix.fix_time, r.2.1.fix.gpgga_active))
      = some (true, false, ⟨123519, 0⟩, true) ∧
    (put_nmea_msg (c_parsers c_num_rat (locals_gll_time c_lib_rat ⟨0, 0⟩))
        (open_window_gga ⟨123519, 0⟩) example_gll 43 (zero_status c_lib_rat)).map
      (fun r => (r.1, r.2.2.location_changed, r.2.1.fix.fix_time, r.2.1.fix.gpgga_active))
      = some (true, true, ⟨0, 0⟩, false) := by
  refine ⟨?_, by decide!, by decide!, by decide!⟩
  intro M K U msg msg_size status h
  cases hp : parse_gll K U msg msg_size status with
  | none => rw [hp] at h; cases h
  | some v =>
    obtain ⟨r, st⟩ := v
    cases r with
    | none => rw [hp] at h; simp at h
    | some g =>
      simp only [Option.map_some', Option.some.injEq]
      exact parse_gll_fix_time_local K U msg msg_size status st g hp

set_option maxRecDepth 100000 in
theorem example_gll_parsed :
    (parse_gll c_num_rat (locals_gll_time c_lib_rat ⟨123519, 0⟩) example_gll 43
      (zero_status c_lib_rat)).map (fun r => r.1.isSome) = some true := by
  decide!

theorem parse_gll_fix_time_unset_witness :
    (parse_gll c_num_rat (locals_gll_time c_lib_rat ⟨123519, 0⟩) example_gll 43
      (zero_status c_lib_rat)).map (fun r => r.1.isSome) = some true ∧
    (parse_gll c_num_rat (locals_gll_time c_lib_rat ⟨123519, 0⟩) example_gll 43
      (zero_status c_lib_rat)).map (fun r => r.1.map (fun g => g.fix_time))
      = some (some (locals_gll_time c_lib_rat ⟨123519, 0⟩).gpgll.fix_time) :=
  ⟨example_gll_parsed,
    parse_gll_fix_time_unset.1 c_lib_rat c_num_rat (locals_gll_time c_lib_rat ⟨123519, 0⟩)
      example_gll 43 (zero_status c_lib_rat) example_gll_parsed⟩

set_option maxRecDepth 100000 in
/-- C35 fails: for an empty field `parse_gsa` writes `prn[0]`, not `prn[i]`.
In `$GPGSA,A,3,04,05,,09,12,,,24,,,,,2.5,1.3,2.1*39` the fields 3 to 14 are
`04 05 - 09 12 - - 24 - - - -`.  The stored slot 0 is 0, not 4: the empty
fields behind it have cleared it.  A slot of an empty field holds what the
local array held before the call: 0 where it held 0, and 7 where it held 7. -/
theorem parse_gsa_prn_slots :
    looks_like_nmea example_gsa 49 = some 49 ∧
    (parse_gsa c_num_rat (zero_locals c_lib_rat) example_gsa 49 (zero_status c_lib_rat)).map
      (fun r => r.1.map (fun g => g.prn))
      = some (some [0, 5, 0, 9, 12, 0, 0, 24, 0, 0, 0, 0]) ∧
    (parse_gsa c_num_rat (locals_gsa_prn c_lib_rat 7) example_gsa 49
        (zero_status c_lib_rat)).map
      (fun r => r.1.map (fun g => g.prn))
      = some (some [0, 5, 7, 9, 12, 7, 7, 24, 7, 7, 7, 7]) := by
  refine ⟨by decide!, by decide!, by decide!⟩

/-- The loop of `split_nmea_str` stays inside a message of `msg_size` bytes. -/
theorem split_loop_total {msg : List uint8_t} {msg_size : Nat} (fields_size : Nat)
    (hlen : msg_size ≤ msg.length) :
    ∀ (fuel i : Nat) (buf fields : List Nat) (fields_nb : Nat),
      ∃ r, split_loop msg msg_size fields_size fuel i buf fields fields_nb = some r := by
  intro fuel
  induction fuel with
  | zero => intro i buf fields fields_nb; exact ⟨_, rfl⟩
  | succ f ih =>
    intro i buf fields fields_nb
    rw [split_loop]
    by_cases hi : i < msg_size
    · rw [if_pos hi]
      obtain ⟨c, hc⟩ := rd_some_of_lt (show i < msg.length by omega)
      obtain ⟨p, hp⟩ := rd_some_of_lt (show i - 1 < msg.length by omega)
      rw [hc, hp]
      simp only
      split
      · exact ⟨_, rfl⟩
      · split
        · exact ⟨_, rfl⟩
        · exact ih _ _ _ _
    · rw [if_neg hi]
      exact ⟨_, rfl⟩

/-- `split_nmea_str` returns on a message which is not empty. -/
theorem split_nmea_str_total {msg : List uint8_t} {msg_size : Nat} (fields0 : Nat → Nat)
    (fields_size : Nat) (buf0 : Nat → Nat) (hpos : 0 < msg_size)
    (hlen : msg_size ≤ msg.length) :
    ∃ r, split_nmea_str msg msg_size fields0 fields_size buf0 = some r := by
  unfold split_nmea_str
  obtain ⟨c0, h0⟩ := rd_some_of_lt (show 0 < msg.length by omega)
  rw [h0]
  simp only
  obtain ⟨r, hr⟩ := split_loop_total fields_size hlen msg_size 1
    (((List.range NMEA_MAX).map buf0).set 0 c0)
    (((List.range fields_size).map fields0).set 0 0) 1
  rw [hr]
  exact ⟨_, rfl⟩

/-- A parser whose body does not stop at an assertion returns. -/
theorem parse_finish_total {M : c_lib} {α : Type} (status : gps_msg_status_t M)
    (msg : List uint8_t) (msg_size : Nat) (p : parse_t α) (hp : p ≠ .abort)
    (hlen : msg_size ≤ msg.length) :
    ∃ r st, parse_finish status msg msg_size p = some (r, st) := by
  cases p with
  | abort => exact absurd rfl hp
  | invalid e =>
    unfold parse_finish set_nmea_error
    simp only
    rw [if_neg (show ¬ (msg.length < msg_size) by omega)]
    exact ⟨_, _, rfl⟩
  | valid r => exact ⟨_, _, rfl⟩

theorem parse_gsa_fields_returns {M : c_lib} (K : c_num M) (U : nmea_locals M)
    (buf fields : List Nat) (fields_nb : Nat) :
    parse_gsa_fields K U buf fields fields_nb ≠ .abort := by
  unfold parse_gsa_fields
  simp only
  split
  · simp
  · split
    · simp
    · split
      · simp
      · split
        · simp
        · split
          · simp
          · split
            · simp
            · simp

theorem parse_vtg_fields_returns {M : c_lib} (K : c_num M) (U : nmea_locals M)
    (buf fields : List Nat) (fields_nb : Nat) :
    parse_vtg_fields K U buf fields fields_nb ≠ .abort := by
  unfold parse_vtg_fields
  simp only
  split
  · simp
  · split
    · simp
    · split
      · simp
      · split
        · simp
        · split
          · simp
          · simp

/-- `parse_gsa` returns on a message of at most `NMEA_MAX` bytes. -/
theorem parse_gsa_total {M : c_lib} (K : c_num M) (U : nmea_locals M) (msg : List uint8_t)
    (msg_size : Nat) (status : gps_msg_status_t M) (hpos : 0 < msg_size)
    (hmax : msg_size ≤ NMEA_MAX) (hlen : msg_size ≤ msg.length) :
    ∃ r st, parse_gsa K U msg msg_size status = some (r, st) := by
  unfold parse_gsa
  rw [if_neg (not_not_intro hmax)]
  obtain ⟨v, hv⟩ := split_nmea_str_total U.fields 18 U.buf hpos hlen
  obtain ⟨buf, fields, fields_nb⟩ := v
  rw [hv]
  exact parse_finish_total status msg msg_size _ (parse_gsa_fields_returns K U _ _ _) hlen

/-- `parse_vtg` returns on a message of at most `NMEA_MAX` bytes. -/
theorem parse_vtg_total {M : c_lib} (K : c_num M) (U : nmea_locals M) (msg : List uint8_t)
    (msg_size : Nat) (status : gps_msg_status_t M) (hpos : 0 < msg_size)
    (hmax : msg_size ≤ NMEA_MAX) (hlen : msg_size ≤ msg.length) :
    ∃ r st, parse_vtg K U msg msg_size status = some (r, st) := by
  unfold parse_vtg
  rw [if_neg (not_not_intro hmax)]
  obtain ⟨v, hv⟩ := split_nmea_str_total U.fields 10 U.buf hpos hlen
  obtain ⟨buf, fields, fields_nb⟩ := v
  rw [hv]
  exact parse_finish_total status msg msg_size _ (parse_vtg_fields_returns K U _ _ _) hlen

/-- What `put_nmea_msg` does with a GSA sentence, by the result of `parse_gsa`. -/
theorem put_nmea_msg_gsa_cases {M : c_lib} (P : nmea_parsers M) (ctx : nmea_parser_t M)
    (msg : List uint8_t) (msg_size : Nat) (status status1 : gps_msg_status_t M)
    (r : Option (nmea_gpgsa_t M))
    (hid : is_gsa_id msg msg_size)
    (hparse : P.parse_gsa msg msg_size
      { status with is_valid := false, location_changed := false, err := "" }
        = some (r, status1)) :
    put_nmea_msg P ctx msg msg_size status =
      some (status1.is_valid,
        (match r with
          | some gpgsa => { ctx with gpgsa := { gpgsa with is_valid := true } }
          | none => ctx), status1) := by
  cases r with
  | some g => exact put_nmea_msg_gsa P ctx msg msg_size status status1 g hid hparse
  | none =>
    obtain ⟨filled, hf, hcmp⟩ := hid
    obtain ⟨n1, n2, n3, n4⟩ := put_nmea_msg_skip_fix_ids
      ⟨_, hcmp, by decide, by decide, by decide, by decide, by decide, by decide, by decide,
        by decide, by decide, by decide⟩
    unfold put_nmea_msg
    simp only [hf]
    rw [if_neg n1, if_neg n2, if_neg n3, if_neg n4, if_pos hcmp]
    simp only [hparse]

/-- What `put_nmea_msg` does with a VTG sentence, by the result of `parse_vtg`. -/
theorem put_nmea_msg_vtg_cases {M : c_lib} (P : nmea_parsers M) (ctx : nmea_parser_t M)
    (msg : List uint8_t) (msg_size : Nat) (status status1 : gps_msg_status_t M)
    (r : Option (nmea_gpvtg_t M))
    (hid : is_vtg_id msg msg_size)
    (hparse : P.parse_vtg msg msg_size
      { status with is_valid := false, location_changed := false, err := "" }
        = some (r, status1)) :
    put_nmea_msg P ctx msg msg_size status =
      some (status1.is_valid,
        (match r with
          | some gpvtg => { ctx with gpvtg := { gpvtg with is_valid := true } }
          | none => ctx), status1) := by
  obtain ⟨filled, hf, hcmp⟩ := hid
  obtain ⟨n1, n2, n3, n4⟩ := put_nmea_msg_skip_fix_ids
    ⟨_, hcmp, by decide, by decide, by decide, by decide, by decide, by decide, by decide,
      by decide, by decide, by decide⟩
  have n5 : ¬ (strcmp_eq (chars "$GPGSA") (filled.set 8 0) = true) :=
    strcmp_eq_other hcmp (by decide)
  unfold put_nmea_msg
  simp only [hf]
  rw [if_neg n1, if_neg n2, if_neg n3, if_neg n4, if_neg n5, if_pos hcmp]
  cases r with
  | some g => simp only [hparse]
  | none => simp only [hparse]

/-- C37.  GSA and VTG bypass the window, for the parsers of nmea.c, every
parser state and every status.  On a message of at most `NMEA_MAX` bytes with
the id `$GPGSA` or `$GPVTG`, `put_nmea_msg` returns; the fix window (fix time,
`is_closed`, active flags, slots) and `time_full` are as before and
`location_changed` is `false`.  A GSA sentence leaves the VTG record, a VTG
sentence the GSA record; when the call returns `false`, the whole state is as
before. -/
theorem put_nmea_msg_bypass {M : c_lib} (K : c_num M) (U : nmea_locals M)
    (ctx : nmea_parser_t M) (msg : List uint8_t) (msg_size : Nat)
    (status : gps_msg_status_t M)
    (hid : is_gsa_id msg msg_size ∨ is_vtg_id msg msg_size)
    (hpos : 0 < msg_size) (hmax : msg_size ≤ NMEA_MAX) (hlen : msg_size ≤ msg.length) :
    ∃ b ctx1 status1,
      put_nmea_msg (c_parsers K U) ctx msg msg_size status = some (b, ctx1, status1) ∧
      ctx1.fix = ctx.fix ∧ ctx1.time_full = ctx.time_full ∧
      status1.location_changed = false ∧
      (is_gsa_id msg msg_size → ctx1.gpvtg = ctx.gpvtg) ∧
      (is_vtg_id msg msg_size → ctx1.gpgsa = ctx.gpgsa) ∧
      (b = false → ctx1 = ctx) := by
  have hC := c_parsers_contract K U msg msg_size
    { status with is_valid := false, location_changed := false, err := "" }
  have hexcl : is_gsa_id msg msg_size → is_vtg_id msg msg_size → False := by
    intro h1 h2
    obtain ⟨f1, hf1, c1⟩ := h1
    obtain ⟨f2, hf2, c2⟩ := h2
    rw [hf1] at hf2
    simp only [Option.some.injEq] at hf2
    subst hf2
    exact strcmp_eq_other c1 (by decide) c2
  rcases hid with hid | hid
  · obtain ⟨r, st, hp⟩ := parse_gsa_total K U msg msg_size
      { status with is_valid := false, location_changed := false, err := "" } hpos hmax hlen
    have hput := put_nmea_msg_gsa_cases (c_parsers K U) ctx msg msg_size status st r hid hp
    refine ⟨_, _, _, hput, ?_, ?_, ?_, ?_, fun h => absurd h (hexcl hid), ?_⟩
    · cases r <;> rfl
    · cases r <;> rfl
    · cases r with
      | none => exact ((hC.2.2.2.2.1 none st hp).2 rfl).2
      | some g =>
        have := parse_gsa_status K U msg msg_size _
          { status with is_valid := false, location_changed := false, err := "" } g
          (by rw [hp]; rfl)
        rw [hp] at this
        simp only [Option.some.injEq, Prod.mk.injEq, true_and] at this
        rw [this]
    · intro _
      cases r <;> rfl
    · intro hb
      cases r with
      | none => rfl
      | some g =>
        have hv := (hC.2.2.2.2.1 (some g) st hp).1 (by simp)
        rw [hv] at hb
        cases hb
  · obtain ⟨r, st, hp⟩ := parse_vtg_total K U msg msg_size
      { status with is_valid := false, location_changed := false, err := "" } hpos hmax hlen
    have hput := put_nmea_msg_vtg_cases (c_parsers K U) ctx msg msg_size status st r hid hp
    refine ⟨_, _, _, hput, ?_, ?_, ?_, fun h => absurd hid (fun h2 => hexcl h h2), ?_, ?_⟩
    · cases r <;> rfl
    · cases r <;> rfl
    · cases r with
      | none => exact ((hC.2.2.2.2.2.1 none st hp).2 rfl).2
      | some g =>
        have := parse_vtg_status K U msg msg_size _
          { status with is_valid := false, location_changed := false, err := "" } g
          (by rw [hp]; rfl)
        rw [hp] at this
        simp only [Option.some.injEq, Prod.mk.injEq, true_and] at this
        rw [this]
    · intro _
      cases r <;> rfl
    · intro hb
      cases r with
      | none => rfl
      | some g =>
        have hv := (hC.2.2.2.2.2.1 (some g) st hp).1 (by simp)
        rw [hv] at hb
        cases hb

theorem is_vtg_id_example_vtg : is_vtg_id example_vtg 43 :=
  ⟨_, rfl, by decide⟩

theorem put_nmea_msg_bypass_witness :
    (is_gsa_id example_vtg 43 ∨ is_vtg_id example_vtg 43) ∧ 0 < 43 ∧ 43 ≤ NMEA_MAX ∧
    43 ≤ example_vtg.length ∧
    ∃ b ctx1 status1,
      put_nmea_msg (c_parsers c_num_rat (zero_locals c_lib_rat)) (open_window_gga ⟨123519, 0⟩)
        example_vtg 43 (zero_status c_lib_rat) = some (b, ctx1, status1) ∧
      ctx1.fix = (open_window_gga ⟨123519, 0⟩).fix ∧
      ctx1.time_full = (open_window_gga ⟨123519, 0⟩).time_full ∧
      status1.location_changed = false ∧
      (is_gsa_id example_vtg 43 → ctx1.gpvtg = (open_window_gga ⟨123519, 0⟩).gpvtg) ∧
      (is_vtg_id example_vtg 43 → ctx1.gpgsa = (open_window_gga ⟨123519, 0⟩).gpgsa) ∧
      (b = false → ctx1 = open_window_gga ⟨123519, 0⟩) :=
  ⟨Or.inr is_vtg_id_example_vtg, by decide, by decide, by decide,
    put_nmea_msg_bypass c_num_rat (zero_locals c_lib_rat) (open_window_gga ⟨123519, 0⟩)
      example_vtg 43 (zero_status c_lib_rat) (Or.inr is_vtg_id_example_vtg)
      (by decide) (by decide) (by decide)⟩

/-! ## The date of `merge_full_time` -/

theorem to_int_wrap_uint {x : Int} (h1 : -(2 ^ 31) ≤ x) (h2 : x < 2 ^ 31) :
    to_int (wrap_uint x) = x := by
  unfold to_int wrap_uint
  have e : ((x % 2 ^ 32).toNat : Int) = x % 2 ^ 32 :=
    Int.toNat_of_nonneg (Int.emod_nonneg _ (by norm_num))
  have hm : (x % 2 ^ 32).toNat % 2 ^ 32 = (x % 2 ^ 32).toNat := by
    apply Nat.mod_eq_of_lt
    have : x % 2 ^ 32 < 2 ^ 32 := Int.emod_lt_of_pos _ (by norm_num)
    omega
  rw [hm]
  split <;> omega

/-- The date which `merge_full_time` takes from an active RMC record with a
date when no year comes from ZDA. -/
theorem merge_full_time_rmc {M : c_lib} (ctx : nmea_parser_t M)
    (hzda : ¬ (ctx.fix.gpzda_active = true ∧ ctx.fix.gpzda.zone_hours = 0 ∧
      ctx.fix.gpzda.zone_minutes = 0))
    (hrmc : ctx.fix.gprmc_active = true) (hdate : ctx.fix.gprmc.ddmmyy ≠ 0)
    (hrange : ctx.fix.gprmc.ddmmyy < 1000000)
    (hlo : -1900 ≤ ctx.time_full.tm_year) (hhi : ctx.time_full.tm_year < 2 ^ 31 - 2000) :
    (merge_full_time ctx).time_full.tm_mday = ((ctx.fix.gprmc.ddmmyy / 10000 : Nat) : Int) ∧
    (merge_full_time ctx).time_full.tm_mon + 1
      = (((ctx.fix.gprmc.ddmmyy / 100) % 100 : Nat) : Int) ∧
    (merge_full_time ctx).time_full.tm_year + 1900
      = (ctx.time_full.tm_year + 1900) / 100 * 100
        + ((ctx.fix.gprmc.ddmmyy % 100 : Nat) : Int) := by
  have hz : (ctx.fix.gpzda_active && decide (ctx.fix.gpzda.zone_hours = 0)
      && decide (ctx.fix.gpzda.zone_minutes = 0)) = false := by
    rw [Bool.eq_false_iff]
    intro h
    simp only [Bool.and_eq_true, decide_eq_true_eq] at h
    exact hzda ⟨h.1.1, h.1.2, h.2⟩
  have hr : (ctx.fix.gprmc_active && decide (ctx.fix.gprmc.ddmmyy ≠ 0)) = true := by
    simp [hrmc, hdate]
  have hy0 : wrap_int (ctx.time_full.tm_year + 1900) = ctx.time_full.tm_year + 1900 :=
    wrap_int_small (by omega) (by omega)
  have hnn : (0 : Int) ≤ ctx.time_full.tm_year + 1900 := by omega
  have htm : Int.tmod (ctx.time_full.tm_year + 1900) 100
      = (ctx.time_full.tm_year + 1900) % 100 :=
    Int.tmod_eq_emod hnn (by norm_num)
  have hyy : ctx.fix.gprmc.ddmmyy % 100 < 100 := Nat.mod_lt _ (by norm_num)
  have hmm : (ctx.fix.gprmc.ddmmyy / 100) % 100 < 100 := Nat.mod_lt _ (by norm_num)
  have hdd : (ctx.fix.gprmc.ddmmyy / 10000) % 100 = ctx.fix.gprmc.ddmmyy / 10000 :=
    Nat.mod_eq_of_lt (by omega)
  have hdiv := Int.emod_add_ediv (ctx.time_full.tm_year + 1900) 100
  have hmod1 := Int.emod_nonneg (ctx.time_full.tm_year + 1900) (show (100 : Int) ≠ 0 by norm_num)
  have hmod2 := Int.emod_lt_of_pos (ctx.time_full.tm_year + 1900)
    (show (0 : Int) < 100 by norm_num)
  have hround : wrap_int (ctx.time_full.tm_year + 1900
      - (ctx.time_full.tm_year + 1900) % 100)
      = ctx.time_full.tm_year + 1900 - (ctx.time_full.tm_year + 1900) % 100 :=
    wrap_int_small (by omega) (by omega)
  simp only [merge_full_time, hz, hr, Bool.false_eq_true, if_false, if_true, true_and,
    hy0, htm, hround]
  refine ⟨?_, ?_, ?_⟩
  · rw [hdd]
    exact to_int_small (by omega)
  · rw [to_int_wrap_uint (by omega) (by omega)]
    omega
  · rw [to_int_wrap_uint (by omega) (by omega), wrap_int_small (by omega) (by omega)]
    omega

/-- C36 (amended).  The date of `merge_full_time`, in the conventions of
`struct tm` (`tm_year` counts from 1900, `tm_mon` from 0).  With an active ZDA
whose zone hours and zone minutes are both zero and no active RMC, only the
year is set, to the year of ZDA (`tm_year + 1900 = year`, for a year below
2^31); `tm_mon` and `tm_mday` are left as they were.  With no such ZDA
and an active RMC whose `ddmmyy` is not zero and has at most six digits, and a
previous year from 0 on (`-1900 ≤ tm_year < 2^31 - 2000`), the day is
`ddmmyy / 10000`, the month `(ddmmyy / 100) mod 100`, the year the previous
year rounded down to a multiple of 100 plus `ddmmyy mod 100`. -/
theorem merge_full_time_date {M : c_lib} (ctx : nmea_parser_t M) :
    (ctx.fix.gpzda_active = true → ctx.fix.gpzda.zone_hours = 0 →
      ctx.fix.gpzda.zone_minutes = 0 → ctx.fix.gprmc_active = false →
      ctx.fix.gpzda.year < 2 ^ 31 →
      (merge_full_time ctx).time_full.tm_year + 1900 = (ctx.fix.gpzda.year : Int) ∧
      (merge_full_time ctx).time_full.tm_mon = ctx.time_full.tm_mon ∧
      (merge_full_time ctx).time_full.tm_mday = ctx.time_full.tm_mday) ∧
    (¬ (ctx.fix.gpzda_active = true ∧ ctx.fix.gpzda.zone_hours = 0 ∧
        ctx.fix.gpzda.zone_minutes = 0) →
      ctx.fix.gprmc_active = true → ctx.fix.gprmc.ddmmyy ≠ 0 →
      ctx.fix.gprmc.ddmmyy < 1000000 →
      -1900 ≤ ctx.time_full.tm_year → ctx.time_full.tm_year < 2 ^ 31 - 2000 →
      (merge_full_time ctx).time_full.tm_mday = ((ctx.fix.gprmc.ddmmyy / 10000 : Nat) : Int) ∧
      (merge_full_time ctx).time_full.tm_mon + 1
        = (((ctx.fix.gprmc.ddmmyy / 100) % 100 : Nat) : Int) ∧
      (merge_full_time ctx).time_full.tm_year + 1900
        = (ctx.time_full.tm_year + 1900) / 100 * 100
          + ((ctx.fix.gprmc.ddmmyy % 100 : Nat) : Int)) := by
  refine ⟨?_, merge_full_time_rmc ctx⟩
  intro ha hh hm hr hy
  have hz : (ctx.fix.gpzda_active && decide (ctx.fix.gpzda.zone_hours = 0)
      && decide (ctx.fix.gpzda.zone_minutes = 0)) = true := by
    simp [ha, hh, hm]
  have hrf : (ctx.fix.gprmc_active && decide (ctx.fix.gprmc.ddmmyy ≠ 0)) = false := by
    simp [hr]
  simp only [merge_full_time, hz, hrf, Bool.false_eq_true, if_false, if_true, false_and,
    and_self, and_true]
  rw [to_int_wrap_uint (by omega) (by omega)]
  omega

/-- C36, the claim as stated fails: a window with an active ZDA record of
1994-03-23 at zone 0 and no active RMC, merged over the wall-clock date
1970-01-01, gives the year 1994 with month and day still those of January 1st,
not March 23rd. -/
theorem merge_full_time_zda_counterexample :
    (with_zda_date (epoch_ctx c_lib_rat) 23 3 1994).fix.gpzda_active = true ∧
    (with_zda_date (epoch_ctx c_lib_rat) 23 3 1994).fix.gpzda.zone_hours = 0 ∧
    (with_zda_date (epoch_ctx c_lib_rat) 23 3 1994).fix.gpzda.zone_minutes = 0 ∧
    (with_zda_date (epoch_ctx c_lib_rat) 23 3 1994).fix.gprmc_active = false ∧
    (with_zda_date (epoch_ctx c_lib_rat) 23 3 1994).fix.gpzda.month = 3 ∧
    (with_zda_date (epoch_ctx c_lib_rat) 23 3 1994).fix.gpzda.day = 23 ∧
    (merge_full_time (with_zda_date (epoch_ctx c_lib_rat) 23 3 1994)).time_full.tm_year = 94 ∧
    (merge_full_time (with_zda_date (epoch_ctx c_lib_rat) 23 3 1994)).time_full.tm_mon = 0 ∧
    (merge_full_time (with_zda_date (epoch_ctx c_lib_rat) 23 3 1994)).time_full.tm_mday = 1 ∧
    ¬ ((merge_full_time (with_zda_date (epoch_ctx c_lib_rat) 23 3 1994)).time_full.tm_mon + 1
        = 3 ∧
      (merge_full_time (with_zda_date (epoch_ctx c_lib_rat) 23 3 1994)).time_full.tm_mday
        = 23) := by
  decide

theorem merge_full_time_date_witness :
    (with_rmc_date (epoch_ctx c_lib_rat) 230394).fix.gprmc_active = true ∧
    (with_rmc_date (epoch_ctx c_lib_rat) 230394).fix.gprmc.ddmmyy = 230394 ∧
    (merge_full_time (with_rmc_date (epoch_ctx c_lib_rat) 230394)).time_full.tm_mday = 23 ∧
    (merge_full_time (with_rmc_date (epoch_ctx c_lib_rat) 230394)).time_full.tm_mon + 1 = 3 ∧
    (merge_full_time (with_rmc_date (epoch_ctx c_lib_rat) 230394)).time_full.tm_year + 1900
      = 1994 ∧
    (merge_full_time (with_zda_date (epoch_ctx c_lib_rat) 23 3 1994)).time_full.tm_year + 1900
      = 1994 :=
  ⟨rfl, rfl,
    ((merge_full_time_date (with_rmc_date (epoch_ctx c_lib_rat) 230394)).2
      (by decide) rfl (by decide) (by decide) (by decide) (by decide)).1,
    ((merge_full_time_date (with_rmc_date (epoch_ctx c_lib_rat) 230394)).2
      (by decide) rfl (by decide) (by decide) (by decide) (by decide)).2.1,
    ((merge_full_time_date (with_rmc_date (epoch_ctx c_lib_rat) 230394)).2
      (by decide) rfl (by decide) (by decide) (by decide) (by decide)).2.2,
    ((merge_full_time_date (with_zda_date (epoch_ctx c_lib_rat) 23 3 1994)).1
      rfl rfl rfl rfl (by decide)).1⟩

end ExternalGPS
